import Mathlib

/-!
Shallow embedding of the `gsjp` crate (Japan standard area-mesh codes).

Modelling conventions:

* Rust `String` / `&str` values are embedded as `List Char`.  Rust's
  `str::len` counts UTF-8 bytes and `&s[a..b]` slices by byte index,
  panicking when an index is not a character boundary; this is modelled by
  `blen` / `bslice` below.  Rust's `&str` ordering is byte-lexicographic on
  the UTF-8 encoding, which coincides with lexicographic order on the
  scalar values of the characters (UTF-8 is order preserving), so string
  comparison is embedded as `sLt`.
* Rust `f64` arithmetic is embedded as exact rational arithmetic (`ℚ`).
  Every numeric constant that the source derives through `f64` casts
  (`(20.0 * 1.5) as u8 = 30`, `((46.0 - 40.0/60.0) * 1.5) as u8 = 68`,
  `(154.0 - 1.0) as u8 % 100 = 53`, `7.0/60.0 + 30.0/3600.0 = 0.125`, …)
  was checked to take the same value under IEEE-754 double arithmetic, so
  the rational model agrees with the source on all of them.
* A fallible Rust computation of type `Result<T, GSJPError>` that may also
  panic (`unwrap`, slice panics, arithmetic overflow in debug builds) is
  embedded as `RRes T = Option (Except GSJPError T)`, with `none` for a
  panic.  Infallible code that may panic is embedded as `Option`.
* A mesh struct holds only its code string, so a mesh is represented by
  its code (`List Char`); the `code()` accessor is the identity.
-/

/-- Mesh code strings, embedded as lists of characters. -/
abbrev Code := List Char

/-- The error enum `GSJPError` from `lib.rs`. -/
inductive GSJPError : Type where
  | outOfRange (msg : String)
  | invalidMeshCode
deriving DecidableEq, Repr

deriving instance DecidableEq for Except

/-- Result of a fallible Rust computation; `none` models a panic. -/
abbrev RRes (α : Type) : Type := Option (Except GSJPError α)

/-- `Ok` result. -/
def rok {α : Type} (a : α) : RRes α := some (Except.ok a)

/-- `Err` result. -/
def rerr {α : Type} (e : GSJPError) : RRes α := some (Except.error e)

/-- Sequencing that propagates both errors (`?`) and panics. -/
def rbind {α β : Type} (x : RRes α) (f : α → RRes β) : RRes β :=
  match x with
  | none => none
  | some (Except.error e) => some (Except.error e)
  | some (Except.ok a) => f a

/-- Lift a possibly-panicking computation (`Option`) into `RRes`. -/
def ropt {α : Type} (o : Option α) : RRes α :=
  match o with
  | none => none
  | some a => rok a

/-- Rust `Result::unwrap`: an `Err` becomes a panic. -/
def runwrap {α : Type} (x : RRes α) : Option α :=
  match x with
  | some (Except.ok a) => some a
  | _ => none

/-- UTF-8 byte length of one character. -/
def cbytes (c : Char) : Nat :=
  if c.toNat < 128 then 1
  else if c.toNat < 2048 then 2
  else if c.toNat < 65536 then 3
  else 4

/-- `str::len`: UTF-8 byte length of a string. -/
def blen (s : Code) : Nat := (s.map cbytes).sum

/-- Take exactly `n` leading bytes of a string; `none` when `n` is not a
character boundary (a Rust slice would panic there). -/
def btake (s : Code) (n : Nat) : Option Code :=
  match s, n with
  | _, 0 => some []
  | [], _ + 1 => none
  | c :: cs, n + 1 =>
    if cbytes c ≤ n + 1 then (btake cs (n + 1 - cbytes c)).map (fun t => c :: t)
    else none

/-- Drop exactly `n` leading bytes of a string; `none` when `n` is not a
character boundary. -/
def bdrop (s : Code) (n : Nat) : Option Code :=
  match s, n with
  | s, 0 => some s
  | [], _ + 1 => none
  | c :: cs, n + 1 =>
    if cbytes c ≤ n + 1 then bdrop cs (n + 1 - cbytes c)
    else none

/-- Rust byte slice `&s[a..b]` (with `a ≤ b` at all call sites); `none`
models the boundary panic. -/
def bslice (s : Code) (a b : Nat) : Option Code :=
  (bdrop s a).bind (fun t => btake t (b - a))

/-- Byte-lexicographic `<` on strings (equal to scalar-value order). -/
def sLt : Code → Code → Bool
  | [], [] => false
  | [], _ :: _ => true
  | _ :: _, [] => false
  | a :: as_, b :: bs =>
    if a.toNat < b.toNat then true
    else if b.toNat < a.toNat then false
    else sLt as_ bs

/-- ASCII decimal digit test (`char::is_ascii_digit` / radix-10 digits). -/
def isDigitC (c : Char) : Bool := 48 ≤ c.toNat && c.toNat ≤ 57

/-- Value of an ASCII digit character. -/
def digitVal (c : Char) : Nat := c.toNat - 48

/-- The ASCII digit character for `d < 10`. -/
def dChar (d : Nat) : Char := Char.ofNat (48 + d)

/-- `char::to_digit(10)`. -/
def toDigit10 (c : Char) : Option Nat :=
  if isDigitC c then some (digitVal c) else none

/-- Numeric value of a digit string. -/
def digitsVal (s : Code) : Nat := s.foldl (fun acc c => 10 * acc + digitVal c) 0

/-- `str::parse::<u8>`: optional `+` sign, then one or more ASCII digits,
value at most 255. -/
def parseU8 (s : Code) : Option Nat :=
  let t := if s.head? = some '+' then s.tail else s
  if t.isEmpty then none
  else if t.all isDigitC then
    if digitsVal t ≤ 255 then some (digitsVal t) else none
  else none

/-- `str::parse::<f64>`, restricted to plain decimal literals
(`[+-]? digits [. digits]` or `[+-]? . digits`).  The omitted forms of the
Rust grammar (`inf`, `nan`, exponents) need at least three characters and
the source only ever parses two-byte slices, where the two grammars agree. -/
def parseF64 (s : Code) : Option ℚ :=
  let sgn : ℚ := if s.head? = some '-' then -1 else 1
  let t := if s.head? = some '-' ∨ s.head? = some '+' then s.tail else s
  let ip := t.takeWhile isDigitC
  let rest := t.drop ip.length
  if rest.isEmpty then
    if ip.isEmpty then none else some (sgn * (digitsVal ip : ℚ))
  else if rest.head? = some '.' then
    if rest.tail.all isDigitC && !(ip.isEmpty && rest.tail.isEmpty) then
      some (sgn *
        ((digitsVal ip : ℚ) + (digitsVal rest.tail : ℚ) / (10 : ℚ) ^ rest.tail.length))
    else none
  else none

/-- Decimal representation of a `u8` value (`u8::to_string` /
`format!("{}")`). -/
def fmtU8 (n : Nat) : Code :=
  if n < 10 then [dChar n]
  else if n < 100 then [dChar (n / 10), dChar (n % 10)]
  else [dChar (n / 100), dChar (n / 10 % 10), dChar (n % 10)]

/-- Zero-padded two-digit formatting of a `u8` value (`format!("{:02}")`). -/
def fmt2 (n : Nat) : Code :=
  if n < 10 then ['0', dChar n] else fmtU8 n

/-- Rust `f64 as u8` cast: saturating truncation towards zero into
`0..=255`. -/
def f64ToU8 (q : ℚ) : Nat := min 255 (Int.toNat ⌊q⌋)

/-- `u8` addition; overflow panics (debug profile). -/
def u8Add (a b : Nat) : Option Nat :=
  if a + b ≤ 255 then some (a + b) else none

/-- `u8` subtraction; underflow panics (debug profile). -/
def u8Sub (a b : Nat) : Option Nat :=
  if b ≤ a then some (a - b) else none

/-! ## Constants from `lib.rs` -/

def NORTHERNMOST : ℚ := 46
def SOUTHERNMOST : ℚ := 20
def EASTERNMOST : ℚ := 154
def WESTERNMOST : ℚ := 122

/-! ## Coordinate -/

/-- The `Coordinate` struct: a validated latitude/longitude pair. -/
structure Coordinate : Type where
  lat : ℚ
  lon : ℚ
deriving DecidableEq, Repr

/-- `validate_lat` from `lib.rs`. -/
def validate_lat (lat : ℚ) : RRes ℚ :=
  if ¬(SOUTHERNMOST ≤ lat ∧ lat ≤ NORTHERNMOST) then
    rerr (GSJPError.outOfRange "緯度が範囲外です。")
  else rok lat

/-- `validate_lon` from `lib.rs`. -/
def validate_lon (lon : ℚ) : RRes ℚ :=
  if ¬(WESTERNMOST ≤ lon ∧ lon ≤ EASTERNMOST) then
    rerr (GSJPError.outOfRange "経度が範囲外です。")
  else rok lon

/-- `Coordinate::new` from `lib.rs`. -/
def Coordinate.new (lat lon : ℚ) : RRes Coordinate :=
  rbind (validate_lat lat) (fun lat =>
    rbind (validate_lon lon) (fun lon =>
      rok { lat := lat, lon := lon }))

/-- `NeighborDirection` from `lib.rs`. -/
inductive NeighborDirection : Type where
  | none
  | north
  | east
  | south
  | west
deriving DecidableEq, Repr

/-- Modelled from the spec: `contains_coordinate` is referenced by
`Mesh1::from_coordinate` but its definition is not under `src/`.  Per
§4.2 it "fails if the coordinate lies outside the mesh's total national
domain"; the national domain is the bounding range enforced by
`validate_lat` / `validate_lon` (§3, §7: OutOfRange means the coordinate
"falls outside the system's total covered domain"), i.e. the closed box
`[SOUTHERNMOST, NORTHERNMOST] × [WESTERNMOST, EASTERNMOST]`. -/
def contains_coordinate (coord : Coordinate) : RRes Unit :=
  rbind (validate_lat coord.lat) (fun _ =>
    rbind (validate_lon coord.lon) (fun _ => rok ()))

/-! ## Mesh1 (`mesh1.rs`) -/

/-- `MESH1_LAT_DIFF = 40.0 / 60.0`. -/
def MESH1_LAT_DIFF : ℚ := 40 / 60

/-- `MESH1_LON_DIFF = 1.0`. -/
def MESH1_LON_DIFF : ℚ := 1

/-- `validate_mesh1_code` from `mesh1.rs`.  The bounds `lat_min` /
`lat_max` / `lon_min` / `lon_max` are recomputed from the constants at
each call, as in the source. -/
def validate_mesh1_code (code : Code) : RRes Unit :=
  if blen code ≠ 4 then rerr GSJPError.invalidMeshCode
  else
    rbind (ropt (bslice code 0 2)) (fun lat =>
      rbind (ropt (bslice code 2 4)) (fun lon =>
        if sLt lat (fmtU8 (f64ToU8 (SOUTHERNMOST * 1.5))) ||
            sLt (fmtU8 (f64ToU8 ((NORTHERNMOST - MESH1_LAT_DIFF) * 1.5))) lat then
          rerr GSJPError.invalidMeshCode
        else if sLt lon (fmtU8 (f64ToU8 WESTERNMOST % 100)) ||
            sLt (fmtU8 (f64ToU8 (EASTERNMOST - MESH1_LON_DIFF) % 100)) lon then
          rerr GSJPError.invalidMeshCode
        else rok ()))

/-- Computable form of `validate_mesh1_code` (bounds replaced by their
values); used to evaluate the validator on concrete codes and to reason
about it without rational arithmetic. -/
def validate1C (code : Code) : RRes Unit :=
  if blen code ≠ 4 then rerr GSJPError.invalidMeshCode
  else
    rbind (ropt (bslice code 0 2)) (fun lat =>
      rbind (ropt (bslice code 2 4)) (fun lon =>
        if sLt lat ['3', '0'] || sLt ['6', '8'] lat then
          rerr GSJPError.invalidMeshCode
        else if sLt lon ['2', '2'] || sLt ['5', '3'] lon then
          rerr GSJPError.invalidMeshCode
        else rok ()))

namespace Mesh1

/-- `Mesh1::new`. -/
def new (code : Code) : RRes Code :=
  rbind (validate_mesh1_code code) (fun _ => rok code)

/-- `Mesh1::from_coordinate`. -/
def from_coordinate (coord : Coordinate) : RRes Code :=
  rbind (contains_coordinate coord) (fun _ =>
    let lat := f64ToU8 (coord.lat * 1.5)
    let lon := f64ToU8 (coord.lon - 100)
    rok (fmt2 lat ++ fmt2 lon))

/-- `Mesh1::south`: `self.code[0..2].parse::<f64>().unwrap() / 1.5`. -/
def south (m : Code) : Option ℚ :=
  (bslice m 0 2).bind (fun s => (parseF64 s).map (fun v => v / 1.5))

/-- `Mesh1::west`. -/
def west (m : Code) : Option ℚ :=
  (bslice m 2 4).bind (fun s => (parseF64 s).map (fun v => v + 100))

/-- `Mesh1::north`. -/
def north (m : Code) : Option ℚ := (south m).map (fun s => s + MESH1_LAT_DIFF)

/-- `Mesh1::east`. -/
def east (m : Code) : Option ℚ := (west m).map (fun w => w + MESH1_LON_DIFF)

/-- `Mesh1::north_mesh`. -/
def north_mesh (m : Code) : RRes Code :=
  rbind (ropt (bslice m 0 2)) (fun latS =>
    rbind (ropt (parseU8 latS)) (fun v =>
      rbind (ropt (u8Add v 1)) (fun lat =>
        rbind (ropt (bslice m 2 4)) (fun lonS =>
          new (fmt2 lat ++ lonS)))))

/-- `Mesh1::east_mesh`. -/
def east_mesh (m : Code) : RRes Code :=
  rbind (ropt (bslice m 2 4)) (fun lonS =>
    rbind (ropt (parseU8 lonS)) (fun v =>
      rbind (ropt (u8Add v 1)) (fun lon =>
        rbind (ropt (bslice m 0 2)) (fun latS =>
          new (latS ++ fmt2 lon)))))

/-- `Mesh1::south_mesh`. -/
def south_mesh (m : Code) : RRes Code :=
  rbind (ropt (bslice m 0 2)) (fun latS =>
    rbind (ropt (parseU8 latS)) (fun v =>
      rbind (ropt (u8Sub v 1)) (fun lat =>
        rbind (ropt (bslice m 2 4)) (fun lonS =>
          new (fmt2 lat ++ lonS)))))

/-- `Mesh1::west_mesh`. -/
def west_mesh (m : Code) : RRes Code :=
  rbind (ropt (bslice m 2 4)) (fun lonS =>
    rbind (ropt (parseU8 lonS)) (fun v =>
      rbind (ropt (u8Sub v 1)) (fun lon =>
        rbind (ropt (bslice m 0 2)) (fun latS =>
          new (latS ++ fmt2 lon)))))

end Mesh1

/-! ## Mesh2 (`mesh2.rs`) -/

/-- `MESH2_LAT_DIFF = 5.0 / 60.0`. -/
def MESH2_LAT_DIFF : ℚ := 5 / 60

/-- `MESH2_LON_DIFF = 7.0 / 60.0 + 30.0 / 3600.0`. -/
def MESH2_LON_DIFF : ℚ := 7 / 60 + 30 / 3600

/-- `validate_mesh2_code` from `mesh2.rs`. -/
def validate_mesh2_code (code : Code) : RRes Unit :=
  if blen code ≠ 6 then rerr GSJPError.invalidMeshCode
  else
    rbind (ropt (bslice code 0 4)) (fun p =>
      rbind (validate_mesh1_code p) (fun _ =>
        rbind (ropt (code.get? 4)) (fun lat =>
          if ¬('0' ≤ lat ∧ lat ≤ '7') then rerr GSJPError.invalidMeshCode
          else
            rbind (ropt (code.get? 5)) (fun lon =>
              if ¬('0' ≤ lon ∧ lon ≤ '7') then rerr GSJPError.invalidMeshCode
              else rok ()))))

namespace Mesh2

/-- `Mesh2::new`. -/
def new (code : Code) : RRes Code :=
  rbind (validate_mesh2_code code) (fun _ => rok code)

/-- `Mesh2::mesh1`: `Mesh1::new(self.code[0..4].to_string()).unwrap()`. -/
def mesh1 (m : Code) : Option Code :=
  (bslice m 0 4).bind (fun s => runwrap (Mesh1.new s))

/-- `Mesh2::from_coordinate`. -/
def from_coordinate (coord : Coordinate) : RRes Code :=
  rbind (Mesh1.from_coordinate coord) (fun m1 =>
    rbind (ropt (Mesh1.south m1)) (fun s1 =>
      rbind (ropt (Mesh1.west m1)) (fun w1 =>
        let latN := f64ToU8 ((coord.lat - s1) / MESH2_LAT_DIFF)
        let lonN := f64ToU8 ((coord.lon - w1) / MESH2_LON_DIFF)
        new (m1 ++ fmtU8 latN ++ fmtU8 lonN))))

/-- `Mesh2::south`. -/
def south (m : Code) : Option ℚ :=
  (mesh1 m).bind (fun p =>
    (Mesh1.south p).bind (fun s =>
      ((m.get? 4).bind toDigit10).map (fun d => s + MESH2_LAT_DIFF * d)))

/-- `Mesh2::west`. -/
def west (m : Code) : Option ℚ :=
  (mesh1 m).bind (fun p =>
    (Mesh1.west p).bind (fun w =>
      ((m.get? 5).bind toDigit10).map (fun d => w + MESH2_LON_DIFF * d)))

/-- `Mesh2::north`. -/
def north (m : Code) : Option ℚ := (south m).map (fun s => s + MESH2_LAT_DIFF)

/-- `Mesh2::east`. -/
def east (m : Code) : Option ℚ := (west m).map (fun w => w + MESH2_LON_DIFF)

/-- `Mesh2::north_mesh`. -/
def north_mesh (m : Code) : RRes Code :=
  rbind (ropt ((m.get? 4).bind toDigit10)) (fun latIdx =>
    if latIdx = 7 then
      rbind (ropt (mesh1 m)) (fun p =>
        rbind (Mesh1.north_mesh p) (fun p2 =>
          rbind (ropt (m.get? 5)) (fun c5 => new (p2 ++ ['0', c5]))))
    else
      rbind (ropt (bslice m 0 4)) (fun p =>
        rbind (ropt (m.get? 5)) (fun c5 =>
          new (p ++ fmtU8 (latIdx + 1) ++ [c5]))))

/-- `Mesh2::east_mesh`. -/
def east_mesh (m : Code) : RRes Code :=
  rbind (ropt ((m.get? 5).bind toDigit10)) (fun lonIdx =>
    if lonIdx = 7 then
      rbind (ropt (mesh1 m)) (fun p =>
        rbind (Mesh1.east_mesh p) (fun p2 =>
          rbind (ropt (m.get? 4)) (fun c4 => new (p2 ++ [c4, '0']))))
    else
      rbind (ropt (bslice m 0 5)) (fun p5 =>
        new (p5 ++ fmtU8 (lonIdx + 1))))

/-- `Mesh2::south_mesh`. -/
def south_mesh (m : Code) : RRes Code :=
  rbind (ropt ((m.get? 4).bind toDigit10)) (fun latIdx =>
    if latIdx = 0 then
      rbind (ropt (mesh1 m)) (fun p =>
        rbind (Mesh1.south_mesh p) (fun p2 =>
          rbind (ropt (m.get? 5)) (fun c5 => new (p2 ++ ['7', c5]))))
    else
      rbind (ropt (bslice m 0 4)) (fun p =>
        rbind (ropt (m.get? 5)) (fun c5 =>
          new (p ++ fmtU8 (latIdx - 1) ++ [c5]))))

/-- `Mesh2::west_mesh`. -/
def west_mesh (m : Code) : RRes Code :=
  rbind (ropt ((m.get? 5).bind toDigit10)) (fun lonIdx =>
    if lonIdx = 0 then
      rbind (ropt (mesh1 m)) (fun p =>
        rbind (Mesh1.west_mesh p) (fun p2 =>
          rbind (ropt (m.get? 4)) (fun c4 => new (p2 ++ [c4, '7']))))
    else
      rbind (ropt (bslice m 0 5)) (fun p5 =>
        new (p5 ++ fmtU8 (lonIdx - 1))))

end Mesh2

/-! ## Mesh3 (`mesh3.rs`) -/

/-- `MESH3_LAT_DIFF = 30.0 / 3600.0`. -/
def MESH3_LAT_DIFF : ℚ := 30 / 3600

/-- `MESH3_LON_DIFF = 45.0 / 3600.0`. -/
def MESH3_LON_DIFF : ℚ := 45 / 3600

/-- `validate_mesh3_code` from `mesh3.rs`. -/
def validate_mesh3_code (code : Code) : RRes Unit :=
  if blen code ≠ 8 then rerr GSJPError.invalidMeshCode
  else
    rbind (ropt (bslice code 0 6)) (fun p =>
      rbind (validate_mesh2_code p) (fun _ =>
        rbind (ropt (code.get? 6)) (fun lat =>
          if ¬('0' ≤ lat ∧ lat ≤ '9') then rerr GSJPError.invalidMeshCode
          else
            rbind (ropt (code.get? 7)) (fun lon =>
              if ¬('0' ≤ lon ∧ lon ≤ '9') then rerr GSJPError.invalidMeshCode
              else rok ()))))

namespace Mesh3

/-- `Mesh3::new`. -/
def new (code : Code) : RRes Code :=
  rbind (validate_mesh3_code code) (fun _ => rok code)

/-- `Mesh3::mesh1`. -/
def mesh1 (m : Code) : Option Code :=
  (bslice m 0 4).bind (fun s => runwrap (Mesh1.new s))

/-- `Mesh3::mesh2`. -/
def mesh2 (m : Code) : Option Code :=
  (bslice m 0 6).bind (fun s => runwrap (Mesh2.new s))

/-- `Mesh3::from_coordinate`. -/
def from_coordinate (coord : Coordinate) : RRes Code :=
  rbind (Mesh2.from_coordinate coord) (fun m2 =>
    rbind (ropt (Mesh2.south m2)) (fun s2 =>
      rbind (ropt (Mesh2.west m2)) (fun w2 =>
        let latN := f64ToU8 ((coord.lat - s2) / MESH3_LAT_DIFF)
        let lonN := f64ToU8 ((coord.lon - w2) / MESH3_LON_DIFF)
        new (m2 ++ fmtU8 latN ++ fmtU8 lonN))))

/-- `Mesh3::south`. -/
def south (m : Code) : Option ℚ :=
  (mesh2 m).bind (fun p =>
    (Mesh2.south p).bind (fun s =>
      ((m.get? 6).bind toDigit10).map (fun d => s + MESH3_LAT_DIFF * d)))

/-- `Mesh3::west`. -/
def west (m : Code) : Option ℚ :=
  (mesh2 m).bind (fun p =>
    (Mesh2.west p).bind (fun w =>
      ((m.get? 7).bind toDigit10).map (fun d => w + MESH3_LON_DIFF * d)))

/-- `Mesh3::north`. -/
def north (m : Code) : Option ℚ := (south m).map (fun s => s + MESH3_LAT_DIFF)

/-- `Mesh3::east`. -/
def east (m : Code) : Option ℚ := (west m).map (fun w => w + MESH3_LON_DIFF)

/-- `Mesh3::north_mesh`. -/
def north_mesh (m : Code) : RRes Code :=
  rbind (ropt ((m.get? 6).bind toDigit10)) (fun latIdx =>
    if latIdx = 9 then
      rbind (ropt (mesh2 m)) (fun p =>
        rbind (Mesh2.north_mesh p) (fun p2 =>
          rbind (ropt (m.get? 7)) (fun c7 => new (p2 ++ ['0', c7]))))
    else
      rbind (ropt (bslice m 0 6)) (fun p =>
        rbind (ropt (m.get? 7)) (fun c7 =>
          new (p ++ fmtU8 (latIdx + 1) ++ [c7]))))

/-- `Mesh3::east_mesh`. -/
def east_mesh (m : Code) : RRes Code :=
  rbind (ropt ((m.get? 7).bind toDigit10)) (fun lonIdx =>
    if lonIdx = 9 then
      rbind (ropt (mesh2 m)) (fun p =>
        rbind (Mesh2.east_mesh p) (fun p2 =>
          rbind (ropt (m.get? 6)) (fun c6 => new (p2 ++ [c6, '0']))))
    else
      rbind (ropt (bslice m 0 7)) (fun p7 =>
        new (p7 ++ fmtU8 (lonIdx + 1))))

/-- `Mesh3::south_mesh` (the carry goes through `self.mesh2()`). -/
def south_mesh (m : Code) : RRes Code :=
  rbind (ropt ((m.get? 6).bind toDigit10)) (fun latIdx =>
    if latIdx = 0 then
      rbind (ropt (mesh2 m)) (fun p =>
        rbind (Mesh2.south_mesh p) (fun p2 =>
          rbind (ropt (m.get? 7)) (fun c7 => new (p2 ++ ['9', c7]))))
    else
      rbind (ropt (bslice m 0 6)) (fun p =>
        rbind (ropt (m.get? 7)) (fun c7 =>
          new (p ++ fmtU8 (latIdx - 1) ++ [c7]))))

/-- `Mesh3::west_mesh`. -/
def west_mesh (m : Code) : RRes Code :=
  rbind (ropt ((m.get? 7).bind toDigit10)) (fun lonIdx =>
    if lonIdx = 0 then
      rbind (ropt (mesh2 m)) (fun p =>
        rbind (Mesh2.west_mesh p) (fun p2 =>
          rbind (ropt (m.get? 6)) (fun c6 => new (p2 ++ [c6, '9']))))
    else
      rbind (ropt (bslice m 0 7)) (fun p7 =>
        new (p7 ++ fmtU8 (lonIdx - 1))))

end Mesh3

/-! ## Mesh4 (`mesh4.rs`) -/

/-- `MESH4_LAT_DIFF = 15.0 / 3600.0`. -/
def MESH4_LAT_DIFF : ℚ := 15 / 3600

/-- `MESH4_LON_DIFF = 22.5 / 3600.0`. -/
def MESH4_LON_DIFF : ℚ := (45 / 2) / 3600

/-- `validate_mesh4_code` from `mesh4.rs`. -/
def validate_mesh4_code (code : Code) : RRes Unit :=
  if blen code ≠ 9 then rerr GSJPError.invalidMeshCode
  else
    rbind (ropt (bslice code 0 8)) (fun p =>
      rbind (validate_mesh3_code p) (fun _ =>
        rbind (ropt (code.get? 8)) (fun num =>
          if ¬('1' ≤ num ∧ num ≤ '4') then rerr GSJPError.invalidMeshCode
          else rok ())))

namespace Mesh4

/-- `Mesh4::new`. -/
def new (code : Code) : RRes Code :=
  rbind (validate_mesh4_code code) (fun _ => rok code)

/-- `Mesh4::mesh3` (the other ancestor helpers are analogous and not
needed by the claims). -/
def mesh3 (m : Code) : Option Code :=
  (bslice m 0 8).bind (fun s => runwrap (Mesh3.new s))

/-- `Mesh4::from_coordinate`; the source applies `.floor()` before the
`as u8` cast, which is a no-op in the rational model (`f64ToU8` already
floors). -/
def from_coordinate (coord : Coordinate) : RRes Code :=
  rbind (Mesh3.from_coordinate coord) (fun mp =>
    rbind (ropt (Mesh3.south mp)) (fun sp =>
      rbind (ropt (Mesh3.west mp)) (fun wp =>
        let latN := f64ToU8 ((coord.lat - sp) / MESH4_LAT_DIFF)
        let lonN := f64ToU8 ((coord.lon - wp) / MESH4_LON_DIFF)
        new (mp ++ fmtU8 (2 * latN + 1 + lonN)))))

/-- `Mesh4::south`; the `unreachable!()` arm of the `match` is a panic. -/
def south (m : Code) : Option ℚ :=
  (mesh3 m).bind (fun p =>
    (Mesh3.south p).bind (fun s =>
      (m.get? 8).bind (fun c =>
        if c = '1' ∨ c = '2' then some s
        else if c = '3' ∨ c = '4' then some (s + MESH4_LAT_DIFF)
        else none)))

/-- `Mesh4::west`. -/
def west (m : Code) : Option ℚ :=
  (mesh3 m).bind (fun p =>
    (Mesh3.west p).bind (fun w =>
      (m.get? 8).bind (fun c =>
        if c = '1' ∨ c = '3' then some w
        else if c = '2' ∨ c = '4' then some (w + MESH4_LON_DIFF)
        else none)))

/-- `Mesh4::north`. -/
def north (m : Code) : Option ℚ := (south m).map (fun s => s + MESH4_LAT_DIFF)

/-- `Mesh4::east`. -/
def east (m : Code) : Option ℚ := (west m).map (fun w => w + MESH4_LON_DIFF)

/-- `Mesh4::north_mesh`. -/
def north_mesh (m : Code) : RRes Code :=
  rbind (ropt ((m.get? 8).bind toDigit10)) (fun n =>
    if n = 1 ∨ n = 2 then
      rbind (ropt (bslice m 0 8)) (fun p => new (p ++ fmtU8 (n + 2)))
    else if n = 3 ∨ n = 4 then
      rbind (ropt (mesh3 m)) (fun p =>
        rbind (Mesh3.north_mesh p) (fun p2 => new (p2 ++ fmtU8 (n - 2))))
    else none)

/-- `Mesh4::east_mesh`. -/
def east_mesh (m : Code) : RRes Code :=
  rbind (ropt ((m.get? 8).bind toDigit10)) (fun n =>
    if n = 1 ∨ n = 3 then
      rbind (ropt (bslice m 0 8)) (fun p => new (p ++ fmtU8 (n + 1)))
    else if n = 2 ∨ n = 4 then
      rbind (ropt (mesh3 m)) (fun p =>
        rbind (Mesh3.east_mesh p) (fun p2 => new (p2 ++ fmtU8 (n - 1))))
    else none)

/-- `Mesh4::south_mesh`. -/
def south_mesh (m : Code) : RRes Code :=
  rbind (ropt ((m.get? 8).bind toDigit10)) (fun n =>
    if n = 1 ∨ n = 2 then
      rbind (ropt (mesh3 m)) (fun p =>
        rbind (Mesh3.south_mesh p) (fun p2 => new (p2 ++ fmtU8 (n + 2))))
    else if n = 3 ∨ n = 4 then
      rbind (ropt (bslice m 0 8)) (fun p => new (p ++ fmtU8 (n - 2)))
    else none)

/-- `Mesh4::west_mesh`. -/
def west_mesh (m : Code) : RRes Code :=
  rbind (ropt ((m.get? 8).bind toDigit10)) (fun n =>
    if n = 1 ∨ n = 3 then
      rbind (ropt (mesh3 m)) (fun p =>
        rbind (Mesh3.west_mesh p) (fun p2 => new (p2 ++ fmtU8 (n + 1))))
    else if n = 2 ∨ n = 4 then
      rbind (ropt (bslice m 0 8)) (fun p => new (p ++ fmtU8 (n - 1)))
    else none)

end Mesh4

/-! ## Mesh5 (`mesh5.rs`) -/

/-- `MESH5_LAT_DIFF = 7.5 / 3600.0`. -/
def MESH5_LAT_DIFF : ℚ := (15 / 2) / 3600

/-- `MESH5_LON_DIFF = 11.25 / 3600.0`. -/
def MESH5_LON_DIFF : ℚ := (45 / 4) / 3600

/-- `validate_mesh5_code` from `mesh5.rs`. -/
def validate_mesh5_code (code : Code) : RRes Unit :=
  if blen code ≠ 10 then rerr GSJPError.invalidMeshCode
  else
    rbind (ropt (bslice code 0 9)) (fun p =>
      rbind (validate_mesh4_code p) (fun _ =>
        rbind (ropt (code.get? 9)) (fun num =>
          if ¬('1' ≤ num ∧ num ≤ '4') then rerr GSJPError.invalidMeshCode
          else rok ())))

namespace Mesh5

/-- `Mesh5::new`. -/
def new (code : Code) : RRes Code :=
  rbind (validate_mesh5_code code) (fun _ => rok code)

/-- `Mesh5::mesh4` (the other ancestor helpers are analogous and not
needed by the claims). -/
def mesh4 (m : Code) : Option Code :=
  (bslice m 0 9).bind (fun s => runwrap (Mesh4.new s))

/-- `Mesh5::from_coordinate`; the source applies `.floor()` before the
`as u8` cast, which is a no-op in the rational model (`f64ToU8` already
floors). -/
def from_coordinate (coord : Coordinate) : RRes Code :=
  rbind (Mesh4.from_coordinate coord) (fun mp =>
    rbind (ropt (Mesh4.south mp)) (fun sp =>
      rbind (ropt (Mesh4.west mp)) (fun wp =>
        let latN := f64ToU8 ((coord.lat - sp) / MESH5_LAT_DIFF)
        let lonN := f64ToU8 ((coord.lon - wp) / MESH5_LON_DIFF)
        new (mp ++ fmtU8 (2 * latN + 1 + lonN)))))

/-- `Mesh5::south`; the `unreachable!()` arm of the `match` is a panic. -/
def south (m : Code) : Option ℚ :=
  (mesh4 m).bind (fun p =>
    (Mesh4.south p).bind (fun s =>
      (m.get? 9).bind (fun c =>
        if c = '1' ∨ c = '2' then some s
        else if c = '3' ∨ c = '4' then some (s + MESH5_LAT_DIFF)
        else none)))

/-- `Mesh5::west`. -/
def west (m : Code) : Option ℚ :=
  (mesh4 m).bind (fun p =>
    (Mesh4.west p).bind (fun w =>
      (m.get? 9).bind (fun c =>
        if c = '1' ∨ c = '3' then some w
        else if c = '2' ∨ c = '4' then some (w + MESH5_LON_DIFF)
        else none)))

/-- `Mesh5::north`. -/
def north (m : Code) : Option ℚ := (south m).map (fun s => s + MESH5_LAT_DIFF)

/-- `Mesh5::east`. -/
def east (m : Code) : Option ℚ := (west m).map (fun w => w + MESH5_LON_DIFF)

/-- `Mesh5::north_mesh`. -/
def north_mesh (m : Code) : RRes Code :=
  rbind (ropt ((m.get? 9).bind toDigit10)) (fun n =>
    if n = 1 ∨ n = 2 then
      rbind (ropt (bslice m 0 9)) (fun p => new (p ++ fmtU8 (n + 2)))
    else if n = 3 ∨ n = 4 then
      rbind (ropt (mesh4 m)) (fun p =>
        rbind (Mesh4.north_mesh p) (fun p2 => new (p2 ++ fmtU8 (n - 2))))
    else none)

/-- `Mesh5::east_mesh`. -/
def east_mesh (m : Code) : RRes Code :=
  rbind (ropt ((m.get? 9).bind toDigit10)) (fun n =>
    if n = 1 ∨ n = 3 then
      rbind (ropt (bslice m 0 9)) (fun p => new (p ++ fmtU8 (n + 1)))
    else if n = 2 ∨ n = 4 then
      rbind (ropt (mesh4 m)) (fun p =>
        rbind (Mesh4.east_mesh p) (fun p2 => new (p2 ++ fmtU8 (n - 1))))
    else none)

/-- `Mesh5::south_mesh`. -/
def south_mesh (m : Code) : RRes Code :=
  rbind (ropt ((m.get? 9).bind toDigit10)) (fun n =>
    if n = 1 ∨ n = 2 then
      rbind (ropt (mesh4 m)) (fun p =>
        rbind (Mesh4.south_mesh p) (fun p2 => new (p2 ++ fmtU8 (n + 2))))
    else if n = 3 ∨ n = 4 then
      rbind (ropt (bslice m 0 9)) (fun p => new (p ++ fmtU8 (n - 2)))
    else none)

/-- `Mesh5::west_mesh`. -/
def west_mesh (m : Code) : RRes Code :=
  rbind (ropt ((m.get? 9).bind toDigit10)) (fun n =>
    if n = 1 ∨ n = 3 then
      rbind (ropt (mesh4 m)) (fun p =>
        rbind (Mesh4.west_mesh p) (fun p2 => new (p2 ++ fmtU8 (n + 1))))
    else if n = 2 ∨ n = 4 then
      rbind (ropt (bslice m 0 9)) (fun p => new (p ++ fmtU8 (n - 1)))
    else none)

end Mesh5

/-! ## Mesh6 (`mesh6.rs`) -/

/-- `MESH6_LAT_DIFF = 3.75 / 3600.0`. -/
def MESH6_LAT_DIFF : ℚ := (15 / 4) / 3600

/-- `MESH6_LON_DIFF = 5.625 / 3600.0`. -/
def MESH6_LON_DIFF : ℚ := (45 / 8) / 3600

/-- `validate_mesh6_code` from `mesh6.rs`. -/
def validate_mesh6_code (code : Code) : RRes Unit :=
  if blen code ≠ 11 then rerr GSJPError.invalidMeshCode
  else
    rbind (ropt (bslice code 0 10)) (fun p =>
      rbind (validate_mesh5_code p) (fun _ =>
        rbind (ropt (code.get? 10)) (fun num =>
          if ¬('1' ≤ num ∧ num ≤ '4') then rerr GSJPError.invalidMeshCode
          else rok ())))

namespace Mesh6

/-- `Mesh6::new`. -/
def new (code : Code) : RRes Code :=
  rbind (validate_mesh6_code code) (fun _ => rok code)

/-- `Mesh6::mesh5` (the other ancestor helpers are analogous and not
needed by the claims). -/
def mesh5 (m : Code) : Option Code :=
  (bslice m 0 10).bind (fun s => runwrap (Mesh5.new s))

/-- `Mesh6::from_coordinate`; the source applies `.floor()` before the
`as u8` cast, which is a no-op in the rational model (`f64ToU8` already
floors). -/
def from_coordinate (coord : Coordinate) : RRes Code :=
  rbind (Mesh5.from_coordinate coord) (fun mp =>
    rbind (ropt (Mesh5.south mp)) (fun sp =>
      rbind (ropt (Mesh5.west mp)) (fun wp =>
        let latN := f64ToU8 ((coord.lat - sp) / MESH6_LAT_DIFF)
        let lonN := f64ToU8 ((coord.lon - wp) / MESH6_LON_DIFF)
        new (mp ++ fmtU8 (2 * latN + 1 + lonN)))))

/-- `Mesh6::south`; the `unreachable!()` arm of the `match` is a panic. -/
def south (m : Code) : Option ℚ :=
  (mesh5 m).bind (fun p =>
    (Mesh5.south p).bind (fun s =>
      (m.get? 10).bind (fun c =>
        if c = '1' ∨ c = '2' then some s
        else if c = '3' ∨ c = '4' then some (s + MESH6_LAT_DIFF)
        else none)))

/-- `Mesh6::west`. -/
def west (m : Code) : Option ℚ :=
  (mesh5 m).bind (fun p =>
    (Mesh5.west p).bind (fun w =>
      (m.get? 10).bind (fun c =>
        if c = '1' ∨ c = '3' then some w
        else if c = '2' ∨ c = '4' then some (w + MESH6_LON_DIFF)
        else none)))

/-- `Mesh6::north`. -/
def north (m : Code) : Option ℚ := (south m).map (fun s => s + MESH6_LAT_DIFF)

/-- `Mesh6::east`. -/
def east (m : Code) : Option ℚ := (west m).map (fun w => w + MESH6_LON_DIFF)

/-- `Mesh6::north_mesh`. -/
def north_mesh (m : Code) : RRes Code :=
  rbind (ropt ((m.get? 10).bind toDigit10)) (fun n =>
    if n = 1 ∨ n = 2 then
      rbind (ropt (bslice m 0 10)) (fun p => new (p ++ fmtU8 (n + 2)))
    else if n = 3 ∨ n = 4 then
      rbind (ropt (mesh5 m)) (fun p =>
        rbind (Mesh5.north_mesh p) (fun p2 => new (p2 ++ fmtU8 (n - 2))))
    else none)

/-- `Mesh6::east_mesh`. -/
def east_mesh (m : Code) : RRes Code :=
  rbind (ropt ((m.get? 10).bind toDigit10)) (fun n =>
    if n = 1 ∨ n = 3 then
      rbind (ropt (bslice m 0 10)) (fun p => new (p ++ fmtU8 (n + 1)))
    else if n = 2 ∨ n = 4 then
      rbind (ropt (mesh5 m)) (fun p =>
        rbind (Mesh5.east_mesh p) (fun p2 => new (p2 ++ fmtU8 (n - 1))))
    else none)

/-- `Mesh6::south_mesh`. -/
def south_mesh (m : Code) : RRes Code :=
  rbind (ropt ((m.get? 10).bind toDigit10)) (fun n =>
    if n = 1 ∨ n = 2 then
      rbind (ropt (mesh5 m)) (fun p =>
        rbind (Mesh5.south_mesh p) (fun p2 => new (p2 ++ fmtU8 (n + 2))))
    else if n = 3 ∨ n = 4 then
      rbind (ropt (bslice m 0 10)) (fun p => new (p ++ fmtU8 (n - 2)))
    else none)

/-- `Mesh6::west_mesh`. -/
def west_mesh (m : Code) : RRes Code :=
  rbind (ropt ((m.get? 10).bind toDigit10)) (fun n =>
    if n = 1 ∨ n = 3 then
      rbind (ropt (mesh5 m)) (fun p =>
        rbind (Mesh5.west_mesh p) (fun p2 => new (p2 ++ fmtU8 (n + 1))))
    else if n = 2 ∨ n = 4 then
      rbind (ropt (bslice m 0 10)) (fun p => new (p ++ fmtU8 (n - 1)))
    else none)

end Mesh6

/-! ## Trait-level default methods (`Mesh` trait in `lib.rs`) -/

/-- Default method `Mesh::center`, parameterized by the level's boundary
accessors; `Coordinate::new(..).unwrap()` panics on `Err`. -/
def meshCenter (north south east west : Code → Option ℚ) (m : Code) :
    Option Coordinate :=
  (north m).bind (fun n =>
    (south m).bind (fun s =>
      (east m).bind (fun e =>
        (west m).bind (fun w =>
          runwrap (Coordinate.new ((n + s) / 2) ((e + w) / 2))))))

/-- Default method `Mesh::north_east` (and the pattern for the other
corner accessors). -/
def meshCorner (latAcc lonAcc : Code → Option ℚ) (m : Code) :
    Option Coordinate :=
  (latAcc m).bind (fun la =>
    (lonAcc m).bind (fun lo => runwrap (Coordinate.new la lo)))

/-- Default method `Mesh::north_east_mesh`: `self.north_mesh()?.east_mesh()`. -/
def diagMesh (vert horiz : Code → RRes Code) (m : Code) : RRes Code :=
  rbind (vert m) horiz

/-- Default method `Mesh::is_neighboring`, parameterized by the level's
four directional moves.  Each move is interrogated with `?`, so a failing
move makes the whole call return its error. -/
def isNeighboring (north east south west : Code → RRes Code) (m other : Code) :
    RRes NeighborDirection :=
  rbind (north m) (fun n =>
    if n = other then rok NeighborDirection.north
    else rbind (east m) (fun e =>
      if e = other then rok NeighborDirection.east
      else rbind (south m) (fun s =>
        if s = other then rok NeighborDirection.south
        else rbind (west m) (fun w =>
          if w = other then rok NeighborDirection.west
          else rok NeighborDirection.none))))

/-- `Mesh::north_east_mesh` for `Mesh1`. -/
def Mesh1.north_east_mesh : Code → RRes Code := diagMesh Mesh1.north_mesh Mesh1.east_mesh

/-- `Mesh::south_east_mesh` for `Mesh1`. -/
def Mesh1.south_east_mesh : Code → RRes Code := diagMesh Mesh1.south_mesh Mesh1.east_mesh

/-- `Mesh::south_west_mesh` for `Mesh1`. -/
def Mesh1.south_west_mesh : Code → RRes Code := diagMesh Mesh1.south_mesh Mesh1.west_mesh

/-- `Mesh::north_west_mesh` for `Mesh1`. -/
def Mesh1.north_west_mesh : Code → RRes Code := diagMesh Mesh1.north_mesh Mesh1.west_mesh

/-- `Mesh::is_neighboring` for `Mesh1`. -/
def Mesh1.is_neighboring : Code → Code → RRes NeighborDirection :=
  isNeighboring Mesh1.north_mesh Mesh1.east_mesh Mesh1.south_mesh Mesh1.west_mesh

/-- `Mesh::center` for `Mesh1`. -/
def Mesh1.center : Code → Option Coordinate :=
  meshCenter Mesh1.north Mesh1.south Mesh1.east Mesh1.west

/-- `Mesh::north_east_mesh` for `Mesh2`. -/
def Mesh2.north_east_mesh : Code → RRes Code := diagMesh Mesh2.north_mesh Mesh2.east_mesh

/-- `Mesh::south_east_mesh` for `Mesh2`. -/
def Mesh2.south_east_mesh : Code → RRes Code := diagMesh Mesh2.south_mesh Mesh2.east_mesh

/-- `Mesh::south_west_mesh` for `Mesh2`. -/
def Mesh2.south_west_mesh : Code → RRes Code := diagMesh Mesh2.south_mesh Mesh2.west_mesh

/-- `Mesh::north_west_mesh` for `Mesh2`. -/
def Mesh2.north_west_mesh : Code → RRes Code := diagMesh Mesh2.north_mesh Mesh2.west_mesh

/-- `Mesh::is_neighboring` for `Mesh2`. -/
def Mesh2.is_neighboring : Code → Code → RRes NeighborDirection :=
  isNeighboring Mesh2.north_mesh Mesh2.east_mesh Mesh2.south_mesh Mesh2.west_mesh

/-- `Mesh::center` for `Mesh2`. -/
def Mesh2.center : Code → Option Coordinate :=
  meshCenter Mesh2.north Mesh2.south Mesh2.east Mesh2.west

/-- `Mesh::north_east_mesh` for `Mesh3`. -/
def Mesh3.north_east_mesh : Code → RRes Code := diagMesh Mesh3.north_mesh Mesh3.east_mesh

/-- `Mesh::south_east_mesh` for `Mesh3`. -/
def Mesh3.south_east_mesh : Code → RRes Code := diagMesh Mesh3.south_mesh Mesh3.east_mesh

/-- `Mesh::south_west_mesh` for `Mesh3`. -/
def Mesh3.south_west_mesh : Code → RRes Code := diagMesh Mesh3.south_mesh Mesh3.west_mesh

/-- `Mesh::north_west_mesh` for `Mesh3`. -/
def Mesh3.north_west_mesh : Code → RRes Code := diagMesh Mesh3.north_mesh Mesh3.west_mesh

/-- `Mesh::is_neighboring` for `Mesh3`. -/
def Mesh3.is_neighboring : Code → Code → RRes NeighborDirection :=
  isNeighboring Mesh3.north_mesh Mesh3.east_mesh Mesh3.south_mesh Mesh3.west_mesh

/-- `Mesh::center` for `Mesh3`. -/
def Mesh3.center : Code → Option Coordinate :=
  meshCenter Mesh3.north Mesh3.south Mesh3.east Mesh3.west

/-- `Mesh::north_east_mesh` for `Mesh4`. -/
def Mesh4.north_east_mesh : Code → RRes Code := diagMesh Mesh4.north_mesh Mesh4.east_mesh

/-- `Mesh::south_east_mesh` for `Mesh4`. -/
def Mesh4.south_east_mesh : Code → RRes Code := diagMesh Mesh4.south_mesh Mesh4.east_mesh

/-- `Mesh::south_west_mesh` for `Mesh4`. -/
def Mesh4.south_west_mesh : Code → RRes Code := diagMesh Mesh4.south_mesh Mesh4.west_mesh

/-- `Mesh::north_west_mesh` for `Mesh4`. -/
def Mesh4.north_west_mesh : Code → RRes Code := diagMesh Mesh4.north_mesh Mesh4.west_mesh

/-- `Mesh::is_neighboring` for `Mesh4`. -/
def Mesh4.is_neighboring : Code → Code → RRes NeighborDirection :=
  isNeighboring Mesh4.north_mesh Mesh4.east_mesh Mesh4.south_mesh Mesh4.west_mesh

/-- `Mesh::center` for `Mesh4`. -/
def Mesh4.center : Code → Option Coordinate :=
  meshCenter Mesh4.north Mesh4.south Mesh4.east Mesh4.west

/-- `Mesh::north_east_mesh` for `Mesh5`. -/
def Mesh5.north_east_mesh : Code → RRes Code := diagMesh Mesh5.north_mesh Mesh5.east_mesh

/-- `Mesh::south_east_mesh` for `Mesh5`. -/
def Mesh5.south_east_mesh : Code → RRes Code := diagMesh Mesh5.south_mesh Mesh5.east_mesh

/-- `Mesh::south_west_mesh` for `Mesh5`. -/
def Mesh5.south_west_mesh : Code → RRes Code := diagMesh Mesh5.south_mesh Mesh5.west_mesh

/-- `Mesh::north_west_mesh` for `Mesh5`. -/
def Mesh5.north_west_mesh : Code → RRes Code := diagMesh Mesh5.north_mesh Mesh5.west_mesh

/-- `Mesh::is_neighboring` for `Mesh5`. -/
def Mesh5.is_neighboring : Code → Code → RRes NeighborDirection :=
  isNeighboring Mesh5.north_mesh Mesh5.east_mesh Mesh5.south_mesh Mesh5.west_mesh

/-- `Mesh::center` for `Mesh5`. -/
def Mesh5.center : Code → Option Coordinate :=
  meshCenter Mesh5.north Mesh5.south Mesh5.east Mesh5.west

/-- `Mesh::north_east_mesh` for `Mesh6`. -/
def Mesh6.north_east_mesh : Code → RRes Code := diagMesh Mesh6.north_mesh Mesh6.east_mesh

/-- `Mesh::south_east_mesh` for `Mesh6`. -/
def Mesh6.south_east_mesh : Code → RRes Code := diagMesh Mesh6.south_mesh Mesh6.east_mesh

/-- `Mesh::south_west_mesh` for `Mesh6`. -/
def Mesh6.south_west_mesh : Code → RRes Code := diagMesh Mesh6.south_mesh Mesh6.west_mesh

/-- `Mesh::north_west_mesh` for `Mesh6`. -/
def Mesh6.north_west_mesh : Code → RRes Code := diagMesh Mesh6.north_mesh Mesh6.west_mesh

/-- `Mesh::is_neighboring` for `Mesh6`. -/
def Mesh6.is_neighboring : Code → Code → RRes NeighborDirection :=
  isNeighboring Mesh6.north_mesh Mesh6.east_mesh Mesh6.south_mesh Mesh6.west_mesh

/-- `Mesh::center` for `Mesh6`. -/
def Mesh6.center : Code → Option Coordinate :=
  meshCenter Mesh6.north Mesh6.south Mesh6.east Mesh6.west

/-! ## Verification-layer predicates (not part of the source) -/

/-- The latitude field of a valid level-1 code: two one-byte characters,
between "30" and "68" in byte order. -/
def LatOk (a b : Char) : Prop :=
  cbytes a = 1 ∧ cbytes b = 1 ∧
  sLt [a, b] ['3', '0'] = false ∧ sLt ['6', '8'] [a, b] = false

/-- The longitude field of a valid level-1 code: two one-byte characters,
between "22" and "53" in byte order. -/
def LonOk (c d : Char) : Prop :=
  cbytes c = 1 ∧ cbytes d = 1 ∧
  sLt [c, d] ['2', '2'] = false ∧ sLt ['5', '3'] [c, d] = false

/-- Verification-layer: the character of `m` at position `i` (`'0'` when out
of range). -/
def cAt (m : Code) (i : Nat) : Char := (m.get? i).getD '0'

/-- Verification-layer: global latitude cell index of a level-1 code. -/
def latIdx1 (m : Code) : Nat := 10 * digitVal (cAt m 0) + digitVal (cAt m 1)

/-- Verification-layer: global longitude cell index of a level-1 code. -/
def lonIdx1 (m : Code) : Nat := 10 * digitVal (cAt m 2) + digitVal (cAt m 3)

/-- Verification-layer: global latitude cell index of a level-2 code. -/
def latIdx2 (m : Code) : Nat := 8 * latIdx1 m + digitVal (cAt m 4)

/-- Verification-layer: global longitude cell index of a level-2 code. -/
def lonIdx2 (m : Code) : Nat := 8 * lonIdx1 m + digitVal (cAt m 5)

/-- Verification-layer: global latitude cell index of a level-3 code. -/
def latIdx3 (m : Code) : Nat := 10 * latIdx2 m + digitVal (cAt m 6)

/-- Verification-layer: global longitude cell index of a level-3 code. -/
def lonIdx3 (m : Code) : Nat := 10 * lonIdx2 m + digitVal (cAt m 7)

/-- Verification-layer: global latitude cell index of a level-4 code
(quadrant digits 3 and 4 are the northern half). -/
def latIdx4 (m : Code) : Nat := 2 * latIdx3 m + (digitVal (cAt m 8) - 1) / 2

/-- Verification-layer: global longitude cell index of a level-4 code
(quadrant digits 2 and 4 are the eastern half). -/
def lonIdx4 (m : Code) : Nat := 2 * lonIdx3 m + (digitVal (cAt m 8) - 1) % 2

/-- Verification-layer: global latitude cell index of a level-5 code. -/
def latIdx5 (m : Code) : Nat := 2 * latIdx4 m + (digitVal (cAt m 9) - 1) / 2

/-- Verification-layer: global longitude cell index of a level-5 code. -/
def lonIdx5 (m : Code) : Nat := 2 * lonIdx4 m + (digitVal (cAt m 9) - 1) % 2

/-- Verification-layer: global latitude cell index of a level-6 code. -/
def latIdx6 (m : Code) : Nat := 2 * latIdx5 m + (digitVal (cAt m 10) - 1) / 2

/-- Verification-layer: global longitude cell index of a level-6 code. -/
def lonIdx6 (m : Code) : Nat := 2 * lonIdx5 m + (digitVal (cAt m 10) - 1) % 2

/-! ## Theorems -/

/-- The four numeric bounds of `validate_mesh1_code`, evaluated
(`20 * 1.5 = 30`, `(46 - 40/60) * 1.5 = 68`, `122 % 100 = 22`,
`(154 - 1) % 100 = 53`; the IEEE-754 computations of the source produce
the same four values). -/
theorem mesh1_bounds_eval :
    fmtU8 (f64ToU8 (SOUTHERNMOST * 1.5)) = ['3', '0'] ∧
    fmtU8 (f64ToU8 ((NORTHERNMOST - MESH1_LAT_DIFF) * 1.5)) = ['6', '8'] ∧
    fmtU8 (f64ToU8 WESTERNMOST % 100) = ['2', '2'] ∧
    fmtU8 (f64ToU8 (EASTERNMOST - MESH1_LON_DIFF) % 100) = ['5', '3'] := by
  have h1 : f64ToU8 (SOUTHERNMOST * 1.5) = 30 := by
    unfold f64ToU8 SOUTHERNMOST; norm_num; decide
  have h2 : f64ToU8 ((NORTHERNMOST - MESH1_LAT_DIFF) * 1.5) = 68 := by
    unfold f64ToU8 NORTHERNMOST MESH1_LAT_DIFF
    norm_num; decide
  have h3 : f64ToU8 WESTERNMOST = 122 := by
    unfold f64ToU8 WESTERNMOST; norm_num; decide
  have h4 : f64ToU8 (EASTERNMOST - MESH1_LON_DIFF) = 153 := by
    unfold f64ToU8 EASTERNMOST MESH1_LON_DIFF; norm_num; decide
  refine ⟨by rw [h1]; rfl, by rw [h2]; rfl, by rw [h3]; rfl, by rw [h4]; rfl⟩

theorem validate_mesh1_code_eval : validate_mesh1_code = validate1C := by
  funext code
  unfold validate_mesh1_code validate1C
  rw [mesh1_bounds_eval.1, mesh1_bounds_eval.2.1, mesh1_bounds_eval.2.2.1,
    mesh1_bounds_eval.2.2.2]

theorem cbytes_pos (c : Char) : 1 ≤ cbytes c := by
  unfold cbytes
  repeat' split
  all_goals omega

theorem cbytes_of_lt128 {c : Char} (h : c.toNat < 128) : cbytes c = 1 := by
  unfold cbytes
  simp [h]

theorem char_toNat_inj {a b : Char} (h : a.toNat = b.toNat) : a = b :=
  Char.eq_of_val_eq (UInt32.toNat.inj h)

@[simp] theorem blen_nil : blen [] = 0 := rfl

@[simp] theorem blen_cons (c : Char) (s : Code) :
    blen (c :: s) = cbytes c + blen s := by
  simp [blen]

@[simp] theorem blen_append (p t : Code) : blen (p ++ t) = blen p + blen t := by
  simp [blen]

theorem btake_zero (s : Code) : btake s 0 = some [] := by
  cases s <;> rfl

theorem btake_append (p t : Code) : btake (p ++ t) (blen p) = some p := by
  induction p with
  | nil => simpa using btake_zero t
  | cons c p ih =>
    have hc := cbytes_pos c
    have hsum : blen (c :: p) = (cbytes c + blen p - 1) + 1 := by
      simp; omega
    rw [List.cons_append, hsum]
    unfold btake
    have hle : cbytes c ≤ cbytes c + blen p - 1 + 1 := by omega
    rw [if_pos hle]
    have : cbytes c + blen p - 1 + 1 - cbytes c = blen p := by omega
    rw [this, ih]
    rfl

@[simp] theorem bdrop_zero (s : Code) : bdrop s 0 = some s := by
  cases s <;> rfl

theorem bdrop_append (p t : Code) : bdrop (p ++ t) (blen p) = some t := by
  induction p with
  | nil => simpa using bdrop_zero t
  | cons c p ih =>
    have hc := cbytes_pos c
    have hsum : blen (c :: p) = (cbytes c + blen p - 1) + 1 := by
      simp; omega
    rw [List.cons_append, hsum]
    unfold bdrop
    have hle : cbytes c ≤ cbytes c + blen p - 1 + 1 := by omega
    rw [if_pos hle]
    have : cbytes c + blen p - 1 + 1 - cbytes c = blen p := by omega
    rw [this, ih]


theorem sLt_cons (a b : Char) (as bs : Code) :
    sLt (a :: as) (b :: bs) =
      if a.toNat < b.toNat then true
      else if b.toNat < a.toNat then false
      else sLt as bs := rfl

theorem sLt_nil : sLt [] [] = false := rfl

theorem sLt_pair {a b c d : Char} :
    sLt [a, b] [c, d] = true ↔
      a.toNat < c.toNat ∨ (a.toNat = c.toNat ∧ b.toNat < d.toNat) := by
  rw [sLt_cons, sLt_cons, sLt_nil]
  split_ifs <;> simp_all <;> omega

theorem isDigitC_iff {c : Char} :
    isDigitC c = true ↔ 48 ≤ c.toNat ∧ c.toNat ≤ 57 := by
  simp [isDigitC]

theorem digitVal_lt {c : Char} (h : isDigitC c = true) : digitVal c < 10 := by
  rw [isDigitC_iff] at h
  unfold digitVal
  omega

theorem digit_ge48 {c : Char} (h : isDigitC c = true) : 48 ≤ c.toNat :=
  (isDigitC_iff.mp h).1

theorem digit_toNat {c : Char} (h : isDigitC c = true) :
    c.toNat = 48 + digitVal c := by
  have := digit_ge48 h
  unfold digitVal
  omega

theorem digitsVal_pair (a b : Char) :
    digitsVal [a, b] = 10 * digitVal a + digitVal b := by
  simp [digitsVal]

theorem digitsVal_single (b : Char) : digitsVal [b] = digitVal b := by
  simp [digitsVal]

theorem parseU8_digits {a b : Char} (ha : isDigitC a = true)
    (hb : isDigitC b = true) :
    parseU8 [a, b] = some (10 * digitVal a + digitVal b) := by
  have hplus : a ≠ '+' := by
    intro h
    subst h
    exact absurd ha (by decide)
  have hva := digitVal_lt ha
  have hvb := digitVal_lt hb
  unfold parseU8
  simp only [List.head?_cons, Option.some.injEq]
  rw [if_neg hplus]
  simp only [List.isEmpty_cons, Bool.false_eq_true, if_false,
    List.all_cons, List.all_nil, ha, hb, Bool.and_true, Bool.true_and,
    if_true, digitsVal_pair]
  rw [if_pos (by omega)]

theorem parseU8_pair_inv {a b : Char} {v : Nat}
    (h : parseU8 [a, b] = some v) :
    (a = '+' ∧ isDigitC b = true ∧ v = digitVal b) ∨
    (isDigitC a = true ∧ isDigitC b = true ∧
      v = 10 * digitVal a + digitVal b) := by
  by_cases hp : a = '+'
  · subst hp
    left
    unfold parseU8 at h
    simp only [List.head?_cons, Option.some.injEq, if_pos rfl,
      List.tail_cons] at h
    by_cases hb : isDigitC b = true
    · have hvb := digitVal_lt hb
      simp only [List.isEmpty_cons, Bool.false_eq_true, if_false,
        List.all_cons, List.all_nil, hb, Bool.and_true, if_true,
        digitsVal_single] at h
      rw [if_pos (by omega)] at h
      simp at h
      exact ⟨rfl, hb, h.symm⟩
    · rw [Bool.not_eq_true] at hb
      simp [hb] at h
  · right
    unfold parseU8 at h
    simp only [List.head?_cons, Option.some.injEq] at h
    rw [if_neg hp] at h
    by_cases ha : isDigitC a = true
    · by_cases hb : isDigitC b = true
      · have hva := digitVal_lt ha
        have hvb := digitVal_lt hb
        simp only [List.isEmpty_cons, Bool.false_eq_true, if_false,
          List.all_cons, List.all_nil, ha, hb, Bool.and_true, Bool.true_and,
          if_true, digitsVal_pair] at h
        rw [if_pos (by omega)] at h
        simp at h
        exact ⟨ha, hb, h.symm⟩
      · rw [Bool.not_eq_true] at hb
        simp [ha, hb] at h
    · rw [Bool.not_eq_true] at ha
      simp [ha] at h

theorem lt128_of_cbytes {c : Char} (h : cbytes c = 1) : c.toNat < 128 := by
  by_contra hc
  unfold cbytes at h
  rw [if_neg hc] at h
  repeat' split at h
  all_goals omega

theorem ge128_of_cbytes {c : Char} (h : cbytes c ≠ 1) : 128 ≤ c.toNat := by
  by_contra hc
  exact h (cbytes_of_lt128 (by omega))

theorem blen_eq_zero {s : Code} (h : blen s = 0) : s = [] := by
  cases s with
  | nil => rfl
  | cons c t =>
    have := cbytes_pos c
    simp at h
    omega

theorem blen2_cases {s : Code} (h : blen s = 2) :
    (∃ x, s = [x] ∧ cbytes x = 2) ∨
    (∃ x y, s = [x, y] ∧ cbytes x = 1 ∧ cbytes y = 1) := by
  match s with
  | [] => simp at h
  | [x] =>
    left
    exact ⟨x, rfl, by simpa using h⟩
  | [x, y] =>
    right
    have hx := cbytes_pos x
    have hy := cbytes_pos y
    simp at h
    exact ⟨x, y, rfl, by omega, by omega⟩
  | x :: y :: z :: t =>
    have hx := cbytes_pos x
    have hy := cbytes_pos y
    have hz := cbytes_pos z
    have ht : 0 ≤ blen t := Nat.zero_le _
    simp at h
    omega

theorem btake_eq {s : Code} {n : Nat} {t : Code} (h : btake s n = some t) :
    ∃ r, s = t ++ r ∧ blen t = n := by
  induction s generalizing n t with
  | nil =>
    match n with
    | 0 =>
      rw [btake_zero] at h
      simp at h
      subst h
      exact ⟨[], rfl, rfl⟩
    | n + 1 => simp [btake] at h
  | cons c cs ih =>
    match n with
    | 0 =>
      rw [btake_zero] at h
      simp at h
      subst h
      exact ⟨c :: cs, rfl, rfl⟩
    | n + 1 =>
      unfold btake at h
      split at h
      · rename_i hle
        cases hb : btake cs (n + 1 - cbytes c) with
        | none => rw [hb] at h; simp at h
        | some t2 =>
          rw [hb] at h
          simp at h
          obtain ⟨r, hr, hlen⟩ := ih hb
          refine ⟨r, ?_, ?_⟩
          · rw [← h, hr]
            rfl
          · rw [← h]
            simp [hlen]
            omega
      · simp at h

theorem bdrop_eq {s : Code} {n : Nat} {r : Code} (h : bdrop s n = some r) :
    ∃ p, s = p ++ r ∧ blen p = n := by
  induction s generalizing n with
  | nil =>
    match n with
    | 0 =>
      rw [bdrop_zero] at h
      simp at h
      subst h
      exact ⟨[], rfl, rfl⟩
    | n + 1 => simp [bdrop] at h
  | cons c cs ih =>
    match n with
    | 0 =>
      rw [bdrop_zero] at h
      simp at h
      subst h
      exact ⟨[], rfl, rfl⟩
    | n + 1 =>
      unfold bdrop at h
      split at h
      · rename_i hle
        obtain ⟨p, hp, hlen⟩ := ih h
        refine ⟨c :: p, by rw [hp]; rfl, ?_⟩
        simp [hlen]
        omega
      · simp at h

theorem bslice_zero (s : Code) (k : Nat) : bslice s 0 k = btake s k := by
  simp [bslice]

theorem bslice_of_append {p : Code} (t : Code) {a : Nat} (h : blen p = a)
    (b : Nat) : bslice (p ++ t) a b = btake t (b - a) := by
  subst h
  simp [bslice, bdrop_append]

theorem sLt_cons_of_lt {a b : Char} {as bs : Code} (h : a.toNat < b.toNat) :
    sLt (a :: as) (b :: bs) = true := by
  rw [sLt_cons, if_pos h]

theorem dChar_toNat {d : Nat} (h : d < 10) : (dChar d).toNat = 48 + d := by
  interval_cases d <;> decide

theorem isDigitC_dChar {d : Nat} (h : d < 10) : isDigitC (dChar d) = true := by
  interval_cases d <;> decide

theorem digitVal_dChar {d : Nat} (h : d < 10) : digitVal (dChar d) = d := by
  interval_cases d <;> decide

theorem cbytes_dChar {d : Nat} (h : d < 10) : cbytes (dChar d) = 1 := by
  interval_cases d <;> decide

theorem dChar_digitVal {c : Char} (h : isDigitC c = true) :
    dChar (digitVal c) = c := by
  apply char_toNat_inj
  rw [dChar_toNat (digitVal_lt h)]
  have := digit_ge48 h
  unfold digitVal
  omega

theorem cbytes_digit {c : Char} (h : isDigitC c = true) : cbytes c = 1 := by
  rw [isDigitC_iff] at h
  exact cbytes_of_lt128 (by omega)

theorem digit_inj {a b : Char} (ha : isDigitC a = true)
    (hb : isDigitC b = true) (h : digitVal a = digitVal b) : a = b := by
  apply char_toNat_inj
  rw [digit_toNat ha, digit_toNat hb, h]

theorem fmt2_ge10 {u : Nat} (h1 : 10 ≤ u) (h2 : u < 100) :
    fmt2 u = [dChar (u / 10), dChar (u % 10)] := by
  unfold fmt2 fmtU8
  rw [if_neg (by omega), if_neg (by omega), if_pos h2]

theorem fmt2_shape {u : Nat} (h : u < 100) :
    ∃ a b, fmt2 u = [a, b] ∧ isDigitC a = true ∧ isDigitC b = true ∧
      10 * digitVal a + digitVal b = u := by
  by_cases h10 : u < 10
  · refine ⟨'0', dChar u, ?_, by decide, isDigitC_dChar h10, ?_⟩
    · unfold fmt2
      rw [if_pos h10]
    · rw [digitVal_dChar h10]
      have h0 : digitVal '0' = 0 := by decide
      omega
  · refine ⟨dChar (u / 10), dChar (u % 10), fmt2_ge10 (by omega) h, ?_, ?_, ?_⟩
    · exact isDigitC_dChar (by omega)
    · exact isDigitC_dChar (by omega)
    · rw [digitVal_dChar (by omega), digitVal_dChar (by omega)]
      omega

theorem parseU8_fmt2 {u : Nat} (h : u < 100) : parseU8 (fmt2 u) = some u := by
  obtain ⟨a, b, hab, ha, hb, hv⟩ := fmt2_shape h
  rw [hab, parseU8_digits ha hb, hv]

theorem fmt2_blen {u : Nat} (h : u < 100) : blen (fmt2 u) = 2 := by
  obtain ⟨a, b, hab, ha, hb, hv⟩ := fmt2_shape h
  rw [hab]
  simp [cbytes_digit ha, cbytes_digit hb]

theorem latok_digits_iff {a b : Char} (ha : isDigitC a = true)
    (hb : isDigitC b = true) :
    LatOk a b ↔ 30 ≤ 10 * digitVal a + digitVal b ∧
      10 * digitVal a + digitVal b ≤ 68 := by
  have hta := digit_toNat ha
  have htb := digit_toNat hb
  have hva := digitVal_lt ha
  have hvb := digitVal_lt hb
  have h3 : ('3' : Char).toNat = 51 := by decide
  have h0 : ('0' : Char).toNat = 48 := by decide
  have h6 : ('6' : Char).toNat = 54 := by decide
  have h8 : ('8' : Char).toNat = 56 := by decide
  unfold LatOk
  rw [cbytes_digit ha, cbytes_digit hb, Bool.eq_false_iff, ne_eq, sLt_pair,
    Bool.eq_false_iff, ne_eq, sLt_pair, h3, h0, h6, h8]
  constructor
  · rintro ⟨-, -, h1, h2⟩
    push_neg at h1 h2
    omega
  · intro h
    refine ⟨rfl, rfl, ?_, ?_⟩ <;> push_neg <;> omega

theorem lonok_digits_iff {c d : Char} (hc : isDigitC c = true)
    (hd : isDigitC d = true) :
    LonOk c d ↔ 22 ≤ 10 * digitVal c + digitVal d ∧
      10 * digitVal c + digitVal d ≤ 53 := by
  have htc := digit_toNat hc
  have htd := digit_toNat hd
  have hvc := digitVal_lt hc
  have hvd := digitVal_lt hd
  have h2 : ('2' : Char).toNat = 50 := by decide
  have h5 : ('5' : Char).toNat = 53 := by decide
  have h3 : ('3' : Char).toNat = 51 := by decide
  unfold LonOk
  rw [cbytes_digit hc, cbytes_digit hd, Bool.eq_false_iff, ne_eq, sLt_pair,
    Bool.eq_false_iff, ne_eq, sLt_pair, h2, h5, h3]
  constructor
  · rintro ⟨-, -, h1, h2'⟩
    push_neg at h1 h2'
    omega
  · intro h
    refine ⟨rfl, rfl, ?_, ?_⟩ <;> push_neg <;> omega

theorem latok_plus {b : Char} (h : LatOk '+' b) : False := by
  obtain ⟨-, -, h1, -⟩ := h
  rw [sLt_cons_of_lt (by decide)] at h1
  exact Bool.noConfusion h1

theorem lonok_plus {d : Char} (h : LonOk '+' d) : False := by
  obtain ⟨-, -, h1, -⟩ := h
  rw [sLt_cons_of_lt (by decide)] at h1
  exact Bool.noConfusion h1

theorem rok_inj {α : Type} {a b : α} : rok a = rok b ↔ a = b := by
  simp [rok]

@[simp] theorem ropt_some {α : Type} (a : α) : ropt (some a) = rok a := rfl

@[simp] theorem ropt_none {α : Type} : ropt (none : Option α) = none := rfl

theorem rerr_ne_rok {α : Type} {e : GSJPError} {a : α} : rerr e ≠ rok a := by
  simp [rerr, rok]

theorem none_ne_rok {α : Type} {a : α} : (none : RRes α) ≠ rok a := by
  simp [rok]

@[simp] theorem rbind_rok {α β : Type} (a : α) (f : α → RRes β) :
    rbind (rok a) f = f a := rfl

@[simp] theorem rbind_rerr {α β : Type} (e : GSJPError) (f : α → RRes β) :
    rbind (rerr e) f = rerr e := rfl

@[simp] theorem rbind_none {α β : Type} (f : α → RRes β) :
    rbind (none : RRes α) f = none := rfl

theorem rbind_eq_rok {α β : Type} {x : RRes α} {f : α → RRes β} {b : β} :
    rbind x f = rok b ↔ ∃ a, x = rok a ∧ f a = rok b := by
  cases x with
  | none => simp [rbind, rok]
  | some v =>
    cases v with
    | error e => simp [rbind, rok]
    | ok a => simp [rbind, rok]

theorem ropt_eq_rok {α : Type} {o : Option α} {a : α} :
    ropt o = rok a ↔ o = some a := by
  cases o <;> simp [ropt, rok]

theorem valid1_iff {m : Code} :
    validate_mesh1_code m = rok () ↔
      ∃ a b c d, m = [a, b, c, d] ∧ LatOk a b ∧ LonOk c d := by
  rw [validate_mesh1_code_eval]
  constructor
  · intro h
    unfold validate1C at h
    split at h
    · exact absurd h rerr_ne_rok
    · rename_i hlen
      rw [rbind_eq_rok] at h
      obtain ⟨lat, hlat, h⟩ := h
      rw [ropt_eq_rok] at hlat
      rw [rbind_eq_rok] at h
      obtain ⟨lon, hlon, h⟩ := h
      rw [ropt_eq_rok] at hlon
      split at h
      · exact absurd h rerr_ne_rok
      · split at h
        · exact absurd h rerr_ne_rok
        · rename_i hc1 hc2
          simp only [Bool.or_eq_true, not_or, Bool.not_eq_true] at hc1 hc2
          obtain ⟨hc1a, hc1b⟩ := hc1
          obtain ⟨hc2a, hc2b⟩ := hc2
          rw [bslice_zero] at hlat
          obtain ⟨r, hm, hblat⟩ := btake_eq hlat
          simp only [ne_eq, not_not] at hlen
          have hblr : blen r = 2 := by
            rw [hm] at hlen
            simp at hlen
            omega
          have hdrop : bdrop m 2 = some r := by
            rw [hm, ← hblat]
            exact bdrop_append lat r
          unfold bslice at hlon
          rw [hdrop] at hlon
          simp only [Option.some_bind] at hlon
          obtain ⟨r2, hr2, hblon⟩ := btake_eq hlon
          have hr20 : blen r2 = 0 := by
            rw [hr2] at hblr
            simp at hblr
            omega
          have hr2nil := blen_eq_zero hr20
          subst hr2nil
          rw [List.append_nil] at hr2
          subst hr2
          rcases blen2_cases hblat with ⟨x, hx, hcx⟩ | ⟨a, b, hab, hca, hcb⟩
          · subst hx
            have hxn : 128 ≤ x.toNat := ge128_of_cbytes (by omega)
            have h6x : ('6' : Char).toNat < x.toNat := by
              have : ('6' : Char).toNat = 54 := by decide
              omega
            rw [sLt_cons_of_lt h6x] at hc1b
            exact Bool.noConfusion hc1b
          · subst hab
            rcases blen2_cases hblon with ⟨x, hx, hcx⟩ | ⟨c, d, hcd, hcc, hcd1⟩
            · subst hx
              have hxn : 128 ≤ x.toNat := ge128_of_cbytes (by omega)
              have h5x : ('5' : Char).toNat < x.toNat := by
                have : ('5' : Char).toNat = 53 := by decide
                omega
              rw [sLt_cons_of_lt h5x] at hc2b
              exact Bool.noConfusion hc2b
            · subst hcd
              exact ⟨a, b, c, d, (by simpa using hm), ⟨hca, hcb, hc1a, hc1b⟩,
                ⟨hcc, hcd1, hc2a, hc2b⟩⟩
  · rintro ⟨a, b, c, d, hm, ⟨hca, hcb, h1, h2⟩, ⟨hcc, hcd, h3, h4⟩⟩
    subst hm
    have hsp : ([a, b, c, d] : Code) = [a, b] ++ [c, d] := rfl
    have hblat : blen [a, b] = 2 := by simp [hca, hcb]
    have hblon : blen ([c, d] : Code) = 2 := by simp [hcc, hcd]
    unfold validate1C
    have hlen4 : ¬(blen ([a, b, c, d] : Code) ≠ 4) := by
      simp only [ne_eq, blen_cons, blen_nil, hca, hcb, hcc, hcd, not_not]
    rw [if_neg hlen4]
    have hs1 : bslice [a, b, c, d] 0 2 = some [a, b] := by
      rw [bslice_zero]
      have := btake_append ([a, b] : Code) [c, d]
      rw [hblat] at this
      exact this
    have hs2 : bslice [a, b, c, d] 2 4 = some [c, d] := by
      rw [hsp, bslice_of_append _ hblat]
      have := btake_append ([c, d] : Code) []
      simp only [List.append_nil] at this
      rw [hblon] at this
      exact this
    rw [hs1, hs2]
    simp only [ropt_some, rbind_rok]
    rw [h1, h2, h3, h4]
    simp [rok]

theorem new1_rok {c n : Code} :
    Mesh1.new c = rok n ↔ validate_mesh1_code c = rok () ∧ n = c := by
  unfold Mesh1.new
  rw [rbind_eq_rok]
  constructor
  · rintro ⟨u, hu, hn⟩
    cases u
    exact ⟨hu, (rok_inj.mp hn).symm⟩
  · rintro ⟨hv, rfl⟩
    exact ⟨(), hv, rfl⟩

theorem code4_slices {a b c d : Char} (hca : cbytes a = 1) (hcb : cbytes b = 1)
    (hcc : cbytes c = 1) (hcd : cbytes d = 1) :
    bslice [a, b, c, d] 0 2 = some [a, b] ∧
    bslice [a, b, c, d] 2 4 = some [c, d] := by
  have hblat : blen [a, b] = 2 := by simp [hca, hcb]
  have hblon : blen ([c, d] : Code) = 2 := by simp [hcc, hcd]
  constructor
  · rw [bslice_zero]
    have := btake_append ([a, b] : Code) [c, d]
    rw [hblat] at this
    exact this
  · rw [show ([a, b, c, d] : Code) = [a, b] ++ [c, d] from rfl,
      bslice_of_append _ hblat]
    have := btake_append ([c, d] : Code) []
    simp only [List.append_nil] at this
    rw [hblon] at this
    exact this

theorem fmt2_of_digits {a b : Char} (ha : isDigitC a = true)
    (hb : isDigitC b = true) :
    fmt2 (10 * digitVal a + digitVal b) = [a, b] := by
  have hva := digitVal_lt ha
  have hvb := digitVal_lt hb
  by_cases h10 : 10 * digitVal a + digitVal b < 10
  · have ha0 : digitVal a = 0 := by omega
    unfold fmt2
    rw [if_pos h10]
    have hb' : dChar (10 * digitVal a + digitVal b) = b := by
      rw [show 10 * digitVal a + digitVal b = digitVal b from by omega]
      exact dChar_digitVal hb
    have ha' : ('0' : Char) = a := by
      have := dChar_digitVal ha
      rw [ha0] at this
      rw [← this]
      rfl
    rw [hb', ha']
  · rw [fmt2_ge10 (by omega) (by omega)]
    have h1 : (10 * digitVal a + digitVal b) / 10 = digitVal a := by omega
    have h2 : (10 * digitVal a + digitVal b) % 10 = digitVal b := by omega
    rw [h1, h2, dChar_digitVal ha, dChar_digitVal hb]

theorem valid1_parts {v : Nat} {c d : Char} (h30 : 30 ≤ v) (h68 : v ≤ 68)
    (hlon : LonOk c d) :
    validate_mesh1_code (fmt2 v ++ [c, d]) = rok () := by
  obtain ⟨a, b, hf, ha, hb, hv⟩ := fmt2_shape (u := v) (by omega)
  rw [hf]
  exact valid1_iff.mpr ⟨a, b, c, d, rfl,
    (latok_digits_iff ha hb).mpr (by omega), hlon⟩

theorem mesh1_north_char {m n : Code} (hm : validate_mesh1_code m = rok ())
    (h : Mesh1.north_mesh m = rok n) :
    ∃ v c d, 30 ≤ v ∧ v + 1 ≤ 68 ∧ LonOk c d ∧
      m = fmt2 v ++ [c, d] ∧ n = fmt2 (v + 1) ++ [c, d] := by
  obtain ⟨a, b, c, d, hm4, hlat, hlon⟩ := valid1_iff.mp hm
  subst hm4
  obtain ⟨hs1, hs2⟩ := code4_slices hlat.1 hlat.2.1 hlon.1 hlon.2.1
  unfold Mesh1.north_mesh at h
  rw [hs1] at h
  simp only [ropt_some, rbind_rok] at h
  rw [rbind_eq_rok] at h
  obtain ⟨v, hv, h⟩ := h
  rw [ropt_eq_rok] at hv
  rcases parseU8_pair_inv hv with ⟨hplus, -, -⟩ | ⟨ha, hb, hveq⟩
  · subst hplus
    exact absurd hlat latok_plus
  · have hrange := (latok_digits_iff ha hb).mp hlat
    rw [rbind_eq_rok] at h
    obtain ⟨v1, hv1, h⟩ := h
    rw [ropt_eq_rok] at hv1
    unfold u8Add at hv1
    rw [if_pos (by omega)] at hv1
    simp only [Option.some.injEq] at hv1
    subst hv1
    rw [hs2] at h
    simp only [ropt_some, rbind_rok] at h
    rw [new1_rok] at h
    obtain ⟨hvalidn, hn⟩ := h
    have hfm : fmt2 v = [a, b] := by
      rw [hveq]
      exact fmt2_of_digits ha hb
    refine ⟨v, c, d, by omega, ?_, hlon, (by rw [hfm]; rfl), hn⟩
    obtain ⟨x, y, hf2, hx, hy, hval2⟩ := fmt2_shape (u := v + 1) (by omega)
    obtain ⟨a2, b2, c2, d2, hn4, hlat2, -⟩ := valid1_iff.mp hvalidn
    rw [hf2] at hn4
    simp only [List.cons_append, List.nil_append, List.cons.injEq] at hn4
    obtain ⟨hxa2, hyb2, -, -⟩ := hn4
    rw [← hxa2, ← hyb2] at hlat2
    have := (latok_digits_iff hx hy).mp hlat2
    omega

theorem mesh1_south_char {m n : Code} (hm : validate_mesh1_code m = rok ())
    (h : Mesh1.south_mesh m = rok n) :
    ∃ v c d, 31 ≤ v ∧ v ≤ 68 ∧ LonOk c d ∧
      m = fmt2 v ++ [c, d] ∧ n = fmt2 (v - 1) ++ [c, d] := by
  obtain ⟨a, b, c, d, hm4, hlat, hlon⟩ := valid1_iff.mp hm
  subst hm4
  obtain ⟨hs1, hs2⟩ := code4_slices hlat.1 hlat.2.1 hlon.1 hlon.2.1
  unfold Mesh1.south_mesh at h
  rw [hs1] at h
  simp only [ropt_some, rbind_rok] at h
  rw [rbind_eq_rok] at h
  obtain ⟨v, hv, h⟩ := h
  rw [ropt_eq_rok] at hv
  rcases parseU8_pair_inv hv with ⟨hplus, -, -⟩ | ⟨ha, hb, hveq⟩
  · subst hplus
    exact absurd hlat latok_plus
  · have hrange := (latok_digits_iff ha hb).mp hlat
    rw [rbind_eq_rok] at h
    obtain ⟨v1, hv1, h⟩ := h
    rw [ropt_eq_rok] at hv1
    unfold u8Sub at hv1
    rw [if_pos (by omega)] at hv1
    simp only [Option.some.injEq] at hv1
    subst hv1
    rw [hs2] at h
    simp only [ropt_some, rbind_rok] at h
    rw [new1_rok] at h
    obtain ⟨hvalidn, hn⟩ := h
    have hfm : fmt2 v = [a, b] := by
      rw [hveq]
      exact fmt2_of_digits ha hb
    refine ⟨v, c, d, ?_, by omega, hlon, (by rw [hfm]; rfl), hn⟩
    obtain ⟨x, y, hf2, hx, hy, hval2⟩ := fmt2_shape (u := v - 1) (by omega)
    obtain ⟨a2, b2, c2, d2, hn4, hlat2, -⟩ := valid1_iff.mp hvalidn
    rw [hf2] at hn4
    simp only [List.cons_append, List.nil_append, List.cons.injEq] at hn4
    obtain ⟨hxa2, hyb2, -, -⟩ := hn4
    rw [← hxa2, ← hyb2] at hlat2
    have := (latok_digits_iff hx hy).mp hlat2
    omega

theorem mesh1_east_char {m n : Code} (hm : validate_mesh1_code m = rok ())
    (h : Mesh1.east_mesh m = rok n) :
    ∃ w a b, 22 ≤ w ∧ w + 1 ≤ 53 ∧ LatOk a b ∧
      m = [a, b] ++ fmt2 w ∧ n = [a, b] ++ fmt2 (w + 1) := by
  obtain ⟨a, b, c, d, hm4, hlat, hlon⟩ := valid1_iff.mp hm
  subst hm4
  obtain ⟨hs1, hs2⟩ := code4_slices hlat.1 hlat.2.1 hlon.1 hlon.2.1
  unfold Mesh1.east_mesh at h
  rw [hs2] at h
  simp only [ropt_some, rbind_rok] at h
  rw [rbind_eq_rok] at h
  obtain ⟨w, hw, h⟩ := h
  rw [ropt_eq_rok] at hw
  rcases parseU8_pair_inv hw with ⟨hplus, -, -⟩ | ⟨hc, hd, hweq⟩
  · subst hplus
    exact absurd hlon lonok_plus
  · have hrange := (lonok_digits_iff hc hd).mp hlon
    rw [rbind_eq_rok] at h
    obtain ⟨w1, hw1, h⟩ := h
    rw [ropt_eq_rok] at hw1
    unfold u8Add at hw1
    rw [if_pos (by omega)] at hw1
    simp only [Option.some.injEq] at hw1
    subst hw1
    rw [hs1] at h
    simp only [ropt_some, rbind_rok] at h
    rw [new1_rok] at h
    obtain ⟨hvalidn, hn⟩ := h
    have hfm : fmt2 w = [c, d] := by
      rw [hweq]
      exact fmt2_of_digits hc hd
    refine ⟨w, a, b, by omega, ?_, hlat, (by rw [hfm]; rfl), hn⟩
    obtain ⟨x, y, hf2, hx, hy, hval2⟩ := fmt2_shape (u := w + 1) (by omega)
    obtain ⟨a2, b2, c2, d2, hn4, -, hlon2⟩ := valid1_iff.mp hvalidn
    rw [hf2] at hn4
    simp only [List.cons_append, List.nil_append, List.cons.injEq] at hn4
    obtain ⟨-, -, hxc2, hyd2, -⟩ := hn4
    rw [← hxc2, ← hyd2] at hlon2
    have := (lonok_digits_iff hx hy).mp hlon2
    omega

theorem mesh1_west_char {m n : Code} (hm : validate_mesh1_code m = rok ())
    (h : Mesh1.west_mesh m = rok n) :
    ∃ w a b, 23 ≤ w ∧ w ≤ 53 ∧ LatOk a b ∧
      m = [a, b] ++ fmt2 w ∧ n = [a, b] ++ fmt2 (w - 1) := by
  obtain ⟨a, b, c, d, hm4, hlat, hlon⟩ := valid1_iff.mp hm
  subst hm4
  obtain ⟨hs1, hs2⟩ := code4_slices hlat.1 hlat.2.1 hlon.1 hlon.2.1
  unfold Mesh1.west_mesh at h
  rw [hs2] at h
  simp only [ropt_some, rbind_rok] at h
  rw [rbind_eq_rok] at h
  obtain ⟨w, hw, h⟩ := h
  rw [ropt_eq_rok] at hw
  rcases parseU8_pair_inv hw with ⟨hplus, -, -⟩ | ⟨hc, hd, hweq⟩
  · subst hplus
    exact absurd hlon lonok_plus
  · have hrange := (lonok_digits_iff hc hd).mp hlon
    rw [rbind_eq_rok] at h
    obtain ⟨w1, hw1, h⟩ := h
    rw [ropt_eq_rok] at hw1
    unfold u8Sub at hw1
    rw [if_pos (by omega)] at hw1
    simp only [Option.some.injEq] at hw1
    subst hw1
    rw [hs1] at h
    simp only [ropt_some, rbind_rok] at h
    rw [new1_rok] at h
    obtain ⟨hvalidn, hn⟩ := h
    have hfm : fmt2 w = [c, d] := by
      rw [hweq]
      exact fmt2_of_digits hc hd
    refine ⟨w, a, b, ?_, by omega, hlat, (by rw [hfm]; rfl), hn⟩
    obtain ⟨x, y, hf2, hx, hy, hval2⟩ := fmt2_shape (u := w - 1) (by omega)
    obtain ⟨a2, b2, c2, d2, hn4, -, hlon2⟩ := valid1_iff.mp hvalidn
    rw [hf2] at hn4
    simp only [List.cons_append, List.nil_append, List.cons.injEq] at hn4
    obtain ⟨-, -, hxc2, hyd2, -⟩ := hn4
    rw [← hxc2, ← hyd2] at hlon2
    have := (lonok_digits_iff hx hy).mp hlon2
    omega

theorem lonok_digits {c d : Char} (h : LonOk c d) (hc : isDigitC c = true)
    (hd : isDigitC d = true) : True := trivial

theorem mesh1_north_comp {v : Nat} {c d : Char} (h1 : 30 ≤ v) (h2 : v + 1 ≤ 68)
    (hlon : LonOk c d) :
    Mesh1.north_mesh (fmt2 v ++ [c, d]) = rok (fmt2 (v + 1) ++ [c, d]) := by
  obtain ⟨a, b, hf, ha, hb, hv⟩ := fmt2_shape (u := v) (by omega)
  rw [hf]
  obtain ⟨hs1, hs2⟩ :=
    code4_slices (cbytes_digit ha) (cbytes_digit hb) hlon.1 hlon.2.1
  unfold Mesh1.north_mesh
  rw [show ([a, b] ++ [c, d] : Code) = [a, b, c, d] from rfl, hs1]
  simp only [ropt_some, rbind_rok]
  rw [show parseU8 [a, b] = some v from by rw [← hf]; exact parseU8_fmt2 (by omega)]
  simp only [ropt_some, rbind_rok]
  unfold u8Add
  rw [if_pos (by omega)]
  simp only [ropt_some, rbind_rok]
  rw [hs2]
  simp only [ropt_some, rbind_rok]
  rw [new1_rok]
  exact ⟨valid1_parts (by omega) (by omega) hlon, rfl⟩

theorem mesh1_south_comp {v : Nat} {c d : Char} (h1 : 31 ≤ v) (h2 : v ≤ 68)
    (hlon : LonOk c d) :
    Mesh1.south_mesh (fmt2 v ++ [c, d]) = rok (fmt2 (v - 1) ++ [c, d]) := by
  obtain ⟨a, b, hf, ha, hb, hv⟩ := fmt2_shape (u := v) (by omega)
  rw [hf]
  obtain ⟨hs1, hs2⟩ :=
    code4_slices (cbytes_digit ha) (cbytes_digit hb) hlon.1 hlon.2.1
  unfold Mesh1.south_mesh
  rw [show ([a, b] ++ [c, d] : Code) = [a, b, c, d] from rfl, hs1]
  simp only [ropt_some, rbind_rok]
  rw [show parseU8 [a, b] = some v from by rw [← hf]; exact parseU8_fmt2 (by omega)]
  simp only [ropt_some, rbind_rok]
  unfold u8Sub
  rw [if_pos (by omega)]
  simp only [ropt_some, rbind_rok]
  rw [hs2]
  simp only [ropt_some, rbind_rok]
  rw [new1_rok]
  exact ⟨valid1_parts (by omega) (by omega) hlon, rfl⟩

theorem mesh1_east_comp {w : Nat} {a b : Char} (h1 : 22 ≤ w) (h2 : w + 1 ≤ 53)
    (hlat : LatOk a b) :
    Mesh1.east_mesh ([a, b] ++ fmt2 w) = rok ([a, b] ++ fmt2 (w + 1)) := by
  obtain ⟨c, d, hf, hc, hd, hv⟩ := fmt2_shape (u := w) (by omega)
  rw [hf]
  obtain ⟨hs1, hs2⟩ :=
    code4_slices hlat.1 hlat.2.1 (cbytes_digit hc) (cbytes_digit hd)
  unfold Mesh1.east_mesh
  rw [show ([a, b] ++ [c, d] : Code) = [a, b, c, d] from rfl, hs2]
  simp only [ropt_some, rbind_rok]
  rw [show parseU8 [c, d] = some w from by rw [← hf]; exact parseU8_fmt2 (by omega)]
  simp only [ropt_some, rbind_rok]
  unfold u8Add
  rw [if_pos (by omega)]
  simp only [ropt_some, rbind_rok]
  rw [hs1]
  simp only [ropt_some, rbind_rok]
  rw [new1_rok]
  refine ⟨?_, rfl⟩
  obtain ⟨x, y, hf2, hx, hy, hv2⟩ := fmt2_shape (u := w + 1) (by omega)
  rw [hf2]
  exact valid1_iff.mpr ⟨a, b, x, y, rfl, hlat,
    (lonok_digits_iff hx hy).mpr (by omega)⟩

theorem mesh1_west_comp {w : Nat} {a b : Char} (h1 : 23 ≤ w) (h2 : w ≤ 53)
    (hlat : LatOk a b) :
    Mesh1.west_mesh ([a, b] ++ fmt2 w) = rok ([a, b] ++ fmt2 (w - 1)) := by
  obtain ⟨c, d, hf, hc, hd, hv⟩ := fmt2_shape (u := w) (by omega)
  rw [hf]
  obtain ⟨hs1, hs2⟩ :=
    code4_slices hlat.1 hlat.2.1 (cbytes_digit hc) (cbytes_digit hd)
  unfold Mesh1.west_mesh
  rw [show ([a, b] ++ [c, d] : Code) = [a, b, c, d] from rfl, hs2]
  simp only [ropt_some, rbind_rok]
  rw [show parseU8 [c, d] = some w from by rw [← hf]; exact parseU8_fmt2 (by omega)]
  simp only [ropt_some, rbind_rok]
  unfold u8Sub
  rw [if_pos (by omega)]
  simp only [ropt_some, rbind_rok]
  rw [hs1]
  simp only [ropt_some, rbind_rok]
  rw [new1_rok]
  refine ⟨?_, rfl⟩
  obtain ⟨x, y, hf2, hx, hy, hv2⟩ := fmt2_shape (u := w - 1) (by omega)
  rw [hf2]
  exact valid1_iff.mpr ⟨a, b, x, y, rfl, hlat,
    (lonok_digits_iff hx hy).mpr (by omega)⟩

theorem mesh1_inv_ns {m n : Code} (hm : validate_mesh1_code m = rok ())
    (h : Mesh1.north_mesh m = rok n) : Mesh1.south_mesh n = rok m := by
  obtain ⟨v, c, d, h30, h68, hlon, hmv, hnv⟩ := mesh1_north_char hm h
  rw [hnv, mesh1_south_comp (by omega) (by omega) hlon]
  rw [show v + 1 - 1 = v from by omega, ← hmv]

theorem mesh1_commute_ne {m n e : Code} (hm : validate_mesh1_code m = rok ())
    (hn : Mesh1.north_mesh m = rok n) (he : Mesh1.east_mesh m = rok e) :
    ∃ dd, Mesh1.east_mesh n = rok dd ∧ Mesh1.north_mesh e = rok dd := by
  obtain ⟨v, c, d, h30, h68, hlon, hmv, hnv⟩ := mesh1_north_char hm hn
  obtain ⟨w, a, b, h22, h53, hlat, hmw, hev⟩ := mesh1_east_char hm he
  obtain ⟨x, y, hf, hx, hy, hvxy⟩ := fmt2_shape (u := v) (by omega)
  rw [hf] at hmv
  have hcomp : [a, b] ++ fmt2 w = [x, y] ++ [c, d] := by rw [← hmv, ← hmw]
  obtain ⟨c2, d2, hfw, hc2, hd2, hw2⟩ := fmt2_shape (u := w) (by omega)
  rw [hfw] at hcomp
  simp only [List.cons_append, List.nil_append, List.cons.injEq] at hcomp
  obtain ⟨hax, hby, hc2c, hd2d, -⟩ := hcomp
  -- n = fmt2 (v+1) ++ [c,d] = fmt2 (v+1) ++ fmt2 w
  have hn2 : n = fmt2 (v + 1) ++ fmt2 w := by
    rw [hnv, hfw, hc2c, hd2d]
  -- e = [a,b] ++ fmt2 (w+1) = fmt2 v ++ fmt2 (w+1)
  have he2 : e = fmt2 v ++ fmt2 (w + 1) := by
    rw [hev, hf, hax, hby]
  obtain ⟨x2, y2, hf1, hx2, hy2, hv1⟩ := fmt2_shape (u := v + 1) (by omega)
  refine ⟨fmt2 (v + 1) ++ fmt2 (w + 1), ?_, ?_⟩
  · rw [hn2, hf1]
    exact mesh1_east_comp h22 h53 ((latok_digits_iff hx2 hy2).mpr (by omega))
  · rw [he2]
    obtain ⟨c3, d3, hfw1, hc3, hd3, hw1⟩ := fmt2_shape (u := w + 1) (by omega)
    rw [hfw1]
    exact mesh1_north_comp h30 h68 ((lonok_digits_iff hc3 hd3).mpr (by omega))

/-! ### Structure of valid level-2 codes -/

theorem valid1_shape {p : Code} (h : validate_mesh1_code p = rok ()) :
    blen p = 4 ∧ p.length = 4 := by
  obtain ⟨a, b, c, d, hp, hlat, hlon⟩ := valid1_iff.mp h
  subst hp
  refine ⟨?_, rfl⟩
  simp [hlat.1, hlat.2.1, hlon.1, hlon.2.1]

theorem range_digit {a lo hi : Char} (hlo : lo ≤ a) (hhi : a ≤ hi)
    (h48 : 48 ≤ lo.toNat) (h57 : hi.toNat ≤ 57) : isDigitC a = true := by
  rw [isDigitC_iff]
  have h1 : lo.toNat ≤ a.toNat := hlo
  have h2 : a.toNat ≤ hi.toNat := hhi
  omega

theorem toDigit10_digit {a : Char} (h : isDigitC a = true) :
    toDigit10 a = some (digitVal a) := by
  unfold toDigit10
  rw [if_pos h]

theorem get_append_k {p l : Code} {k : Nat} (h : p.length = k) :
    (p ++ l).get? k = l.get? 0 := by
  rw [List.get?_eq_getElem?, List.getElem?_append_right (by omega)]
  simp [h]

theorem get_append_k1 {p l : Code} {k : Nat} (h : p.length = k) :
    (p ++ l).get? (k + 1) = l.get? 1 := by
  rw [List.get?_eq_getElem?, List.getElem?_append_right (by omega)]
  simp [h]

theorem valid2_iff {m : Code} :
    validate_mesh2_code m = rok () ↔
      ∃ p a b, m = p ++ [a, b] ∧ validate_mesh1_code p = rok () ∧
        '0' ≤ a ∧ a ≤ '7' ∧ '0' ≤ b ∧ b ≤ '7' := by
  constructor
  · intro h
    unfold validate_mesh2_code at h
    split at h
    · exact absurd h rerr_ne_rok
    · rename_i hlen
      simp only [ne_eq, not_not] at hlen
      rw [rbind_eq_rok] at h
      obtain ⟨p, hp, h⟩ := h
      rw [ropt_eq_rok, bslice_zero] at hp
      rw [rbind_eq_rok] at h
      obtain ⟨u, hu, h⟩ := h
      cases u
      rw [rbind_eq_rok] at h
      obtain ⟨a, ha, h⟩ := h
      rw [ropt_eq_rok] at ha
      split at h
      · exact absurd h rerr_ne_rok
      · rename_i hra
        push_neg at hra
        rw [rbind_eq_rok] at h
        obtain ⟨b, hb, h⟩ := h
        rw [ropt_eq_rok] at hb
        split at h
        · exact absurd h rerr_ne_rok
        · rename_i hrb
          push_neg at hrb
          obtain ⟨r, hm, hblp⟩ := btake_eq hp
          obtain ⟨hbl4, hlen4⟩ := valid1_shape hu
          rw [hm, get_append_k hlen4] at ha
          rw [hm, get_append_k1 hlen4] at hb
          match r, ha with
          | a' :: r', rfl =>
            match r', hb with
            | b' :: r'', rfl =>
              have hca : cbytes a' = 1 := by
                have h1 : a'.toNat ≤ ('7' : Char).toNat := hra.2
                exact cbytes_of_lt128 (by
                  have : ('7' : Char).toNat = 55 := by decide
                  omega)
              have hcb : cbytes b' = 1 := by
                have h1 : b'.toNat ≤ ('7' : Char).toNat := hrb.2
                exact cbytes_of_lt128 (by
                  have : ('7' : Char).toNat = 55 := by decide
                  omega)
              have hr'' : r'' = [] := by
                apply blen_eq_zero
                rw [hm] at hlen
                simp [hca, hcb, hbl4] at hlen
                omega
              subst hr''
              exact ⟨p, a', b', hm, hu, hra.1, hra.2, hrb.1, hrb.2⟩
  · rintro ⟨p, a, b, hm, hp, ha0, ha7, hb0, hb7⟩
    subst hm
    obtain ⟨hbl4, hlen4⟩ := valid1_shape hp
    have hca : cbytes a = 1 := by
      have h1 : a.toNat ≤ ('7' : Char).toNat := ha7
      exact cbytes_of_lt128 (by
        have : ('7' : Char).toNat = 55 := by decide
        omega)
    have hcb : cbytes b = 1 := by
      have h1 : b.toNat ≤ ('7' : Char).toNat := hb7
      exact cbytes_of_lt128 (by
        have : ('7' : Char).toNat = 55 := by decide
        omega)
    unfold validate_mesh2_code
    rw [if_neg (by simp [hca, hcb, hbl4])]
    have hs : bslice (p ++ [a, b]) 0 4 = some p := by
      rw [bslice_zero]
      have := btake_append p [a, b]
      rw [hbl4] at this
      exact this
    rw [hs]
    simp only [ropt_some, rbind_rok]
    rw [hp]
    simp only [rbind_rok]
    rw [get_append_k hlen4]
    simp only [List.get?_cons_zero, ropt_some, rbind_rok]
    rw [if_neg (by push_neg; exact ⟨ha0, ha7⟩)]
    rw [get_append_k1 hlen4]
    simp only [List.get?_cons_succ, List.get?_cons_zero, ropt_some, rbind_rok]
    rw [if_neg (by push_neg; exact ⟨hb0, hb7⟩)]

theorem valid2_shape {p : Code} (h : validate_mesh2_code p = rok ()) :
    blen p = 6 ∧ p.length = 6 := by
  obtain ⟨q, a, b, hp, hq, ha0, ha7, hb0, hb7⟩ := valid2_iff.mp h
  subst hp
  obtain ⟨hbl4, hlen4⟩ := valid1_shape hq
  have hca : cbytes a = 1 := by
    have h1 : a.toNat ≤ ('7' : Char).toNat := ha7
    exact cbytes_of_lt128 (by
      have : ('7' : Char).toNat = 55 := by decide
      omega)
  have hcb : cbytes b = 1 := by
    have h1 : b.toNat ≤ ('7' : Char).toNat := hb7
    exact cbytes_of_lt128 (by
      have : ('7' : Char).toNat = 55 := by decide
      omega)
  constructor
  · simp [hca, hcb, hbl4]
  · simp [hlen4]

/-! ### Level-2 moves -/

theorem digit07 {a : Char} (h0 : '0' ≤ a) (h7 : a ≤ '7') :
    isDigitC a = true ∧ digitVal a ≤ 7 := by
  have h1 : (48 : Nat) ≤ a.toNat := h0
  have h2 : a.toNat ≤ ('7' : Char).toNat := h7
  have h55 : ('7' : Char).toNat = 55 := by decide
  constructor
  · rw [isDigitC_iff]
    omega
  · unfold digitVal
    omega

theorem digit_range07 {a : Char} (ha : isDigitC a = true)
    (h7 : digitVal a ≤ 7) : '0' ≤ a ∧ a ≤ '7' := by
  have := digit_toNat ha
  constructor
  · show (48 : Nat) ≤ a.toNat
    omega
  · show a.toNat ≤ ('7' : Char).toNat
    have h55 : ('7' : Char).toNat = 55 := by decide
    omega

theorem fmtU8_lt10 {n : Nat} (h : n < 10) : fmtU8 n = [dChar n] := by
  unfold fmtU8
  rw [if_pos h]

theorem bslice_pre {p : Code} (t : Code) {k : Nat} (h : blen p = k) :
    bslice (p ++ t) 0 k = some p := by
  rw [bslice_zero, ← h]
  exact btake_append p t

theorem new2_rok {c n : Code} :
    Mesh2.new c = rok n ↔ validate_mesh2_code c = rok () ∧ n = c := by
  unfold Mesh2.new
  rw [rbind_eq_rok]
  constructor
  · rintro ⟨u, hu, hn⟩
    cases u
    exact ⟨hu, (rok_inj.mp hn).symm⟩
  · rintro ⟨hv, rfl⟩
    exact ⟨(), hv, rfl⟩

theorem mesh1_of_append {p : Code} (t : Code)
    (hp : validate_mesh1_code p = rok ()) : Mesh2.mesh1 (p ++ t) = some p := by
  unfold Mesh2.mesh1
  rw [bslice_pre t (valid1_shape hp).1]
  rw [Option.some_bind]
  rw [new1_rok.mpr ⟨hp, rfl⟩]
  rfl

theorem mesh1_north_valid {m n : Code} (h : Mesh1.north_mesh m = rok n) :
    validate_mesh1_code n = rok () := by
  unfold Mesh1.north_mesh at h
  rw [rbind_eq_rok] at h
  obtain ⟨x1, -, h1⟩ := h
  rw [rbind_eq_rok] at h1
  obtain ⟨x2, -, h2⟩ := h1
  rw [rbind_eq_rok] at h2
  obtain ⟨x3, -, h3⟩ := h2
  rw [rbind_eq_rok] at h3
  obtain ⟨x4, -, h4⟩ := h3
  obtain ⟨hv, rfl⟩ := new1_rok.mp h4
  exact hv

theorem mesh1_south_valid {m n : Code} (h : Mesh1.south_mesh m = rok n) :
    validate_mesh1_code n = rok () := by
  unfold Mesh1.south_mesh at h
  rw [rbind_eq_rok] at h
  obtain ⟨x1, -, h1⟩ := h
  rw [rbind_eq_rok] at h1
  obtain ⟨x2, -, h2⟩ := h1
  rw [rbind_eq_rok] at h2
  obtain ⟨x3, -, h3⟩ := h2
  rw [rbind_eq_rok] at h3
  obtain ⟨x4, -, h4⟩ := h3
  obtain ⟨hv, rfl⟩ := new1_rok.mp h4
  exact hv

theorem mesh1_east_valid {m n : Code} (h : Mesh1.east_mesh m = rok n) :
    validate_mesh1_code n = rok () := by
  unfold Mesh1.east_mesh at h
  rw [rbind_eq_rok] at h
  obtain ⟨x1, -, h1⟩ := h
  rw [rbind_eq_rok] at h1
  obtain ⟨x2, -, h2⟩ := h1
  rw [rbind_eq_rok] at h2
  obtain ⟨x3, -, h3⟩ := h2
  rw [rbind_eq_rok] at h3
  obtain ⟨x4, -, h4⟩ := h3
  obtain ⟨hv, rfl⟩ := new1_rok.mp h4
  exact hv

theorem mesh1_west_valid {m n : Code} (h : Mesh1.west_mesh m = rok n) :
    validate_mesh1_code n = rok () := by
  unfold Mesh1.west_mesh at h
  rw [rbind_eq_rok] at h
  obtain ⟨x1, -, h1⟩ := h
  rw [rbind_eq_rok] at h1
  obtain ⟨x2, -, h2⟩ := h1
  rw [rbind_eq_rok] at h2
  obtain ⟨x3, -, h3⟩ := h2
  rw [rbind_eq_rok] at h3
  obtain ⟨x4, -, h4⟩ := h3
  obtain ⟨hv, rfl⟩ := new1_rok.mp h4
  exact hv

theorem valid2_parts {p : Code} {a b : Char}
    (hp : validate_mesh1_code p = rok ()) (ha : isDigitC a = true)
    (hva : digitVal a ≤ 7) (hb : isDigitC b = true) (hvb : digitVal b ≤ 7) :
    validate_mesh2_code (p ++ [a, b]) = rok () := by
  obtain ⟨ha0, ha7⟩ := digit_range07 ha hva
  obtain ⟨hb0, hb7⟩ := digit_range07 hb hvb
  exact valid2_iff.mpr ⟨p, a, b, rfl, hp, ha0, ha7, hb0, hb7⟩

theorem mesh2_north_comp_nc {p : Code} {a b : Char}
    (hp : validate_mesh1_code p = rok ()) (ha : isDigitC a = true)
    (hva : digitVal a < 7) (hb : isDigitC b = true) (hvb : digitVal b ≤ 7) :
    Mesh2.north_mesh (p ++ [a, b]) = rok (p ++ [dChar (digitVal a + 1), b]) := by
  obtain ⟨hbl4, hlen4⟩ := valid1_shape hp
  unfold Mesh2.north_mesh
  rw [get_append_k hlen4]
  simp only [List.get?_cons_zero, Option.some_bind, toDigit10_digit ha,
    ropt_some, rbind_rok]
  rw [if_neg (by omega)]
  rw [bslice_pre [a, b] hbl4]
  simp only [ropt_some, rbind_rok]
  rw [get_append_k1 hlen4]
  simp only [List.get?_cons_succ, List.get?_cons_zero, ropt_some, rbind_rok]
  rw [fmtU8_lt10 (by omega)]
  rw [show (p ++ [dChar (digitVal a + 1)] ++ [b] : Code) =
    p ++ [dChar (digitVal a + 1), b] from by simp]
  rw [new2_rok]
  refine ⟨valid2_parts hp (isDigitC_dChar (by omega)) ?_ hb hvb, rfl⟩
  rw [digitVal_dChar (by omega)]
  omega

theorem mesh2_north_comp_c {p p2 : Code} {b : Char}
    (hp : validate_mesh1_code p = rok ())
    (hp2 : Mesh1.north_mesh p = rok p2) (hb : isDigitC b = true)
    (hvb : digitVal b ≤ 7) :
    Mesh2.north_mesh (p ++ ['7', b]) = rok (p2 ++ ['0', b]) := by
  obtain ⟨hbl4, hlen4⟩ := valid1_shape hp
  unfold Mesh2.north_mesh
  rw [get_append_k hlen4]
  simp only [List.get?_cons_zero, Option.some_bind,
    toDigit10_digit (show isDigitC '7' = true from by decide), ropt_some,
    rbind_rok]
  rw [if_pos (by decide)]
  rw [mesh1_of_append _ hp]
  simp only [ropt_some, rbind_rok]
  rw [hp2]
  simp only [rbind_rok]
  rw [get_append_k1 hlen4]
  simp only [List.get?_cons_succ, List.get?_cons_zero, ropt_some, rbind_rok]
  rw [new2_rok]
  refine ⟨valid2_parts (mesh1_north_valid hp2)
    (show isDigitC '0' = true from by decide) (by decide) hb hvb, rfl⟩

theorem mesh2_south_comp_nc {p : Code} {a b : Char}
    (hp : validate_mesh1_code p = rok ()) (ha : isDigitC a = true)
    (hva : 1 ≤ digitVal a) (hva7 : digitVal a ≤ 7) (hb : isDigitC b = true)
    (hvb : digitVal b ≤ 7) :
    Mesh2.south_mesh (p ++ [a, b]) = rok (p ++ [dChar (digitVal a - 1), b]) := by
  obtain ⟨hbl4, hlen4⟩ := valid1_shape hp
  unfold Mesh2.south_mesh
  rw [get_append_k hlen4]
  simp only [List.get?_cons_zero, Option.some_bind, toDigit10_digit ha,
    ropt_some, rbind_rok]
  rw [if_neg (by omega)]
  rw [bslice_pre [a, b] hbl4]
  simp only [ropt_some, rbind_rok]
  rw [get_append_k1 hlen4]
  simp only [List.get?_cons_succ, List.get?_cons_zero, ropt_some, rbind_rok]
  rw [fmtU8_lt10 (by omega)]
  rw [show (p ++ [dChar (digitVal a - 1)] ++ [b] : Code) =
    p ++ [dChar (digitVal a - 1), b] from by simp]
  rw [new2_rok]
  refine ⟨valid2_parts hp (isDigitC_dChar (by omega)) ?_ hb hvb, rfl⟩
  rw [digitVal_dChar (by omega)]
  omega

theorem mesh2_south_comp_c {p p2 : Code} {b : Char}
    (hp : validate_mesh1_code p = rok ())
    (hp2 : Mesh1.south_mesh p = rok p2) (hb : isDigitC b = true)
    (hvb : digitVal b ≤ 7) :
    Mesh2.south_mesh (p ++ ['0', b]) = rok (p2 ++ ['7', b]) := by
  obtain ⟨hbl4, hlen4⟩ := valid1_shape hp
  unfold Mesh2.south_mesh
  rw [get_append_k hlen4]
  simp only [List.get?_cons_zero, Option.some_bind,
    toDigit10_digit (show isDigitC '0' = true from by decide), ropt_some,
    rbind_rok]
  rw [if_pos (by decide)]
  rw [mesh1_of_append _ hp]
  simp only [ropt_some, rbind_rok]
  rw [hp2]
  simp only [rbind_rok]
  rw [get_append_k1 hlen4]
  simp only [List.get?_cons_succ, List.get?_cons_zero, ropt_some, rbind_rok]
  rw [new2_rok]
  refine ⟨valid2_parts (mesh1_south_valid hp2)
    (show isDigitC '7' = true from by decide) (by decide) hb hvb, rfl⟩

theorem mesh2_east_comp_nc {p : Code} {a b : Char}
    (hp : validate_mesh1_code p = rok ()) (ha : isDigitC a = true)
    (hva : digitVal a ≤ 7) (hb : isDigitC b = true) (hvb : digitVal b < 7) :
    Mesh2.east_mesh (p ++ [a, b]) = rok (p ++ [a, dChar (digitVal b + 1)]) := by
  obtain ⟨hbl4, hlen4⟩ := valid1_shape hp
  unfold Mesh2.east_mesh
  rw [get_append_k1 hlen4]
  simp only [List.get?_cons_succ, List.get?_cons_zero, Option.some_bind,
    toDigit10_digit hb, ropt_some, rbind_rok]
  rw [if_neg (by omega)]
  have hsp : (p ++ [a, b] : Code) = (p ++ [a]) ++ [b] := by simp
  have hbl5 : blen (p ++ [a]) = 5 := by
    simp [hbl4, cbytes_digit ha]
  rw [hsp, bslice_pre [b] hbl5]
  simp only [ropt_some, rbind_rok]
  rw [fmtU8_lt10 (by omega)]
  rw [show ((p ++ [a]) ++ [dChar (digitVal b + 1)] : Code) =
    p ++ [a, dChar (digitVal b + 1)] from by simp]
  rw [new2_rok]
  refine ⟨valid2_parts hp ha hva (isDigitC_dChar (by omega)) ?_, rfl⟩
  rw [digitVal_dChar (by omega)]
  omega

theorem mesh2_east_comp_c {p p2 : Code} {a : Char}
    (hp : validate_mesh1_code p = rok ())
    (hp2 : Mesh1.east_mesh p = rok p2) (ha : isDigitC a = true)
    (hva : digitVal a ≤ 7) :
    Mesh2.east_mesh (p ++ [a, '7']) = rok (p2 ++ [a, '0']) := by
  obtain ⟨hbl4, hlen4⟩ := valid1_shape hp
  unfold Mesh2.east_mesh
  rw [get_append_k1 hlen4]
  simp only [List.get?_cons_succ, List.get?_cons_zero, Option.some_bind,
    toDigit10_digit (show isDigitC '7' = true from by decide), ropt_some,
    rbind_rok]
  rw [if_pos (by decide)]
  rw [mesh1_of_append _ hp]
  simp only [ropt_some, rbind_rok]
  rw [hp2]
  simp only [rbind_rok]
  rw [get_append_k hlen4]
  simp only [List.get?_cons_zero, ropt_some, rbind_rok]
  rw [new2_rok]
  refine ⟨valid2_parts (mesh1_east_valid hp2) ha hva
    (show isDigitC '0' = true from by decide) (by decide), rfl⟩

theorem mesh2_west_comp_nc {p : Code} {a b : Char}
    (hp : validate_mesh1_code p = rok ()) (ha : isDigitC a = true)
    (hva : digitVal a ≤ 7) (hb : isDigitC b = true) (hvb : 1 ≤ digitVal b)
    (hvb7 : digitVal b ≤ 7) :
    Mesh2.west_mesh (p ++ [a, b]) = rok (p ++ [a, dChar (digitVal b - 1)]) := by
  obtain ⟨hbl4, hlen4⟩ := valid1_shape hp
  unfold Mesh2.west_mesh
  rw [get_append_k1 hlen4]
  simp only [List.get?_cons_succ, List.get?_cons_zero, Option.some_bind,
    toDigit10_digit hb, ropt_some, rbind_rok]
  rw [if_neg (by omega)]
  have hsp : (p ++ [a, b] : Code) = (p ++ [a]) ++ [b] := by simp
  have hbl5 : blen (p ++ [a]) = 5 := by
    simp [hbl4, cbytes_digit ha]
  rw [hsp, bslice_pre [b] hbl5]
  simp only [ropt_some, rbind_rok]
  rw [fmtU8_lt10 (by omega)]
  rw [show ((p ++ [a]) ++ [dChar (digitVal b - 1)] : Code) =
    p ++ [a, dChar (digitVal b - 1)] from by simp]
  rw [new2_rok]
  refine ⟨valid2_parts hp ha hva (isDigitC_dChar (by omega)) ?_, rfl⟩
  rw [digitVal_dChar (by omega)]
  omega

theorem mesh2_west_comp_c {p p2 : Code} {a : Char}
    (hp : validate_mesh1_code p = rok ())
    (hp2 : Mesh1.west_mesh p = rok p2) (ha : isDigitC a = true)
    (hva : digitVal a ≤ 7) :
    Mesh2.west_mesh (p ++ [a, '0']) = rok (p2 ++ [a, '7']) := by
  obtain ⟨hbl4, hlen4⟩ := valid1_shape hp
  unfold Mesh2.west_mesh
  rw [get_append_k1 hlen4]
  simp only [List.get?_cons_succ, List.get?_cons_zero, Option.some_bind,
    toDigit10_digit (show isDigitC '0' = true from by decide), ropt_some,
    rbind_rok]
  rw [if_pos (by decide)]
  rw [mesh1_of_append _ hp]
  simp only [ropt_some, rbind_rok]
  rw [hp2]
  simp only [rbind_rok]
  rw [get_append_k hlen4]
  simp only [List.get?_cons_zero, ropt_some, rbind_rok]
  rw [new2_rok]
  refine ⟨valid2_parts (mesh1_west_valid hp2) ha hva
    (show isDigitC '7' = true from by decide) (by decide), rfl⟩

theorem append2_inj {p q : Code} {a b a2 b2 : Char} (hl : p.length = q.length)
    (h : p ++ [a, b] = q ++ [a2, b2]) : p = q ∧ a = a2 ∧ b = b2 := by
  obtain ⟨h1, h2⟩ := List.append_inj h hl
  simp only [List.cons.injEq] at h2
  exact ⟨h1, h2.1, h2.2.1⟩

theorem mesh2_north_char {m n : Code} (hm : validate_mesh2_code m = rok ())
    (h : Mesh2.north_mesh m = rok n) :
    ∃ p a b, m = p ++ [a, b] ∧ validate_mesh1_code p = rok () ∧
      isDigitC a = true ∧ isDigitC b = true ∧ digitVal a ≤ 7 ∧
      digitVal b ≤ 7 ∧
      ((digitVal a < 7 ∧ n = p ++ [dChar (digitVal a + 1), b]) ∨
        (digitVal a = 7 ∧ ∃ p2, Mesh1.north_mesh p = rok p2 ∧
          n = p2 ++ ['0', b])) := by
  obtain ⟨p, a, b, hm2, hp, ha0, ha7, hb0, hb7⟩ := valid2_iff.mp hm
  subst hm2
  obtain ⟨ha, hva⟩ := digit07 ha0 ha7
  obtain ⟨hb, hvb⟩ := digit07 hb0 hb7
  obtain ⟨hbl4, hlen4⟩ := valid1_shape hp
  refine ⟨p, a, b, rfl, hp, ha, hb, hva, hvb, ?_⟩
  by_cases h7 : digitVal a = 7
  · right
    refine ⟨h7, ?_⟩
    unfold Mesh2.north_mesh at h
    rw [get_append_k hlen4] at h
    simp only [List.get?_cons_zero, Option.some_bind, toDigit10_digit ha,
      ropt_some, rbind_rok] at h
    rw [if_pos h7, mesh1_of_append _ hp] at h
    simp only [ropt_some, rbind_rok] at h
    rw [rbind_eq_rok] at h
    obtain ⟨p2, hp2, h⟩ := h
    rw [get_append_k1 hlen4] at h
    simp only [List.get?_cons_succ, List.get?_cons_zero, ropt_some,
      rbind_rok] at h
    obtain ⟨-, hn⟩ := new2_rok.mp h
    exact ⟨p2, hp2, hn⟩
  · left
    have hc := mesh2_north_comp_nc hp ha (by omega) hb hvb
    rw [h] at hc
    exact ⟨by omega, rok_inj.mp hc⟩

theorem mesh2_east_char {m e : Code} (hm : validate_mesh2_code m = rok ())
    (h : Mesh2.east_mesh m = rok e) :
    ∃ p a b, m = p ++ [a, b] ∧ validate_mesh1_code p = rok () ∧
      isDigitC a = true ∧ isDigitC b = true ∧ digitVal a ≤ 7 ∧
      digitVal b ≤ 7 ∧
      ((digitVal b < 7 ∧ e = p ++ [a, dChar (digitVal b + 1)]) ∨
        (digitVal b = 7 ∧ ∃ p2, Mesh1.east_mesh p = rok p2 ∧
          e = p2 ++ [a, '0'])) := by
  obtain ⟨p, a, b, hm2, hp, ha0, ha7, hb0, hb7⟩ := valid2_iff.mp hm
  subst hm2
  obtain ⟨ha, hva⟩ := digit07 ha0 ha7
  obtain ⟨hb, hvb⟩ := digit07 hb0 hb7
  obtain ⟨hbl4, hlen4⟩ := valid1_shape hp
  refine ⟨p, a, b, rfl, hp, ha, hb, hva, hvb, ?_⟩
  by_cases h7 : digitVal b = 7
  · right
    refine ⟨h7, ?_⟩
    unfold Mesh2.east_mesh at h
    rw [get_append_k1 hlen4] at h
    simp only [List.get?_cons_succ, List.get?_cons_zero, Option.some_bind,
      toDigit10_digit hb, ropt_some, rbind_rok] at h
    rw [if_pos h7, mesh1_of_append _ hp] at h
    simp only [ropt_some, rbind_rok] at h
    rw [rbind_eq_rok] at h
    obtain ⟨p2, hp2, h⟩ := h
    rw [get_append_k hlen4] at h
    simp only [List.get?_cons_zero, ropt_some, rbind_rok] at h
    obtain ⟨-, hn⟩ := new2_rok.mp h
    exact ⟨p2, hp2, hn⟩
  · left
    have hc := mesh2_east_comp_nc hp ha hva hb (by omega)
    rw [h] at hc
    exact ⟨by omega, rok_inj.mp hc⟩

theorem mesh2_south_char {m n : Code} (hm : validate_mesh2_code m = rok ())
    (h : Mesh2.south_mesh m = rok n) :
    ∃ p a b, m = p ++ [a, b] ∧ validate_mesh1_code p = rok () ∧
      isDigitC a = true ∧ isDigitC b = true ∧ digitVal a ≤ 7 ∧
      digitVal b ≤ 7 ∧
      ((1 ≤ digitVal a ∧ n = p ++ [dChar (digitVal a - 1), b]) ∨
        (digitVal a = 0 ∧ ∃ p2, Mesh1.south_mesh p = rok p2 ∧
          n = p2 ++ ['7', b])) := by
  obtain ⟨p, a, b, hm2, hp, ha0, ha7, hb0, hb7⟩ := valid2_iff.mp hm
  subst hm2
  obtain ⟨ha, hva⟩ := digit07 ha0 ha7
  obtain ⟨hb, hvb⟩ := digit07 hb0 hb7
  obtain ⟨hbl4, hlen4⟩ := valid1_shape hp
  refine ⟨p, a, b, rfl, hp, ha, hb, hva, hvb, ?_⟩
  by_cases h0 : digitVal a = 0
  · right
    refine ⟨h0, ?_⟩
    unfold Mesh2.south_mesh at h
    rw [get_append_k hlen4] at h
    simp only [List.get?_cons_zero, Option.some_bind, toDigit10_digit ha,
      ropt_some, rbind_rok] at h
    rw [if_pos h0, mesh1_of_append _ hp] at h
    simp only [ropt_some, rbind_rok] at h
    rw [rbind_eq_rok] at h
    obtain ⟨p2, hp2, h⟩ := h
    rw [get_append_k1 hlen4] at h
    simp only [List.get?_cons_succ, List.get?_cons_zero, ropt_some,
      rbind_rok] at h
    obtain ⟨-, hn⟩ := new2_rok.mp h
    exact ⟨p2, hp2, hn⟩
  · left
    have hc := mesh2_south_comp_nc hp ha (by omega) hva hb hvb
    rw [h] at hc
    exact ⟨by omega, rok_inj.mp hc⟩

theorem mesh2_west_char {m e : Code} (hm : validate_mesh2_code m = rok ())
    (h : Mesh2.west_mesh m = rok e) :
    ∃ p a b, m = p ++ [a, b] ∧ validate_mesh1_code p = rok () ∧
      isDigitC a = true ∧ isDigitC b = true ∧ digitVal a ≤ 7 ∧
      digitVal b ≤ 7 ∧
      ((1 ≤ digitVal b ∧ e = p ++ [a, dChar (digitVal b - 1)]) ∨
        (digitVal b = 0 ∧ ∃ p2, Mesh1.west_mesh p = rok p2 ∧
          e = p2 ++ [a, '7'])) := by
  obtain ⟨p, a, b, hm2, hp, ha0, ha7, hb0, hb7⟩ := valid2_iff.mp hm
  subst hm2
  obtain ⟨ha, hva⟩ := digit07 ha0 ha7
  obtain ⟨hb, hvb⟩ := digit07 hb0 hb7
  obtain ⟨hbl4, hlen4⟩ := valid1_shape hp
  refine ⟨p, a, b, rfl, hp, ha, hb, hva, hvb, ?_⟩
  by_cases h0 : digitVal b = 0
  · right
    refine ⟨h0, ?_⟩
    unfold Mesh2.west_mesh at h
    rw [get_append_k1 hlen4] at h
    simp only [List.get?_cons_succ, List.get?_cons_zero, Option.some_bind,
      toDigit10_digit hb, ropt_some, rbind_rok] at h
    rw [if_pos h0, mesh1_of_append _ hp] at h
    simp only [ropt_some, rbind_rok] at h
    rw [rbind_eq_rok] at h
    obtain ⟨p2, hp2, h⟩ := h
    rw [get_append_k hlen4] at h
    simp only [List.get?_cons_zero, ropt_some, rbind_rok] at h
    obtain ⟨-, hn⟩ := new2_rok.mp h
    exact ⟨p2, hp2, hn⟩
  · left
    have hc := mesh2_west_comp_nc hp ha hva hb (by omega) hvb
    rw [h] at hc
    exact ⟨by omega, rok_inj.mp hc⟩

theorem mesh2_inv_ns {m n : Code} (hm : validate_mesh2_code m = rok ())
    (h : Mesh2.north_mesh m = rok n) : Mesh2.south_mesh n = rok m := by
  obtain ⟨p, a, b, hm2, hp, ha, hb, hva, hvb, hcase⟩ := mesh2_north_char hm h
  rcases hcase with ⟨hlt, hn⟩ | ⟨h7, p2, hp2, hn⟩
  · subst hn
    have hd : digitVal (dChar (digitVal a + 1)) = digitVal a + 1 :=
      digitVal_dChar (d := digitVal a + 1) (by omega)
    have hc := mesh2_south_comp_nc (a := dChar (digitVal a + 1)) hp
      (isDigitC_dChar (d := digitVal a + 1) (by omega))
      (by rw [hd]; omega) (by rw [hd]; omega) hb hvb
    rw [hd] at hc
    rw [show digitVal a + 1 - 1 = digitVal a from rfl] at hc
    rw [dChar_digitVal ha] at hc
    rw [hc, hm2]
  · subst hn
    have ha7 : a = '7' := by
      have hda := dChar_digitVal ha
      rw [h7] at hda
      rw [← hda]
      rfl
    have hc := mesh2_south_comp_c (mesh1_north_valid hp2)
      (mesh1_inv_ns hp hp2) hb hvb
    rw [hc, hm2, ha7]

theorem mesh2_commute_ne {m n e : Code} (hm : validate_mesh2_code m = rok ())
    (hn : Mesh2.north_mesh m = rok n) (he : Mesh2.east_mesh m = rok e) :
    ∃ dd, Mesh2.east_mesh n = rok dd ∧ Mesh2.north_mesh e = rok dd := by
  obtain ⟨p, a, b, hm2, hp, ha, hb, hva, hvb, hcaseN⟩ := mesh2_north_char hm hn
  obtain ⟨p', a', b', hm2', hp', ha', hb', hva', hvb', hcaseE⟩ :=
    mesh2_east_char hm he
  rw [hm2] at hm2'
  obtain ⟨hpp, haa, hbb⟩ := append2_inj
    (by rw [(valid1_shape hp).2, (valid1_shape hp').2]) hm2'
  subst hpp
  subst haa
  subst hbb
  rcases hcaseN with ⟨hlt, hnv⟩ | ⟨h7, p2N, hp2N, hnv⟩ <;>
    rcases hcaseE with ⟨hlt', hev⟩ | ⟨h7', p2E, hp2E, hev⟩
  · -- no carries
    subst hnv
    subst hev
    have hda : digitVal (dChar (digitVal a + 1)) = digitVal a + 1 :=
      digitVal_dChar (d := digitVal a + 1) (by omega)
    have hdb : digitVal (dChar (digitVal b + 1)) = digitVal b + 1 :=
      digitVal_dChar (d := digitVal b + 1) (by omega)
    refine ⟨p ++ [dChar (digitVal a + 1), dChar (digitVal b + 1)], ?_, ?_⟩
    · have hc := mesh2_east_comp_nc (a := dChar (digitVal a + 1)) hp
        (isDigitC_dChar (d := digitVal a + 1) (by omega))
        (by rw [hda]; omega) hb (by omega)
      exact hc
    · have hc := mesh2_north_comp_nc (b := dChar (digitVal b + 1)) hp ha
        (by omega) (isDigitC_dChar (d := digitVal b + 1) (by omega))
        (by rw [hdb]; omega)
      exact hc
  · -- east carries
    subst hnv
    subst hev
    have hb7 : b = '7' := by
      have hdb := dChar_digitVal hb
      rw [h7'] at hdb
      rw [← hdb]
      rfl
    have hda : digitVal (dChar (digitVal a + 1)) = digitVal a + 1 :=
      digitVal_dChar (d := digitVal a + 1) (by omega)
    refine ⟨p2E ++ [dChar (digitVal a + 1), '0'], ?_, ?_⟩
    · have hc := mesh2_east_comp_c (a := dChar (digitVal a + 1)) hp hp2E
        (isDigitC_dChar (d := digitVal a + 1) (by omega)) (by rw [hda]; omega)
      rw [hb7]
      exact hc
    · have hc := mesh2_north_comp_nc (mesh1_east_valid hp2E) ha (by omega)
        (show isDigitC '0' = true from by decide) (by decide)
      exact hc
  · -- north carries
    subst hnv
    subst hev
    have ha7 : a = '7' := by
      have hda := dChar_digitVal ha
      rw [h7] at hda
      rw [← hda]
      rfl
    have hdb : digitVal (dChar (digitVal b + 1)) = digitVal b + 1 :=
      digitVal_dChar (d := digitVal b + 1) (by omega)
    refine ⟨p2N ++ ['0', dChar (digitVal b + 1)], ?_, ?_⟩
    · have hc := mesh2_east_comp_nc (mesh1_north_valid hp2N)
        (show isDigitC '0' = true from by decide) (by decide) hb (by omega)
      exact hc
    · have hc := mesh2_north_comp_c (b := dChar (digitVal b + 1)) hp hp2N
        (isDigitC_dChar (d := digitVal b + 1) (by omega)) (by rw [hdb]; omega)
      rw [ha7]
      exact hc
  · -- both carry
    subst hnv
    subst hev
    have ha7 : a = '7' := by
      have hda := dChar_digitVal ha
      rw [h7] at hda
      rw [← hda]
      rfl
    have hb7 : b = '7' := by
      have hdb := dChar_digitVal hb
      rw [h7'] at hdb
      rw [← hdb]
      rfl
    obtain ⟨q, hq1, hq2⟩ := mesh1_commute_ne hp hp2N hp2E
    refine ⟨q ++ ['0', '0'], ?_, ?_⟩
    · have hc := mesh2_east_comp_c (mesh1_north_valid hp2N) hq1
        (show isDigitC '0' = true from by decide) (by decide)
      rw [hb7]
      exact hc
    · have hc := mesh2_north_comp_c (mesh1_east_valid hp2E) hq2
        (show isDigitC '0' = true from by decide) (by decide)
      rw [ha7]
      exact hc

theorem digit09 {a : Char} (h0 : '0' ≤ a) (h9 : a ≤ '9') :
    isDigitC a = true ∧ digitVal a ≤ 9 := by
  have h1 : (48 : Nat) ≤ a.toNat := h0
  have h2 : a.toNat ≤ ('9' : Char).toNat := h9
  have h57 : ('9' : Char).toNat = 57 := by decide
  constructor
  · rw [isDigitC_iff]
    omega
  · unfold digitVal
    omega

theorem digit_range09 {a : Char} (ha : isDigitC a = true)
    (h9 : digitVal a ≤ 9) : '0' ≤ a ∧ a ≤ '9' := by
  have := digit_toNat ha
  have hv := digitVal_lt ha
  constructor
  · show (48 : Nat) ≤ a.toNat
    omega
  · show a.toNat ≤ ('9' : Char).toNat
    have h57 : ('9' : Char).toNat = 57 := by decide
    omega

theorem mesh2_north_valid {m n : Code} (hm : validate_mesh2_code m = rok ())
    (h : Mesh2.north_mesh m = rok n) : validate_mesh2_code n = rok () := by
  obtain ⟨p, a, b, hm2, hp, ha, hb, hva, hvb, hcase⟩ := mesh2_north_char hm h
  rcases hcase with ⟨hlt, hn⟩ | ⟨h7, p2, hp2, hn⟩
  · subst hn
    exact valid2_parts hp (isDigitC_dChar (d := digitVal a + 1) (by omega))
      (by rw [digitVal_dChar (d := digitVal a + 1) (by omega)]; omega) hb hvb
  · subst hn
    exact valid2_parts (mesh1_north_valid hp2) (by decide) (by decide) hb hvb

theorem mesh2_south_valid {m n : Code} (hm : validate_mesh2_code m = rok ())
    (h : Mesh2.south_mesh m = rok n) : validate_mesh2_code n = rok () := by
  obtain ⟨p, a, b, hm2, hp, ha, hb, hva, hvb, hcase⟩ := mesh2_south_char hm h
  rcases hcase with ⟨hge, hn⟩ | ⟨h0, p2, hp2, hn⟩
  · subst hn
    exact valid2_parts hp (isDigitC_dChar (d := digitVal a - 1) (by omega))
      (by rw [digitVal_dChar (d := digitVal a - 1) (by omega)]; omega) hb hvb
  · subst hn
    exact valid2_parts (mesh1_south_valid hp2) (by decide) (by decide) hb hvb

theorem mesh2_east_valid {m n : Code} (hm : validate_mesh2_code m = rok ())
    (h : Mesh2.east_mesh m = rok n) : validate_mesh2_code n = rok () := by
  obtain ⟨p, a, b, hm2, hp, ha, hb, hva, hvb, hcase⟩ := mesh2_east_char hm h
  rcases hcase with ⟨hlt, hn⟩ | ⟨h7, p2, hp2, hn⟩
  · subst hn
    exact valid2_parts hp ha hva (isDigitC_dChar (d := digitVal b + 1) (by omega))
      (by rw [digitVal_dChar (d := digitVal b + 1) (by omega)]; omega)
  · subst hn
    exact valid2_parts (mesh1_east_valid hp2) ha hva (by decide) (by decide)

theorem mesh2_west_valid {m n : Code} (hm : validate_mesh2_code m = rok ())
    (h : Mesh2.west_mesh m = rok n) : validate_mesh2_code n = rok () := by
  obtain ⟨p, a, b, hm2, hp, ha, hb, hva, hvb, hcase⟩ := mesh2_west_char hm h
  rcases hcase with ⟨hge, hn⟩ | ⟨h0, p2, hp2, hn⟩
  · subst hn
    exact valid2_parts hp ha hva (isDigitC_dChar (d := digitVal b - 1) (by omega))
      (by rw [digitVal_dChar (d := digitVal b - 1) (by omega)]; omega)
  · subst hn
    exact valid2_parts (mesh1_west_valid hp2) ha hva (by decide) (by decide)

theorem valid3_iff {m : Code} :
    validate_mesh3_code m = rok () ↔
      ∃ p a b, m = p ++ [a, b] ∧ validate_mesh2_code p = rok () ∧
        '0' ≤ a ∧ a ≤ '9' ∧ '0' ≤ b ∧ b ≤ '9' := by
  constructor
  · intro h
    unfold validate_mesh3_code at h
    split at h
    · exact absurd h rerr_ne_rok
    · rename_i hlen
      simp only [ne_eq, not_not] at hlen
      rw [rbind_eq_rok] at h
      obtain ⟨p, hp, h⟩ := h
      rw [ropt_eq_rok, bslice_zero] at hp
      rw [rbind_eq_rok] at h
      obtain ⟨u, hu, h⟩ := h
      cases u
      rw [rbind_eq_rok] at h
      obtain ⟨a, ha, h⟩ := h
      rw [ropt_eq_rok] at ha
      split at h
      · exact absurd h rerr_ne_rok
      · rename_i hra
        push_neg at hra
        rw [rbind_eq_rok] at h
        obtain ⟨b, hb, h⟩ := h
        rw [ropt_eq_rok] at hb
        split at h
        · exact absurd h rerr_ne_rok
        · rename_i hrb
          push_neg at hrb
          obtain ⟨r, hm, hblp⟩ := btake_eq hp
          obtain ⟨hbl4, hlen4⟩ := valid2_shape hu
          rw [hm, get_append_k hlen4] at ha
          rw [hm, get_append_k1 hlen4] at hb
          match r, ha with
          | a' :: r', rfl =>
            match r', hb with
            | b' :: r'', rfl =>
              have hca : cbytes a' = 1 := by
                have h1 : a'.toNat ≤ ('9' : Char).toNat := hra.2
                exact cbytes_of_lt128 (by
                  have : ('9' : Char).toNat = 57 := by decide
                  omega)
              have hcb : cbytes b' = 1 := by
                have h1 : b'.toNat ≤ ('9' : Char).toNat := hrb.2
                exact cbytes_of_lt128 (by
                  have : ('9' : Char).toNat = 57 := by decide
                  omega)
              have hr'' : r'' = [] := by
                apply blen_eq_zero
                rw [hm] at hlen
                simp [hca, hcb, hbl4] at hlen
                omega
              subst hr''
              exact ⟨p, a', b', hm, hu, hra.1, hra.2, hrb.1, hrb.2⟩
  · rintro ⟨p, a, b, hm, hp, ha0, ha9, hb0, hb9⟩
    subst hm
    obtain ⟨hbl4, hlen4⟩ := valid2_shape hp
    have hca : cbytes a = 1 := by
      have h1 : a.toNat ≤ ('9' : Char).toNat := ha9
      exact cbytes_of_lt128 (by
        have : ('9' : Char).toNat = 57 := by decide
        omega)
    have hcb : cbytes b = 1 := by
      have h1 : b.toNat ≤ ('9' : Char).toNat := hb9
      exact cbytes_of_lt128 (by
        have : ('9' : Char).toNat = 57 := by decide
        omega)
    unfold validate_mesh3_code
    rw [if_neg (by simp [hca, hcb, hbl4])]
    have hs : bslice (p ++ [a, b]) 0 6 = some p := by
      rw [bslice_zero]
      have := btake_append p [a, b]
      rw [hbl4] at this
      exact this
    rw [hs]
    simp only [ropt_some, rbind_rok]
    rw [hp]
    simp only [rbind_rok]
    rw [get_append_k hlen4]
    simp only [List.get?_cons_zero, ropt_some, rbind_rok]
    rw [if_neg (by push_neg; exact ⟨ha0, ha9⟩)]
    rw [get_append_k1 hlen4]
    simp only [List.get?_cons_succ, List.get?_cons_zero, ropt_some, rbind_rok]
    rw [if_neg (by push_neg; exact ⟨hb0, hb9⟩)]

theorem valid3_shape {p : Code} (h : validate_mesh3_code p = rok ()) :
    blen p = 8 ∧ p.length = 8 := by
  obtain ⟨q, a, b, hp, hq, ha0, ha9, hb0, hb9⟩ := valid3_iff.mp h
  subst hp
  obtain ⟨hbl4, hlen4⟩ := valid2_shape hq
  have hca : cbytes a = 1 := by
    have h1 : a.toNat ≤ ('9' : Char).toNat := ha9
    exact cbytes_of_lt128 (by
      have : ('9' : Char).toNat = 57 := by decide
      omega)
  have hcb : cbytes b = 1 := by
    have h1 : b.toNat ≤ ('9' : Char).toNat := hb9
    exact cbytes_of_lt128 (by
      have : ('9' : Char).toNat = 57 := by decide
      omega)
  constructor
  · simp [hca, hcb, hbl4]
  · simp [hlen4]

/-! ### Level-2 moves -/

theorem new3_rok {c n : Code} :
    Mesh3.new c = rok n ↔ validate_mesh3_code c = rok () ∧ n = c := by
  unfold Mesh3.new
  rw [rbind_eq_rok]
  constructor
  · rintro ⟨u, hu, hn⟩
    cases u
    exact ⟨hu, (rok_inj.mp hn).symm⟩
  · rintro ⟨hv, rfl⟩
    exact ⟨(), hv, rfl⟩

theorem mesh2_of_append {p : Code} (t : Code)
    (hp : validate_mesh2_code p = rok ()) : Mesh3.mesh2 (p ++ t) = some p := by
  unfold Mesh3.mesh2
  rw [bslice_pre t (valid2_shape hp).1]
  rw [Option.some_bind]
  rw [new2_rok.mpr ⟨hp, rfl⟩]
  rfl

theorem valid3_parts {p : Code} {a b : Char}
    (hp : validate_mesh2_code p = rok ()) (ha : isDigitC a = true)
    (hva : digitVal a ≤ 9) (hb : isDigitC b = true) (hvb : digitVal b ≤ 9) :
    validate_mesh3_code (p ++ [a, b]) = rok () := by
  obtain ⟨ha0, ha9⟩ := digit_range09 ha hva
  obtain ⟨hb0, hb9⟩ := digit_range09 hb hvb
  exact valid3_iff.mpr ⟨p, a, b, rfl, hp, ha0, ha9, hb0, hb9⟩

theorem mesh3_north_comp_nc {p : Code} {a b : Char}
    (hp : validate_mesh2_code p = rok ()) (ha : isDigitC a = true)
    (hva : digitVal a < 9) (hb : isDigitC b = true) (hvb : digitVal b ≤ 9) :
    Mesh3.north_mesh (p ++ [a, b]) = rok (p ++ [dChar (digitVal a + 1), b]) := by
  obtain ⟨hbl4, hlen4⟩ := valid2_shape hp
  unfold Mesh3.north_mesh
  rw [get_append_k hlen4]
  simp only [List.get?_cons_zero, Option.some_bind, toDigit10_digit ha,
    ropt_some, rbind_rok]
  rw [if_neg (by omega)]
  rw [bslice_pre [a, b] hbl4]
  simp only [ropt_some, rbind_rok]
  rw [get_append_k1 hlen4]
  simp only [List.get?_cons_succ, List.get?_cons_zero, ropt_some, rbind_rok]
  rw [fmtU8_lt10 (by omega)]
  rw [show (p ++ [dChar (digitVal a + 1)] ++ [b] : Code) =
    p ++ [dChar (digitVal a + 1), b] from by simp]
  rw [new3_rok]
  refine ⟨valid3_parts hp (isDigitC_dChar (by omega)) ?_ hb hvb, rfl⟩
  rw [digitVal_dChar (by omega)]
  omega

theorem mesh3_north_comp_c {p p2 : Code} {b : Char}
    (hp : validate_mesh2_code p = rok ())
    (hp2 : Mesh2.north_mesh p = rok p2) (hb : isDigitC b = true)
    (hvb : digitVal b ≤ 9) :
    Mesh3.north_mesh (p ++ ['9', b]) = rok (p2 ++ ['0', b]) := by
  obtain ⟨hbl4, hlen4⟩ := valid2_shape hp
  unfold Mesh3.north_mesh
  rw [get_append_k hlen4]
  simp only [List.get?_cons_zero, Option.some_bind,
    toDigit10_digit (show isDigitC '9' = true from by decide), ropt_some,
    rbind_rok]
  rw [if_pos (by decide)]
  rw [mesh2_of_append _ hp]
  simp only [ropt_some, rbind_rok]
  rw [hp2]
  simp only [rbind_rok]
  rw [get_append_k1 hlen4]
  simp only [List.get?_cons_succ, List.get?_cons_zero, ropt_some, rbind_rok]
  rw [new3_rok]
  refine ⟨valid3_parts (mesh2_north_valid hp hp2)
    (show isDigitC '0' = true from by decide) (by decide) hb hvb, rfl⟩

theorem mesh3_south_comp_nc {p : Code} {a b : Char}
    (hp : validate_mesh2_code p = rok ()) (ha : isDigitC a = true)
    (hva : 1 ≤ digitVal a) (hva7 : digitVal a ≤ 9) (hb : isDigitC b = true)
    (hvb : digitVal b ≤ 9) :
    Mesh3.south_mesh (p ++ [a, b]) = rok (p ++ [dChar (digitVal a - 1), b]) := by
  obtain ⟨hbl4, hlen4⟩ := valid2_shape hp
  unfold Mesh3.south_mesh
  rw [get_append_k hlen4]
  simp only [List.get?_cons_zero, Option.some_bind, toDigit10_digit ha,
    ropt_some, rbind_rok]
  rw [if_neg (by omega)]
  rw [bslice_pre [a, b] hbl4]
  simp only [ropt_some, rbind_rok]
  rw [get_append_k1 hlen4]
  simp only [List.get?_cons_succ, List.get?_cons_zero, ropt_some, rbind_rok]
  rw [fmtU8_lt10 (by omega)]
  rw [show (p ++ [dChar (digitVal a - 1)] ++ [b] : Code) =
    p ++ [dChar (digitVal a - 1), b] from by simp]
  rw [new3_rok]
  refine ⟨valid3_parts hp (isDigitC_dChar (by omega)) ?_ hb hvb, rfl⟩
  rw [digitVal_dChar (by omega)]
  omega

theorem mesh3_south_comp_c {p p2 : Code} {b : Char}
    (hp : validate_mesh2_code p = rok ())
    (hp2 : Mesh2.south_mesh p = rok p2) (hb : isDigitC b = true)
    (hvb : digitVal b ≤ 9) :
    Mesh3.south_mesh (p ++ ['0', b]) = rok (p2 ++ ['9', b]) := by
  obtain ⟨hbl4, hlen4⟩ := valid2_shape hp
  unfold Mesh3.south_mesh
  rw [get_append_k hlen4]
  simp only [List.get?_cons_zero, Option.some_bind,
    toDigit10_digit (show isDigitC '0' = true from by decide), ropt_some,
    rbind_rok]
  rw [if_pos (by decide)]
  rw [mesh2_of_append _ hp]
  simp only [ropt_some, rbind_rok]
  rw [hp2]
  simp only [rbind_rok]
  rw [get_append_k1 hlen4]
  simp only [List.get?_cons_succ, List.get?_cons_zero, ropt_some, rbind_rok]
  rw [new3_rok]
  refine ⟨valid3_parts (mesh2_south_valid hp hp2)
    (show isDigitC '9' = true from by decide) (by decide) hb hvb, rfl⟩

theorem mesh3_east_comp_nc {p : Code} {a b : Char}
    (hp : validate_mesh2_code p = rok ()) (ha : isDigitC a = true)
    (hva : digitVal a ≤ 9) (hb : isDigitC b = true) (hvb : digitVal b < 9) :
    Mesh3.east_mesh (p ++ [a, b]) = rok (p ++ [a, dChar (digitVal b + 1)]) := by
  obtain ⟨hbl4, hlen4⟩ := valid2_shape hp
  unfold Mesh3.east_mesh
  rw [get_append_k1 hlen4]
  simp only [List.get?_cons_succ, List.get?_cons_zero, Option.some_bind,
    toDigit10_digit hb, ropt_some, rbind_rok]
  rw [if_neg (by omega)]
  have hsp : (p ++ [a, b] : Code) = (p ++ [a]) ++ [b] := by simp
  have hbl5 : blen (p ++ [a]) = 7 := by
    simp [hbl4, cbytes_digit ha]
  rw [hsp, bslice_pre [b] hbl5]
  simp only [ropt_some, rbind_rok]
  rw [fmtU8_lt10 (by omega)]
  rw [show ((p ++ [a]) ++ [dChar (digitVal b + 1)] : Code) =
    p ++ [a, dChar (digitVal b + 1)] from by simp]
  rw [new3_rok]
  refine ⟨valid3_parts hp ha hva (isDigitC_dChar (by omega)) ?_, rfl⟩
  rw [digitVal_dChar (by omega)]
  omega

theorem mesh3_east_comp_c {p p2 : Code} {a : Char}
    (hp : validate_mesh2_code p = rok ())
    (hp2 : Mesh2.east_mesh p = rok p2) (ha : isDigitC a = true)
    (hva : digitVal a ≤ 9) :
    Mesh3.east_mesh (p ++ [a, '9']) = rok (p2 ++ [a, '0']) := by
  obtain ⟨hbl4, hlen4⟩ := valid2_shape hp
  unfold Mesh3.east_mesh
  rw [get_append_k1 hlen4]
  simp only [List.get?_cons_succ, List.get?_cons_zero, Option.some_bind,
    toDigit10_digit (show isDigitC '9' = true from by decide), ropt_some,
    rbind_rok]
  rw [if_pos (by decide)]
  rw [mesh2_of_append _ hp]
  simp only [ropt_some, rbind_rok]
  rw [hp2]
  simp only [rbind_rok]
  rw [get_append_k hlen4]
  simp only [List.get?_cons_zero, ropt_some, rbind_rok]
  rw [new3_rok]
  refine ⟨valid3_parts (mesh2_east_valid hp hp2) ha hva
    (show isDigitC '0' = true from by decide) (by decide), rfl⟩

theorem mesh3_west_comp_nc {p : Code} {a b : Char}
    (hp : validate_mesh2_code p = rok ()) (ha : isDigitC a = true)
    (hva : digitVal a ≤ 9) (hb : isDigitC b = true) (hvb : 1 ≤ digitVal b)
    (hvb7 : digitVal b ≤ 9) :
    Mesh3.west_mesh (p ++ [a, b]) = rok (p ++ [a, dChar (digitVal b - 1)]) := by
  obtain ⟨hbl4, hlen4⟩ := valid2_shape hp
  unfold Mesh3.west_mesh
  rw [get_append_k1 hlen4]
  simp only [List.get?_cons_succ, List.get?_cons_zero, Option.some_bind,
    toDigit10_digit hb, ropt_some, rbind_rok]
  rw [if_neg (by omega)]
  have hsp : (p ++ [a, b] : Code) = (p ++ [a]) ++ [b] := by simp
  have hbl5 : blen (p ++ [a]) = 7 := by
    simp [hbl4, cbytes_digit ha]
  rw [hsp, bslice_pre [b] hbl5]
  simp only [ropt_some, rbind_rok]
  rw [fmtU8_lt10 (by omega)]
  rw [show ((p ++ [a]) ++ [dChar (digitVal b - 1)] : Code) =
    p ++ [a, dChar (digitVal b - 1)] from by simp]
  rw [new3_rok]
  refine ⟨valid3_parts hp ha hva (isDigitC_dChar (by omega)) ?_, rfl⟩
  rw [digitVal_dChar (by omega)]
  omega

theorem mesh3_west_comp_c {p p2 : Code} {a : Char}
    (hp : validate_mesh2_code p = rok ())
    (hp2 : Mesh2.west_mesh p = rok p2) (ha : isDigitC a = true)
    (hva : digitVal a ≤ 9) :
    Mesh3.west_mesh (p ++ [a, '0']) = rok (p2 ++ [a, '9']) := by
  obtain ⟨hbl4, hlen4⟩ := valid2_shape hp
  unfold Mesh3.west_mesh
  rw [get_append_k1 hlen4]
  simp only [List.get?_cons_succ, List.get?_cons_zero, Option.some_bind,
    toDigit10_digit (show isDigitC '0' = true from by decide), ropt_some,
    rbind_rok]
  rw [if_pos (by decide)]
  rw [mesh2_of_append _ hp]
  simp only [ropt_some, rbind_rok]
  rw [hp2]
  simp only [rbind_rok]
  rw [get_append_k hlen4]
  simp only [List.get?_cons_zero, ropt_some, rbind_rok]
  rw [new3_rok]
  refine ⟨valid3_parts (mesh2_west_valid hp hp2) ha hva
    (show isDigitC '9' = true from by decide) (by decide), rfl⟩

theorem mesh3_north_char {m n : Code} (hm : validate_mesh3_code m = rok ())
    (h : Mesh3.north_mesh m = rok n) :
    ∃ p a b, m = p ++ [a, b] ∧ validate_mesh2_code p = rok () ∧
      isDigitC a = true ∧ isDigitC b = true ∧ digitVal a ≤ 9 ∧
      digitVal b ≤ 9 ∧
      ((digitVal a < 9 ∧ n = p ++ [dChar (digitVal a + 1), b]) ∨
        (digitVal a = 9 ∧ ∃ p2, Mesh2.north_mesh p = rok p2 ∧
          n = p2 ++ ['0', b])) := by
  obtain ⟨p, a, b, hm2, hp, ha0, ha9, hb0, hb9⟩ := valid3_iff.mp hm
  subst hm2
  obtain ⟨ha, hva⟩ := digit09 ha0 ha9
  obtain ⟨hb, hvb⟩ := digit09 hb0 hb9
  obtain ⟨hbl4, hlen4⟩ := valid2_shape hp
  refine ⟨p, a, b, rfl, hp, ha, hb, hva, hvb, ?_⟩
  by_cases h9 : digitVal a = 9
  · right
    refine ⟨h9, ?_⟩
    unfold Mesh3.north_mesh at h
    rw [get_append_k hlen4] at h
    simp only [List.get?_cons_zero, Option.some_bind, toDigit10_digit ha,
      ropt_some, rbind_rok] at h
    rw [if_pos h9, mesh2_of_append _ hp] at h
    simp only [ropt_some, rbind_rok] at h
    rw [rbind_eq_rok] at h
    obtain ⟨p2, hp2, h⟩ := h
    rw [get_append_k1 hlen4] at h
    simp only [List.get?_cons_succ, List.get?_cons_zero, ropt_some,
      rbind_rok] at h
    obtain ⟨-, hn⟩ := new3_rok.mp h
    exact ⟨p2, hp2, hn⟩
  · left
    have hc := mesh3_north_comp_nc hp ha (by omega) hb hvb
    rw [h] at hc
    exact ⟨by omega, rok_inj.mp hc⟩

theorem mesh3_east_char {m e : Code} (hm : validate_mesh3_code m = rok ())
    (h : Mesh3.east_mesh m = rok e) :
    ∃ p a b, m = p ++ [a, b] ∧ validate_mesh2_code p = rok () ∧
      isDigitC a = true ∧ isDigitC b = true ∧ digitVal a ≤ 9 ∧
      digitVal b ≤ 9 ∧
      ((digitVal b < 9 ∧ e = p ++ [a, dChar (digitVal b + 1)]) ∨
        (digitVal b = 9 ∧ ∃ p2, Mesh2.east_mesh p = rok p2 ∧
          e = p2 ++ [a, '0'])) := by
  obtain ⟨p, a, b, hm2, hp, ha0, ha9, hb0, hb9⟩ := valid3_iff.mp hm
  subst hm2
  obtain ⟨ha, hva⟩ := digit09 ha0 ha9
  obtain ⟨hb, hvb⟩ := digit09 hb0 hb9
  obtain ⟨hbl4, hlen4⟩ := valid2_shape hp
  refine ⟨p, a, b, rfl, hp, ha, hb, hva, hvb, ?_⟩
  by_cases h9 : digitVal b = 9
  · right
    refine ⟨h9, ?_⟩
    unfold Mesh3.east_mesh at h
    rw [get_append_k1 hlen4] at h
    simp only [List.get?_cons_succ, List.get?_cons_zero, Option.some_bind,
      toDigit10_digit hb, ropt_some, rbind_rok] at h
    rw [if_pos h9, mesh2_of_append _ hp] at h
    simp only [ropt_some, rbind_rok] at h
    rw [rbind_eq_rok] at h
    obtain ⟨p2, hp2, h⟩ := h
    rw [get_append_k hlen4] at h
    simp only [List.get?_cons_zero, ropt_some, rbind_rok] at h
    obtain ⟨-, hn⟩ := new3_rok.mp h
    exact ⟨p2, hp2, hn⟩
  · left
    have hc := mesh3_east_comp_nc hp ha hva hb (by omega)
    rw [h] at hc
    exact ⟨by omega, rok_inj.mp hc⟩

theorem mesh3_south_char {m n : Code} (hm : validate_mesh3_code m = rok ())
    (h : Mesh3.south_mesh m = rok n) :
    ∃ p a b, m = p ++ [a, b] ∧ validate_mesh2_code p = rok () ∧
      isDigitC a = true ∧ isDigitC b = true ∧ digitVal a ≤ 9 ∧
      digitVal b ≤ 9 ∧
      ((1 ≤ digitVal a ∧ n = p ++ [dChar (digitVal a - 1), b]) ∨
        (digitVal a = 0 ∧ ∃ p2, Mesh2.south_mesh p = rok p2 ∧
          n = p2 ++ ['9', b])) := by
  obtain ⟨p, a, b, hm2, hp, ha0, ha9, hb0, hb9⟩ := valid3_iff.mp hm
  subst hm2
  obtain ⟨ha, hva⟩ := digit09 ha0 ha9
  obtain ⟨hb, hvb⟩ := digit09 hb0 hb9
  obtain ⟨hbl4, hlen4⟩ := valid2_shape hp
  refine ⟨p, a, b, rfl, hp, ha, hb, hva, hvb, ?_⟩
  by_cases h0 : digitVal a = 0
  · right
    refine ⟨h0, ?_⟩
    unfold Mesh3.south_mesh at h
    rw [get_append_k hlen4] at h
    simp only [List.get?_cons_zero, Option.some_bind, toDigit10_digit ha,
      ropt_some, rbind_rok] at h
    rw [if_pos h0, mesh2_of_append _ hp] at h
    simp only [ropt_some, rbind_rok] at h
    rw [rbind_eq_rok] at h
    obtain ⟨p2, hp2, h⟩ := h
    rw [get_append_k1 hlen4] at h
    simp only [List.get?_cons_succ, List.get?_cons_zero, ropt_some,
      rbind_rok] at h
    obtain ⟨-, hn⟩ := new3_rok.mp h
    exact ⟨p2, hp2, hn⟩
  · left
    have hc := mesh3_south_comp_nc hp ha (by omega) hva hb hvb
    rw [h] at hc
    exact ⟨by omega, rok_inj.mp hc⟩

theorem mesh3_west_char {m e : Code} (hm : validate_mesh3_code m = rok ())
    (h : Mesh3.west_mesh m = rok e) :
    ∃ p a b, m = p ++ [a, b] ∧ validate_mesh2_code p = rok () ∧
      isDigitC a = true ∧ isDigitC b = true ∧ digitVal a ≤ 9 ∧
      digitVal b ≤ 9 ∧
      ((1 ≤ digitVal b ∧ e = p ++ [a, dChar (digitVal b - 1)]) ∨
        (digitVal b = 0 ∧ ∃ p2, Mesh2.west_mesh p = rok p2 ∧
          e = p2 ++ [a, '9'])) := by
  obtain ⟨p, a, b, hm2, hp, ha0, ha9, hb0, hb9⟩ := valid3_iff.mp hm
  subst hm2
  obtain ⟨ha, hva⟩ := digit09 ha0 ha9
  obtain ⟨hb, hvb⟩ := digit09 hb0 hb9
  obtain ⟨hbl4, hlen4⟩ := valid2_shape hp
  refine ⟨p, a, b, rfl, hp, ha, hb, hva, hvb, ?_⟩
  by_cases h0 : digitVal b = 0
  · right
    refine ⟨h0, ?_⟩
    unfold Mesh3.west_mesh at h
    rw [get_append_k1 hlen4] at h
    simp only [List.get?_cons_succ, List.get?_cons_zero, Option.some_bind,
      toDigit10_digit hb, ropt_some, rbind_rok] at h
    rw [if_pos h0, mesh2_of_append _ hp] at h
    simp only [ropt_some, rbind_rok] at h
    rw [rbind_eq_rok] at h
    obtain ⟨p2, hp2, h⟩ := h
    rw [get_append_k hlen4] at h
    simp only [List.get?_cons_zero, ropt_some, rbind_rok] at h
    obtain ⟨-, hn⟩ := new3_rok.mp h
    exact ⟨p2, hp2, hn⟩
  · left
    have hc := mesh3_west_comp_nc hp ha hva hb (by omega) hvb
    rw [h] at hc
    exact ⟨by omega, rok_inj.mp hc⟩

theorem mesh3_inv_ns {m n : Code} (hm : validate_mesh3_code m = rok ())
    (h : Mesh3.north_mesh m = rok n) : Mesh3.south_mesh n = rok m := by
  obtain ⟨p, a, b, hm2, hp, ha, hb, hva, hvb, hcase⟩ := mesh3_north_char hm h
  rcases hcase with ⟨hlt, hn⟩ | ⟨h9, p2, hp2, hn⟩
  · subst hn
    have hd : digitVal (dChar (digitVal a + 1)) = digitVal a + 1 :=
      digitVal_dChar (d := digitVal a + 1) (by omega)
    have hc := mesh3_south_comp_nc (a := dChar (digitVal a + 1)) hp
      (isDigitC_dChar (d := digitVal a + 1) (by omega))
      (by rw [hd]; omega) (by rw [hd]; omega) hb hvb
    rw [hd] at hc
    rw [show digitVal a + 1 - 1 = digitVal a from rfl] at hc
    rw [dChar_digitVal ha] at hc
    rw [hc, hm2]
  · subst hn
    have ha9 : a = '9' := by
      have hda := dChar_digitVal ha
      rw [h9] at hda
      rw [← hda]
      rfl
    have hc := mesh3_south_comp_c (mesh2_north_valid hp hp2)
      (mesh2_inv_ns hp hp2) hb hvb
    rw [hc, hm2, ha9]

theorem mesh3_commute_ne {m n e : Code} (hm : validate_mesh3_code m = rok ())
    (hn : Mesh3.north_mesh m = rok n) (he : Mesh3.east_mesh m = rok e) :
    ∃ dd, Mesh3.east_mesh n = rok dd ∧ Mesh3.north_mesh e = rok dd := by
  obtain ⟨p, a, b, hm2, hp, ha, hb, hva, hvb, hcaseN⟩ := mesh3_north_char hm hn
  obtain ⟨p', a', b', hm2', hp', ha', hb', hva', hvb', hcaseE⟩ :=
    mesh3_east_char hm he
  rw [hm2] at hm2'
  obtain ⟨hpp, haa, hbb⟩ := append2_inj
    (by rw [(valid2_shape hp).2, (valid2_shape hp').2]) hm2'
  subst hpp
  subst haa
  subst hbb
  rcases hcaseN with ⟨hlt, hnv⟩ | ⟨h9, p2N, hp2N, hnv⟩ <;>
    rcases hcaseE with ⟨hlt', hev⟩ | ⟨h9', p2E, hp2E, hev⟩
  · -- no carries
    subst hnv
    subst hev
    have hda : digitVal (dChar (digitVal a + 1)) = digitVal a + 1 :=
      digitVal_dChar (d := digitVal a + 1) (by omega)
    have hdb : digitVal (dChar (digitVal b + 1)) = digitVal b + 1 :=
      digitVal_dChar (d := digitVal b + 1) (by omega)
    refine ⟨p ++ [dChar (digitVal a + 1), dChar (digitVal b + 1)], ?_, ?_⟩
    · have hc := mesh3_east_comp_nc (a := dChar (digitVal a + 1)) hp
        (isDigitC_dChar (d := digitVal a + 1) (by omega))
        (by rw [hda]; omega) hb (by omega)
      exact hc
    · have hc := mesh3_north_comp_nc (b := dChar (digitVal b + 1)) hp ha
        (by omega) (isDigitC_dChar (d := digitVal b + 1) (by omega))
        (by rw [hdb]; omega)
      exact hc
  · -- east carries
    subst hnv
    subst hev
    have hb9 : b = '9' := by
      have hdb := dChar_digitVal hb
      rw [h9'] at hdb
      rw [← hdb]
      rfl
    have hda : digitVal (dChar (digitVal a + 1)) = digitVal a + 1 :=
      digitVal_dChar (d := digitVal a + 1) (by omega)
    refine ⟨p2E ++ [dChar (digitVal a + 1), '0'], ?_, ?_⟩
    · have hc := mesh3_east_comp_c (a := dChar (digitVal a + 1)) hp hp2E
        (isDigitC_dChar (d := digitVal a + 1) (by omega)) (by rw [hda]; omega)
      rw [hb9]
      exact hc
    · have hc := mesh3_north_comp_nc (mesh2_east_valid hp hp2E) ha (by omega)
        (show isDigitC '0' = true from by decide) (by decide)
      exact hc
  · -- north carries
    subst hnv
    subst hev
    have ha9 : a = '9' := by
      have hda := dChar_digitVal ha
      rw [h9] at hda
      rw [← hda]
      rfl
    have hdb : digitVal (dChar (digitVal b + 1)) = digitVal b + 1 :=
      digitVal_dChar (d := digitVal b + 1) (by omega)
    refine ⟨p2N ++ ['0', dChar (digitVal b + 1)], ?_, ?_⟩
    · have hc := mesh3_east_comp_nc (mesh2_north_valid hp hp2N)
        (show isDigitC '0' = true from by decide) (by decide) hb (by omega)
      exact hc
    · have hc := mesh3_north_comp_c (b := dChar (digitVal b + 1)) hp hp2N
        (isDigitC_dChar (d := digitVal b + 1) (by omega)) (by rw [hdb]; omega)
      rw [ha9]
      exact hc
  · -- both carry
    subst hnv
    subst hev
    have ha9 : a = '9' := by
      have hda := dChar_digitVal ha
      rw [h9] at hda
      rw [← hda]
      rfl
    have hb9 : b = '9' := by
      have hdb := dChar_digitVal hb
      rw [h9'] at hdb
      rw [← hdb]
      rfl
    obtain ⟨q, hq1, hq2⟩ := mesh2_commute_ne hp hp2N hp2E
    refine ⟨q ++ ['0', '0'], ?_, ?_⟩
    · have hc := mesh3_east_comp_c (mesh2_north_valid hp hp2N) hq1
        (show isDigitC '0' = true from by decide) (by decide)
      rw [hb9]
      exact hc
    · have hc := mesh3_north_comp_c (mesh2_east_valid hp hp2E) hq2
        (show isDigitC '0' = true from by decide) (by decide)
      rw [ha9]
      exact hc

theorem mesh3_north_valid {m n : Code} (hm : validate_mesh3_code m = rok ())
    (h : Mesh3.north_mesh m = rok n) : validate_mesh3_code n = rok () := by
  obtain ⟨p, a, b, hm2, hp, ha, hb, hva, hvb, hcase⟩ := mesh3_north_char hm h
  rcases hcase with ⟨hlt, hn⟩ | ⟨h7, p2, hp2, hn⟩
  · subst hn
    exact valid3_parts hp (isDigitC_dChar (d := digitVal a + 1) (by omega))
      (by rw [digitVal_dChar (d := digitVal a + 1) (by omega)]; omega) hb hvb
  · subst hn
    exact valid3_parts (mesh2_north_valid hp hp2) (by decide) (by decide) hb hvb

theorem mesh3_south_valid {m n : Code} (hm : validate_mesh3_code m = rok ())
    (h : Mesh3.south_mesh m = rok n) : validate_mesh3_code n = rok () := by
  obtain ⟨p, a, b, hm2, hp, ha, hb, hva, hvb, hcase⟩ := mesh3_south_char hm h
  rcases hcase with ⟨hge, hn⟩ | ⟨h0, p2, hp2, hn⟩
  · subst hn
    exact valid3_parts hp (isDigitC_dChar (d := digitVal a - 1) (by omega))
      (by rw [digitVal_dChar (d := digitVal a - 1) (by omega)]; omega) hb hvb
  · subst hn
    exact valid3_parts (mesh2_south_valid hp hp2) (by decide) (by decide) hb hvb

theorem mesh3_east_valid {m n : Code} (hm : validate_mesh3_code m = rok ())
    (h : Mesh3.east_mesh m = rok n) : validate_mesh3_code n = rok () := by
  obtain ⟨p, a, b, hm2, hp, ha, hb, hva, hvb, hcase⟩ := mesh3_east_char hm h
  rcases hcase with ⟨hlt, hn⟩ | ⟨h7, p2, hp2, hn⟩
  · subst hn
    exact valid3_parts hp ha hva (isDigitC_dChar (d := digitVal b + 1) (by omega))
      (by rw [digitVal_dChar (d := digitVal b + 1) (by omega)]; omega)
  · subst hn
    exact valid3_parts (mesh2_east_valid hp hp2) ha hva (by decide) (by decide)

theorem mesh3_west_valid {m n : Code} (hm : validate_mesh3_code m = rok ())
    (h : Mesh3.west_mesh m = rok n) : validate_mesh3_code n = rok () := by
  obtain ⟨p, a, b, hm2, hp, ha, hb, hva, hvb, hcase⟩ := mesh3_west_char hm h
  rcases hcase with ⟨hge, hn⟩ | ⟨h0, p2, hp2, hn⟩
  · subst hn
    exact valid3_parts hp ha hva (isDigitC_dChar (d := digitVal b - 1) (by omega))
      (by rw [digitVal_dChar (d := digitVal b - 1) (by omega)]; omega)
  · subst hn
    exact valid3_parts (mesh2_west_valid hp hp2) ha hva (by decide) (by decide)

/-! ### Level-4 structure and moves -/

theorem digit14 {a : Char} (h0 : '1' ≤ a) (h4 : a ≤ '4') :
    isDigitC a = true ∧ 1 ≤ digitVal a ∧ digitVal a ≤ 4 := by
  have h1 : ('1' : Char).toNat ≤ a.toNat := h0
  have h2 : a.toNat ≤ ('4' : Char).toNat := h4
  have e1 : ('1' : Char).toNat = 49 := by decide
  have e4 : ('4' : Char).toNat = 52 := by decide
  refine ⟨?_, ?_, ?_⟩
  · rw [isDigitC_iff]
    omega
  · unfold digitVal
    omega
  · unfold digitVal
    omega

theorem digit_range14 {a : Char} (ha : isDigitC a = true)
    (h1 : 1 ≤ digitVal a) (h4 : digitVal a ≤ 4) : '1' ≤ a ∧ a ≤ '4' := by
  have := digit_toNat ha
  have e1 : ('1' : Char).toNat = 49 := by decide
  have e4 : ('4' : Char).toNat = 52 := by decide
  constructor
  · show ('1' : Char).toNat ≤ a.toNat
    omega
  · show a.toNat ≤ ('4' : Char).toNat
    omega

theorem new4_rok {c n : Code} :
    Mesh4.new c = rok n ↔ validate_mesh4_code c = rok () ∧ n = c := by
  unfold Mesh4.new
  rw [rbind_eq_rok]
  constructor
  · rintro ⟨u, hu, hn⟩
    cases u
    exact ⟨hu, (rok_inj.mp hn).symm⟩
  · rintro ⟨hv, rfl⟩
    exact ⟨(), hv, rfl⟩

theorem valid4_iff {m : Code} :
    validate_mesh4_code m = rok () ↔
      ∃ p c, m = p ++ [c] ∧ validate_mesh3_code p = rok () ∧
        '1' ≤ c ∧ c ≤ '4' := by
  constructor
  · intro h
    unfold validate_mesh4_code at h
    split at h
    · exact absurd h rerr_ne_rok
    · rename_i hlen
      simp only [ne_eq, not_not] at hlen
      rw [rbind_eq_rok] at h
      obtain ⟨p, hp, h⟩ := h
      rw [ropt_eq_rok, bslice_zero] at hp
      rw [rbind_eq_rok] at h
      obtain ⟨u, hu, h⟩ := h
      cases u
      rw [rbind_eq_rok] at h
      obtain ⟨c, hc, h⟩ := h
      rw [ropt_eq_rok] at hc
      split at h
      · exact absurd h rerr_ne_rok
      · rename_i hrc
        push_neg at hrc
        obtain ⟨r, hm, hblp⟩ := btake_eq hp
        obtain ⟨hbl8, hlen8⟩ := valid3_shape hu
        rw [hm, get_append_k hlen8] at hc
        match r, hc with
        | c' :: r', rfl =>
          have hcc : cbytes c' = 1 := by
            have h1 : c'.toNat ≤ ('4' : Char).toNat := hrc.2
            exact cbytes_of_lt128 (by
              have : ('4' : Char).toNat = 52 := by decide
              omega)
          have hr' : r' = [] := by
            apply blen_eq_zero
            rw [hm] at hlen
            simp [hcc, hbl8] at hlen
            omega
          subst hr'
          exact ⟨p, c', hm, hu, hrc.1, hrc.2⟩
  · rintro ⟨p, c, hm, hp, hc1, hc4⟩
    subst hm
    obtain ⟨hbl8, hlen8⟩ := valid3_shape hp
    have hcc : cbytes c = 1 := by
      have h1 : c.toNat ≤ ('4' : Char).toNat := hc4
      exact cbytes_of_lt128 (by
        have : ('4' : Char).toNat = 52 := by decide
        omega)
    unfold validate_mesh4_code
    rw [if_neg (by simp [hcc, hbl8])]
    have hs : bslice (p ++ [c]) 0 8 = some p := by
      rw [bslice_zero]
      have := btake_append p [c]
      rw [hbl8] at this
      exact this
    rw [hs]
    simp only [ropt_some, rbind_rok]
    rw [hp]
    simp only [rbind_rok]
    rw [get_append_k hlen8]
    simp only [List.get?_cons_zero, ropt_some, rbind_rok]
    rw [if_neg (by push_neg; exact ⟨hc1, hc4⟩)]

theorem valid4_shape {p : Code} (h : validate_mesh4_code p = rok ()) :
    blen p = 9 ∧ p.length = 9 := by
  obtain ⟨q, c, hp, hq, hc1, hc4⟩ := valid4_iff.mp h
  subst hp
  obtain ⟨hbl8, hlen8⟩ := valid3_shape hq
  have hcc : cbytes c = 1 := by
    have h1 : c.toNat ≤ ('4' : Char).toNat := hc4
    exact cbytes_of_lt128 (by
      have : ('4' : Char).toNat = 52 := by decide
      omega)
  constructor
  · simp [hcc, hbl8]
  · simp [hlen8]

theorem valid4_parts {p : Code} {c : Char}
    (hp : validate_mesh3_code p = rok ()) (hc : isDigitC c = true)
    (h1 : 1 ≤ digitVal c) (h4 : digitVal c ≤ 4) :
    validate_mesh4_code (p ++ [c]) = rok () := by
  obtain ⟨hc1, hc4⟩ := digit_range14 hc h1 h4
  exact valid4_iff.mpr ⟨p, c, rfl, hp, hc1, hc4⟩

theorem mesh3_of_append {p : Code} (t : Code)
    (hp : validate_mesh3_code p = rok ()) : Mesh4.mesh3 (p ++ t) = some p := by
  unfold Mesh4.mesh3
  rw [bslice_pre t (valid3_shape hp).1]
  rw [Option.some_bind]
  rw [new3_rok.mpr ⟨hp, rfl⟩]
  rfl

theorem mesh4_north_comp_nc {p : Code} {d : Nat}
    (hp : validate_mesh3_code p = rok ()) (hd : d = 1 ∨ d = 2) :
    Mesh4.north_mesh (p ++ [dChar d]) = rok (p ++ [dChar (d + 2)]) := by
  obtain ⟨hbl8, hlen8⟩ := valid3_shape hp
  unfold Mesh4.north_mesh
  rw [get_append_k hlen8]
  simp only [List.get?_cons_zero, Option.some_bind,
    toDigit10_digit (isDigitC_dChar (d := d) (by omega)), ropt_some, rbind_rok]
  rw [digitVal_dChar (d := d) (by omega)]
  rw [if_pos hd]
  rw [bslice_pre [dChar d] hbl8]
  simp only [ropt_some, rbind_rok]
  rw [fmtU8_lt10 (by omega)]
  rw [new4_rok]
  refine ⟨valid4_parts hp (isDigitC_dChar (d := d + 2) (by omega)) ?_ ?_, rfl⟩ <;>
    rw [digitVal_dChar (d := d + 2) (by omega)] <;> omega

theorem mesh4_north_comp_c {p p2 : Code} {d : Nat}
    (hp : validate_mesh3_code p = rok ())
    (hp2 : Mesh3.north_mesh p = rok p2) (hd : d = 3 ∨ d = 4) :
    Mesh4.north_mesh (p ++ [dChar d]) = rok (p2 ++ [dChar (d - 2)]) := by
  obtain ⟨hbl8, hlen8⟩ := valid3_shape hp
  unfold Mesh4.north_mesh
  rw [get_append_k hlen8]
  simp only [List.get?_cons_zero, Option.some_bind,
    toDigit10_digit (isDigitC_dChar (d := d) (by omega)), ropt_some, rbind_rok]
  rw [digitVal_dChar (d := d) (by omega)]
  rw [if_neg (by omega), if_pos hd]
  rw [mesh3_of_append _ hp]
  simp only [ropt_some, rbind_rok]
  rw [hp2]
  simp only [rbind_rok]
  rw [fmtU8_lt10 (by omega)]
  rw [new4_rok]
  refine ⟨valid4_parts (mesh3_north_valid hp hp2)
    (isDigitC_dChar (d := d - 2) (by omega)) ?_ ?_, rfl⟩ <;>
    rw [digitVal_dChar (d := d - 2) (by omega)] <;> omega

theorem mesh4_east_comp_nc {p : Code} {d : Nat}
    (hp : validate_mesh3_code p = rok ()) (hd : d = 1 ∨ d = 3) :
    Mesh4.east_mesh (p ++ [dChar d]) = rok (p ++ [dChar (d + 1)]) := by
  obtain ⟨hbl8, hlen8⟩ := valid3_shape hp
  unfold Mesh4.east_mesh
  rw [get_append_k hlen8]
  simp only [List.get?_cons_zero, Option.some_bind,
    toDigit10_digit (isDigitC_dChar (d := d) (by omega)), ropt_some, rbind_rok]
  rw [digitVal_dChar (d := d) (by omega)]
  rw [if_pos hd]
  rw [bslice_pre [dChar d] hbl8]
  simp only [ropt_some, rbind_rok]
  rw [fmtU8_lt10 (by omega)]
  rw [new4_rok]
  refine ⟨valid4_parts hp (isDigitC_dChar (d := d + 1) (by omega)) ?_ ?_, rfl⟩ <;>
    rw [digitVal_dChar (d := d + 1) (by omega)] <;> omega

theorem mesh4_east_comp_c {p p2 : Code} {d : Nat}
    (hp : validate_mesh3_code p = rok ())
    (hp2 : Mesh3.east_mesh p = rok p2) (hd : d = 2 ∨ d = 4) :
    Mesh4.east_mesh (p ++ [dChar d]) = rok (p2 ++ [dChar (d - 1)]) := by
  obtain ⟨hbl8, hlen8⟩ := valid3_shape hp
  unfold Mesh4.east_mesh
  rw [get_append_k hlen8]
  simp only [List.get?_cons_zero, Option.some_bind,
    toDigit10_digit (isDigitC_dChar (d := d) (by omega)), ropt_some, rbind_rok]
  rw [digitVal_dChar (d := d) (by omega)]
  rw [if_neg (by omega), if_pos hd]
  rw [mesh3_of_append _ hp]
  simp only [ropt_some, rbind_rok]
  rw [hp2]
  simp only [rbind_rok]
  rw [fmtU8_lt10 (by omega)]
  rw [new4_rok]
  refine ⟨valid4_parts (mesh3_east_valid hp hp2)
    (isDigitC_dChar (d := d - 1) (by omega)) ?_ ?_, rfl⟩ <;>
    rw [digitVal_dChar (d := d - 1) (by omega)] <;> omega

theorem mesh4_south_comp_nc {p : Code} {d : Nat}
    (hp : validate_mesh3_code p = rok ()) (hd : d = 3 ∨ d = 4) :
    Mesh4.south_mesh (p ++ [dChar d]) = rok (p ++ [dChar (d - 2)]) := by
  obtain ⟨hbl8, hlen8⟩ := valid3_shape hp
  unfold Mesh4.south_mesh
  rw [get_append_k hlen8]
  simp only [List.get?_cons_zero, Option.some_bind,
    toDigit10_digit (isDigitC_dChar (d := d) (by omega)), ropt_some, rbind_rok]
  rw [digitVal_dChar (d := d) (by omega)]
  rw [if_neg (by omega), if_pos hd]
  rw [bslice_pre [dChar d] hbl8]
  simp only [ropt_some, rbind_rok]
  rw [fmtU8_lt10 (by omega)]
  rw [new4_rok]
  refine ⟨valid4_parts hp (isDigitC_dChar (d := d - 2) (by omega)) ?_ ?_, rfl⟩ <;>
    rw [digitVal_dChar (d := d - 2) (by omega)] <;> omega

theorem mesh4_south_comp_c {p p2 : Code} {d : Nat}
    (hp : validate_mesh3_code p = rok ())
    (hp2 : Mesh3.south_mesh p = rok p2) (hd : d = 1 ∨ d = 2) :
    Mesh4.south_mesh (p ++ [dChar d]) = rok (p2 ++ [dChar (d + 2)]) := by
  obtain ⟨hbl8, hlen8⟩ := valid3_shape hp
  unfold Mesh4.south_mesh
  rw [get_append_k hlen8]
  simp only [List.get?_cons_zero, Option.some_bind,
    toDigit10_digit (isDigitC_dChar (d := d) (by omega)), ropt_some, rbind_rok]
  rw [digitVal_dChar (d := d) (by omega)]
  rw [if_pos hd]
  rw [mesh3_of_append _ hp]
  simp only [ropt_some, rbind_rok]
  rw [hp2]
  simp only [rbind_rok]
  rw [fmtU8_lt10 (by omega)]
  rw [new4_rok]
  refine ⟨valid4_parts (mesh3_south_valid hp hp2)
    (isDigitC_dChar (d := d + 2) (by omega)) ?_ ?_, rfl⟩ <;>
    rw [digitVal_dChar (d := d + 2) (by omega)] <;> omega

theorem mesh4_west_comp_nc {p : Code} {d : Nat}
    (hp : validate_mesh3_code p = rok ()) (hd : d = 2 ∨ d = 4) :
    Mesh4.west_mesh (p ++ [dChar d]) = rok (p ++ [dChar (d - 1)]) := by
  obtain ⟨hbl8, hlen8⟩ := valid3_shape hp
  unfold Mesh4.west_mesh
  rw [get_append_k hlen8]
  simp only [List.get?_cons_zero, Option.some_bind,
    toDigit10_digit (isDigitC_dChar (d := d) (by omega)), ropt_some, rbind_rok]
  rw [digitVal_dChar (d := d) (by omega)]
  rw [if_neg (by omega), if_pos hd]
  rw [bslice_pre [dChar d] hbl8]
  simp only [ropt_some, rbind_rok]
  rw [fmtU8_lt10 (by omega)]
  rw [new4_rok]
  refine ⟨valid4_parts hp (isDigitC_dChar (d := d - 1) (by omega)) ?_ ?_, rfl⟩ <;>
    rw [digitVal_dChar (d := d - 1) (by omega)] <;> omega

theorem mesh4_west_comp_c {p p2 : Code} {d : Nat}
    (hp : validate_mesh3_code p = rok ())
    (hp2 : Mesh3.west_mesh p = rok p2) (hd : d = 1 ∨ d = 3) :
    Mesh4.west_mesh (p ++ [dChar d]) = rok (p2 ++ [dChar (d + 1)]) := by
  obtain ⟨hbl8, hlen8⟩ := valid3_shape hp
  unfold Mesh4.west_mesh
  rw [get_append_k hlen8]
  simp only [List.get?_cons_zero, Option.some_bind,
    toDigit10_digit (isDigitC_dChar (d := d) (by omega)), ropt_some, rbind_rok]
  rw [digitVal_dChar (d := d) (by omega)]
  rw [if_pos hd]
  rw [mesh3_of_append _ hp]
  simp only [ropt_some, rbind_rok]
  rw [hp2]
  simp only [rbind_rok]
  rw [fmtU8_lt10 (by omega)]
  rw [new4_rok]
  refine ⟨valid4_parts (mesh3_west_valid hp hp2)
    (isDigitC_dChar (d := d + 1) (by omega)) ?_ ?_, rfl⟩ <;>
    rw [digitVal_dChar (d := d + 1) (by omega)] <;> omega

theorem mesh4_north_char {m n : Code} (hm : validate_mesh4_code m = rok ())
    (h : Mesh4.north_mesh m = rok n) :
    ∃ p d, m = p ++ [dChar d] ∧ validate_mesh3_code p = rok () ∧
      1 ≤ d ∧ d ≤ 4 ∧
      (((d = 1 ∨ d = 2) ∧ n = p ++ [dChar (d + 2)]) ∨
        ((d = 3 ∨ d = 4) ∧ ∃ p2, Mesh3.north_mesh p = rok p2 ∧
          n = p2 ++ [dChar (d - 2)])) := by
  obtain ⟨p, c, hm2, hp, hc1, hc4⟩ := valid4_iff.mp hm
  subst hm2
  obtain ⟨hc, hd1, hd4⟩ := digit14 hc1 hc4
  obtain ⟨hbl8, hlen8⟩ := valid3_shape hp
  have hcd : dChar (digitVal c) = c := dChar_digitVal hc
  refine ⟨p, digitVal c, by rw [hcd], hp, hd1, hd4, ?_⟩
  by_cases h12 : digitVal c = 1 ∨ digitVal c = 2
  · left
    have hcomp := mesh4_north_comp_nc (d := digitVal c) hp h12
    rw [hcd] at hcomp
    rw [h] at hcomp
    exact ⟨h12, rok_inj.mp hcomp⟩
  · right
    have h34 : digitVal c = 3 ∨ digitVal c = 4 := by omega
    refine ⟨h34, ?_⟩
    unfold Mesh4.north_mesh at h
    rw [get_append_k hlen8] at h
    simp only [List.get?_cons_zero, Option.some_bind, toDigit10_digit hc,
      ropt_some, rbind_rok] at h
    rw [if_neg h12, if_pos h34, mesh3_of_append _ hp] at h
    simp only [ropt_some, rbind_rok] at h
    rw [rbind_eq_rok] at h
    obtain ⟨p2, hp2, h⟩ := h
    rw [fmtU8_lt10 (by omega)] at h
    obtain ⟨-, hn⟩ := new4_rok.mp h
    exact ⟨p2, hp2, hn⟩

theorem mesh4_east_char {m n : Code} (hm : validate_mesh4_code m = rok ())
    (h : Mesh4.east_mesh m = rok n) :
    ∃ p d, m = p ++ [dChar d] ∧ validate_mesh3_code p = rok () ∧
      1 ≤ d ∧ d ≤ 4 ∧
      (((d = 1 ∨ d = 3) ∧ n = p ++ [dChar (d + 1)]) ∨
        ((d = 2 ∨ d = 4) ∧ ∃ p2, Mesh3.east_mesh p = rok p2 ∧
          n = p2 ++ [dChar (d - 1)])) := by
  obtain ⟨p, c, hm2, hp, hc1, hc4⟩ := valid4_iff.mp hm
  subst hm2
  obtain ⟨hc, hd1, hd4⟩ := digit14 hc1 hc4
  obtain ⟨hbl8, hlen8⟩ := valid3_shape hp
  have hcd : dChar (digitVal c) = c := dChar_digitVal hc
  refine ⟨p, digitVal c, by rw [hcd], hp, hd1, hd4, ?_⟩
  by_cases h13 : digitVal c = 1 ∨ digitVal c = 3
  · left
    have hcomp := mesh4_east_comp_nc (d := digitVal c) hp h13
    rw [hcd] at hcomp
    rw [h] at hcomp
    exact ⟨h13, rok_inj.mp hcomp⟩
  · right
    have h24 : digitVal c = 2 ∨ digitVal c = 4 := by omega
    refine ⟨h24, ?_⟩
    unfold Mesh4.east_mesh at h
    rw [get_append_k hlen8] at h
    simp only [List.get?_cons_zero, Option.some_bind, toDigit10_digit hc,
      ropt_some, rbind_rok] at h
    rw [if_neg h13, if_pos h24, mesh3_of_append _ hp] at h
    simp only [ropt_some, rbind_rok] at h
    rw [rbind_eq_rok] at h
    obtain ⟨p2, hp2, h⟩ := h
    rw [fmtU8_lt10 (by omega)] at h
    obtain ⟨-, hn⟩ := new4_rok.mp h
    exact ⟨p2, hp2, hn⟩

theorem mesh4_south_char {m n : Code} (hm : validate_mesh4_code m = rok ())
    (h : Mesh4.south_mesh m = rok n) :
    ∃ p d, m = p ++ [dChar d] ∧ validate_mesh3_code p = rok () ∧
      1 ≤ d ∧ d ≤ 4 ∧
      (((d = 3 ∨ d = 4) ∧ n = p ++ [dChar (d - 2)]) ∨
        ((d = 1 ∨ d = 2) ∧ ∃ p2, Mesh3.south_mesh p = rok p2 ∧
          n = p2 ++ [dChar (d + 2)])) := by
  obtain ⟨p, c, hm2, hp, hc1, hc4⟩ := valid4_iff.mp hm
  subst hm2
  obtain ⟨hc, hd1, hd4⟩ := digit14 hc1 hc4
  obtain ⟨hbl8, hlen8⟩ := valid3_shape hp
  have hcd : dChar (digitVal c) = c := dChar_digitVal hc
  refine ⟨p, digitVal c, by rw [hcd], hp, hd1, hd4, ?_⟩
  by_cases h34 : digitVal c = 3 ∨ digitVal c = 4
  · left
    have hcomp := mesh4_south_comp_nc (d := digitVal c) hp h34
    rw [hcd] at hcomp
    rw [h] at hcomp
    exact ⟨h34, rok_inj.mp hcomp⟩
  · right
    have h12 : digitVal c = 1 ∨ digitVal c = 2 := by omega
    refine ⟨h12, ?_⟩
    unfold Mesh4.south_mesh at h
    rw [get_append_k hlen8] at h
    simp only [List.get?_cons_zero, Option.some_bind, toDigit10_digit hc,
      ropt_some, rbind_rok] at h
    rw [if_pos h12, mesh3_of_append _ hp] at h
    simp only [ropt_some, rbind_rok] at h
    rw [rbind_eq_rok] at h
    obtain ⟨p2, hp2, h⟩ := h
    rw [fmtU8_lt10 (by omega)] at h
    obtain ⟨-, hn⟩ := new4_rok.mp h
    exact ⟨p2, hp2, hn⟩

theorem mesh4_west_char {m n : Code} (hm : validate_mesh4_code m = rok ())
    (h : Mesh4.west_mesh m = rok n) :
    ∃ p d, m = p ++ [dChar d] ∧ validate_mesh3_code p = rok () ∧
      1 ≤ d ∧ d ≤ 4 ∧
      (((d = 2 ∨ d = 4) ∧ n = p ++ [dChar (d - 1)]) ∨
        ((d = 1 ∨ d = 3) ∧ ∃ p2, Mesh3.west_mesh p = rok p2 ∧
          n = p2 ++ [dChar (d + 1)])) := by
  obtain ⟨p, c, hm2, hp, hc1, hc4⟩ := valid4_iff.mp hm
  subst hm2
  obtain ⟨hc, hd1, hd4⟩ := digit14 hc1 hc4
  obtain ⟨hbl8, hlen8⟩ := valid3_shape hp
  have hcd : dChar (digitVal c) = c := dChar_digitVal hc
  refine ⟨p, digitVal c, by rw [hcd], hp, hd1, hd4, ?_⟩
  by_cases h24 : digitVal c = 2 ∨ digitVal c = 4
  · left
    have hcomp := mesh4_west_comp_nc (d := digitVal c) hp h24
    rw [hcd] at hcomp
    rw [h] at hcomp
    exact ⟨h24, rok_inj.mp hcomp⟩
  · right
    have h13 : digitVal c = 1 ∨ digitVal c = 3 := by omega
    refine ⟨h13, ?_⟩
    unfold Mesh4.west_mesh at h
    rw [get_append_k hlen8] at h
    simp only [List.get?_cons_zero, Option.some_bind, toDigit10_digit hc,
      ropt_some, rbind_rok] at h
    rw [if_pos h13, mesh3_of_append _ hp] at h
    simp only [ropt_some, rbind_rok] at h
    rw [rbind_eq_rok] at h
    obtain ⟨p2, hp2, h⟩ := h
    rw [fmtU8_lt10 (by omega)] at h
    obtain ⟨-, hn⟩ := new4_rok.mp h
    exact ⟨p2, hp2, hn⟩

theorem mesh4_north_valid {m n : Code} (hm : validate_mesh4_code m = rok ())
    (h : Mesh4.north_mesh m = rok n) : validate_mesh4_code n = rok () := by
  obtain ⟨p, d, hm2, hp, hd1, hd4, hcase⟩ := mesh4_north_char hm h
  rcases hcase with ⟨h12, hn⟩ | ⟨h34, p2, hp2, hn⟩
  · subst hn
    refine valid4_parts hp (isDigitC_dChar (d := d + 2) (by omega)) ?_ ?_ <;>
      rw [digitVal_dChar (d := d + 2) (by omega)] <;> omega
  · subst hn
    refine valid4_parts (mesh3_north_valid hp hp2)
      (isDigitC_dChar (d := d - 2) (by omega)) ?_ ?_ <;>
      rw [digitVal_dChar (d := d - 2) (by omega)] <;> omega

theorem mesh4_east_valid {m n : Code} (hm : validate_mesh4_code m = rok ())
    (h : Mesh4.east_mesh m = rok n) : validate_mesh4_code n = rok () := by
  obtain ⟨p, d, hm2, hp, hd1, hd4, hcase⟩ := mesh4_east_char hm h
  rcases hcase with ⟨h13, hn⟩ | ⟨h24, p2, hp2, hn⟩
  · subst hn
    refine valid4_parts hp (isDigitC_dChar (d := d + 1) (by omega)) ?_ ?_ <;>
      rw [digitVal_dChar (d := d + 1) (by omega)] <;> omega
  · subst hn
    refine valid4_parts (mesh3_east_valid hp hp2)
      (isDigitC_dChar (d := d - 1) (by omega)) ?_ ?_ <;>
      rw [digitVal_dChar (d := d - 1) (by omega)] <;> omega

theorem mesh4_south_valid {m n : Code} (hm : validate_mesh4_code m = rok ())
    (h : Mesh4.south_mesh m = rok n) : validate_mesh4_code n = rok () := by
  obtain ⟨p, d, hm2, hp, hd1, hd4, hcase⟩ := mesh4_south_char hm h
  rcases hcase with ⟨h34, hn⟩ | ⟨h12, p2, hp2, hn⟩
  · subst hn
    refine valid4_parts hp (isDigitC_dChar (d := d - 2) (by omega)) ?_ ?_ <;>
      rw [digitVal_dChar (d := d - 2) (by omega)] <;> omega
  · subst hn
    refine valid4_parts (mesh3_south_valid hp hp2)
      (isDigitC_dChar (d := d + 2) (by omega)) ?_ ?_ <;>
      rw [digitVal_dChar (d := d + 2) (by omega)] <;> omega

theorem mesh4_west_valid {m n : Code} (hm : validate_mesh4_code m = rok ())
    (h : Mesh4.west_mesh m = rok n) : validate_mesh4_code n = rok () := by
  obtain ⟨p, d, hm2, hp, hd1, hd4, hcase⟩ := mesh4_west_char hm h
  rcases hcase with ⟨h24, hn⟩ | ⟨h13, p2, hp2, hn⟩
  · subst hn
    refine valid4_parts hp (isDigitC_dChar (d := d - 1) (by omega)) ?_ ?_ <;>
      rw [digitVal_dChar (d := d - 1) (by omega)] <;> omega
  · subst hn
    refine valid4_parts (mesh3_west_valid hp hp2)
      (isDigitC_dChar (d := d + 1) (by omega)) ?_ ?_ <;>
      rw [digitVal_dChar (d := d + 1) (by omega)] <;> omega

theorem mesh4_inv_ns {m n : Code} (hm : validate_mesh4_code m = rok ())
    (h : Mesh4.north_mesh m = rok n) : Mesh4.south_mesh n = rok m := by
  obtain ⟨p, d, hm2, hp, hd1, hd4, hcase⟩ := mesh4_north_char hm h
  rcases hcase with ⟨h12, hn⟩ | ⟨h34, p2, hp2, hn⟩
  · subst hn
    have hc := mesh4_south_comp_nc (d := d + 2) hp (by omega)
    rw [show d + 2 - 2 = d from by omega] at hc
    rw [hc, hm2]
  · subst hn
    have hc := mesh4_south_comp_c (d := d - 2) (mesh3_north_valid hp hp2)
      (mesh3_inv_ns hp hp2) (by omega)
    rw [show d - 2 + 2 = d from by omega] at hc
    rw [hc, hm2]

theorem mesh4_commute_ne {m n e : Code} (hm : validate_mesh4_code m = rok ())
    (hn : Mesh4.north_mesh m = rok n) (he : Mesh4.east_mesh m = rok e) :
    ∃ dd, Mesh4.east_mesh n = rok dd ∧ Mesh4.north_mesh e = rok dd := by
  obtain ⟨p, d, hm2, hp, hd1, hd4, hcaseN⟩ := mesh4_north_char hm hn
  obtain ⟨p', d', hm2', hp', hd1', hd4', hcaseE⟩ := mesh4_east_char hm he
  rw [hm2] at hm2'
  have hdd : p = p' ∧ d = d' := by
    obtain ⟨h1, h2⟩ := List.append_inj hm2'
      (by rw [(valid3_shape hp).2, (valid3_shape hp').2])
    simp only [List.cons.injEq] at h2
    refine ⟨h1, ?_⟩
    have := h2.1
    have hv1 := digitVal_dChar (d := d) (by omega)
    have hv2 := digitVal_dChar (d := d') (by omega)
    rw [← hv1, ← hv2, this]
  obtain ⟨rfl, rfl⟩ := hdd
  rcases hcaseN with ⟨h12, hnv⟩ | ⟨h34, p2N, hp2N, hnv⟩ <;>
    rcases hcaseE with ⟨h13, hev⟩ | ⟨h24, p2E, hp2E, hev⟩
  · -- d = 1
    have hd : d = 1 := by omega
    subst hnv
    subst hev
    refine ⟨p ++ [dChar 4], ?_, ?_⟩
    · have hc := mesh4_east_comp_nc (d := d + 2) hp (by omega)
      rw [show d + 2 + 1 = 4 from by omega] at hc
      exact hc
    · have hc := mesh4_north_comp_nc (d := d + 1) hp (by omega)
      rw [show d + 1 + 2 = 4 from by omega] at hc
      exact hc
  · -- d = 2
    have hd : d = 2 := by omega
    subst hnv
    subst hev
    refine ⟨p2E ++ [dChar 3], ?_, ?_⟩
    · have hc := mesh4_east_comp_c (d := d + 2) hp hp2E (by omega)
      rw [show d + 2 - 1 = 3 from by omega] at hc
      exact hc
    · have hc := mesh4_north_comp_nc (d := d - 1) (mesh3_east_valid hp hp2E)
        (by omega)
      rw [show d - 1 + 2 = 3 from by omega] at hc
      exact hc
  · -- d = 3
    have hd : d = 3 := by omega
    subst hnv
    subst hev
    refine ⟨p2N ++ [dChar 2], ?_, ?_⟩
    · have hc := mesh4_east_comp_nc (d := d - 2) (mesh3_north_valid hp hp2N)
        (by omega)
      rw [show d - 2 + 1 = 2 from by omega] at hc
      exact hc
    · have hc := mesh4_north_comp_c (d := d + 1) hp hp2N (by omega)
      rw [show d + 1 - 2 = 2 from by omega] at hc
      exact hc
  · -- d = 4
    have hd : d = 4 := by omega
    subst hnv
    subst hev
    obtain ⟨q, hq1, hq2⟩ := mesh3_commute_ne hp hp2N hp2E
    refine ⟨q ++ [dChar 1], ?_, ?_⟩
    · have hc := mesh4_east_comp_c (d := d - 2) (mesh3_north_valid hp hp2N)
        hq1 (by omega)
      rw [show d - 2 - 1 = 1 from by omega] at hc
      exact hc
    · have hc := mesh4_north_comp_c (d := d - 1) (mesh3_east_valid hp hp2E)
        hq2 (by omega)
      rw [show d - 1 - 2 = 1 from by omega] at hc
      exact hc

/-! ### Level-5 structure and moves -/



theorem new5_rok {c n : Code} :
    Mesh5.new c = rok n ↔ validate_mesh5_code c = rok () ∧ n = c := by
  unfold Mesh5.new
  rw [rbind_eq_rok]
  constructor
  · rintro ⟨u, hu, hn⟩
    cases u
    exact ⟨hu, (rok_inj.mp hn).symm⟩
  · rintro ⟨hv, rfl⟩
    exact ⟨(), hv, rfl⟩

theorem valid5_iff {m : Code} :
    validate_mesh5_code m = rok () ↔
      ∃ p c, m = p ++ [c] ∧ validate_mesh4_code p = rok () ∧
        '1' ≤ c ∧ c ≤ '4' := by
  constructor
  · intro h
    unfold validate_mesh5_code at h
    split at h
    · exact absurd h rerr_ne_rok
    · rename_i hlen
      simp only [ne_eq, not_not] at hlen
      rw [rbind_eq_rok] at h
      obtain ⟨p, hp, h⟩ := h
      rw [ropt_eq_rok, bslice_zero] at hp
      rw [rbind_eq_rok] at h
      obtain ⟨u, hu, h⟩ := h
      cases u
      rw [rbind_eq_rok] at h
      obtain ⟨c, hc, h⟩ := h
      rw [ropt_eq_rok] at hc
      split at h
      · exact absurd h rerr_ne_rok
      · rename_i hrc
        push_neg at hrc
        obtain ⟨r, hm, hblp⟩ := btake_eq hp
        obtain ⟨hbl8, hlen8⟩ := valid4_shape hu
        rw [hm, get_append_k hlen8] at hc
        match r, hc with
        | c' :: r', rfl =>
          have hcc : cbytes c' = 1 := by
            have h1 : c'.toNat ≤ ('4' : Char).toNat := hrc.2
            exact cbytes_of_lt128 (by
              have : ('4' : Char).toNat = 52 := by decide
              omega)
          have hr' : r' = [] := by
            apply blen_eq_zero
            rw [hm] at hlen
            simp [hcc, hbl8] at hlen
            omega
          subst hr'
          exact ⟨p, c', hm, hu, hrc.1, hrc.2⟩
  · rintro ⟨p, c, hm, hp, hc1, hc4⟩
    subst hm
    obtain ⟨hbl8, hlen8⟩ := valid4_shape hp
    have hcc : cbytes c = 1 := by
      have h1 : c.toNat ≤ ('4' : Char).toNat := hc4
      exact cbytes_of_lt128 (by
        have : ('4' : Char).toNat = 52 := by decide
        omega)
    unfold validate_mesh5_code
    rw [if_neg (by simp [hcc, hbl8])]
    have hs : bslice (p ++ [c]) 0 9 = some p := by
      rw [bslice_zero]
      have := btake_append p [c]
      rw [hbl8] at this
      exact this
    rw [hs]
    simp only [ropt_some, rbind_rok]
    rw [hp]
    simp only [rbind_rok]
    rw [get_append_k hlen8]
    simp only [List.get?_cons_zero, ropt_some, rbind_rok]
    rw [if_neg (by push_neg; exact ⟨hc1, hc4⟩)]

theorem valid5_shape {p : Code} (h : validate_mesh5_code p = rok ()) :
    blen p = 10 ∧ p.length = 10 := by
  obtain ⟨q, c, hp, hq, hc1, hc4⟩ := valid5_iff.mp h
  subst hp
  obtain ⟨hbl8, hlen8⟩ := valid4_shape hq
  have hcc : cbytes c = 1 := by
    have h1 : c.toNat ≤ ('4' : Char).toNat := hc4
    exact cbytes_of_lt128 (by
      have : ('4' : Char).toNat = 52 := by decide
      omega)
  constructor
  · simp [hcc, hbl8]
  · simp [hlen8]

theorem valid5_parts {p : Code} {c : Char}
    (hp : validate_mesh4_code p = rok ()) (hc : isDigitC c = true)
    (h1 : 1 ≤ digitVal c) (h4 : digitVal c ≤ 4) :
    validate_mesh5_code (p ++ [c]) = rok () := by
  obtain ⟨hc1, hc4⟩ := digit_range14 hc h1 h4
  exact valid5_iff.mpr ⟨p, c, rfl, hp, hc1, hc4⟩

theorem mesh4_of_append {p : Code} (t : Code)
    (hp : validate_mesh4_code p = rok ()) : Mesh5.mesh4 (p ++ t) = some p := by
  unfold Mesh5.mesh4
  rw [bslice_pre t (valid4_shape hp).1]
  rw [Option.some_bind]
  rw [new4_rok.mpr ⟨hp, rfl⟩]
  rfl

theorem mesh5_north_comp_nc {p : Code} {d : Nat}
    (hp : validate_mesh4_code p = rok ()) (hd : d = 1 ∨ d = 2) :
    Mesh5.north_mesh (p ++ [dChar d]) = rok (p ++ [dChar (d + 2)]) := by
  obtain ⟨hbl8, hlen8⟩ := valid4_shape hp
  unfold Mesh5.north_mesh
  rw [get_append_k hlen8]
  simp only [List.get?_cons_zero, Option.some_bind,
    toDigit10_digit (isDigitC_dChar (d := d) (by omega)), ropt_some, rbind_rok]
  rw [digitVal_dChar (d := d) (by omega)]
  rw [if_pos hd]
  rw [bslice_pre [dChar d] hbl8]
  simp only [ropt_some, rbind_rok]
  rw [fmtU8_lt10 (by omega)]
  rw [new5_rok]
  refine ⟨valid5_parts hp (isDigitC_dChar (d := d + 2) (by omega)) ?_ ?_, rfl⟩ <;>
    rw [digitVal_dChar (d := d + 2) (by omega)] <;> omega

theorem mesh5_north_comp_c {p p2 : Code} {d : Nat}
    (hp : validate_mesh4_code p = rok ())
    (hp2 : Mesh4.north_mesh p = rok p2) (hd : d = 3 ∨ d = 4) :
    Mesh5.north_mesh (p ++ [dChar d]) = rok (p2 ++ [dChar (d - 2)]) := by
  obtain ⟨hbl8, hlen8⟩ := valid4_shape hp
  unfold Mesh5.north_mesh
  rw [get_append_k hlen8]
  simp only [List.get?_cons_zero, Option.some_bind,
    toDigit10_digit (isDigitC_dChar (d := d) (by omega)), ropt_some, rbind_rok]
  rw [digitVal_dChar (d := d) (by omega)]
  rw [if_neg (by omega), if_pos hd]
  rw [mesh4_of_append _ hp]
  simp only [ropt_some, rbind_rok]
  rw [hp2]
  simp only [rbind_rok]
  rw [fmtU8_lt10 (by omega)]
  rw [new5_rok]
  refine ⟨valid5_parts (mesh4_north_valid hp hp2)
    (isDigitC_dChar (d := d - 2) (by omega)) ?_ ?_, rfl⟩ <;>
    rw [digitVal_dChar (d := d - 2) (by omega)] <;> omega

theorem mesh5_east_comp_nc {p : Code} {d : Nat}
    (hp : validate_mesh4_code p = rok ()) (hd : d = 1 ∨ d = 3) :
    Mesh5.east_mesh (p ++ [dChar d]) = rok (p ++ [dChar (d + 1)]) := by
  obtain ⟨hbl8, hlen8⟩ := valid4_shape hp
  unfold Mesh5.east_mesh
  rw [get_append_k hlen8]
  simp only [List.get?_cons_zero, Option.some_bind,
    toDigit10_digit (isDigitC_dChar (d := d) (by omega)), ropt_some, rbind_rok]
  rw [digitVal_dChar (d := d) (by omega)]
  rw [if_pos hd]
  rw [bslice_pre [dChar d] hbl8]
  simp only [ropt_some, rbind_rok]
  rw [fmtU8_lt10 (by omega)]
  rw [new5_rok]
  refine ⟨valid5_parts hp (isDigitC_dChar (d := d + 1) (by omega)) ?_ ?_, rfl⟩ <;>
    rw [digitVal_dChar (d := d + 1) (by omega)] <;> omega

theorem mesh5_east_comp_c {p p2 : Code} {d : Nat}
    (hp : validate_mesh4_code p = rok ())
    (hp2 : Mesh4.east_mesh p = rok p2) (hd : d = 2 ∨ d = 4) :
    Mesh5.east_mesh (p ++ [dChar d]) = rok (p2 ++ [dChar (d - 1)]) := by
  obtain ⟨hbl8, hlen8⟩ := valid4_shape hp
  unfold Mesh5.east_mesh
  rw [get_append_k hlen8]
  simp only [List.get?_cons_zero, Option.some_bind,
    toDigit10_digit (isDigitC_dChar (d := d) (by omega)), ropt_some, rbind_rok]
  rw [digitVal_dChar (d := d) (by omega)]
  rw [if_neg (by omega), if_pos hd]
  rw [mesh4_of_append _ hp]
  simp only [ropt_some, rbind_rok]
  rw [hp2]
  simp only [rbind_rok]
  rw [fmtU8_lt10 (by omega)]
  rw [new5_rok]
  refine ⟨valid5_parts (mesh4_east_valid hp hp2)
    (isDigitC_dChar (d := d - 1) (by omega)) ?_ ?_, rfl⟩ <;>
    rw [digitVal_dChar (d := d - 1) (by omega)] <;> omega

theorem mesh5_south_comp_nc {p : Code} {d : Nat}
    (hp : validate_mesh4_code p = rok ()) (hd : d = 3 ∨ d = 4) :
    Mesh5.south_mesh (p ++ [dChar d]) = rok (p ++ [dChar (d - 2)]) := by
  obtain ⟨hbl8, hlen8⟩ := valid4_shape hp
  unfold Mesh5.south_mesh
  rw [get_append_k hlen8]
  simp only [List.get?_cons_zero, Option.some_bind,
    toDigit10_digit (isDigitC_dChar (d := d) (by omega)), ropt_some, rbind_rok]
  rw [digitVal_dChar (d := d) (by omega)]
  rw [if_neg (by omega), if_pos hd]
  rw [bslice_pre [dChar d] hbl8]
  simp only [ropt_some, rbind_rok]
  rw [fmtU8_lt10 (by omega)]
  rw [new5_rok]
  refine ⟨valid5_parts hp (isDigitC_dChar (d := d - 2) (by omega)) ?_ ?_, rfl⟩ <;>
    rw [digitVal_dChar (d := d - 2) (by omega)] <;> omega

theorem mesh5_south_comp_c {p p2 : Code} {d : Nat}
    (hp : validate_mesh4_code p = rok ())
    (hp2 : Mesh4.south_mesh p = rok p2) (hd : d = 1 ∨ d = 2) :
    Mesh5.south_mesh (p ++ [dChar d]) = rok (p2 ++ [dChar (d + 2)]) := by
  obtain ⟨hbl8, hlen8⟩ := valid4_shape hp
  unfold Mesh5.south_mesh
  rw [get_append_k hlen8]
  simp only [List.get?_cons_zero, Option.some_bind,
    toDigit10_digit (isDigitC_dChar (d := d) (by omega)), ropt_some, rbind_rok]
  rw [digitVal_dChar (d := d) (by omega)]
  rw [if_pos hd]
  rw [mesh4_of_append _ hp]
  simp only [ropt_some, rbind_rok]
  rw [hp2]
  simp only [rbind_rok]
  rw [fmtU8_lt10 (by omega)]
  rw [new5_rok]
  refine ⟨valid5_parts (mesh4_south_valid hp hp2)
    (isDigitC_dChar (d := d + 2) (by omega)) ?_ ?_, rfl⟩ <;>
    rw [digitVal_dChar (d := d + 2) (by omega)] <;> omega

theorem mesh5_west_comp_nc {p : Code} {d : Nat}
    (hp : validate_mesh4_code p = rok ()) (hd : d = 2 ∨ d = 4) :
    Mesh5.west_mesh (p ++ [dChar d]) = rok (p ++ [dChar (d - 1)]) := by
  obtain ⟨hbl8, hlen8⟩ := valid4_shape hp
  unfold Mesh5.west_mesh
  rw [get_append_k hlen8]
  simp only [List.get?_cons_zero, Option.some_bind,
    toDigit10_digit (isDigitC_dChar (d := d) (by omega)), ropt_some, rbind_rok]
  rw [digitVal_dChar (d := d) (by omega)]
  rw [if_neg (by omega), if_pos hd]
  rw [bslice_pre [dChar d] hbl8]
  simp only [ropt_some, rbind_rok]
  rw [fmtU8_lt10 (by omega)]
  rw [new5_rok]
  refine ⟨valid5_parts hp (isDigitC_dChar (d := d - 1) (by omega)) ?_ ?_, rfl⟩ <;>
    rw [digitVal_dChar (d := d - 1) (by omega)] <;> omega

theorem mesh5_west_comp_c {p p2 : Code} {d : Nat}
    (hp : validate_mesh4_code p = rok ())
    (hp2 : Mesh4.west_mesh p = rok p2) (hd : d = 1 ∨ d = 3) :
    Mesh5.west_mesh (p ++ [dChar d]) = rok (p2 ++ [dChar (d + 1)]) := by
  obtain ⟨hbl8, hlen8⟩ := valid4_shape hp
  unfold Mesh5.west_mesh
  rw [get_append_k hlen8]
  simp only [List.get?_cons_zero, Option.some_bind,
    toDigit10_digit (isDigitC_dChar (d := d) (by omega)), ropt_some, rbind_rok]
  rw [digitVal_dChar (d := d) (by omega)]
  rw [if_pos hd]
  rw [mesh4_of_append _ hp]
  simp only [ropt_some, rbind_rok]
  rw [hp2]
  simp only [rbind_rok]
  rw [fmtU8_lt10 (by omega)]
  rw [new5_rok]
  refine ⟨valid5_parts (mesh4_west_valid hp hp2)
    (isDigitC_dChar (d := d + 1) (by omega)) ?_ ?_, rfl⟩ <;>
    rw [digitVal_dChar (d := d + 1) (by omega)] <;> omega

theorem mesh5_north_char {m n : Code} (hm : validate_mesh5_code m = rok ())
    (h : Mesh5.north_mesh m = rok n) :
    ∃ p d, m = p ++ [dChar d] ∧ validate_mesh4_code p = rok () ∧
      1 ≤ d ∧ d ≤ 4 ∧
      (((d = 1 ∨ d = 2) ∧ n = p ++ [dChar (d + 2)]) ∨
        ((d = 3 ∨ d = 4) ∧ ∃ p2, Mesh4.north_mesh p = rok p2 ∧
          n = p2 ++ [dChar (d - 2)])) := by
  obtain ⟨p, c, hm2, hp, hc1, hc4⟩ := valid5_iff.mp hm
  subst hm2
  obtain ⟨hc, hd1, hd4⟩ := digit14 hc1 hc4
  obtain ⟨hbl8, hlen8⟩ := valid4_shape hp
  have hcd : dChar (digitVal c) = c := dChar_digitVal hc
  refine ⟨p, digitVal c, by rw [hcd], hp, hd1, hd4, ?_⟩
  by_cases h12 : digitVal c = 1 ∨ digitVal c = 2
  · left
    have hcomp := mesh5_north_comp_nc (d := digitVal c) hp h12
    rw [hcd] at hcomp
    rw [h] at hcomp
    exact ⟨h12, rok_inj.mp hcomp⟩
  · right
    have h34 : digitVal c = 3 ∨ digitVal c = 4 := by omega
    refine ⟨h34, ?_⟩
    unfold Mesh5.north_mesh at h
    rw [get_append_k hlen8] at h
    simp only [List.get?_cons_zero, Option.some_bind, toDigit10_digit hc,
      ropt_some, rbind_rok] at h
    rw [if_neg h12, if_pos h34, mesh4_of_append _ hp] at h
    simp only [ropt_some, rbind_rok] at h
    rw [rbind_eq_rok] at h
    obtain ⟨p2, hp2, h⟩ := h
    rw [fmtU8_lt10 (by omega)] at h
    obtain ⟨-, hn⟩ := new5_rok.mp h
    exact ⟨p2, hp2, hn⟩

theorem mesh5_east_char {m n : Code} (hm : validate_mesh5_code m = rok ())
    (h : Mesh5.east_mesh m = rok n) :
    ∃ p d, m = p ++ [dChar d] ∧ validate_mesh4_code p = rok () ∧
      1 ≤ d ∧ d ≤ 4 ∧
      (((d = 1 ∨ d = 3) ∧ n = p ++ [dChar (d + 1)]) ∨
        ((d = 2 ∨ d = 4) ∧ ∃ p2, Mesh4.east_mesh p = rok p2 ∧
          n = p2 ++ [dChar (d - 1)])) := by
  obtain ⟨p, c, hm2, hp, hc1, hc4⟩ := valid5_iff.mp hm
  subst hm2
  obtain ⟨hc, hd1, hd4⟩ := digit14 hc1 hc4
  obtain ⟨hbl8, hlen8⟩ := valid4_shape hp
  have hcd : dChar (digitVal c) = c := dChar_digitVal hc
  refine ⟨p, digitVal c, by rw [hcd], hp, hd1, hd4, ?_⟩
  by_cases h13 : digitVal c = 1 ∨ digitVal c = 3
  · left
    have hcomp := mesh5_east_comp_nc (d := digitVal c) hp h13
    rw [hcd] at hcomp
    rw [h] at hcomp
    exact ⟨h13, rok_inj.mp hcomp⟩
  · right
    have h24 : digitVal c = 2 ∨ digitVal c = 4 := by omega
    refine ⟨h24, ?_⟩
    unfold Mesh5.east_mesh at h
    rw [get_append_k hlen8] at h
    simp only [List.get?_cons_zero, Option.some_bind, toDigit10_digit hc,
      ropt_some, rbind_rok] at h
    rw [if_neg h13, if_pos h24, mesh4_of_append _ hp] at h
    simp only [ropt_some, rbind_rok] at h
    rw [rbind_eq_rok] at h
    obtain ⟨p2, hp2, h⟩ := h
    rw [fmtU8_lt10 (by omega)] at h
    obtain ⟨-, hn⟩ := new5_rok.mp h
    exact ⟨p2, hp2, hn⟩

theorem mesh5_south_char {m n : Code} (hm : validate_mesh5_code m = rok ())
    (h : Mesh5.south_mesh m = rok n) :
    ∃ p d, m = p ++ [dChar d] ∧ validate_mesh4_code p = rok () ∧
      1 ≤ d ∧ d ≤ 4 ∧
      (((d = 3 ∨ d = 4) ∧ n = p ++ [dChar (d - 2)]) ∨
        ((d = 1 ∨ d = 2) ∧ ∃ p2, Mesh4.south_mesh p = rok p2 ∧
          n = p2 ++ [dChar (d + 2)])) := by
  obtain ⟨p, c, hm2, hp, hc1, hc4⟩ := valid5_iff.mp hm
  subst hm2
  obtain ⟨hc, hd1, hd4⟩ := digit14 hc1 hc4
  obtain ⟨hbl8, hlen8⟩ := valid4_shape hp
  have hcd : dChar (digitVal c) = c := dChar_digitVal hc
  refine ⟨p, digitVal c, by rw [hcd], hp, hd1, hd4, ?_⟩
  by_cases h34 : digitVal c = 3 ∨ digitVal c = 4
  · left
    have hcomp := mesh5_south_comp_nc (d := digitVal c) hp h34
    rw [hcd] at hcomp
    rw [h] at hcomp
    exact ⟨h34, rok_inj.mp hcomp⟩
  · right
    have h12 : digitVal c = 1 ∨ digitVal c = 2 := by omega
    refine ⟨h12, ?_⟩
    unfold Mesh5.south_mesh at h
    rw [get_append_k hlen8] at h
    simp only [List.get?_cons_zero, Option.some_bind, toDigit10_digit hc,
      ropt_some, rbind_rok] at h
    rw [if_pos h12, mesh4_of_append _ hp] at h
    simp only [ropt_some, rbind_rok] at h
    rw [rbind_eq_rok] at h
    obtain ⟨p2, hp2, h⟩ := h
    rw [fmtU8_lt10 (by omega)] at h
    obtain ⟨-, hn⟩ := new5_rok.mp h
    exact ⟨p2, hp2, hn⟩

theorem mesh5_west_char {m n : Code} (hm : validate_mesh5_code m = rok ())
    (h : Mesh5.west_mesh m = rok n) :
    ∃ p d, m = p ++ [dChar d] ∧ validate_mesh4_code p = rok () ∧
      1 ≤ d ∧ d ≤ 4 ∧
      (((d = 2 ∨ d = 4) ∧ n = p ++ [dChar (d - 1)]) ∨
        ((d = 1 ∨ d = 3) ∧ ∃ p2, Mesh4.west_mesh p = rok p2 ∧
          n = p2 ++ [dChar (d + 1)])) := by
  obtain ⟨p, c, hm2, hp, hc1, hc4⟩ := valid5_iff.mp hm
  subst hm2
  obtain ⟨hc, hd1, hd4⟩ := digit14 hc1 hc4
  obtain ⟨hbl8, hlen8⟩ := valid4_shape hp
  have hcd : dChar (digitVal c) = c := dChar_digitVal hc
  refine ⟨p, digitVal c, by rw [hcd], hp, hd1, hd4, ?_⟩
  by_cases h24 : digitVal c = 2 ∨ digitVal c = 4
  · left
    have hcomp := mesh5_west_comp_nc (d := digitVal c) hp h24
    rw [hcd] at hcomp
    rw [h] at hcomp
    exact ⟨h24, rok_inj.mp hcomp⟩
  · right
    have h13 : digitVal c = 1 ∨ digitVal c = 3 := by omega
    refine ⟨h13, ?_⟩
    unfold Mesh5.west_mesh at h
    rw [get_append_k hlen8] at h
    simp only [List.get?_cons_zero, Option.some_bind, toDigit10_digit hc,
      ropt_some, rbind_rok] at h
    rw [if_pos h13, mesh4_of_append _ hp] at h
    simp only [ropt_some, rbind_rok] at h
    rw [rbind_eq_rok] at h
    obtain ⟨p2, hp2, h⟩ := h
    rw [fmtU8_lt10 (by omega)] at h
    obtain ⟨-, hn⟩ := new5_rok.mp h
    exact ⟨p2, hp2, hn⟩

theorem mesh5_north_valid {m n : Code} (hm : validate_mesh5_code m = rok ())
    (h : Mesh5.north_mesh m = rok n) : validate_mesh5_code n = rok () := by
  obtain ⟨p, d, hm2, hp, hd1, hd4, hcase⟩ := mesh5_north_char hm h
  rcases hcase with ⟨h12, hn⟩ | ⟨h34, p2, hp2, hn⟩
  · subst hn
    refine valid5_parts hp (isDigitC_dChar (d := d + 2) (by omega)) ?_ ?_ <;>
      rw [digitVal_dChar (d := d + 2) (by omega)] <;> omega
  · subst hn
    refine valid5_parts (mesh4_north_valid hp hp2)
      (isDigitC_dChar (d := d - 2) (by omega)) ?_ ?_ <;>
      rw [digitVal_dChar (d := d - 2) (by omega)] <;> omega

theorem mesh5_east_valid {m n : Code} (hm : validate_mesh5_code m = rok ())
    (h : Mesh5.east_mesh m = rok n) : validate_mesh5_code n = rok () := by
  obtain ⟨p, d, hm2, hp, hd1, hd4, hcase⟩ := mesh5_east_char hm h
  rcases hcase with ⟨h13, hn⟩ | ⟨h24, p2, hp2, hn⟩
  · subst hn
    refine valid5_parts hp (isDigitC_dChar (d := d + 1) (by omega)) ?_ ?_ <;>
      rw [digitVal_dChar (d := d + 1) (by omega)] <;> omega
  · subst hn
    refine valid5_parts (mesh4_east_valid hp hp2)
      (isDigitC_dChar (d := d - 1) (by omega)) ?_ ?_ <;>
      rw [digitVal_dChar (d := d - 1) (by omega)] <;> omega

theorem mesh5_south_valid {m n : Code} (hm : validate_mesh5_code m = rok ())
    (h : Mesh5.south_mesh m = rok n) : validate_mesh5_code n = rok () := by
  obtain ⟨p, d, hm2, hp, hd1, hd4, hcase⟩ := mesh5_south_char hm h
  rcases hcase with ⟨h34, hn⟩ | ⟨h12, p2, hp2, hn⟩
  · subst hn
    refine valid5_parts hp (isDigitC_dChar (d := d - 2) (by omega)) ?_ ?_ <;>
      rw [digitVal_dChar (d := d - 2) (by omega)] <;> omega
  · subst hn
    refine valid5_parts (mesh4_south_valid hp hp2)
      (isDigitC_dChar (d := d + 2) (by omega)) ?_ ?_ <;>
      rw [digitVal_dChar (d := d + 2) (by omega)] <;> omega

theorem mesh5_west_valid {m n : Code} (hm : validate_mesh5_code m = rok ())
    (h : Mesh5.west_mesh m = rok n) : validate_mesh5_code n = rok () := by
  obtain ⟨p, d, hm2, hp, hd1, hd4, hcase⟩ := mesh5_west_char hm h
  rcases hcase with ⟨h24, hn⟩ | ⟨h13, p2, hp2, hn⟩
  · subst hn
    refine valid5_parts hp (isDigitC_dChar (d := d - 1) (by omega)) ?_ ?_ <;>
      rw [digitVal_dChar (d := d - 1) (by omega)] <;> omega
  · subst hn
    refine valid5_parts (mesh4_west_valid hp hp2)
      (isDigitC_dChar (d := d + 1) (by omega)) ?_ ?_ <;>
      rw [digitVal_dChar (d := d + 1) (by omega)] <;> omega

theorem mesh5_inv_ns {m n : Code} (hm : validate_mesh5_code m = rok ())
    (h : Mesh5.north_mesh m = rok n) : Mesh5.south_mesh n = rok m := by
  obtain ⟨p, d, hm2, hp, hd1, hd4, hcase⟩ := mesh5_north_char hm h
  rcases hcase with ⟨h12, hn⟩ | ⟨h34, p2, hp2, hn⟩
  · subst hn
    have hc := mesh5_south_comp_nc (d := d + 2) hp (by omega)
    rw [show d + 2 - 2 = d from by omega] at hc
    rw [hc, hm2]
  · subst hn
    have hc := mesh5_south_comp_c (d := d - 2) (mesh4_north_valid hp hp2)
      (mesh4_inv_ns hp hp2) (by omega)
    rw [show d - 2 + 2 = d from by omega] at hc
    rw [hc, hm2]

theorem mesh5_commute_ne {m n e : Code} (hm : validate_mesh5_code m = rok ())
    (hn : Mesh5.north_mesh m = rok n) (he : Mesh5.east_mesh m = rok e) :
    ∃ dd, Mesh5.east_mesh n = rok dd ∧ Mesh5.north_mesh e = rok dd := by
  obtain ⟨p, d, hm2, hp, hd1, hd4, hcaseN⟩ := mesh5_north_char hm hn
  obtain ⟨p', d', hm2', hp', hd1', hd4', hcaseE⟩ := mesh5_east_char hm he
  rw [hm2] at hm2'
  have hdd : p = p' ∧ d = d' := by
    obtain ⟨h1, h2⟩ := List.append_inj hm2'
      (by rw [(valid4_shape hp).2, (valid4_shape hp').2])
    simp only [List.cons.injEq] at h2
    refine ⟨h1, ?_⟩
    have := h2.1
    have hv1 := digitVal_dChar (d := d) (by omega)
    have hv2 := digitVal_dChar (d := d') (by omega)
    rw [← hv1, ← hv2, this]
  obtain ⟨rfl, rfl⟩ := hdd
  rcases hcaseN with ⟨h12, hnv⟩ | ⟨h34, p2N, hp2N, hnv⟩ <;>
    rcases hcaseE with ⟨h13, hev⟩ | ⟨h24, p2E, hp2E, hev⟩
  · -- d = 1
    have hd : d = 1 := by omega
    subst hnv
    subst hev
    refine ⟨p ++ [dChar 4], ?_, ?_⟩
    · have hc := mesh5_east_comp_nc (d := d + 2) hp (by omega)
      rw [show d + 2 + 1 = 4 from by omega] at hc
      exact hc
    · have hc := mesh5_north_comp_nc (d := d + 1) hp (by omega)
      rw [show d + 1 + 2 = 4 from by omega] at hc
      exact hc
  · -- d = 2
    have hd : d = 2 := by omega
    subst hnv
    subst hev
    refine ⟨p2E ++ [dChar 3], ?_, ?_⟩
    · have hc := mesh5_east_comp_c (d := d + 2) hp hp2E (by omega)
      rw [show d + 2 - 1 = 3 from by omega] at hc
      exact hc
    · have hc := mesh5_north_comp_nc (d := d - 1) (mesh4_east_valid hp hp2E)
        (by omega)
      rw [show d - 1 + 2 = 3 from by omega] at hc
      exact hc
  · -- d = 3
    have hd : d = 3 := by omega
    subst hnv
    subst hev
    refine ⟨p2N ++ [dChar 2], ?_, ?_⟩
    · have hc := mesh5_east_comp_nc (d := d - 2) (mesh4_north_valid hp hp2N)
        (by omega)
      rw [show d - 2 + 1 = 2 from by omega] at hc
      exact hc
    · have hc := mesh5_north_comp_c (d := d + 1) hp hp2N (by omega)
      rw [show d + 1 - 2 = 2 from by omega] at hc
      exact hc
  · -- d = 4
    have hd : d = 4 := by omega
    subst hnv
    subst hev
    obtain ⟨q, hq1, hq2⟩ := mesh4_commute_ne hp hp2N hp2E
    refine ⟨q ++ [dChar 1], ?_, ?_⟩
    · have hc := mesh5_east_comp_c (d := d - 2) (mesh4_north_valid hp hp2N)
        hq1 (by omega)
      rw [show d - 2 - 1 = 1 from by omega] at hc
      exact hc
    · have hc := mesh5_north_comp_c (d := d - 1) (mesh4_east_valid hp hp2E)
        hq2 (by omega)
      rw [show d - 1 - 2 = 1 from by omega] at hc
      exact hc

/-! ### Level-6 structure and moves -/



theorem new6_rok {c n : Code} :
    Mesh6.new c = rok n ↔ validate_mesh6_code c = rok () ∧ n = c := by
  unfold Mesh6.new
  rw [rbind_eq_rok]
  constructor
  · rintro ⟨u, hu, hn⟩
    cases u
    exact ⟨hu, (rok_inj.mp hn).symm⟩
  · rintro ⟨hv, rfl⟩
    exact ⟨(), hv, rfl⟩

theorem valid6_iff {m : Code} :
    validate_mesh6_code m = rok () ↔
      ∃ p c, m = p ++ [c] ∧ validate_mesh5_code p = rok () ∧
        '1' ≤ c ∧ c ≤ '4' := by
  constructor
  · intro h
    unfold validate_mesh6_code at h
    split at h
    · exact absurd h rerr_ne_rok
    · rename_i hlen
      simp only [ne_eq, not_not] at hlen
      rw [rbind_eq_rok] at h
      obtain ⟨p, hp, h⟩ := h
      rw [ropt_eq_rok, bslice_zero] at hp
      rw [rbind_eq_rok] at h
      obtain ⟨u, hu, h⟩ := h
      cases u
      rw [rbind_eq_rok] at h
      obtain ⟨c, hc, h⟩ := h
      rw [ropt_eq_rok] at hc
      split at h
      · exact absurd h rerr_ne_rok
      · rename_i hrc
        push_neg at hrc
        obtain ⟨r, hm, hblp⟩ := btake_eq hp
        obtain ⟨hbl8, hlen8⟩ := valid5_shape hu
        rw [hm, get_append_k hlen8] at hc
        match r, hc with
        | c' :: r', rfl =>
          have hcc : cbytes c' = 1 := by
            have h1 : c'.toNat ≤ ('4' : Char).toNat := hrc.2
            exact cbytes_of_lt128 (by
              have : ('4' : Char).toNat = 52 := by decide
              omega)
          have hr' : r' = [] := by
            apply blen_eq_zero
            rw [hm] at hlen
            simp [hcc, hbl8] at hlen
            omega
          subst hr'
          exact ⟨p, c', hm, hu, hrc.1, hrc.2⟩
  · rintro ⟨p, c, hm, hp, hc1, hc4⟩
    subst hm
    obtain ⟨hbl8, hlen8⟩ := valid5_shape hp
    have hcc : cbytes c = 1 := by
      have h1 : c.toNat ≤ ('4' : Char).toNat := hc4
      exact cbytes_of_lt128 (by
        have : ('4' : Char).toNat = 52 := by decide
        omega)
    unfold validate_mesh6_code
    rw [if_neg (by simp [hcc, hbl8])]
    have hs : bslice (p ++ [c]) 0 10 = some p := by
      rw [bslice_zero]
      have := btake_append p [c]
      rw [hbl8] at this
      exact this
    rw [hs]
    simp only [ropt_some, rbind_rok]
    rw [hp]
    simp only [rbind_rok]
    rw [get_append_k hlen8]
    simp only [List.get?_cons_zero, ropt_some, rbind_rok]
    rw [if_neg (by push_neg; exact ⟨hc1, hc4⟩)]

theorem valid6_shape {p : Code} (h : validate_mesh6_code p = rok ()) :
    blen p = 11 ∧ p.length = 11 := by
  obtain ⟨q, c, hp, hq, hc1, hc4⟩ := valid6_iff.mp h
  subst hp
  obtain ⟨hbl8, hlen8⟩ := valid5_shape hq
  have hcc : cbytes c = 1 := by
    have h1 : c.toNat ≤ ('4' : Char).toNat := hc4
    exact cbytes_of_lt128 (by
      have : ('4' : Char).toNat = 52 := by decide
      omega)
  constructor
  · simp [hcc, hbl8]
  · simp [hlen8]

theorem valid6_parts {p : Code} {c : Char}
    (hp : validate_mesh5_code p = rok ()) (hc : isDigitC c = true)
    (h1 : 1 ≤ digitVal c) (h4 : digitVal c ≤ 4) :
    validate_mesh6_code (p ++ [c]) = rok () := by
  obtain ⟨hc1, hc4⟩ := digit_range14 hc h1 h4
  exact valid6_iff.mpr ⟨p, c, rfl, hp, hc1, hc4⟩

theorem mesh5_of_append {p : Code} (t : Code)
    (hp : validate_mesh5_code p = rok ()) : Mesh6.mesh5 (p ++ t) = some p := by
  unfold Mesh6.mesh5
  rw [bslice_pre t (valid5_shape hp).1]
  rw [Option.some_bind]
  rw [new5_rok.mpr ⟨hp, rfl⟩]
  rfl

theorem mesh6_north_comp_nc {p : Code} {d : Nat}
    (hp : validate_mesh5_code p = rok ()) (hd : d = 1 ∨ d = 2) :
    Mesh6.north_mesh (p ++ [dChar d]) = rok (p ++ [dChar (d + 2)]) := by
  obtain ⟨hbl8, hlen8⟩ := valid5_shape hp
  unfold Mesh6.north_mesh
  rw [get_append_k hlen8]
  simp only [List.get?_cons_zero, Option.some_bind,
    toDigit10_digit (isDigitC_dChar (d := d) (by omega)), ropt_some, rbind_rok]
  rw [digitVal_dChar (d := d) (by omega)]
  rw [if_pos hd]
  rw [bslice_pre [dChar d] hbl8]
  simp only [ropt_some, rbind_rok]
  rw [fmtU8_lt10 (by omega)]
  rw [new6_rok]
  refine ⟨valid6_parts hp (isDigitC_dChar (d := d + 2) (by omega)) ?_ ?_, rfl⟩ <;>
    rw [digitVal_dChar (d := d + 2) (by omega)] <;> omega

theorem mesh6_north_comp_c {p p2 : Code} {d : Nat}
    (hp : validate_mesh5_code p = rok ())
    (hp2 : Mesh5.north_mesh p = rok p2) (hd : d = 3 ∨ d = 4) :
    Mesh6.north_mesh (p ++ [dChar d]) = rok (p2 ++ [dChar (d - 2)]) := by
  obtain ⟨hbl8, hlen8⟩ := valid5_shape hp
  unfold Mesh6.north_mesh
  rw [get_append_k hlen8]
  simp only [List.get?_cons_zero, Option.some_bind,
    toDigit10_digit (isDigitC_dChar (d := d) (by omega)), ropt_some, rbind_rok]
  rw [digitVal_dChar (d := d) (by omega)]
  rw [if_neg (by omega), if_pos hd]
  rw [mesh5_of_append _ hp]
  simp only [ropt_some, rbind_rok]
  rw [hp2]
  simp only [rbind_rok]
  rw [fmtU8_lt10 (by omega)]
  rw [new6_rok]
  refine ⟨valid6_parts (mesh5_north_valid hp hp2)
    (isDigitC_dChar (d := d - 2) (by omega)) ?_ ?_, rfl⟩ <;>
    rw [digitVal_dChar (d := d - 2) (by omega)] <;> omega

theorem mesh6_east_comp_nc {p : Code} {d : Nat}
    (hp : validate_mesh5_code p = rok ()) (hd : d = 1 ∨ d = 3) :
    Mesh6.east_mesh (p ++ [dChar d]) = rok (p ++ [dChar (d + 1)]) := by
  obtain ⟨hbl8, hlen8⟩ := valid5_shape hp
  unfold Mesh6.east_mesh
  rw [get_append_k hlen8]
  simp only [List.get?_cons_zero, Option.some_bind,
    toDigit10_digit (isDigitC_dChar (d := d) (by omega)), ropt_some, rbind_rok]
  rw [digitVal_dChar (d := d) (by omega)]
  rw [if_pos hd]
  rw [bslice_pre [dChar d] hbl8]
  simp only [ropt_some, rbind_rok]
  rw [fmtU8_lt10 (by omega)]
  rw [new6_rok]
  refine ⟨valid6_parts hp (isDigitC_dChar (d := d + 1) (by omega)) ?_ ?_, rfl⟩ <;>
    rw [digitVal_dChar (d := d + 1) (by omega)] <;> omega

theorem mesh6_east_comp_c {p p2 : Code} {d : Nat}
    (hp : validate_mesh5_code p = rok ())
    (hp2 : Mesh5.east_mesh p = rok p2) (hd : d = 2 ∨ d = 4) :
    Mesh6.east_mesh (p ++ [dChar d]) = rok (p2 ++ [dChar (d - 1)]) := by
  obtain ⟨hbl8, hlen8⟩ := valid5_shape hp
  unfold Mesh6.east_mesh
  rw [get_append_k hlen8]
  simp only [List.get?_cons_zero, Option.some_bind,
    toDigit10_digit (isDigitC_dChar (d := d) (by omega)), ropt_some, rbind_rok]
  rw [digitVal_dChar (d := d) (by omega)]
  rw [if_neg (by omega), if_pos hd]
  rw [mesh5_of_append _ hp]
  simp only [ropt_some, rbind_rok]
  rw [hp2]
  simp only [rbind_rok]
  rw [fmtU8_lt10 (by omega)]
  rw [new6_rok]
  refine ⟨valid6_parts (mesh5_east_valid hp hp2)
    (isDigitC_dChar (d := d - 1) (by omega)) ?_ ?_, rfl⟩ <;>
    rw [digitVal_dChar (d := d - 1) (by omega)] <;> omega

theorem mesh6_south_comp_nc {p : Code} {d : Nat}
    (hp : validate_mesh5_code p = rok ()) (hd : d = 3 ∨ d = 4) :
    Mesh6.south_mesh (p ++ [dChar d]) = rok (p ++ [dChar (d - 2)]) := by
  obtain ⟨hbl8, hlen8⟩ := valid5_shape hp
  unfold Mesh6.south_mesh
  rw [get_append_k hlen8]
  simp only [List.get?_cons_zero, Option.some_bind,
    toDigit10_digit (isDigitC_dChar (d := d) (by omega)), ropt_some, rbind_rok]
  rw [digitVal_dChar (d := d) (by omega)]
  rw [if_neg (by omega), if_pos hd]
  rw [bslice_pre [dChar d] hbl8]
  simp only [ropt_some, rbind_rok]
  rw [fmtU8_lt10 (by omega)]
  rw [new6_rok]
  refine ⟨valid6_parts hp (isDigitC_dChar (d := d - 2) (by omega)) ?_ ?_, rfl⟩ <;>
    rw [digitVal_dChar (d := d - 2) (by omega)] <;> omega

theorem mesh6_south_comp_c {p p2 : Code} {d : Nat}
    (hp : validate_mesh5_code p = rok ())
    (hp2 : Mesh5.south_mesh p = rok p2) (hd : d = 1 ∨ d = 2) :
    Mesh6.south_mesh (p ++ [dChar d]) = rok (p2 ++ [dChar (d + 2)]) := by
  obtain ⟨hbl8, hlen8⟩ := valid5_shape hp
  unfold Mesh6.south_mesh
  rw [get_append_k hlen8]
  simp only [List.get?_cons_zero, Option.some_bind,
    toDigit10_digit (isDigitC_dChar (d := d) (by omega)), ropt_some, rbind_rok]
  rw [digitVal_dChar (d := d) (by omega)]
  rw [if_pos hd]
  rw [mesh5_of_append _ hp]
  simp only [ropt_some, rbind_rok]
  rw [hp2]
  simp only [rbind_rok]
  rw [fmtU8_lt10 (by omega)]
  rw [new6_rok]
  refine ⟨valid6_parts (mesh5_south_valid hp hp2)
    (isDigitC_dChar (d := d + 2) (by omega)) ?_ ?_, rfl⟩ <;>
    rw [digitVal_dChar (d := d + 2) (by omega)] <;> omega

theorem mesh6_west_comp_nc {p : Code} {d : Nat}
    (hp : validate_mesh5_code p = rok ()) (hd : d = 2 ∨ d = 4) :
    Mesh6.west_mesh (p ++ [dChar d]) = rok (p ++ [dChar (d - 1)]) := by
  obtain ⟨hbl8, hlen8⟩ := valid5_shape hp
  unfold Mesh6.west_mesh
  rw [get_append_k hlen8]
  simp only [List.get?_cons_zero, Option.some_bind,
    toDigit10_digit (isDigitC_dChar (d := d) (by omega)), ropt_some, rbind_rok]
  rw [digitVal_dChar (d := d) (by omega)]
  rw [if_neg (by omega), if_pos hd]
  rw [bslice_pre [dChar d] hbl8]
  simp only [ropt_some, rbind_rok]
  rw [fmtU8_lt10 (by omega)]
  rw [new6_rok]
  refine ⟨valid6_parts hp (isDigitC_dChar (d := d - 1) (by omega)) ?_ ?_, rfl⟩ <;>
    rw [digitVal_dChar (d := d - 1) (by omega)] <;> omega

theorem mesh6_west_comp_c {p p2 : Code} {d : Nat}
    (hp : validate_mesh5_code p = rok ())
    (hp2 : Mesh5.west_mesh p = rok p2) (hd : d = 1 ∨ d = 3) :
    Mesh6.west_mesh (p ++ [dChar d]) = rok (p2 ++ [dChar (d + 1)]) := by
  obtain ⟨hbl8, hlen8⟩ := valid5_shape hp
  unfold Mesh6.west_mesh
  rw [get_append_k hlen8]
  simp only [List.get?_cons_zero, Option.some_bind,
    toDigit10_digit (isDigitC_dChar (d := d) (by omega)), ropt_some, rbind_rok]
  rw [digitVal_dChar (d := d) (by omega)]
  rw [if_pos hd]
  rw [mesh5_of_append _ hp]
  simp only [ropt_some, rbind_rok]
  rw [hp2]
  simp only [rbind_rok]
  rw [fmtU8_lt10 (by omega)]
  rw [new6_rok]
  refine ⟨valid6_parts (mesh5_west_valid hp hp2)
    (isDigitC_dChar (d := d + 1) (by omega)) ?_ ?_, rfl⟩ <;>
    rw [digitVal_dChar (d := d + 1) (by omega)] <;> omega

theorem mesh6_north_char {m n : Code} (hm : validate_mesh6_code m = rok ())
    (h : Mesh6.north_mesh m = rok n) :
    ∃ p d, m = p ++ [dChar d] ∧ validate_mesh5_code p = rok () ∧
      1 ≤ d ∧ d ≤ 4 ∧
      (((d = 1 ∨ d = 2) ∧ n = p ++ [dChar (d + 2)]) ∨
        ((d = 3 ∨ d = 4) ∧ ∃ p2, Mesh5.north_mesh p = rok p2 ∧
          n = p2 ++ [dChar (d - 2)])) := by
  obtain ⟨p, c, hm2, hp, hc1, hc4⟩ := valid6_iff.mp hm
  subst hm2
  obtain ⟨hc, hd1, hd4⟩ := digit14 hc1 hc4
  obtain ⟨hbl8, hlen8⟩ := valid5_shape hp
  have hcd : dChar (digitVal c) = c := dChar_digitVal hc
  refine ⟨p, digitVal c, by rw [hcd], hp, hd1, hd4, ?_⟩
  by_cases h12 : digitVal c = 1 ∨ digitVal c = 2
  · left
    have hcomp := mesh6_north_comp_nc (d := digitVal c) hp h12
    rw [hcd] at hcomp
    rw [h] at hcomp
    exact ⟨h12, rok_inj.mp hcomp⟩
  · right
    have h34 : digitVal c = 3 ∨ digitVal c = 4 := by omega
    refine ⟨h34, ?_⟩
    unfold Mesh6.north_mesh at h
    rw [get_append_k hlen8] at h
    simp only [List.get?_cons_zero, Option.some_bind, toDigit10_digit hc,
      ropt_some, rbind_rok] at h
    rw [if_neg h12, if_pos h34, mesh5_of_append _ hp] at h
    simp only [ropt_some, rbind_rok] at h
    rw [rbind_eq_rok] at h
    obtain ⟨p2, hp2, h⟩ := h
    rw [fmtU8_lt10 (by omega)] at h
    obtain ⟨-, hn⟩ := new6_rok.mp h
    exact ⟨p2, hp2, hn⟩

theorem mesh6_east_char {m n : Code} (hm : validate_mesh6_code m = rok ())
    (h : Mesh6.east_mesh m = rok n) :
    ∃ p d, m = p ++ [dChar d] ∧ validate_mesh5_code p = rok () ∧
      1 ≤ d ∧ d ≤ 4 ∧
      (((d = 1 ∨ d = 3) ∧ n = p ++ [dChar (d + 1)]) ∨
        ((d = 2 ∨ d = 4) ∧ ∃ p2, Mesh5.east_mesh p = rok p2 ∧
          n = p2 ++ [dChar (d - 1)])) := by
  obtain ⟨p, c, hm2, hp, hc1, hc4⟩ := valid6_iff.mp hm
  subst hm2
  obtain ⟨hc, hd1, hd4⟩ := digit14 hc1 hc4
  obtain ⟨hbl8, hlen8⟩ := valid5_shape hp
  have hcd : dChar (digitVal c) = c := dChar_digitVal hc
  refine ⟨p, digitVal c, by rw [hcd], hp, hd1, hd4, ?_⟩
  by_cases h13 : digitVal c = 1 ∨ digitVal c = 3
  · left
    have hcomp := mesh6_east_comp_nc (d := digitVal c) hp h13
    rw [hcd] at hcomp
    rw [h] at hcomp
    exact ⟨h13, rok_inj.mp hcomp⟩
  · right
    have h24 : digitVal c = 2 ∨ digitVal c = 4 := by omega
    refine ⟨h24, ?_⟩
    unfold Mesh6.east_mesh at h
    rw [get_append_k hlen8] at h
    simp only [List.get?_cons_zero, Option.some_bind, toDigit10_digit hc,
      ropt_some, rbind_rok] at h
    rw [if_neg h13, if_pos h24, mesh5_of_append _ hp] at h
    simp only [ropt_some, rbind_rok] at h
    rw [rbind_eq_rok] at h
    obtain ⟨p2, hp2, h⟩ := h
    rw [fmtU8_lt10 (by omega)] at h
    obtain ⟨-, hn⟩ := new6_rok.mp h
    exact ⟨p2, hp2, hn⟩

theorem mesh6_south_char {m n : Code} (hm : validate_mesh6_code m = rok ())
    (h : Mesh6.south_mesh m = rok n) :
    ∃ p d, m = p ++ [dChar d] ∧ validate_mesh5_code p = rok () ∧
      1 ≤ d ∧ d ≤ 4 ∧
      (((d = 3 ∨ d = 4) ∧ n = p ++ [dChar (d - 2)]) ∨
        ((d = 1 ∨ d = 2) ∧ ∃ p2, Mesh5.south_mesh p = rok p2 ∧
          n = p2 ++ [dChar (d + 2)])) := by
  obtain ⟨p, c, hm2, hp, hc1, hc4⟩ := valid6_iff.mp hm
  subst hm2
  obtain ⟨hc, hd1, hd4⟩ := digit14 hc1 hc4
  obtain ⟨hbl8, hlen8⟩ := valid5_shape hp
  have hcd : dChar (digitVal c) = c := dChar_digitVal hc
  refine ⟨p, digitVal c, by rw [hcd], hp, hd1, hd4, ?_⟩
  by_cases h34 : digitVal c = 3 ∨ digitVal c = 4
  · left
    have hcomp := mesh6_south_comp_nc (d := digitVal c) hp h34
    rw [hcd] at hcomp
    rw [h] at hcomp
    exact ⟨h34, rok_inj.mp hcomp⟩
  · right
    have h12 : digitVal c = 1 ∨ digitVal c = 2 := by omega
    refine ⟨h12, ?_⟩
    unfold Mesh6.south_mesh at h
    rw [get_append_k hlen8] at h
    simp only [List.get?_cons_zero, Option.some_bind, toDigit10_digit hc,
      ropt_some, rbind_rok] at h
    rw [if_pos h12, mesh5_of_append _ hp] at h
    simp only [ropt_some, rbind_rok] at h
    rw [rbind_eq_rok] at h
    obtain ⟨p2, hp2, h⟩ := h
    rw [fmtU8_lt10 (by omega)] at h
    obtain ⟨-, hn⟩ := new6_rok.mp h
    exact ⟨p2, hp2, hn⟩

theorem mesh6_west_char {m n : Code} (hm : validate_mesh6_code m = rok ())
    (h : Mesh6.west_mesh m = rok n) :
    ∃ p d, m = p ++ [dChar d] ∧ validate_mesh5_code p = rok () ∧
      1 ≤ d ∧ d ≤ 4 ∧
      (((d = 2 ∨ d = 4) ∧ n = p ++ [dChar (d - 1)]) ∨
        ((d = 1 ∨ d = 3) ∧ ∃ p2, Mesh5.west_mesh p = rok p2 ∧
          n = p2 ++ [dChar (d + 1)])) := by
  obtain ⟨p, c, hm2, hp, hc1, hc4⟩ := valid6_iff.mp hm
  subst hm2
  obtain ⟨hc, hd1, hd4⟩ := digit14 hc1 hc4
  obtain ⟨hbl8, hlen8⟩ := valid5_shape hp
  have hcd : dChar (digitVal c) = c := dChar_digitVal hc
  refine ⟨p, digitVal c, by rw [hcd], hp, hd1, hd4, ?_⟩
  by_cases h24 : digitVal c = 2 ∨ digitVal c = 4
  · left
    have hcomp := mesh6_west_comp_nc (d := digitVal c) hp h24
    rw [hcd] at hcomp
    rw [h] at hcomp
    exact ⟨h24, rok_inj.mp hcomp⟩
  · right
    have h13 : digitVal c = 1 ∨ digitVal c = 3 := by omega
    refine ⟨h13, ?_⟩
    unfold Mesh6.west_mesh at h
    rw [get_append_k hlen8] at h
    simp only [List.get?_cons_zero, Option.some_bind, toDigit10_digit hc,
      ropt_some, rbind_rok] at h
    rw [if_pos h13, mesh5_of_append _ hp] at h
    simp only [ropt_some, rbind_rok] at h
    rw [rbind_eq_rok] at h
    obtain ⟨p2, hp2, h⟩ := h
    rw [fmtU8_lt10 (by omega)] at h
    obtain ⟨-, hn⟩ := new6_rok.mp h
    exact ⟨p2, hp2, hn⟩

theorem mesh6_north_valid {m n : Code} (hm : validate_mesh6_code m = rok ())
    (h : Mesh6.north_mesh m = rok n) : validate_mesh6_code n = rok () := by
  obtain ⟨p, d, hm2, hp, hd1, hd4, hcase⟩ := mesh6_north_char hm h
  rcases hcase with ⟨h12, hn⟩ | ⟨h34, p2, hp2, hn⟩
  · subst hn
    refine valid6_parts hp (isDigitC_dChar (d := d + 2) (by omega)) ?_ ?_ <;>
      rw [digitVal_dChar (d := d + 2) (by omega)] <;> omega
  · subst hn
    refine valid6_parts (mesh5_north_valid hp hp2)
      (isDigitC_dChar (d := d - 2) (by omega)) ?_ ?_ <;>
      rw [digitVal_dChar (d := d - 2) (by omega)] <;> omega

theorem mesh6_east_valid {m n : Code} (hm : validate_mesh6_code m = rok ())
    (h : Mesh6.east_mesh m = rok n) : validate_mesh6_code n = rok () := by
  obtain ⟨p, d, hm2, hp, hd1, hd4, hcase⟩ := mesh6_east_char hm h
  rcases hcase with ⟨h13, hn⟩ | ⟨h24, p2, hp2, hn⟩
  · subst hn
    refine valid6_parts hp (isDigitC_dChar (d := d + 1) (by omega)) ?_ ?_ <;>
      rw [digitVal_dChar (d := d + 1) (by omega)] <;> omega
  · subst hn
    refine valid6_parts (mesh5_east_valid hp hp2)
      (isDigitC_dChar (d := d - 1) (by omega)) ?_ ?_ <;>
      rw [digitVal_dChar (d := d - 1) (by omega)] <;> omega

theorem mesh6_south_valid {m n : Code} (hm : validate_mesh6_code m = rok ())
    (h : Mesh6.south_mesh m = rok n) : validate_mesh6_code n = rok () := by
  obtain ⟨p, d, hm2, hp, hd1, hd4, hcase⟩ := mesh6_south_char hm h
  rcases hcase with ⟨h34, hn⟩ | ⟨h12, p2, hp2, hn⟩
  · subst hn
    refine valid6_parts hp (isDigitC_dChar (d := d - 2) (by omega)) ?_ ?_ <;>
      rw [digitVal_dChar (d := d - 2) (by omega)] <;> omega
  · subst hn
    refine valid6_parts (mesh5_south_valid hp hp2)
      (isDigitC_dChar (d := d + 2) (by omega)) ?_ ?_ <;>
      rw [digitVal_dChar (d := d + 2) (by omega)] <;> omega

theorem mesh6_west_valid {m n : Code} (hm : validate_mesh6_code m = rok ())
    (h : Mesh6.west_mesh m = rok n) : validate_mesh6_code n = rok () := by
  obtain ⟨p, d, hm2, hp, hd1, hd4, hcase⟩ := mesh6_west_char hm h
  rcases hcase with ⟨h24, hn⟩ | ⟨h13, p2, hp2, hn⟩
  · subst hn
    refine valid6_parts hp (isDigitC_dChar (d := d - 1) (by omega)) ?_ ?_ <;>
      rw [digitVal_dChar (d := d - 1) (by omega)] <;> omega
  · subst hn
    refine valid6_parts (mesh5_west_valid hp hp2)
      (isDigitC_dChar (d := d + 1) (by omega)) ?_ ?_ <;>
      rw [digitVal_dChar (d := d + 1) (by omega)] <;> omega

theorem mesh6_inv_ns {m n : Code} (hm : validate_mesh6_code m = rok ())
    (h : Mesh6.north_mesh m = rok n) : Mesh6.south_mesh n = rok m := by
  obtain ⟨p, d, hm2, hp, hd1, hd4, hcase⟩ := mesh6_north_char hm h
  rcases hcase with ⟨h12, hn⟩ | ⟨h34, p2, hp2, hn⟩
  · subst hn
    have hc := mesh6_south_comp_nc (d := d + 2) hp (by omega)
    rw [show d + 2 - 2 = d from by omega] at hc
    rw [hc, hm2]
  · subst hn
    have hc := mesh6_south_comp_c (d := d - 2) (mesh5_north_valid hp hp2)
      (mesh5_inv_ns hp hp2) (by omega)
    rw [show d - 2 + 2 = d from by omega] at hc
    rw [hc, hm2]

theorem mesh6_commute_ne {m n e : Code} (hm : validate_mesh6_code m = rok ())
    (hn : Mesh6.north_mesh m = rok n) (he : Mesh6.east_mesh m = rok e) :
    ∃ dd, Mesh6.east_mesh n = rok dd ∧ Mesh6.north_mesh e = rok dd := by
  obtain ⟨p, d, hm2, hp, hd1, hd4, hcaseN⟩ := mesh6_north_char hm hn
  obtain ⟨p', d', hm2', hp', hd1', hd4', hcaseE⟩ := mesh6_east_char hm he
  rw [hm2] at hm2'
  have hdd : p = p' ∧ d = d' := by
    obtain ⟨h1, h2⟩ := List.append_inj hm2'
      (by rw [(valid5_shape hp).2, (valid5_shape hp').2])
    simp only [List.cons.injEq] at h2
    refine ⟨h1, ?_⟩
    have := h2.1
    have hv1 := digitVal_dChar (d := d) (by omega)
    have hv2 := digitVal_dChar (d := d') (by omega)
    rw [← hv1, ← hv2, this]
  obtain ⟨rfl, rfl⟩ := hdd
  rcases hcaseN with ⟨h12, hnv⟩ | ⟨h34, p2N, hp2N, hnv⟩ <;>
    rcases hcaseE with ⟨h13, hev⟩ | ⟨h24, p2E, hp2E, hev⟩
  · -- d = 1
    have hd : d = 1 := by omega
    subst hnv
    subst hev
    refine ⟨p ++ [dChar 4], ?_, ?_⟩
    · have hc := mesh6_east_comp_nc (d := d + 2) hp (by omega)
      rw [show d + 2 + 1 = 4 from by omega] at hc
      exact hc
    · have hc := mesh6_north_comp_nc (d := d + 1) hp (by omega)
      rw [show d + 1 + 2 = 4 from by omega] at hc
      exact hc
  · -- d = 2
    have hd : d = 2 := by omega
    subst hnv
    subst hev
    refine ⟨p2E ++ [dChar 3], ?_, ?_⟩
    · have hc := mesh6_east_comp_c (d := d + 2) hp hp2E (by omega)
      rw [show d + 2 - 1 = 3 from by omega] at hc
      exact hc
    · have hc := mesh6_north_comp_nc (d := d - 1) (mesh5_east_valid hp hp2E)
        (by omega)
      rw [show d - 1 + 2 = 3 from by omega] at hc
      exact hc
  · -- d = 3
    have hd : d = 3 := by omega
    subst hnv
    subst hev
    refine ⟨p2N ++ [dChar 2], ?_, ?_⟩
    · have hc := mesh6_east_comp_nc (d := d - 2) (mesh5_north_valid hp hp2N)
        (by omega)
      rw [show d - 2 + 1 = 2 from by omega] at hc
      exact hc
    · have hc := mesh6_north_comp_c (d := d + 1) hp hp2N (by omega)
      rw [show d + 1 - 2 = 2 from by omega] at hc
      exact hc
  · -- d = 4
    have hd : d = 4 := by omega
    subst hnv
    subst hev
    obtain ⟨q, hq1, hq2⟩ := mesh5_commute_ne hp hp2N hp2E
    refine ⟨q ++ [dChar 1], ?_, ?_⟩
    · have hc := mesh6_east_comp_c (d := d - 2) (mesh5_north_valid hp hp2N)
        hq1 (by omega)
      rw [show d - 2 - 1 = 1 from by omega] at hc
      exact hc
    · have hc := mesh6_north_comp_c (d := d - 1) (mesh5_east_valid hp hp2E)
        hq2 (by omega)
      rw [show d - 1 - 2 = 1 from by omega] at hc
      exact hc

theorem cAt_append_lt {p t : Code} {i : Nat} (h : i < p.length) :
    cAt (p ++ t) i = cAt p i := by
  unfold cAt
  rw [List.get?_eq_getElem?, List.get?_eq_getElem?, List.getElem?_append,
      if_pos h]

theorem cAt_append_len {p t : Code} {k : Nat} (h : p.length = k) :
    cAt (p ++ t) k = cAt t 0 := by
  unfold cAt
  rw [get_append_k h]

theorem cAt_append_len1 {p t : Code} {k : Nat} (h : p.length = k) :
    cAt (p ++ t) (k + 1) = cAt t 1 := by
  unfold cAt
  rw [get_append_k1 h]

theorem latIdx1_append {p : Code} (t : Code) (h : 2 ≤ p.length) :
    latIdx1 (p ++ t) = latIdx1 p := by
  unfold latIdx1
  rw [cAt_append_lt (by omega), cAt_append_lt (by omega)]

theorem lonIdx1_append {p : Code} (t : Code) (h : 4 ≤ p.length) :
    lonIdx1 (p ++ t) = lonIdx1 p := by
  unfold lonIdx1
  rw [cAt_append_lt (by omega), cAt_append_lt (by omega)]

theorem latIdx2_append {p : Code} (t : Code) (h : 5 ≤ p.length) :
    latIdx2 (p ++ t) = latIdx2 p := by
  unfold latIdx2
  rw [latIdx1_append t (by omega), cAt_append_lt (by omega)]

theorem lonIdx2_append {p : Code} (t : Code) (h : 6 ≤ p.length) :
    lonIdx2 (p ++ t) = lonIdx2 p := by
  unfold lonIdx2
  rw [lonIdx1_append t (by omega), cAt_append_lt (by omega)]

theorem latIdx3_append {p : Code} (t : Code) (h : 7 ≤ p.length) :
    latIdx3 (p ++ t) = latIdx3 p := by
  unfold latIdx3
  rw [latIdx2_append t (by omega), cAt_append_lt (by omega)]

theorem lonIdx3_append {p : Code} (t : Code) (h : 8 ≤ p.length) :
    lonIdx3 (p ++ t) = lonIdx3 p := by
  unfold lonIdx3
  rw [lonIdx2_append t (by omega), cAt_append_lt (by omega)]

theorem latIdx4_append {p : Code} (t : Code) (h : 9 ≤ p.length) :
    latIdx4 (p ++ t) = latIdx4 p := by
  unfold latIdx4
  rw [latIdx3_append t (by omega), cAt_append_lt (by omega)]

theorem lonIdx4_append {p : Code} (t : Code) (h : 9 ≤ p.length) :
    lonIdx4 (p ++ t) = lonIdx4 p := by
  unfold lonIdx4
  rw [lonIdx3_append t (by omega), cAt_append_lt (by omega)]

theorem latIdx5_append {p : Code} (t : Code) (h : 10 ≤ p.length) :
    latIdx5 (p ++ t) = latIdx5 p := by
  unfold latIdx5
  rw [latIdx4_append t (by omega), cAt_append_lt (by omega)]

theorem lonIdx5_append {p : Code} (t : Code) (h : 10 ≤ p.length) :
    lonIdx5 (p ++ t) = lonIdx5 p := by
  unfold lonIdx5
  rw [lonIdx4_append t (by omega), cAt_append_lt (by omega)]

theorem fmt2_length {v : Nat} (h : v < 100) : (fmt2 v).length = 2 := by
  obtain ⟨a, b, hf, -, -, -⟩ := fmt2_shape h
  rw [hf]
  rfl

theorem latIdx1_eval {v : Nat} (h : v < 100) (t : Code) :
    latIdx1 (fmt2 v ++ t) = v := by
  obtain ⟨a, b, hf, ha, hb, hv⟩ := fmt2_shape h
  rw [hf]
  show 10 * digitVal a + digitVal b = v
  omega

theorem lonIdx1_eval {p : Code} {c d : Char} (h : p.length = 2) (t : Code) :
    lonIdx1 (p ++ (c :: d :: t)) = 10 * digitVal c + digitVal d := by
  unfold lonIdx1 cAt
  rw [show (3 : Nat) = 2 + 1 from rfl, get_append_k h, get_append_k1 h]
  rfl

theorem lonIdx1_eval2 {a b : Char} {w : Nat} (h : w < 100) :
    lonIdx1 ([a, b] ++ fmt2 w) = w := by
  obtain ⟨c, d, hf, hc, hd, hv⟩ := fmt2_shape h
  rw [hf]
  show 10 * digitVal c + digitVal d = w
  omega

theorem latIdx1_eval2 {a b : Char} (t : Code) :
    latIdx1 ([a, b] ++ t) = 10 * digitVal a + digitVal b := rfl

theorem mesh1_north_idx {m n : Code} (hm : validate_mesh1_code m = rok ())
    (h : Mesh1.north_mesh m = rok n) :
    latIdx1 n = latIdx1 m + 1 ∧ lonIdx1 n = lonIdx1 m := by
  obtain ⟨v, c, d, h30, h68, hlon, hm2, hn2⟩ := mesh1_north_char hm h
  subst hm2
  subst hn2
  refine ⟨?_, ?_⟩
  · rw [latIdx1_eval (by omega), latIdx1_eval (by omega)]
  · rw [lonIdx1_eval (fmt2_length (by omega)) [],
        lonIdx1_eval (fmt2_length (by omega)) []]

theorem mesh1_south_idx {m n : Code} (hm : validate_mesh1_code m = rok ())
    (h : Mesh1.south_mesh m = rok n) :
    latIdx1 n + 1 = latIdx1 m ∧ lonIdx1 n = lonIdx1 m := by
  obtain ⟨v, c, d, h31, h68, hlon, hm2, hn2⟩ := mesh1_south_char hm h
  subst hm2
  subst hn2
  refine ⟨?_, ?_⟩
  · rw [latIdx1_eval (by omega), latIdx1_eval (by omega)]
    omega
  · rw [lonIdx1_eval (fmt2_length (by omega)) [],
        lonIdx1_eval (fmt2_length (by omega)) []]

theorem mesh1_east_idx {m n : Code} (hm : validate_mesh1_code m = rok ())
    (h : Mesh1.east_mesh m = rok n) :
    lonIdx1 n = lonIdx1 m + 1 ∧ latIdx1 n = latIdx1 m := by
  obtain ⟨w, a, b, h22, h53, hlat, hm2, hn2⟩ := mesh1_east_char hm h
  subst hm2
  subst hn2
  refine ⟨?_, ?_⟩
  · rw [lonIdx1_eval2 (by omega), lonIdx1_eval2 (by omega)]
  · rw [latIdx1_eval2, latIdx1_eval2]

theorem mesh1_west_idx {m n : Code} (hm : validate_mesh1_code m = rok ())
    (h : Mesh1.west_mesh m = rok n) :
    lonIdx1 n + 1 = lonIdx1 m ∧ latIdx1 n = latIdx1 m := by
  obtain ⟨w, a, b, h23, h53, hlat, hm2, hn2⟩ := mesh1_west_char hm h
  subst hm2
  subst hn2
  refine ⟨?_, ?_⟩
  · rw [lonIdx1_eval2 (by omega), lonIdx1_eval2 (by omega)]
    omega
  · rw [latIdx1_eval2, latIdx1_eval2]

theorem mesh2_north_idx {m n : Code} (hm : validate_mesh2_code m = rok ())
    (h : Mesh2.north_mesh m = rok n) :
    latIdx2 n = latIdx2 m + 1 ∧ lonIdx2 n = lonIdx2 m := by
  obtain ⟨p, a, b, hm2, hp, ha, hb, ha7, hb7, hcase⟩ := mesh2_north_char hm h
  obtain ⟨hbl4, hlen4⟩ := valid1_shape hp
  subst hm2
  rcases hcase with ⟨hlt, rfl⟩ | ⟨h7, p2, hp2, rfl⟩
  · refine ⟨?_, ?_⟩
    · unfold latIdx2
      rw [latIdx1_append _ (by omega), latIdx1_append _ (by omega),
          cAt_append_len hlen4, cAt_append_len hlen4]
      show 8 * latIdx1 p + digitVal (dChar (digitVal a + 1)) =
        8 * latIdx1 p + digitVal a + 1
      rw [digitVal_dChar (by omega)]
      omega
    · unfold lonIdx2
      rw [lonIdx1_append _ (by omega), lonIdx1_append _ (by omega),
          show (5 : Nat) = 4 + 1 from rfl,
          cAt_append_len1 hlen4, cAt_append_len1 hlen4]
      rfl
  · obtain ⟨hla, hlo⟩ := mesh1_north_idx hp hp2
    obtain ⟨hbl4n, hlen4n⟩ := valid1_shape (mesh1_north_valid hp2)
    refine ⟨?_, ?_⟩
    · unfold latIdx2
      rw [latIdx1_append _ (by omega), latIdx1_append _ (by omega),
          cAt_append_len hlen4, cAt_append_len hlen4n, hla]
      show 8 * (latIdx1 p + 1) + digitVal '0' =
        8 * latIdx1 p + digitVal a + 1
      have h0 : digitVal '0' = 0 := by decide
      omega
    · unfold lonIdx2
      rw [lonIdx1_append _ (by omega), lonIdx1_append _ (by omega),
          show (5 : Nat) = 4 + 1 from rfl,
          cAt_append_len1 hlen4, cAt_append_len1 hlen4n, hlo]
      rfl

theorem mesh2_south_idx {m n : Code} (hm : validate_mesh2_code m = rok ())
    (h : Mesh2.south_mesh m = rok n) :
    latIdx2 n + 1 = latIdx2 m ∧ lonIdx2 n = lonIdx2 m := by
  obtain ⟨p, a, b, hm2, hp, ha, hb, ha7, hb7, hcase⟩ := mesh2_south_char hm h
  obtain ⟨hbl4, hlen4⟩ := valid1_shape hp
  subst hm2
  rcases hcase with ⟨hge, rfl⟩ | ⟨h0a, p2, hp2, rfl⟩
  · refine ⟨?_, ?_⟩
    · unfold latIdx2
      rw [latIdx1_append _ (by omega), latIdx1_append _ (by omega),
          cAt_append_len hlen4, cAt_append_len hlen4]
      show 8 * latIdx1 p + digitVal (dChar (digitVal a - 1)) + 1 =
        8 * latIdx1 p + digitVal a
      rw [digitVal_dChar (by omega)]
      omega
    · unfold lonIdx2
      rw [lonIdx1_append _ (by omega), lonIdx1_append _ (by omega),
          show (5 : Nat) = 4 + 1 from rfl,
          cAt_append_len1 hlen4, cAt_append_len1 hlen4]
      rfl
  · obtain ⟨hla, hlo⟩ := mesh1_south_idx hp hp2
    obtain ⟨hbl4n, hlen4n⟩ := valid1_shape (mesh1_south_valid hp2)
    refine ⟨?_, ?_⟩
    · unfold latIdx2
      rw [latIdx1_append _ (by omega), latIdx1_append _ (by omega),
          cAt_append_len hlen4, cAt_append_len hlen4n]
      show 8 * latIdx1 p2 + digitVal '7' + 1 =
        8 * latIdx1 p + digitVal a
      have h7v : digitVal '7' = 7 := by decide
      omega
    · unfold lonIdx2
      rw [lonIdx1_append _ (by omega), lonIdx1_append _ (by omega),
          show (5 : Nat) = 4 + 1 from rfl,
          cAt_append_len1 hlen4, cAt_append_len1 hlen4n, hlo]
      rfl

theorem mesh2_east_idx {m n : Code} (hm : validate_mesh2_code m = rok ())
    (h : Mesh2.east_mesh m = rok n) :
    lonIdx2 n = lonIdx2 m + 1 ∧ latIdx2 n = latIdx2 m := by
  obtain ⟨p, a, b, hm2, hp, ha, hb, ha7, hb7, hcase⟩ := mesh2_east_char hm h
  obtain ⟨hbl4, hlen4⟩ := valid1_shape hp
  subst hm2
  rcases hcase with ⟨hlt, rfl⟩ | ⟨h7, p2, hp2, rfl⟩
  · refine ⟨?_, ?_⟩
    · unfold lonIdx2
      rw [lonIdx1_append _ (by omega), lonIdx1_append _ (by omega),
          show (5 : Nat) = 4 + 1 from rfl,
          cAt_append_len1 hlen4, cAt_append_len1 hlen4]
      show 8 * lonIdx1 p + digitVal (dChar (digitVal b + 1)) =
        8 * lonIdx1 p + digitVal b + 1
      rw [digitVal_dChar (by omega)]
      omega
    · unfold latIdx2
      rw [latIdx1_append _ (by omega), latIdx1_append _ (by omega),
          cAt_append_len hlen4, cAt_append_len hlen4]
      rfl
  · obtain ⟨hlo, hla⟩ := mesh1_east_idx hp hp2
    obtain ⟨hbl4n, hlen4n⟩ := valid1_shape (mesh1_east_valid hp2)
    refine ⟨?_, ?_⟩
    · unfold lonIdx2
      rw [lonIdx1_append _ (by omega), lonIdx1_append _ (by omega),
          show (5 : Nat) = 4 + 1 from rfl,
          cAt_append_len1 hlen4, cAt_append_len1 hlen4n, hlo]
      show 8 * (lonIdx1 p + 1) + digitVal '0' =
        8 * lonIdx1 p + digitVal b + 1
      have h0 : digitVal '0' = 0 := by decide
      omega
    · unfold latIdx2
      rw [latIdx1_append _ (by omega), latIdx1_append _ (by omega),
          cAt_append_len hlen4, cAt_append_len hlen4n, hla]
      rfl

theorem mesh2_west_idx {m n : Code} (hm : validate_mesh2_code m = rok ())
    (h : Mesh2.west_mesh m = rok n) :
    lonIdx2 n + 1 = lonIdx2 m ∧ latIdx2 n = latIdx2 m := by
  obtain ⟨p, a, b, hm2, hp, ha, hb, ha7, hb7, hcase⟩ := mesh2_west_char hm h
  obtain ⟨hbl4, hlen4⟩ := valid1_shape hp
  subst hm2
  rcases hcase with ⟨hge, rfl⟩ | ⟨h0b, p2, hp2, rfl⟩
  · refine ⟨?_, ?_⟩
    · unfold lonIdx2
      rw [lonIdx1_append _ (by omega), lonIdx1_append _ (by omega),
          show (5 : Nat) = 4 + 1 from rfl,
          cAt_append_len1 hlen4, cAt_append_len1 hlen4]
      show 8 * lonIdx1 p + digitVal (dChar (digitVal b - 1)) + 1 =
        8 * lonIdx1 p + digitVal b
      rw [digitVal_dChar (by omega)]
      omega
    · unfold latIdx2
      rw [latIdx1_append _ (by omega), latIdx1_append _ (by omega),
          cAt_append_len hlen4, cAt_append_len hlen4]
      rfl
  · obtain ⟨hlo, hla⟩ := mesh1_west_idx hp hp2
    obtain ⟨hbl4n, hlen4n⟩ := valid1_shape (mesh1_west_valid hp2)
    refine ⟨?_, ?_⟩
    · unfold lonIdx2
      rw [lonIdx1_append _ (by omega), lonIdx1_append _ (by omega),
          show (5 : Nat) = 4 + 1 from rfl,
          cAt_append_len1 hlen4, cAt_append_len1 hlen4n]
      show 8 * lonIdx1 p2 + digitVal '7' + 1 =
        8 * lonIdx1 p + digitVal b
      have h7v : digitVal '7' = 7 := by decide
      omega
    · unfold latIdx2
      rw [latIdx1_append _ (by omega), latIdx1_append _ (by omega),
          cAt_append_len hlen4, cAt_append_len hlen4n, hla]
      rfl

theorem mesh3_north_idx {m n : Code} (hm : validate_mesh3_code m = rok ())
    (h : Mesh3.north_mesh m = rok n) :
    latIdx3 n = latIdx3 m + 1 ∧ lonIdx3 n = lonIdx3 m := by
  obtain ⟨p, a, b, hm2, hp, ha, hb, ha7, hb7, hcase⟩ := mesh3_north_char hm h
  obtain ⟨hbl4, hlen4⟩ := valid2_shape hp
  subst hm2
  rcases hcase with ⟨hlt, rfl⟩ | ⟨h7, p2, hp2, rfl⟩
  · refine ⟨?_, ?_⟩
    · unfold latIdx3
      rw [latIdx2_append _ (by omega), latIdx2_append _ (by omega),
          cAt_append_len hlen4, cAt_append_len hlen4]
      show 10 * latIdx2 p + digitVal (dChar (digitVal a + 1)) =
        10 * latIdx2 p + digitVal a + 1
      rw [digitVal_dChar (by omega)]
      omega
    · unfold lonIdx3
      rw [lonIdx2_append _ (by omega), lonIdx2_append _ (by omega),
          show (7 : Nat) = 6 + 1 from rfl,
          cAt_append_len1 hlen4, cAt_append_len1 hlen4]
      rfl
  · obtain ⟨hla, hlo⟩ := mesh2_north_idx hp hp2
    obtain ⟨hbl4n, hlen4n⟩ := valid2_shape (mesh2_north_valid hp hp2)
    refine ⟨?_, ?_⟩
    · unfold latIdx3
      rw [latIdx2_append _ (by omega), latIdx2_append _ (by omega),
          cAt_append_len hlen4, cAt_append_len hlen4n, hla]
      show 10 * (latIdx2 p + 1) + digitVal '0' =
        10 * latIdx2 p + digitVal a + 1
      have h0 : digitVal '0' = 0 := by decide
      omega
    · unfold lonIdx3
      rw [lonIdx2_append _ (by omega), lonIdx2_append _ (by omega),
          show (7 : Nat) = 6 + 1 from rfl,
          cAt_append_len1 hlen4, cAt_append_len1 hlen4n, hlo]
      rfl

theorem mesh3_south_idx {m n : Code} (hm : validate_mesh3_code m = rok ())
    (h : Mesh3.south_mesh m = rok n) :
    latIdx3 n + 1 = latIdx3 m ∧ lonIdx3 n = lonIdx3 m := by
  obtain ⟨p, a, b, hm2, hp, ha, hb, ha7, hb7, hcase⟩ := mesh3_south_char hm h
  obtain ⟨hbl4, hlen4⟩ := valid2_shape hp
  subst hm2
  rcases hcase with ⟨hge, rfl⟩ | ⟨h0a, p2, hp2, rfl⟩
  · refine ⟨?_, ?_⟩
    · unfold latIdx3
      rw [latIdx2_append _ (by omega), latIdx2_append _ (by omega),
          cAt_append_len hlen4, cAt_append_len hlen4]
      show 10 * latIdx2 p + digitVal (dChar (digitVal a - 1)) + 1 =
        10 * latIdx2 p + digitVal a
      rw [digitVal_dChar (by omega)]
      omega
    · unfold lonIdx3
      rw [lonIdx2_append _ (by omega), lonIdx2_append _ (by omega),
          show (7 : Nat) = 6 + 1 from rfl,
          cAt_append_len1 hlen4, cAt_append_len1 hlen4]
      rfl
  · obtain ⟨hla, hlo⟩ := mesh2_south_idx hp hp2
    obtain ⟨hbl4n, hlen4n⟩ := valid2_shape (mesh2_south_valid hp hp2)
    refine ⟨?_, ?_⟩
    · unfold latIdx3
      rw [latIdx2_append _ (by omega), latIdx2_append _ (by omega),
          cAt_append_len hlen4, cAt_append_len hlen4n]
      show 10 * latIdx2 p2 + digitVal '9' + 1 =
        10 * latIdx2 p + digitVal a
      have h9v : digitVal '9' = 9 := by decide
      omega
    · unfold lonIdx3
      rw [lonIdx2_append _ (by omega), lonIdx2_append _ (by omega),
          show (7 : Nat) = 6 + 1 from rfl,
          cAt_append_len1 hlen4, cAt_append_len1 hlen4n, hlo]
      rfl

theorem mesh3_east_idx {m n : Code} (hm : validate_mesh3_code m = rok ())
    (h : Mesh3.east_mesh m = rok n) :
    lonIdx3 n = lonIdx3 m + 1 ∧ latIdx3 n = latIdx3 m := by
  obtain ⟨p, a, b, hm2, hp, ha, hb, ha7, hb7, hcase⟩ := mesh3_east_char hm h
  obtain ⟨hbl4, hlen4⟩ := valid2_shape hp
  subst hm2
  rcases hcase with ⟨hlt, rfl⟩ | ⟨h7, p2, hp2, rfl⟩
  · refine ⟨?_, ?_⟩
    · unfold lonIdx3
      rw [lonIdx2_append _ (by omega), lonIdx2_append _ (by omega),
          show (7 : Nat) = 6 + 1 from rfl,
          cAt_append_len1 hlen4, cAt_append_len1 hlen4]
      show 10 * lonIdx2 p + digitVal (dChar (digitVal b + 1)) =
        10 * lonIdx2 p + digitVal b + 1
      rw [digitVal_dChar (by omega)]
      omega
    · unfold latIdx3
      rw [latIdx2_append _ (by omega), latIdx2_append _ (by omega),
          cAt_append_len hlen4, cAt_append_len hlen4]
      rfl
  · obtain ⟨hlo, hla⟩ := mesh2_east_idx hp hp2
    obtain ⟨hbl4n, hlen4n⟩ := valid2_shape (mesh2_east_valid hp hp2)
    refine ⟨?_, ?_⟩
    · unfold lonIdx3
      rw [lonIdx2_append _ (by omega), lonIdx2_append _ (by omega),
          show (7 : Nat) = 6 + 1 from rfl,
          cAt_append_len1 hlen4, cAt_append_len1 hlen4n, hlo]
      show 10 * (lonIdx2 p + 1) + digitVal '0' =
        10 * lonIdx2 p + digitVal b + 1
      have h0 : digitVal '0' = 0 := by decide
      omega
    · unfold latIdx3
      rw [latIdx2_append _ (by omega), latIdx2_append _ (by omega),
          cAt_append_len hlen4, cAt_append_len hlen4n, hla]
      rfl

theorem mesh3_west_idx {m n : Code} (hm : validate_mesh3_code m = rok ())
    (h : Mesh3.west_mesh m = rok n) :
    lonIdx3 n + 1 = lonIdx3 m ∧ latIdx3 n = latIdx3 m := by
  obtain ⟨p, a, b, hm2, hp, ha, hb, ha7, hb7, hcase⟩ := mesh3_west_char hm h
  obtain ⟨hbl4, hlen4⟩ := valid2_shape hp
  subst hm2
  rcases hcase with ⟨hge, rfl⟩ | ⟨h0b, p2, hp2, rfl⟩
  · refine ⟨?_, ?_⟩
    · unfold lonIdx3
      rw [lonIdx2_append _ (by omega), lonIdx2_append _ (by omega),
          show (7 : Nat) = 6 + 1 from rfl,
          cAt_append_len1 hlen4, cAt_append_len1 hlen4]
      show 10 * lonIdx2 p + digitVal (dChar (digitVal b - 1)) + 1 =
        10 * lonIdx2 p + digitVal b
      rw [digitVal_dChar (by omega)]
      omega
    · unfold latIdx3
      rw [latIdx2_append _ (by omega), latIdx2_append _ (by omega),
          cAt_append_len hlen4, cAt_append_len hlen4]
      rfl
  · obtain ⟨hlo, hla⟩ := mesh2_west_idx hp hp2
    obtain ⟨hbl4n, hlen4n⟩ := valid2_shape (mesh2_west_valid hp hp2)
    refine ⟨?_, ?_⟩
    · unfold lonIdx3
      rw [lonIdx2_append _ (by omega), lonIdx2_append _ (by omega),
          show (7 : Nat) = 6 + 1 from rfl,
          cAt_append_len1 hlen4, cAt_append_len1 hlen4n]
      show 10 * lonIdx2 p2 + digitVal '9' + 1 =
        10 * lonIdx2 p + digitVal b
      have h9v : digitVal '9' = 9 := by decide
      omega
    · unfold latIdx3
      rw [latIdx2_append _ (by omega), latIdx2_append _ (by omega),
          cAt_append_len hlen4, cAt_append_len hlen4n, hla]
      rfl

theorem mesh4_north_idx {m n : Code} (hm : validate_mesh4_code m = rok ())
    (h : Mesh4.north_mesh m = rok n) :
    latIdx4 n = latIdx4 m + 1 ∧ lonIdx4 n = lonIdx4 m := by
  obtain ⟨p, d, hm2, hp, hd1, hd4, hcase⟩ := mesh4_north_char hm h
  obtain ⟨hbl8, hlen8⟩ := valid3_shape hp
  subst hm2
  rcases hcase with ⟨hnc, rfl⟩ | ⟨hca, p2, hp2, rfl⟩
  · refine ⟨?_, ?_⟩
    · unfold latIdx4
      rw [latIdx3_append _ (by omega), latIdx3_append _ (by omega),
          cAt_append_len hlen8, cAt_append_len hlen8]
      show 2 * latIdx3 p + (digitVal (dChar (d + 2)) - 1) / 2 =
        2 * latIdx3 p + (digitVal (dChar d) - 1) / 2 + 1
      rw [digitVal_dChar (d := d + 2) (by omega),
          digitVal_dChar (d := d) (by omega)]
      omega
    · unfold lonIdx4
      rw [lonIdx3_append _ (by omega), lonIdx3_append _ (by omega),
          cAt_append_len hlen8, cAt_append_len hlen8]
      show 2 * lonIdx3 p + (digitVal (dChar (d + 2)) - 1) % 2 =
        2 * lonIdx3 p + (digitVal (dChar d) - 1) % 2
      rw [digitVal_dChar (d := d + 2) (by omega),
          digitVal_dChar (d := d) (by omega)]
      omega
  · obtain ⟨hla, hlo⟩ := mesh3_north_idx hp hp2
    obtain ⟨hbl8n, hlen8n⟩ := valid3_shape (mesh3_north_valid hp hp2)
    refine ⟨?_, ?_⟩
    · unfold latIdx4
      rw [latIdx3_append _ (by omega), latIdx3_append _ (by omega),
          cAt_append_len hlen8, cAt_append_len hlen8n]
      show 2 * latIdx3 p2 + (digitVal (dChar (d - 2)) - 1) / 2 =
        2 * latIdx3 p + (digitVal (dChar d) - 1) / 2 + 1
      rw [digitVal_dChar (d := d - 2) (by omega),
          digitVal_dChar (d := d) (by omega)]
      omega
    · unfold lonIdx4
      rw [lonIdx3_append _ (by omega), lonIdx3_append _ (by omega),
          cAt_append_len hlen8, cAt_append_len hlen8n]
      show 2 * lonIdx3 p2 + (digitVal (dChar (d - 2)) - 1) % 2 =
        2 * lonIdx3 p + (digitVal (dChar d) - 1) % 2
      rw [digitVal_dChar (d := d - 2) (by omega),
          digitVal_dChar (d := d) (by omega)]
      omega

theorem mesh4_east_idx {m n : Code} (hm : validate_mesh4_code m = rok ())
    (h : Mesh4.east_mesh m = rok n) :
    lonIdx4 n = lonIdx4 m + 1 ∧ latIdx4 n = latIdx4 m := by
  obtain ⟨p, d, hm2, hp, hd1, hd4, hcase⟩ := mesh4_east_char hm h
  obtain ⟨hbl8, hlen8⟩ := valid3_shape hp
  subst hm2
  rcases hcase with ⟨hnc, rfl⟩ | ⟨hca, p2, hp2, rfl⟩
  · refine ⟨?_, ?_⟩
    · unfold lonIdx4
      rw [lonIdx3_append _ (by omega), lonIdx3_append _ (by omega),
          cAt_append_len hlen8, cAt_append_len hlen8]
      show 2 * lonIdx3 p + (digitVal (dChar (d + 1)) - 1) % 2 =
        2 * lonIdx3 p + (digitVal (dChar d) - 1) % 2 + 1
      rw [digitVal_dChar (d := d + 1) (by omega),
          digitVal_dChar (d := d) (by omega)]
      omega
    · unfold latIdx4
      rw [latIdx3_append _ (by omega), latIdx3_append _ (by omega),
          cAt_append_len hlen8, cAt_append_len hlen8]
      show 2 * latIdx3 p + (digitVal (dChar (d + 1)) - 1) / 2 =
        2 * latIdx3 p + (digitVal (dChar d) - 1) / 2
      rw [digitVal_dChar (d := d + 1) (by omega),
          digitVal_dChar (d := d) (by omega)]
      omega
  · obtain ⟨hlo, hla⟩ := mesh3_east_idx hp hp2
    obtain ⟨hbl8n, hlen8n⟩ := valid3_shape (mesh3_east_valid hp hp2)
    refine ⟨?_, ?_⟩
    · unfold lonIdx4
      rw [lonIdx3_append _ (by omega), lonIdx3_append _ (by omega),
          cAt_append_len hlen8, cAt_append_len hlen8n]
      show 2 * lonIdx3 p2 + (digitVal (dChar (d - 1)) - 1) % 2 =
        2 * lonIdx3 p + (digitVal (dChar d) - 1) % 2 + 1
      rw [digitVal_dChar (d := d - 1) (by omega),
          digitVal_dChar (d := d) (by omega)]
      omega
    · unfold latIdx4
      rw [latIdx3_append _ (by omega), latIdx3_append _ (by omega),
          cAt_append_len hlen8, cAt_append_len hlen8n]
      show 2 * latIdx3 p2 + (digitVal (dChar (d - 1)) - 1) / 2 =
        2 * latIdx3 p + (digitVal (dChar d) - 1) / 2
      rw [digitVal_dChar (d := d - 1) (by omega),
          digitVal_dChar (d := d) (by omega)]
      omega

theorem mesh4_south_idx {m n : Code} (hm : validate_mesh4_code m = rok ())
    (h : Mesh4.south_mesh m = rok n) :
    latIdx4 n + 1 = latIdx4 m ∧ lonIdx4 n = lonIdx4 m := by
  obtain ⟨p, d, hm2, hp, hd1, hd4, hcase⟩ := mesh4_south_char hm h
  obtain ⟨hbl8, hlen8⟩ := valid3_shape hp
  subst hm2
  rcases hcase with ⟨hnc, rfl⟩ | ⟨hca, p2, hp2, rfl⟩
  · refine ⟨?_, ?_⟩
    · unfold latIdx4
      rw [latIdx3_append _ (by omega), latIdx3_append _ (by omega),
          cAt_append_len hlen8, cAt_append_len hlen8]
      show 2 * latIdx3 p + (digitVal (dChar (d - 2)) - 1) / 2 + 1 =
        2 * latIdx3 p + (digitVal (dChar d) - 1) / 2
      rw [digitVal_dChar (d := d - 2) (by omega),
          digitVal_dChar (d := d) (by omega)]
      omega
    · unfold lonIdx4
      rw [lonIdx3_append _ (by omega), lonIdx3_append _ (by omega),
          cAt_append_len hlen8, cAt_append_len hlen8]
      show 2 * lonIdx3 p + (digitVal (dChar (d - 2)) - 1) % 2 =
        2 * lonIdx3 p + (digitVal (dChar d) - 1) % 2
      rw [digitVal_dChar (d := d - 2) (by omega),
          digitVal_dChar (d := d) (by omega)]
      omega
  · obtain ⟨hla, hlo⟩ := mesh3_south_idx hp hp2
    obtain ⟨hbl8n, hlen8n⟩ := valid3_shape (mesh3_south_valid hp hp2)
    refine ⟨?_, ?_⟩
    · unfold latIdx4
      rw [latIdx3_append _ (by omega), latIdx3_append _ (by omega),
          cAt_append_len hlen8, cAt_append_len hlen8n]
      show 2 * latIdx3 p2 + (digitVal (dChar (d + 2)) - 1) / 2 + 1 =
        2 * latIdx3 p + (digitVal (dChar d) - 1) / 2
      rw [digitVal_dChar (d := d + 2) (by omega),
          digitVal_dChar (d := d) (by omega)]
      omega
    · unfold lonIdx4
      rw [lonIdx3_append _ (by omega), lonIdx3_append _ (by omega),
          cAt_append_len hlen8, cAt_append_len hlen8n]
      show 2 * lonIdx3 p2 + (digitVal (dChar (d + 2)) - 1) % 2 =
        2 * lonIdx3 p + (digitVal (dChar d) - 1) % 2
      rw [digitVal_dChar (d := d + 2) (by omega),
          digitVal_dChar (d := d) (by omega)]
      omega

theorem mesh4_west_idx {m n : Code} (hm : validate_mesh4_code m = rok ())
    (h : Mesh4.west_mesh m = rok n) :
    lonIdx4 n + 1 = lonIdx4 m ∧ latIdx4 n = latIdx4 m := by
  obtain ⟨p, d, hm2, hp, hd1, hd4, hcase⟩ := mesh4_west_char hm h
  obtain ⟨hbl8, hlen8⟩ := valid3_shape hp
  subst hm2
  rcases hcase with ⟨hnc, rfl⟩ | ⟨hca, p2, hp2, rfl⟩
  · refine ⟨?_, ?_⟩
    · unfold lonIdx4
      rw [lonIdx3_append _ (by omega), lonIdx3_append _ (by omega),
          cAt_append_len hlen8, cAt_append_len hlen8]
      show 2 * lonIdx3 p + (digitVal (dChar (d - 1)) - 1) % 2 + 1 =
        2 * lonIdx3 p + (digitVal (dChar d) - 1) % 2
      rw [digitVal_dChar (d := d - 1) (by omega),
          digitVal_dChar (d := d) (by omega)]
      omega
    · unfold latIdx4
      rw [latIdx3_append _ (by omega), latIdx3_append _ (by omega),
          cAt_append_len hlen8, cAt_append_len hlen8]
      show 2 * latIdx3 p + (digitVal (dChar (d - 1)) - 1) / 2 =
        2 * latIdx3 p + (digitVal (dChar d) - 1) / 2
      rw [digitVal_dChar (d := d - 1) (by omega),
          digitVal_dChar (d := d) (by omega)]
      omega
  · obtain ⟨hlo, hla⟩ := mesh3_west_idx hp hp2
    obtain ⟨hbl8n, hlen8n⟩ := valid3_shape (mesh3_west_valid hp hp2)
    refine ⟨?_, ?_⟩
    · unfold lonIdx4
      rw [lonIdx3_append _ (by omega), lonIdx3_append _ (by omega),
          cAt_append_len hlen8, cAt_append_len hlen8n]
      show 2 * lonIdx3 p2 + (digitVal (dChar (d + 1)) - 1) % 2 + 1 =
        2 * lonIdx3 p + (digitVal (dChar d) - 1) % 2
      rw [digitVal_dChar (d := d + 1) (by omega),
          digitVal_dChar (d := d) (by omega)]
      omega
    · unfold latIdx4
      rw [latIdx3_append _ (by omega), latIdx3_append _ (by omega),
          cAt_append_len hlen8, cAt_append_len hlen8n]
      show 2 * latIdx3 p2 + (digitVal (dChar (d + 1)) - 1) / 2 =
        2 * latIdx3 p + (digitVal (dChar d) - 1) / 2
      rw [digitVal_dChar (d := d + 1) (by omega),
          digitVal_dChar (d := d) (by omega)]
      omega

theorem mesh5_north_idx {m n : Code} (hm : validate_mesh5_code m = rok ())
    (h : Mesh5.north_mesh m = rok n) :
    latIdx5 n = latIdx5 m + 1 ∧ lonIdx5 n = lonIdx5 m := by
  obtain ⟨p, d, hm2, hp, hd1, hd4, hcase⟩ := mesh5_north_char hm h
  obtain ⟨hbl8, hlen8⟩ := valid4_shape hp
  subst hm2
  rcases hcase with ⟨hnc, rfl⟩ | ⟨hca, p2, hp2, rfl⟩
  · refine ⟨?_, ?_⟩
    · unfold latIdx5
      rw [latIdx4_append _ (by omega), latIdx4_append _ (by omega),
          cAt_append_len hlen8, cAt_append_len hlen8]
      show 2 * latIdx4 p + (digitVal (dChar (d + 2)) - 1) / 2 =
        2 * latIdx4 p + (digitVal (dChar d) - 1) / 2 + 1
      rw [digitVal_dChar (d := d + 2) (by omega),
          digitVal_dChar (d := d) (by omega)]
      omega
    · unfold lonIdx5
      rw [lonIdx4_append _ (by omega), lonIdx4_append _ (by omega),
          cAt_append_len hlen8, cAt_append_len hlen8]
      show 2 * lonIdx4 p + (digitVal (dChar (d + 2)) - 1) % 2 =
        2 * lonIdx4 p + (digitVal (dChar d) - 1) % 2
      rw [digitVal_dChar (d := d + 2) (by omega),
          digitVal_dChar (d := d) (by omega)]
      omega
  · obtain ⟨hla, hlo⟩ := mesh4_north_idx hp hp2
    obtain ⟨hbl8n, hlen8n⟩ := valid4_shape (mesh4_north_valid hp hp2)
    refine ⟨?_, ?_⟩
    · unfold latIdx5
      rw [latIdx4_append _ (by omega), latIdx4_append _ (by omega),
          cAt_append_len hlen8, cAt_append_len hlen8n]
      show 2 * latIdx4 p2 + (digitVal (dChar (d - 2)) - 1) / 2 =
        2 * latIdx4 p + (digitVal (dChar d) - 1) / 2 + 1
      rw [digitVal_dChar (d := d - 2) (by omega),
          digitVal_dChar (d := d) (by omega)]
      omega
    · unfold lonIdx5
      rw [lonIdx4_append _ (by omega), lonIdx4_append _ (by omega),
          cAt_append_len hlen8, cAt_append_len hlen8n]
      show 2 * lonIdx4 p2 + (digitVal (dChar (d - 2)) - 1) % 2 =
        2 * lonIdx4 p + (digitVal (dChar d) - 1) % 2
      rw [digitVal_dChar (d := d - 2) (by omega),
          digitVal_dChar (d := d) (by omega)]
      omega

theorem mesh5_east_idx {m n : Code} (hm : validate_mesh5_code m = rok ())
    (h : Mesh5.east_mesh m = rok n) :
    lonIdx5 n = lonIdx5 m + 1 ∧ latIdx5 n = latIdx5 m := by
  obtain ⟨p, d, hm2, hp, hd1, hd4, hcase⟩ := mesh5_east_char hm h
  obtain ⟨hbl8, hlen8⟩ := valid4_shape hp
  subst hm2
  rcases hcase with ⟨hnc, rfl⟩ | ⟨hca, p2, hp2, rfl⟩
  · refine ⟨?_, ?_⟩
    · unfold lonIdx5
      rw [lonIdx4_append _ (by omega), lonIdx4_append _ (by omega),
          cAt_append_len hlen8, cAt_append_len hlen8]
      show 2 * lonIdx4 p + (digitVal (dChar (d + 1)) - 1) % 2 =
        2 * lonIdx4 p + (digitVal (dChar d) - 1) % 2 + 1
      rw [digitVal_dChar (d := d + 1) (by omega),
          digitVal_dChar (d := d) (by omega)]
      omega
    · unfold latIdx5
      rw [latIdx4_append _ (by omega), latIdx4_append _ (by omega),
          cAt_append_len hlen8, cAt_append_len hlen8]
      show 2 * latIdx4 p + (digitVal (dChar (d + 1)) - 1) / 2 =
        2 * latIdx4 p + (digitVal (dChar d) - 1) / 2
      rw [digitVal_dChar (d := d + 1) (by omega),
          digitVal_dChar (d := d) (by omega)]
      omega
  · obtain ⟨hlo, hla⟩ := mesh4_east_idx hp hp2
    obtain ⟨hbl8n, hlen8n⟩ := valid4_shape (mesh4_east_valid hp hp2)
    refine ⟨?_, ?_⟩
    · unfold lonIdx5
      rw [lonIdx4_append _ (by omega), lonIdx4_append _ (by omega),
          cAt_append_len hlen8, cAt_append_len hlen8n]
      show 2 * lonIdx4 p2 + (digitVal (dChar (d - 1)) - 1) % 2 =
        2 * lonIdx4 p + (digitVal (dChar d) - 1) % 2 + 1
      rw [digitVal_dChar (d := d - 1) (by omega),
          digitVal_dChar (d := d) (by omega)]
      omega
    · unfold latIdx5
      rw [latIdx4_append _ (by omega), latIdx4_append _ (by omega),
          cAt_append_len hlen8, cAt_append_len hlen8n]
      show 2 * latIdx4 p2 + (digitVal (dChar (d - 1)) - 1) / 2 =
        2 * latIdx4 p + (digitVal (dChar d) - 1) / 2
      rw [digitVal_dChar (d := d - 1) (by omega),
          digitVal_dChar (d := d) (by omega)]
      omega

theorem mesh5_south_idx {m n : Code} (hm : validate_mesh5_code m = rok ())
    (h : Mesh5.south_mesh m = rok n) :
    latIdx5 n + 1 = latIdx5 m ∧ lonIdx5 n = lonIdx5 m := by
  obtain ⟨p, d, hm2, hp, hd1, hd4, hcase⟩ := mesh5_south_char hm h
  obtain ⟨hbl8, hlen8⟩ := valid4_shape hp
  subst hm2
  rcases hcase with ⟨hnc, rfl⟩ | ⟨hca, p2, hp2, rfl⟩
  · refine ⟨?_, ?_⟩
    · unfold latIdx5
      rw [latIdx4_append _ (by omega), latIdx4_append _ (by omega),
          cAt_append_len hlen8, cAt_append_len hlen8]
      show 2 * latIdx4 p + (digitVal (dChar (d - 2)) - 1) / 2 + 1 =
        2 * latIdx4 p + (digitVal (dChar d) - 1) / 2
      rw [digitVal_dChar (d := d - 2) (by omega),
          digitVal_dChar (d := d) (by omega)]
      omega
    · unfold lonIdx5
      rw [lonIdx4_append _ (by omega), lonIdx4_append _ (by omega),
          cAt_append_len hlen8, cAt_append_len hlen8]
      show 2 * lonIdx4 p + (digitVal (dChar (d - 2)) - 1) % 2 =
        2 * lonIdx4 p + (digitVal (dChar d) - 1) % 2
      rw [digitVal_dChar (d := d - 2) (by omega),
          digitVal_dChar (d := d) (by omega)]
      omega
  · obtain ⟨hla, hlo⟩ := mesh4_south_idx hp hp2
    obtain ⟨hbl8n, hlen8n⟩ := valid4_shape (mesh4_south_valid hp hp2)
    refine ⟨?_, ?_⟩
    · unfold latIdx5
      rw [latIdx4_append _ (by omega), latIdx4_append _ (by omega),
          cAt_append_len hlen8, cAt_append_len hlen8n]
      show 2 * latIdx4 p2 + (digitVal (dChar (d + 2)) - 1) / 2 + 1 =
        2 * latIdx4 p + (digitVal (dChar d) - 1) / 2
      rw [digitVal_dChar (d := d + 2) (by omega),
          digitVal_dChar (d := d) (by omega)]
      omega
    · unfold lonIdx5
      rw [lonIdx4_append _ (by omega), lonIdx4_append _ (by omega),
          cAt_append_len hlen8, cAt_append_len hlen8n]
      show 2 * lonIdx4 p2 + (digitVal (dChar (d + 2)) - 1) % 2 =
        2 * lonIdx4 p + (digitVal (dChar d) - 1) % 2
      rw [digitVal_dChar (d := d + 2) (by omega),
          digitVal_dChar (d := d) (by omega)]
      omega

theorem mesh5_west_idx {m n : Code} (hm : validate_mesh5_code m = rok ())
    (h : Mesh5.west_mesh m = rok n) :
    lonIdx5 n + 1 = lonIdx5 m ∧ latIdx5 n = latIdx5 m := by
  obtain ⟨p, d, hm2, hp, hd1, hd4, hcase⟩ := mesh5_west_char hm h
  obtain ⟨hbl8, hlen8⟩ := valid4_shape hp
  subst hm2
  rcases hcase with ⟨hnc, rfl⟩ | ⟨hca, p2, hp2, rfl⟩
  · refine ⟨?_, ?_⟩
    · unfold lonIdx5
      rw [lonIdx4_append _ (by omega), lonIdx4_append _ (by omega),
          cAt_append_len hlen8, cAt_append_len hlen8]
      show 2 * lonIdx4 p + (digitVal (dChar (d - 1)) - 1) % 2 + 1 =
        2 * lonIdx4 p + (digitVal (dChar d) - 1) % 2
      rw [digitVal_dChar (d := d - 1) (by omega),
          digitVal_dChar (d := d) (by omega)]
      omega
    · unfold latIdx5
      rw [latIdx4_append _ (by omega), latIdx4_append _ (by omega),
          cAt_append_len hlen8, cAt_append_len hlen8]
      show 2 * latIdx4 p + (digitVal (dChar (d - 1)) - 1) / 2 =
        2 * latIdx4 p + (digitVal (dChar d) - 1) / 2
      rw [digitVal_dChar (d := d - 1) (by omega),
          digitVal_dChar (d := d) (by omega)]
      omega
  · obtain ⟨hlo, hla⟩ := mesh4_west_idx hp hp2
    obtain ⟨hbl8n, hlen8n⟩ := valid4_shape (mesh4_west_valid hp hp2)
    refine ⟨?_, ?_⟩
    · unfold lonIdx5
      rw [lonIdx4_append _ (by omega), lonIdx4_append _ (by omega),
          cAt_append_len hlen8, cAt_append_len hlen8n]
      show 2 * lonIdx4 p2 + (digitVal (dChar (d + 1)) - 1) % 2 + 1 =
        2 * lonIdx4 p + (digitVal (dChar d) - 1) % 2
      rw [digitVal_dChar (d := d + 1) (by omega),
          digitVal_dChar (d := d) (by omega)]
      omega
    · unfold latIdx5
      rw [latIdx4_append _ (by omega), latIdx4_append _ (by omega),
          cAt_append_len hlen8, cAt_append_len hlen8n]
      show 2 * latIdx4 p2 + (digitVal (dChar (d + 1)) - 1) / 2 =
        2 * latIdx4 p + (digitVal (dChar d) - 1) / 2
      rw [digitVal_dChar (d := d + 1) (by omega),
          digitVal_dChar (d := d) (by omega)]
      omega

theorem mesh6_north_idx {m n : Code} (hm : validate_mesh6_code m = rok ())
    (h : Mesh6.north_mesh m = rok n) :
    latIdx6 n = latIdx6 m + 1 ∧ lonIdx6 n = lonIdx6 m := by
  obtain ⟨p, d, hm2, hp, hd1, hd4, hcase⟩ := mesh6_north_char hm h
  obtain ⟨hbl8, hlen8⟩ := valid5_shape hp
  subst hm2
  rcases hcase with ⟨hnc, rfl⟩ | ⟨hca, p2, hp2, rfl⟩
  · refine ⟨?_, ?_⟩
    · unfold latIdx6
      rw [latIdx5_append _ (by omega), latIdx5_append _ (by omega),
          cAt_append_len hlen8, cAt_append_len hlen8]
      show 2 * latIdx5 p + (digitVal (dChar (d + 2)) - 1) / 2 =
        2 * latIdx5 p + (digitVal (dChar d) - 1) / 2 + 1
      rw [digitVal_dChar (d := d + 2) (by omega),
          digitVal_dChar (d := d) (by omega)]
      omega
    · unfold lonIdx6
      rw [lonIdx5_append _ (by omega), lonIdx5_append _ (by omega),
          cAt_append_len hlen8, cAt_append_len hlen8]
      show 2 * lonIdx5 p + (digitVal (dChar (d + 2)) - 1) % 2 =
        2 * lonIdx5 p + (digitVal (dChar d) - 1) % 2
      rw [digitVal_dChar (d := d + 2) (by omega),
          digitVal_dChar (d := d) (by omega)]
      omega
  · obtain ⟨hla, hlo⟩ := mesh5_north_idx hp hp2
    obtain ⟨hbl8n, hlen8n⟩ := valid5_shape (mesh5_north_valid hp hp2)
    refine ⟨?_, ?_⟩
    · unfold latIdx6
      rw [latIdx5_append _ (by omega), latIdx5_append _ (by omega),
          cAt_append_len hlen8, cAt_append_len hlen8n]
      show 2 * latIdx5 p2 + (digitVal (dChar (d - 2)) - 1) / 2 =
        2 * latIdx5 p + (digitVal (dChar d) - 1) / 2 + 1
      rw [digitVal_dChar (d := d - 2) (by omega),
          digitVal_dChar (d := d) (by omega)]
      omega
    · unfold lonIdx6
      rw [lonIdx5_append _ (by omega), lonIdx5_append _ (by omega),
          cAt_append_len hlen8, cAt_append_len hlen8n]
      show 2 * lonIdx5 p2 + (digitVal (dChar (d - 2)) - 1) % 2 =
        2 * lonIdx5 p + (digitVal (dChar d) - 1) % 2
      rw [digitVal_dChar (d := d - 2) (by omega),
          digitVal_dChar (d := d) (by omega)]
      omega

theorem mesh6_east_idx {m n : Code} (hm : validate_mesh6_code m = rok ())
    (h : Mesh6.east_mesh m = rok n) :
    lonIdx6 n = lonIdx6 m + 1 ∧ latIdx6 n = latIdx6 m := by
  obtain ⟨p, d, hm2, hp, hd1, hd4, hcase⟩ := mesh6_east_char hm h
  obtain ⟨hbl8, hlen8⟩ := valid5_shape hp
  subst hm2
  rcases hcase with ⟨hnc, rfl⟩ | ⟨hca, p2, hp2, rfl⟩
  · refine ⟨?_, ?_⟩
    · unfold lonIdx6
      rw [lonIdx5_append _ (by omega), lonIdx5_append _ (by omega),
          cAt_append_len hlen8, cAt_append_len hlen8]
      show 2 * lonIdx5 p + (digitVal (dChar (d + 1)) - 1) % 2 =
        2 * lonIdx5 p + (digitVal (dChar d) - 1) % 2 + 1
      rw [digitVal_dChar (d := d + 1) (by omega),
          digitVal_dChar (d := d) (by omega)]
      omega
    · unfold latIdx6
      rw [latIdx5_append _ (by omega), latIdx5_append _ (by omega),
          cAt_append_len hlen8, cAt_append_len hlen8]
      show 2 * latIdx5 p + (digitVal (dChar (d + 1)) - 1) / 2 =
        2 * latIdx5 p + (digitVal (dChar d) - 1) / 2
      rw [digitVal_dChar (d := d + 1) (by omega),
          digitVal_dChar (d := d) (by omega)]
      omega
  · obtain ⟨hlo, hla⟩ := mesh5_east_idx hp hp2
    obtain ⟨hbl8n, hlen8n⟩ := valid5_shape (mesh5_east_valid hp hp2)
    refine ⟨?_, ?_⟩
    · unfold lonIdx6
      rw [lonIdx5_append _ (by omega), lonIdx5_append _ (by omega),
          cAt_append_len hlen8, cAt_append_len hlen8n]
      show 2 * lonIdx5 p2 + (digitVal (dChar (d - 1)) - 1) % 2 =
        2 * lonIdx5 p + (digitVal (dChar d) - 1) % 2 + 1
      rw [digitVal_dChar (d := d - 1) (by omega),
          digitVal_dChar (d := d) (by omega)]
      omega
    · unfold latIdx6
      rw [latIdx5_append _ (by omega), latIdx5_append _ (by omega),
          cAt_append_len hlen8, cAt_append_len hlen8n]
      show 2 * latIdx5 p2 + (digitVal (dChar (d - 1)) - 1) / 2 =
        2 * latIdx5 p + (digitVal (dChar d) - 1) / 2
      rw [digitVal_dChar (d := d - 1) (by omega),
          digitVal_dChar (d := d) (by omega)]
      omega

theorem mesh6_south_idx {m n : Code} (hm : validate_mesh6_code m = rok ())
    (h : Mesh6.south_mesh m = rok n) :
    latIdx6 n + 1 = latIdx6 m ∧ lonIdx6 n = lonIdx6 m := by
  obtain ⟨p, d, hm2, hp, hd1, hd4, hcase⟩ := mesh6_south_char hm h
  obtain ⟨hbl8, hlen8⟩ := valid5_shape hp
  subst hm2
  rcases hcase with ⟨hnc, rfl⟩ | ⟨hca, p2, hp2, rfl⟩
  · refine ⟨?_, ?_⟩
    · unfold latIdx6
      rw [latIdx5_append _ (by omega), latIdx5_append _ (by omega),
          cAt_append_len hlen8, cAt_append_len hlen8]
      show 2 * latIdx5 p + (digitVal (dChar (d - 2)) - 1) / 2 + 1 =
        2 * latIdx5 p + (digitVal (dChar d) - 1) / 2
      rw [digitVal_dChar (d := d - 2) (by omega),
          digitVal_dChar (d := d) (by omega)]
      omega
    · unfold lonIdx6
      rw [lonIdx5_append _ (by omega), lonIdx5_append _ (by omega),
          cAt_append_len hlen8, cAt_append_len hlen8]
      show 2 * lonIdx5 p + (digitVal (dChar (d - 2)) - 1) % 2 =
        2 * lonIdx5 p + (digitVal (dChar d) - 1) % 2
      rw [digitVal_dChar (d := d - 2) (by omega),
          digitVal_dChar (d := d) (by omega)]
      omega
  · obtain ⟨hla, hlo⟩ := mesh5_south_idx hp hp2
    obtain ⟨hbl8n, hlen8n⟩ := valid5_shape (mesh5_south_valid hp hp2)
    refine ⟨?_, ?_⟩
    · unfold latIdx6
      rw [latIdx5_append _ (by omega), latIdx5_append _ (by omega),
          cAt_append_len hlen8, cAt_append_len hlen8n]
      show 2 * latIdx5 p2 + (digitVal (dChar (d + 2)) - 1) / 2 + 1 =
        2 * latIdx5 p + (digitVal (dChar d) - 1) / 2
      rw [digitVal_dChar (d := d + 2) (by omega),
          digitVal_dChar (d := d) (by omega)]
      omega
    · unfold lonIdx6
      rw [lonIdx5_append _ (by omega), lonIdx5_append _ (by omega),
          cAt_append_len hlen8, cAt_append_len hlen8n]
      show 2 * lonIdx5 p2 + (digitVal (dChar (d + 2)) - 1) % 2 =
        2 * lonIdx5 p + (digitVal (dChar d) - 1) % 2
      rw [digitVal_dChar (d := d + 2) (by omega),
          digitVal_dChar (d := d) (by omega)]
      omega

theorem mesh6_west_idx {m n : Code} (hm : validate_mesh6_code m = rok ())
    (h : Mesh6.west_mesh m = rok n) :
    lonIdx6 n + 1 = lonIdx6 m ∧ latIdx6 n = latIdx6 m := by
  obtain ⟨p, d, hm2, hp, hd1, hd4, hcase⟩ := mesh6_west_char hm h
  obtain ⟨hbl8, hlen8⟩ := valid5_shape hp
  subst hm2
  rcases hcase with ⟨hnc, rfl⟩ | ⟨hca, p2, hp2, rfl⟩
  · refine ⟨?_, ?_⟩
    · unfold lonIdx6
      rw [lonIdx5_append _ (by omega), lonIdx5_append _ (by omega),
          cAt_append_len hlen8, cAt_append_len hlen8]
      show 2 * lonIdx5 p + (digitVal (dChar (d - 1)) - 1) % 2 + 1 =
        2 * lonIdx5 p + (digitVal (dChar d) - 1) % 2
      rw [digitVal_dChar (d := d - 1) (by omega),
          digitVal_dChar (d := d) (by omega)]
      omega
    · unfold latIdx6
      rw [latIdx5_append _ (by omega), latIdx5_append _ (by omega),
          cAt_append_len hlen8, cAt_append_len hlen8]
      show 2 * latIdx5 p + (digitVal (dChar (d - 1)) - 1) / 2 =
        2 * latIdx5 p + (digitVal (dChar d) - 1) / 2
      rw [digitVal_dChar (d := d - 1) (by omega),
          digitVal_dChar (d := d) (by omega)]
      omega
  · obtain ⟨hlo, hla⟩ := mesh5_west_idx hp hp2
    obtain ⟨hbl8n, hlen8n⟩ := valid5_shape (mesh5_west_valid hp hp2)
    refine ⟨?_, ?_⟩
    · unfold lonIdx6
      rw [lonIdx5_append _ (by omega), lonIdx5_append _ (by omega),
          cAt_append_len hlen8, cAt_append_len hlen8n]
      show 2 * lonIdx5 p2 + (digitVal (dChar (d + 1)) - 1) % 2 + 1 =
        2 * lonIdx5 p + (digitVal (dChar d) - 1) % 2
      rw [digitVal_dChar (d := d + 1) (by omega),
          digitVal_dChar (d := d) (by omega)]
      omega
    · unfold latIdx6
      rw [latIdx5_append _ (by omega), latIdx5_append _ (by omega),
          cAt_append_len hlen8, cAt_append_len hlen8n]
      show 2 * latIdx5 p2 + (digitVal (dChar (d + 1)) - 1) / 2 =
        2 * latIdx5 p + (digitVal (dChar d) - 1) / 2
      rw [digitVal_dChar (d := d + 1) (by omega),
          digitVal_dChar (d := d) (by omega)]
      omega

theorem ne_of_idx2 {f g : Code → Nat} {x y : Code}
    (h : f x ≠ f y ∨ g x ≠ g y) : x ≠ y := by
  rintro rfl
  rcases h with h | h <;> exact h rfl

theorem isNeighboring_none {N E S W : Code → RRes Code} {m d a e s w : Code}
    (ha : N m = rok a) (he : E m = rok e) (hs : S m = rok s)
    (hw : W m = rok w) (h1 : a ≠ d) (h2 : e ≠ d) (h3 : s ≠ d) (h4 : w ≠ d) :
    isNeighboring N E S W m d = rok NeighborDirection.none := by
  unfold isNeighboring
  rw [ha, rbind_rok, if_neg h1, he, rbind_rok, if_neg h2, hs, rbind_rok,
      if_neg h3, hw, rbind_rok, if_neg h4]

theorem mesh1_far_none {m d a e s w : Code}
    (hm : validate_mesh1_code m = rok ())
    (ha : Mesh1.north_mesh m = rok a) (he : Mesh1.east_mesh m = rok e)
    (hs : Mesh1.south_mesh m = rok s) (hw : Mesh1.west_mesh m = rok w)
    (hd : Mesh1.north_east_mesh m = rok d ∨ Mesh1.south_east_mesh m = rok d ∨
      Mesh1.south_west_mesh m = rok d ∨ Mesh1.north_west_mesh m = rok d ∨
      Mesh1.north_mesh a = rok d ∨ Mesh1.east_mesh e = rok d ∨
      Mesh1.south_mesh s = rok d ∨ Mesh1.west_mesh w = rok d) :
    Mesh1.is_neighboring m d = rok NeighborDirection.none := by
  obtain ⟨hlaA, hloA⟩ := mesh1_north_idx hm ha
  obtain ⟨hloE, hlaE⟩ := mesh1_east_idx hm he
  obtain ⟨hlaS, hloS⟩ := mesh1_south_idx hm hs
  obtain ⟨hloW, hlaW⟩ := mesh1_west_idx hm hw
  have hva := mesh1_north_valid ha
  have hve := mesh1_east_valid he
  have hvs := mesh1_south_valid hs
  have hvw := mesh1_west_valid hw
  rcases hd with hd | hd | hd | hd | hd | hd | hd | hd
  · unfold Mesh1.north_east_mesh diagMesh at hd
    rw [ha, rbind_rok] at hd
    obtain ⟨hloD, hlaD⟩ := mesh1_east_idx hva hd
    exact isNeighboring_none ha he hs hw
      (ne_of_idx2 (f := latIdx1) (g := lonIdx1) (by omega))
      (ne_of_idx2 (f := latIdx1) (g := lonIdx1) (by omega))
      (ne_of_idx2 (f := latIdx1) (g := lonIdx1) (by omega))
      (ne_of_idx2 (f := latIdx1) (g := lonIdx1) (by omega))
  · unfold Mesh1.south_east_mesh diagMesh at hd
    rw [hs, rbind_rok] at hd
    obtain ⟨hloD, hlaD⟩ := mesh1_east_idx hvs hd
    exact isNeighboring_none ha he hs hw
      (ne_of_idx2 (f := latIdx1) (g := lonIdx1) (by omega))
      (ne_of_idx2 (f := latIdx1) (g := lonIdx1) (by omega))
      (ne_of_idx2 (f := latIdx1) (g := lonIdx1) (by omega))
      (ne_of_idx2 (f := latIdx1) (g := lonIdx1) (by omega))
  · unfold Mesh1.south_west_mesh diagMesh at hd
    rw [hs, rbind_rok] at hd
    obtain ⟨hloD, hlaD⟩ := mesh1_west_idx hvs hd
    exact isNeighboring_none ha he hs hw
      (ne_of_idx2 (f := latIdx1) (g := lonIdx1) (by omega))
      (ne_of_idx2 (f := latIdx1) (g := lonIdx1) (by omega))
      (ne_of_idx2 (f := latIdx1) (g := lonIdx1) (by omega))
      (ne_of_idx2 (f := latIdx1) (g := lonIdx1) (by omega))
  · unfold Mesh1.north_west_mesh diagMesh at hd
    rw [ha, rbind_rok] at hd
    obtain ⟨hloD, hlaD⟩ := mesh1_west_idx hva hd
    exact isNeighboring_none ha he hs hw
      (ne_of_idx2 (f := latIdx1) (g := lonIdx1) (by omega))
      (ne_of_idx2 (f := latIdx1) (g := lonIdx1) (by omega))
      (ne_of_idx2 (f := latIdx1) (g := lonIdx1) (by omega))
      (ne_of_idx2 (f := latIdx1) (g := lonIdx1) (by omega))
  · obtain ⟨hlaD, hloD⟩ := mesh1_north_idx hva hd
    exact isNeighboring_none ha he hs hw
      (ne_of_idx2 (f := latIdx1) (g := lonIdx1) (by omega))
      (ne_of_idx2 (f := latIdx1) (g := lonIdx1) (by omega))
      (ne_of_idx2 (f := latIdx1) (g := lonIdx1) (by omega))
      (ne_of_idx2 (f := latIdx1) (g := lonIdx1) (by omega))
  · obtain ⟨hloD, hlaD⟩ := mesh1_east_idx hve hd
    exact isNeighboring_none ha he hs hw
      (ne_of_idx2 (f := latIdx1) (g := lonIdx1) (by omega))
      (ne_of_idx2 (f := latIdx1) (g := lonIdx1) (by omega))
      (ne_of_idx2 (f := latIdx1) (g := lonIdx1) (by omega))
      (ne_of_idx2 (f := latIdx1) (g := lonIdx1) (by omega))
  · obtain ⟨hlaD, hloD⟩ := mesh1_south_idx hvs hd
    exact isNeighboring_none ha he hs hw
      (ne_of_idx2 (f := latIdx1) (g := lonIdx1) (by omega))
      (ne_of_idx2 (f := latIdx1) (g := lonIdx1) (by omega))
      (ne_of_idx2 (f := latIdx1) (g := lonIdx1) (by omega))
      (ne_of_idx2 (f := latIdx1) (g := lonIdx1) (by omega))
  · obtain ⟨hloD, hlaD⟩ := mesh1_west_idx hvw hd
    exact isNeighboring_none ha he hs hw
      (ne_of_idx2 (f := latIdx1) (g := lonIdx1) (by omega))
      (ne_of_idx2 (f := latIdx1) (g := lonIdx1) (by omega))
      (ne_of_idx2 (f := latIdx1) (g := lonIdx1) (by omega))
      (ne_of_idx2 (f := latIdx1) (g := lonIdx1) (by omega))

theorem mesh2_far_none {m d a e s w : Code}
    (hm : validate_mesh2_code m = rok ())
    (ha : Mesh2.north_mesh m = rok a) (he : Mesh2.east_mesh m = rok e)
    (hs : Mesh2.south_mesh m = rok s) (hw : Mesh2.west_mesh m = rok w)
    (hd : Mesh2.north_east_mesh m = rok d ∨ Mesh2.south_east_mesh m = rok d ∨
      Mesh2.south_west_mesh m = rok d ∨ Mesh2.north_west_mesh m = rok d ∨
      Mesh2.north_mesh a = rok d ∨ Mesh2.east_mesh e = rok d ∨
      Mesh2.south_mesh s = rok d ∨ Mesh2.west_mesh w = rok d) :
    Mesh2.is_neighboring m d = rok NeighborDirection.none := by
  obtain ⟨hlaA, hloA⟩ := mesh2_north_idx hm ha
  obtain ⟨hloE, hlaE⟩ := mesh2_east_idx hm he
  obtain ⟨hlaS, hloS⟩ := mesh2_south_idx hm hs
  obtain ⟨hloW, hlaW⟩ := mesh2_west_idx hm hw
  have hva := mesh2_north_valid hm ha
  have hve := mesh2_east_valid hm he
  have hvs := mesh2_south_valid hm hs
  have hvw := mesh2_west_valid hm hw
  rcases hd with hd | hd | hd | hd | hd | hd | hd | hd
  · unfold Mesh2.north_east_mesh diagMesh at hd
    rw [ha, rbind_rok] at hd
    obtain ⟨hloD, hlaD⟩ := mesh2_east_idx hva hd
    exact isNeighboring_none ha he hs hw
      (ne_of_idx2 (f := latIdx2) (g := lonIdx2) (by omega))
      (ne_of_idx2 (f := latIdx2) (g := lonIdx2) (by omega))
      (ne_of_idx2 (f := latIdx2) (g := lonIdx2) (by omega))
      (ne_of_idx2 (f := latIdx2) (g := lonIdx2) (by omega))
  · unfold Mesh2.south_east_mesh diagMesh at hd
    rw [hs, rbind_rok] at hd
    obtain ⟨hloD, hlaD⟩ := mesh2_east_idx hvs hd
    exact isNeighboring_none ha he hs hw
      (ne_of_idx2 (f := latIdx2) (g := lonIdx2) (by omega))
      (ne_of_idx2 (f := latIdx2) (g := lonIdx2) (by omega))
      (ne_of_idx2 (f := latIdx2) (g := lonIdx2) (by omega))
      (ne_of_idx2 (f := latIdx2) (g := lonIdx2) (by omega))
  · unfold Mesh2.south_west_mesh diagMesh at hd
    rw [hs, rbind_rok] at hd
    obtain ⟨hloD, hlaD⟩ := mesh2_west_idx hvs hd
    exact isNeighboring_none ha he hs hw
      (ne_of_idx2 (f := latIdx2) (g := lonIdx2) (by omega))
      (ne_of_idx2 (f := latIdx2) (g := lonIdx2) (by omega))
      (ne_of_idx2 (f := latIdx2) (g := lonIdx2) (by omega))
      (ne_of_idx2 (f := latIdx2) (g := lonIdx2) (by omega))
  · unfold Mesh2.north_west_mesh diagMesh at hd
    rw [ha, rbind_rok] at hd
    obtain ⟨hloD, hlaD⟩ := mesh2_west_idx hva hd
    exact isNeighboring_none ha he hs hw
      (ne_of_idx2 (f := latIdx2) (g := lonIdx2) (by omega))
      (ne_of_idx2 (f := latIdx2) (g := lonIdx2) (by omega))
      (ne_of_idx2 (f := latIdx2) (g := lonIdx2) (by omega))
      (ne_of_idx2 (f := latIdx2) (g := lonIdx2) (by omega))
  · obtain ⟨hlaD, hloD⟩ := mesh2_north_idx hva hd
    exact isNeighboring_none ha he hs hw
      (ne_of_idx2 (f := latIdx2) (g := lonIdx2) (by omega))
      (ne_of_idx2 (f := latIdx2) (g := lonIdx2) (by omega))
      (ne_of_idx2 (f := latIdx2) (g := lonIdx2) (by omega))
      (ne_of_idx2 (f := latIdx2) (g := lonIdx2) (by omega))
  · obtain ⟨hloD, hlaD⟩ := mesh2_east_idx hve hd
    exact isNeighboring_none ha he hs hw
      (ne_of_idx2 (f := latIdx2) (g := lonIdx2) (by omega))
      (ne_of_idx2 (f := latIdx2) (g := lonIdx2) (by omega))
      (ne_of_idx2 (f := latIdx2) (g := lonIdx2) (by omega))
      (ne_of_idx2 (f := latIdx2) (g := lonIdx2) (by omega))
  · obtain ⟨hlaD, hloD⟩ := mesh2_south_idx hvs hd
    exact isNeighboring_none ha he hs hw
      (ne_of_idx2 (f := latIdx2) (g := lonIdx2) (by omega))
      (ne_of_idx2 (f := latIdx2) (g := lonIdx2) (by omega))
      (ne_of_idx2 (f := latIdx2) (g := lonIdx2) (by omega))
      (ne_of_idx2 (f := latIdx2) (g := lonIdx2) (by omega))
  · obtain ⟨hloD, hlaD⟩ := mesh2_west_idx hvw hd
    exact isNeighboring_none ha he hs hw
      (ne_of_idx2 (f := latIdx2) (g := lonIdx2) (by omega))
      (ne_of_idx2 (f := latIdx2) (g := lonIdx2) (by omega))
      (ne_of_idx2 (f := latIdx2) (g := lonIdx2) (by omega))
      (ne_of_idx2 (f := latIdx2) (g := lonIdx2) (by omega))

theorem mesh3_far_none {m d a e s w : Code}
    (hm : validate_mesh3_code m = rok ())
    (ha : Mesh3.north_mesh m = rok a) (he : Mesh3.east_mesh m = rok e)
    (hs : Mesh3.south_mesh m = rok s) (hw : Mesh3.west_mesh m = rok w)
    (hd : Mesh3.north_east_mesh m = rok d ∨ Mesh3.south_east_mesh m = rok d ∨
      Mesh3.south_west_mesh m = rok d ∨ Mesh3.north_west_mesh m = rok d ∨
      Mesh3.north_mesh a = rok d ∨ Mesh3.east_mesh e = rok d ∨
      Mesh3.south_mesh s = rok d ∨ Mesh3.west_mesh w = rok d) :
    Mesh3.is_neighboring m d = rok NeighborDirection.none := by
  obtain ⟨hlaA, hloA⟩ := mesh3_north_idx hm ha
  obtain ⟨hloE, hlaE⟩ := mesh3_east_idx hm he
  obtain ⟨hlaS, hloS⟩ := mesh3_south_idx hm hs
  obtain ⟨hloW, hlaW⟩ := mesh3_west_idx hm hw
  have hva := mesh3_north_valid hm ha
  have hve := mesh3_east_valid hm he
  have hvs := mesh3_south_valid hm hs
  have hvw := mesh3_west_valid hm hw
  rcases hd with hd | hd | hd | hd | hd | hd | hd | hd
  · unfold Mesh3.north_east_mesh diagMesh at hd
    rw [ha, rbind_rok] at hd
    obtain ⟨hloD, hlaD⟩ := mesh3_east_idx hva hd
    exact isNeighboring_none ha he hs hw
      (ne_of_idx2 (f := latIdx3) (g := lonIdx3) (by omega))
      (ne_of_idx2 (f := latIdx3) (g := lonIdx3) (by omega))
      (ne_of_idx2 (f := latIdx3) (g := lonIdx3) (by omega))
      (ne_of_idx2 (f := latIdx3) (g := lonIdx3) (by omega))
  · unfold Mesh3.south_east_mesh diagMesh at hd
    rw [hs, rbind_rok] at hd
    obtain ⟨hloD, hlaD⟩ := mesh3_east_idx hvs hd
    exact isNeighboring_none ha he hs hw
      (ne_of_idx2 (f := latIdx3) (g := lonIdx3) (by omega))
      (ne_of_idx2 (f := latIdx3) (g := lonIdx3) (by omega))
      (ne_of_idx2 (f := latIdx3) (g := lonIdx3) (by omega))
      (ne_of_idx2 (f := latIdx3) (g := lonIdx3) (by omega))
  · unfold Mesh3.south_west_mesh diagMesh at hd
    rw [hs, rbind_rok] at hd
    obtain ⟨hloD, hlaD⟩ := mesh3_west_idx hvs hd
    exact isNeighboring_none ha he hs hw
      (ne_of_idx2 (f := latIdx3) (g := lonIdx3) (by omega))
      (ne_of_idx2 (f := latIdx3) (g := lonIdx3) (by omega))
      (ne_of_idx2 (f := latIdx3) (g := lonIdx3) (by omega))
      (ne_of_idx2 (f := latIdx3) (g := lonIdx3) (by omega))
  · unfold Mesh3.north_west_mesh diagMesh at hd
    rw [ha, rbind_rok] at hd
    obtain ⟨hloD, hlaD⟩ := mesh3_west_idx hva hd
    exact isNeighboring_none ha he hs hw
      (ne_of_idx2 (f := latIdx3) (g := lonIdx3) (by omega))
      (ne_of_idx2 (f := latIdx3) (g := lonIdx3) (by omega))
      (ne_of_idx2 (f := latIdx3) (g := lonIdx3) (by omega))
      (ne_of_idx2 (f := latIdx3) (g := lonIdx3) (by omega))
  · obtain ⟨hlaD, hloD⟩ := mesh3_north_idx hva hd
    exact isNeighboring_none ha he hs hw
      (ne_of_idx2 (f := latIdx3) (g := lonIdx3) (by omega))
      (ne_of_idx2 (f := latIdx3) (g := lonIdx3) (by omega))
      (ne_of_idx2 (f := latIdx3) (g := lonIdx3) (by omega))
      (ne_of_idx2 (f := latIdx3) (g := lonIdx3) (by omega))
  · obtain ⟨hloD, hlaD⟩ := mesh3_east_idx hve hd
    exact isNeighboring_none ha he hs hw
      (ne_of_idx2 (f := latIdx3) (g := lonIdx3) (by omega))
      (ne_of_idx2 (f := latIdx3) (g := lonIdx3) (by omega))
      (ne_of_idx2 (f := latIdx3) (g := lonIdx3) (by omega))
      (ne_of_idx2 (f := latIdx3) (g := lonIdx3) (by omega))
  · obtain ⟨hlaD, hloD⟩ := mesh3_south_idx hvs hd
    exact isNeighboring_none ha he hs hw
      (ne_of_idx2 (f := latIdx3) (g := lonIdx3) (by omega))
      (ne_of_idx2 (f := latIdx3) (g := lonIdx3) (by omega))
      (ne_of_idx2 (f := latIdx3) (g := lonIdx3) (by omega))
      (ne_of_idx2 (f := latIdx3) (g := lonIdx3) (by omega))
  · obtain ⟨hloD, hlaD⟩ := mesh3_west_idx hvw hd
    exact isNeighboring_none ha he hs hw
      (ne_of_idx2 (f := latIdx3) (g := lonIdx3) (by omega))
      (ne_of_idx2 (f := latIdx3) (g := lonIdx3) (by omega))
      (ne_of_idx2 (f := latIdx3) (g := lonIdx3) (by omega))
      (ne_of_idx2 (f := latIdx3) (g := lonIdx3) (by omega))

theorem mesh4_far_none {m d a e s w : Code}
    (hm : validate_mesh4_code m = rok ())
    (ha : Mesh4.north_mesh m = rok a) (he : Mesh4.east_mesh m = rok e)
    (hs : Mesh4.south_mesh m = rok s) (hw : Mesh4.west_mesh m = rok w)
    (hd : Mesh4.north_east_mesh m = rok d ∨ Mesh4.south_east_mesh m = rok d ∨
      Mesh4.south_west_mesh m = rok d ∨ Mesh4.north_west_mesh m = rok d ∨
      Mesh4.north_mesh a = rok d ∨ Mesh4.east_mesh e = rok d ∨
      Mesh4.south_mesh s = rok d ∨ Mesh4.west_mesh w = rok d) :
    Mesh4.is_neighboring m d = rok NeighborDirection.none := by
  obtain ⟨hlaA, hloA⟩ := mesh4_north_idx hm ha
  obtain ⟨hloE, hlaE⟩ := mesh4_east_idx hm he
  obtain ⟨hlaS, hloS⟩ := mesh4_south_idx hm hs
  obtain ⟨hloW, hlaW⟩ := mesh4_west_idx hm hw
  have hva := mesh4_north_valid hm ha
  have hve := mesh4_east_valid hm he
  have hvs := mesh4_south_valid hm hs
  have hvw := mesh4_west_valid hm hw
  rcases hd with hd | hd | hd | hd | hd | hd | hd | hd
  · unfold Mesh4.north_east_mesh diagMesh at hd
    rw [ha, rbind_rok] at hd
    obtain ⟨hloD, hlaD⟩ := mesh4_east_idx hva hd
    exact isNeighboring_none ha he hs hw
      (ne_of_idx2 (f := latIdx4) (g := lonIdx4) (by omega))
      (ne_of_idx2 (f := latIdx4) (g := lonIdx4) (by omega))
      (ne_of_idx2 (f := latIdx4) (g := lonIdx4) (by omega))
      (ne_of_idx2 (f := latIdx4) (g := lonIdx4) (by omega))
  · unfold Mesh4.south_east_mesh diagMesh at hd
    rw [hs, rbind_rok] at hd
    obtain ⟨hloD, hlaD⟩ := mesh4_east_idx hvs hd
    exact isNeighboring_none ha he hs hw
      (ne_of_idx2 (f := latIdx4) (g := lonIdx4) (by omega))
      (ne_of_idx2 (f := latIdx4) (g := lonIdx4) (by omega))
      (ne_of_idx2 (f := latIdx4) (g := lonIdx4) (by omega))
      (ne_of_idx2 (f := latIdx4) (g := lonIdx4) (by omega))
  · unfold Mesh4.south_west_mesh diagMesh at hd
    rw [hs, rbind_rok] at hd
    obtain ⟨hloD, hlaD⟩ := mesh4_west_idx hvs hd
    exact isNeighboring_none ha he hs hw
      (ne_of_idx2 (f := latIdx4) (g := lonIdx4) (by omega))
      (ne_of_idx2 (f := latIdx4) (g := lonIdx4) (by omega))
      (ne_of_idx2 (f := latIdx4) (g := lonIdx4) (by omega))
      (ne_of_idx2 (f := latIdx4) (g := lonIdx4) (by omega))
  · unfold Mesh4.north_west_mesh diagMesh at hd
    rw [ha, rbind_rok] at hd
    obtain ⟨hloD, hlaD⟩ := mesh4_west_idx hva hd
    exact isNeighboring_none ha he hs hw
      (ne_of_idx2 (f := latIdx4) (g := lonIdx4) (by omega))
      (ne_of_idx2 (f := latIdx4) (g := lonIdx4) (by omega))
      (ne_of_idx2 (f := latIdx4) (g := lonIdx4) (by omega))
      (ne_of_idx2 (f := latIdx4) (g := lonIdx4) (by omega))
  · obtain ⟨hlaD, hloD⟩ := mesh4_north_idx hva hd
    exact isNeighboring_none ha he hs hw
      (ne_of_idx2 (f := latIdx4) (g := lonIdx4) (by omega))
      (ne_of_idx2 (f := latIdx4) (g := lonIdx4) (by omega))
      (ne_of_idx2 (f := latIdx4) (g := lonIdx4) (by omega))
      (ne_of_idx2 (f := latIdx4) (g := lonIdx4) (by omega))
  · obtain ⟨hloD, hlaD⟩ := mesh4_east_idx hve hd
    exact isNeighboring_none ha he hs hw
      (ne_of_idx2 (f := latIdx4) (g := lonIdx4) (by omega))
      (ne_of_idx2 (f := latIdx4) (g := lonIdx4) (by omega))
      (ne_of_idx2 (f := latIdx4) (g := lonIdx4) (by omega))
      (ne_of_idx2 (f := latIdx4) (g := lonIdx4) (by omega))
  · obtain ⟨hlaD, hloD⟩ := mesh4_south_idx hvs hd
    exact isNeighboring_none ha he hs hw
      (ne_of_idx2 (f := latIdx4) (g := lonIdx4) (by omega))
      (ne_of_idx2 (f := latIdx4) (g := lonIdx4) (by omega))
      (ne_of_idx2 (f := latIdx4) (g := lonIdx4) (by omega))
      (ne_of_idx2 (f := latIdx4) (g := lonIdx4) (by omega))
  · obtain ⟨hloD, hlaD⟩ := mesh4_west_idx hvw hd
    exact isNeighboring_none ha he hs hw
      (ne_of_idx2 (f := latIdx4) (g := lonIdx4) (by omega))
      (ne_of_idx2 (f := latIdx4) (g := lonIdx4) (by omega))
      (ne_of_idx2 (f := latIdx4) (g := lonIdx4) (by omega))
      (ne_of_idx2 (f := latIdx4) (g := lonIdx4) (by omega))

theorem mesh5_far_none {m d a e s w : Code}
    (hm : validate_mesh5_code m = rok ())
    (ha : Mesh5.north_mesh m = rok a) (he : Mesh5.east_mesh m = rok e)
    (hs : Mesh5.south_mesh m = rok s) (hw : Mesh5.west_mesh m = rok w)
    (hd : Mesh5.north_east_mesh m = rok d ∨ Mesh5.south_east_mesh m = rok d ∨
      Mesh5.south_west_mesh m = rok d ∨ Mesh5.north_west_mesh m = rok d ∨
      Mesh5.north_mesh a = rok d ∨ Mesh5.east_mesh e = rok d ∨
      Mesh5.south_mesh s = rok d ∨ Mesh5.west_mesh w = rok d) :
    Mesh5.is_neighboring m d = rok NeighborDirection.none := by
  obtain ⟨hlaA, hloA⟩ := mesh5_north_idx hm ha
  obtain ⟨hloE, hlaE⟩ := mesh5_east_idx hm he
  obtain ⟨hlaS, hloS⟩ := mesh5_south_idx hm hs
  obtain ⟨hloW, hlaW⟩ := mesh5_west_idx hm hw
  have hva := mesh5_north_valid hm ha
  have hve := mesh5_east_valid hm he
  have hvs := mesh5_south_valid hm hs
  have hvw := mesh5_west_valid hm hw
  rcases hd with hd | hd | hd | hd | hd | hd | hd | hd
  · unfold Mesh5.north_east_mesh diagMesh at hd
    rw [ha, rbind_rok] at hd
    obtain ⟨hloD, hlaD⟩ := mesh5_east_idx hva hd
    exact isNeighboring_none ha he hs hw
      (ne_of_idx2 (f := latIdx5) (g := lonIdx5) (by omega))
      (ne_of_idx2 (f := latIdx5) (g := lonIdx5) (by omega))
      (ne_of_idx2 (f := latIdx5) (g := lonIdx5) (by omega))
      (ne_of_idx2 (f := latIdx5) (g := lonIdx5) (by omega))
  · unfold Mesh5.south_east_mesh diagMesh at hd
    rw [hs, rbind_rok] at hd
    obtain ⟨hloD, hlaD⟩ := mesh5_east_idx hvs hd
    exact isNeighboring_none ha he hs hw
      (ne_of_idx2 (f := latIdx5) (g := lonIdx5) (by omega))
      (ne_of_idx2 (f := latIdx5) (g := lonIdx5) (by omega))
      (ne_of_idx2 (f := latIdx5) (g := lonIdx5) (by omega))
      (ne_of_idx2 (f := latIdx5) (g := lonIdx5) (by omega))
  · unfold Mesh5.south_west_mesh diagMesh at hd
    rw [hs, rbind_rok] at hd
    obtain ⟨hloD, hlaD⟩ := mesh5_west_idx hvs hd
    exact isNeighboring_none ha he hs hw
      (ne_of_idx2 (f := latIdx5) (g := lonIdx5) (by omega))
      (ne_of_idx2 (f := latIdx5) (g := lonIdx5) (by omega))
      (ne_of_idx2 (f := latIdx5) (g := lonIdx5) (by omega))
      (ne_of_idx2 (f := latIdx5) (g := lonIdx5) (by omega))
  · unfold Mesh5.north_west_mesh diagMesh at hd
    rw [ha, rbind_rok] at hd
    obtain ⟨hloD, hlaD⟩ := mesh5_west_idx hva hd
    exact isNeighboring_none ha he hs hw
      (ne_of_idx2 (f := latIdx5) (g := lonIdx5) (by omega))
      (ne_of_idx2 (f := latIdx5) (g := lonIdx5) (by omega))
      (ne_of_idx2 (f := latIdx5) (g := lonIdx5) (by omega))
      (ne_of_idx2 (f := latIdx5) (g := lonIdx5) (by omega))
  · obtain ⟨hlaD, hloD⟩ := mesh5_north_idx hva hd
    exact isNeighboring_none ha he hs hw
      (ne_of_idx2 (f := latIdx5) (g := lonIdx5) (by omega))
      (ne_of_idx2 (f := latIdx5) (g := lonIdx5) (by omega))
      (ne_of_idx2 (f := latIdx5) (g := lonIdx5) (by omega))
      (ne_of_idx2 (f := latIdx5) (g := lonIdx5) (by omega))
  · obtain ⟨hloD, hlaD⟩ := mesh5_east_idx hve hd
    exact isNeighboring_none ha he hs hw
      (ne_of_idx2 (f := latIdx5) (g := lonIdx5) (by omega))
      (ne_of_idx2 (f := latIdx5) (g := lonIdx5) (by omega))
      (ne_of_idx2 (f := latIdx5) (g := lonIdx5) (by omega))
      (ne_of_idx2 (f := latIdx5) (g := lonIdx5) (by omega))
  · obtain ⟨hlaD, hloD⟩ := mesh5_south_idx hvs hd
    exact isNeighboring_none ha he hs hw
      (ne_of_idx2 (f := latIdx5) (g := lonIdx5) (by omega))
      (ne_of_idx2 (f := latIdx5) (g := lonIdx5) (by omega))
      (ne_of_idx2 (f := latIdx5) (g := lonIdx5) (by omega))
      (ne_of_idx2 (f := latIdx5) (g := lonIdx5) (by omega))
  · obtain ⟨hloD, hlaD⟩ := mesh5_west_idx hvw hd
    exact isNeighboring_none ha he hs hw
      (ne_of_idx2 (f := latIdx5) (g := lonIdx5) (by omega))
      (ne_of_idx2 (f := latIdx5) (g := lonIdx5) (by omega))
      (ne_of_idx2 (f := latIdx5) (g := lonIdx5) (by omega))
      (ne_of_idx2 (f := latIdx5) (g := lonIdx5) (by omega))

theorem mesh6_far_none {m d a e s w : Code}
    (hm : validate_mesh6_code m = rok ())
    (ha : Mesh6.north_mesh m = rok a) (he : Mesh6.east_mesh m = rok e)
    (hs : Mesh6.south_mesh m = rok s) (hw : Mesh6.west_mesh m = rok w)
    (hd : Mesh6.north_east_mesh m = rok d ∨ Mesh6.south_east_mesh m = rok d ∨
      Mesh6.south_west_mesh m = rok d ∨ Mesh6.north_west_mesh m = rok d ∨
      Mesh6.north_mesh a = rok d ∨ Mesh6.east_mesh e = rok d ∨
      Mesh6.south_mesh s = rok d ∨ Mesh6.west_mesh w = rok d) :
    Mesh6.is_neighboring m d = rok NeighborDirection.none := by
  obtain ⟨hlaA, hloA⟩ := mesh6_north_idx hm ha
  obtain ⟨hloE, hlaE⟩ := mesh6_east_idx hm he
  obtain ⟨hlaS, hloS⟩ := mesh6_south_idx hm hs
  obtain ⟨hloW, hlaW⟩ := mesh6_west_idx hm hw
  have hva := mesh6_north_valid hm ha
  have hve := mesh6_east_valid hm he
  have hvs := mesh6_south_valid hm hs
  have hvw := mesh6_west_valid hm hw
  rcases hd with hd | hd | hd | hd | hd | hd | hd | hd
  · unfold Mesh6.north_east_mesh diagMesh at hd
    rw [ha, rbind_rok] at hd
    obtain ⟨hloD, hlaD⟩ := mesh6_east_idx hva hd
    exact isNeighboring_none ha he hs hw
      (ne_of_idx2 (f := latIdx6) (g := lonIdx6) (by omega))
      (ne_of_idx2 (f := latIdx6) (g := lonIdx6) (by omega))
      (ne_of_idx2 (f := latIdx6) (g := lonIdx6) (by omega))
      (ne_of_idx2 (f := latIdx6) (g := lonIdx6) (by omega))
  · unfold Mesh6.south_east_mesh diagMesh at hd
    rw [hs, rbind_rok] at hd
    obtain ⟨hloD, hlaD⟩ := mesh6_east_idx hvs hd
    exact isNeighboring_none ha he hs hw
      (ne_of_idx2 (f := latIdx6) (g := lonIdx6) (by omega))
      (ne_of_idx2 (f := latIdx6) (g := lonIdx6) (by omega))
      (ne_of_idx2 (f := latIdx6) (g := lonIdx6) (by omega))
      (ne_of_idx2 (f := latIdx6) (g := lonIdx6) (by omega))
  · unfold Mesh6.south_west_mesh diagMesh at hd
    rw [hs, rbind_rok] at hd
    obtain ⟨hloD, hlaD⟩ := mesh6_west_idx hvs hd
    exact isNeighboring_none ha he hs hw
      (ne_of_idx2 (f := latIdx6) (g := lonIdx6) (by omega))
      (ne_of_idx2 (f := latIdx6) (g := lonIdx6) (by omega))
      (ne_of_idx2 (f := latIdx6) (g := lonIdx6) (by omega))
      (ne_of_idx2 (f := latIdx6) (g := lonIdx6) (by omega))
  · unfold Mesh6.north_west_mesh diagMesh at hd
    rw [ha, rbind_rok] at hd
    obtain ⟨hloD, hlaD⟩ := mesh6_west_idx hva hd
    exact isNeighboring_none ha he hs hw
      (ne_of_idx2 (f := latIdx6) (g := lonIdx6) (by omega))
      (ne_of_idx2 (f := latIdx6) (g := lonIdx6) (by omega))
      (ne_of_idx2 (f := latIdx6) (g := lonIdx6) (by omega))
      (ne_of_idx2 (f := latIdx6) (g := lonIdx6) (by omega))
  · obtain ⟨hlaD, hloD⟩ := mesh6_north_idx hva hd
    exact isNeighboring_none ha he hs hw
      (ne_of_idx2 (f := latIdx6) (g := lonIdx6) (by omega))
      (ne_of_idx2 (f := latIdx6) (g := lonIdx6) (by omega))
      (ne_of_idx2 (f := latIdx6) (g := lonIdx6) (by omega))
      (ne_of_idx2 (f := latIdx6) (g := lonIdx6) (by omega))
  · obtain ⟨hloD, hlaD⟩ := mesh6_east_idx hve hd
    exact isNeighboring_none ha he hs hw
      (ne_of_idx2 (f := latIdx6) (g := lonIdx6) (by omega))
      (ne_of_idx2 (f := latIdx6) (g := lonIdx6) (by omega))
      (ne_of_idx2 (f := latIdx6) (g := lonIdx6) (by omega))
      (ne_of_idx2 (f := latIdx6) (g := lonIdx6) (by omega))
  · obtain ⟨hlaD, hloD⟩ := mesh6_south_idx hvs hd
    exact isNeighboring_none ha he hs hw
      (ne_of_idx2 (f := latIdx6) (g := lonIdx6) (by omega))
      (ne_of_idx2 (f := latIdx6) (g := lonIdx6) (by omega))
      (ne_of_idx2 (f := latIdx6) (g := lonIdx6) (by omega))
      (ne_of_idx2 (f := latIdx6) (g := lonIdx6) (by omega))
  · obtain ⟨hloD, hlaD⟩ := mesh6_west_idx hvw hd
    exact isNeighboring_none ha he hs hw
      (ne_of_idx2 (f := latIdx6) (g := lonIdx6) (by omega))
      (ne_of_idx2 (f := latIdx6) (g := lonIdx6) (by omega))
      (ne_of_idx2 (f := latIdx6) (g := lonIdx6) (by omega))
      (ne_of_idx2 (f := latIdx6) (g := lonIdx6) (by omega))

theorem rbind_rerr2 {α β : Type} {e : GSJPError} {f : α → RRes β} :
    rbind (rerr e) f = rerr e := rfl

theorem runwrap_rok {α : Type} (a : α) : runwrap (rok a) = some a := rfl

theorem btake_self (s : Code) : btake s (blen s) = some s := by
  have := btake_append s []
  rwa [List.append_nil] at this

theorem coordinate_new_rok {lat lon : ℚ} {c : Coordinate} :
    Coordinate.new lat lon = rok c ↔
      20 ≤ lat ∧ lat ≤ 46 ∧ 122 ≤ lon ∧ lon ≤ 154 ∧ c = ⟨lat, lon⟩ := by
  unfold Coordinate.new validate_lat validate_lon
  unfold SOUTHERNMOST NORTHERNMOST WESTERNMOST EASTERNMOST
  by_cases hA : 20 ≤ lat ∧ lat ≤ 46
  · rw [if_neg (not_not_intro hA), rbind_rok]
    by_cases hB : 122 ≤ lon ∧ lon ≤ 154
    · rw [if_neg (not_not_intro hB), rbind_rok, rok_inj]
      constructor
      · intro h
        exact ⟨hA.1, hA.2, hB.1, hB.2, h.symm⟩
      · rintro ⟨-, -, -, -, rfl⟩
        rfl
    · rw [if_pos hB, rbind_rerr2]
      constructor
      · intro h
        exact absurd h rerr_ne_rok
      · rintro ⟨-, -, h3, h4, -⟩
        exact absurd ⟨h3, h4⟩ hB
  · rw [if_pos hA, rbind_rerr2]
    constructor
    · intro h
      exact absurd h rerr_ne_rok
    · rintro ⟨h1, h2, -, -, -⟩
      exact absurd ⟨h1, h2⟩ hA

theorem contains_rok {c : Coordinate} (h1 : 20 ≤ c.lat) (h2 : c.lat ≤ 46)
    (h3 : 122 ≤ c.lon) (h4 : c.lon ≤ 154) :
    contains_coordinate c = rok () := by
  unfold contains_coordinate validate_lat validate_lon
  unfold SOUTHERNMOST NORTHERNMOST WESTERNMOST EASTERNMOST
  rw [if_neg (not_not_intro ⟨h1, h2⟩), rbind_rok,
      if_neg (not_not_intro ⟨h3, h4⟩), rbind_rok]

theorem f64ToU8_bounds {q : ℚ} (h0 : 0 ≤ q) (h : q < 256) :
    (f64ToU8 q : ℚ) ≤ q ∧ q < (f64ToU8 q : ℚ) + 1 := by
  have hf0 : 0 ≤ ⌊q⌋ := Int.floor_nonneg.mpr h0
  have hf : ⌊q⌋ < 256 := Int.floor_lt.mpr (by exact_mod_cast h)
  have he : f64ToU8 q = Int.toNat ⌊q⌋ := by
    unfold f64ToU8
    have h255 : Int.toNat ⌊q⌋ ≤ 255 := by omega
    exact min_eq_right h255
  have hc : ((Int.toNat ⌊q⌋ : ℕ) : ℚ) = ((⌊q⌋ : ℤ) : ℚ) := by
    exact_mod_cast Int.toNat_of_nonneg hf0
  rw [he]
  exact ⟨by rw [hc]; exact Int.floor_le q, by rw [hc]; exact Int.lt_floor_add_one q⟩

theorem f64ToU8_le {q : ℚ} {k : ℕ} (h : q < k + 1) (hk : k ≤ 255) :
    f64ToU8 q ≤ k := by
  unfold f64ToU8
  have hf : ⌊q⌋ < (k : ℤ) + 1 := Int.floor_lt.mpr (by exact_mod_cast h)
  have h2 : Int.toNat ⌊q⌋ ≤ k := by omega
  exact le_trans (min_le_right _ _) h2

theorem parseF64_digits {a b : Char} (ha : isDigitC a = true)
    (hb : isDigitC b = true) :
    parseF64 [a, b] = some (((10 * digitVal a + digitVal b : ℕ) : ℚ)) := by
  have hminus : a ≠ '-' := by
    intro h
    subst h
    exact absurd ha (by decide)
  have hplus : a ≠ '+' := by
    intro h
    subst h
    exact absurd ha (by decide)
  have hsgn : (if [a, b].head? = some '-' then (-1 : ℚ) else 1) = 1 := by
    rw [if_neg]
    simp only [List.head?_cons, Option.some.injEq]
    exact hminus
  have ht : (if [a, b].head? = some '-' ∨ [a, b].head? = some '+'
      then [a, b].tail else [a, b]) = [a, b] := by
    rw [if_neg]
    simp only [List.head?_cons, Option.some.injEq]
    rintro (h | h)
    exacts [hminus h, hplus h]
  have hip : [a, b].takeWhile isDigitC = [a, b] := by
    simp [List.takeWhile_cons, ha, hb]
  unfold parseF64
  rw [hsgn, ht]
  simp only [hip]
  show some ((1 : ℚ) * ((digitsVal [a, b] : ℕ) : ℚ)) =
    some (((10 * digitVal a + digitVal b : ℕ) : ℚ))
  rw [digitsVal_pair, one_mul]

theorem parseF64_fmt2 {v : Nat} (h : v < 100) :
    parseF64 (fmt2 v) = some ((v : ℚ)) := by
  obtain ⟨a, b, hab, ha, hb, hv⟩ := fmt2_shape h
  rw [hab, parseF64_digits ha hb, hv]

theorem mesh1_south_val {v w : Nat} (hv : v < 100) (hw : w < 100) :
    Mesh1.south (fmt2 v ++ fmt2 w) = some ((v : ℚ) / 1.5) := by
  unfold Mesh1.south
  rw [bslice_zero, show (2 : Nat) = blen (fmt2 v) from (fmt2_blen hv).symm,
      btake_append]
  simp only [Option.some_bind]
  rw [parseF64_fmt2 hv]
  rfl

theorem mesh1_west_val {v w : Nat} (hv : v < 100) (hw : w < 100) :
    Mesh1.west (fmt2 v ++ fmt2 w) = some ((w : ℚ) + 100) := by
  unfold Mesh1.west
  rw [bslice_of_append _ (fmt2_blen hv),
      show (4 : Nat) - 2 = blen (fmt2 w) from by rw [fmt2_blen hw],
      btake_self]
  simp only [Option.some_bind]
  rw [parseF64_fmt2 hw]
  rfl

theorem mesh1_fc_eval {c : Coordinate} (h1 : 20 ≤ c.lat) (h2 : c.lat ≤ 46)
    (h3 : 122 ≤ c.lon) (h4 : c.lon ≤ 154) :
    Mesh1.from_coordinate c =
      rok (fmt2 (f64ToU8 (c.lat * 1.5)) ++ fmt2 (f64ToU8 (c.lon - 100))) := by
  unfold Mesh1.from_coordinate
  rw [contains_rok h1 h2 h3 h4, rbind_rok]

theorem mesh1_fc_main {c : Coordinate} {m : Code}
    (h1 : 20 ≤ c.lat) (h2 : c.lat ≤ 46) (h3 : 122 ≤ c.lon) (h4 : c.lon ≤ 154)
    (h : Mesh1.from_coordinate c = rok m) :
    m.length = 4 ∧ ∃ s w, Mesh1.south m = some s ∧ Mesh1.west m = some w ∧
      s ≤ c.lat ∧ c.lat < s + MESH1_LAT_DIFF ∧
      w ≤ c.lon ∧ c.lon < w + MESH1_LON_DIFF := by
  rw [mesh1_fc_eval h1 h2 h3 h4, rok_inj] at h
  subst h
  have hvb := f64ToU8_bounds (q := c.lat * 1.5) (by linarith) (by linarith)
  have hwb := f64ToU8_bounds (q := c.lon - 100) (by linarith) (by linarith)
  have hv100 : f64ToU8 (c.lat * 1.5) < 100 := by
    have hle : ((f64ToU8 (c.lat * 1.5) : ℕ) : ℚ) ≤ 69 := le_trans hvb.1 (by linarith)
    have : (f64ToU8 (c.lat * 1.5) : ℕ) ≤ 69 := by exact_mod_cast hle
    omega
  have hw100 : f64ToU8 (c.lon - 100) < 100 := by
    have hle : ((f64ToU8 (c.lon - 100) : ℕ) : ℚ) ≤ 54 := le_trans hwb.1 (by linarith)
    have : (f64ToU8 (c.lon - 100) : ℕ) ≤ 54 := by exact_mod_cast hle
    omega
  refine ⟨?_, _, _, mesh1_south_val hv100 hw100, mesh1_west_val hv100 hw100,
    ?_, ?_, ?_, ?_⟩
  · rw [List.length_append, fmt2_length hv100, fmt2_length hw100]
  · rw [div_le_iff (by norm_num)]
    exact hvb.1
  · have hub := hvb.2
    unfold MESH1_LAT_DIFF
    rw [div_add' _ _ _ (by norm_num)]
    rw [lt_div_iff (by norm_num)]
    linarith
  · linarith [hwb.1]
  · unfold MESH1_LON_DIFF
    linarith [hwb.2]

theorem mesh2_south_val {p : Code} {x y : Char}
    (hp : validate_mesh1_code p = rok ()) {s1 : ℚ}
    (hs1 : Mesh1.south p = some s1) (hx : isDigitC x = true) :
    Mesh2.south (p ++ [x, y]) =
      some (s1 + MESH2_LAT_DIFF * (digitVal x : ℚ)) := by
  unfold Mesh2.south Mesh2.mesh1
  obtain ⟨hbl4, hlen4⟩ := valid1_shape hp
  have hbt : btake (p ++ [x, y]) 4 = some p := by
    rw [← hbl4]
    exact btake_append p [x, y]
  rw [bslice_zero, hbt]
  simp only [Option.some_bind]
  rw [new1_rok.mpr ⟨hp, rfl⟩, runwrap_rok]
  simp only [Option.some_bind]
  rw [hs1]
  simp only [Option.some_bind]
  rw [get_append_k hlen4]
  simp only [List.get?_cons_zero, Option.some_bind]
  rw [toDigit10_digit hx]
  rfl

theorem mesh2_west_val {p : Code} {x y : Char}
    (hp : validate_mesh1_code p = rok ()) {w1 : ℚ}
    (hw1 : Mesh1.west p = some w1) (hy : isDigitC y = true) :
    Mesh2.west (p ++ [x, y]) =
      some (w1 + MESH2_LON_DIFF * (digitVal y : ℚ)) := by
  unfold Mesh2.west Mesh2.mesh1
  obtain ⟨hbl4, hlen4⟩ := valid1_shape hp
  have hbt : btake (p ++ [x, y]) 4 = some p := by
    rw [← hbl4]
    exact btake_append p [x, y]
  rw [bslice_zero, hbt]
  simp only [Option.some_bind]
  rw [new1_rok.mpr ⟨hp, rfl⟩, runwrap_rok]
  simp only [Option.some_bind]
  rw [hw1]
  simp only [Option.some_bind]
  rw [show (5 : Nat) = 4 + 1 from rfl, get_append_k1 hlen4]
  simp only [List.get?_cons_succ, List.get?_cons_zero, Option.some_bind]
  rw [toDigit10_digit hy]
  rfl

theorem mesh2_fc_main {c : Coordinate} {m : Code}
    (h1 : 20 ≤ c.lat) (h2 : c.lat ≤ 46) (h3 : 122 ≤ c.lon) (h4 : c.lon ≤ 154)
    (h : Mesh2.from_coordinate c = rok m) :
    m.length = 6 ∧ ∃ s w, Mesh2.south m = some s ∧ Mesh2.west m = some w ∧
      s ≤ c.lat ∧ c.lat < s + MESH2_LAT_DIFF ∧
      w ≤ c.lon ∧ c.lon < w + MESH2_LON_DIFF := by
  unfold Mesh2.from_coordinate at h
  rw [rbind_eq_rok] at h
  obtain ⟨mp, hmp, h⟩ := h
  obtain ⟨hmplen, s1, w1, hs1, hw1, hs1le, hs1lt, hw1le, hw1lt⟩ :=
    mesh1_fc_main h1 h2 h3 h4 hmp
  rw [hs1] at h
  simp only [ropt_some, rbind_rok] at h
  rw [hw1] at h
  simp only [ropt_some, rbind_rok] at h
  have hDla : (0 : ℚ) < MESH2_LAT_DIFF := by norm_num [MESH2_LAT_DIFF]
  have hDlo : (0 : ℚ) < MESH2_LON_DIFF := by norm_num [MESH2_LON_DIFF]
  have hEla : (8 : ℚ) * MESH2_LAT_DIFF = MESH1_LAT_DIFF := by
    norm_num [MESH2_LAT_DIFF, MESH1_LAT_DIFF]
  have hElo : (8 : ℚ) * MESH2_LON_DIFF = MESH1_LON_DIFF := by
    norm_num [MESH2_LON_DIFF, MESH1_LON_DIFF]
  have hqa0 : 0 ≤ (c.lat - s1) / MESH2_LAT_DIFF :=
    div_nonneg (by linarith) (le_of_lt hDla)
  have hqa8 : (c.lat - s1) / MESH2_LAT_DIFF < 8 := by
    rw [div_lt_iff hDla]
    linarith
  have hqo0 : 0 ≤ (c.lon - w1) / MESH2_LON_DIFF :=
    div_nonneg (by linarith) (le_of_lt hDlo)
  have hqo8 : (c.lon - w1) / MESH2_LON_DIFF < 8 := by
    rw [div_lt_iff hDlo]
    linarith
  have hlat7 : f64ToU8 ((c.lat - s1) / MESH2_LAT_DIFF) ≤ 7 :=
    f64ToU8_le (by push_cast; linarith) (by norm_num)
  have hlon7 : f64ToU8 ((c.lon - w1) / MESH2_LON_DIFF) ≤ 7 :=
    f64ToU8_le (by push_cast; linarith) (by norm_num)
  have hlatb := f64ToU8_bounds hqa0 (lt_trans hqa8 (by norm_num))
  have hlonb := f64ToU8_bounds hqo0 (lt_trans hqo8 (by norm_num))
  rw [fmtU8_lt10 (by omega), fmtU8_lt10 (by omega), List.append_assoc] at h
  simp only [List.cons_append, List.nil_append] at h
  obtain ⟨hvalid, rfl⟩ := new2_rok.mp h
  obtain ⟨p', a', b', he, hp', -, -, -, -⟩ := valid2_iff.mp hvalid
  obtain ⟨hpe, -⟩ := List.append_inj he (by rw [hmplen, (valid1_shape hp').2])
  subst hpe
  obtain ⟨hbA, hbA2⟩ := hlatb
  rw [le_div_iff hDla] at hbA
  rw [div_lt_iff hDla] at hbA2
  obtain ⟨hbO, hbO2⟩ := hlonb
  rw [le_div_iff hDlo] at hbO
  rw [div_lt_iff hDlo] at hbO2
  refine ⟨?_, _, _,
    (by rw [mesh2_south_val hp' hs1 (isDigitC_dChar (by omega)),
        digitVal_dChar (by omega)]),
    (by rw [mesh2_west_val hp' hw1 (isDigitC_dChar (by omega)),
        digitVal_dChar (by omega)]),
    ?_, ?_, ?_, ?_⟩
  · rw [List.length_append, hmplen]
    rfl
  · linarith
  · linarith
  · linarith
  · linarith

theorem mesh3_south_val {p : Code} {x y : Char}
    (hp : validate_mesh2_code p = rok ()) {s1 : ℚ}
    (hs1 : Mesh2.south p = some s1) (hx : isDigitC x = true) :
    Mesh3.south (p ++ [x, y]) =
      some (s1 + MESH3_LAT_DIFF * (digitVal x : ℚ)) := by
  unfold Mesh3.south Mesh3.mesh2
  obtain ⟨hbl4, hlen4⟩ := valid2_shape hp
  have hbt : btake (p ++ [x, y]) 6 = some p := by
    rw [← hbl4]
    exact btake_append p [x, y]
  rw [bslice_zero, hbt]
  simp only [Option.some_bind]
  rw [new2_rok.mpr ⟨hp, rfl⟩, runwrap_rok]
  simp only [Option.some_bind]
  rw [hs1]
  simp only [Option.some_bind]
  rw [get_append_k hlen4]
  simp only [List.get?_cons_zero, Option.some_bind]
  rw [toDigit10_digit hx]
  rfl

theorem mesh3_west_val {p : Code} {x y : Char}
    (hp : validate_mesh2_code p = rok ()) {w1 : ℚ}
    (hw1 : Mesh2.west p = some w1) (hy : isDigitC y = true) :
    Mesh3.west (p ++ [x, y]) =
      some (w1 + MESH3_LON_DIFF * (digitVal y : ℚ)) := by
  unfold Mesh3.west Mesh3.mesh2
  obtain ⟨hbl4, hlen4⟩ := valid2_shape hp
  have hbt : btake (p ++ [x, y]) 6 = some p := by
    rw [← hbl4]
    exact btake_append p [x, y]
  rw [bslice_zero, hbt]
  simp only [Option.some_bind]
  rw [new2_rok.mpr ⟨hp, rfl⟩, runwrap_rok]
  simp only [Option.some_bind]
  rw [hw1]
  simp only [Option.some_bind]
  rw [show (7 : Nat) = 6 + 1 from rfl, get_append_k1 hlen4]
  simp only [List.get?_cons_succ, List.get?_cons_zero, Option.some_bind]
  rw [toDigit10_digit hy]
  rfl

theorem mesh3_fc_main {c : Coordinate} {m : Code}
    (h1 : 20 ≤ c.lat) (h2 : c.lat ≤ 46) (h3 : 122 ≤ c.lon) (h4 : c.lon ≤ 154)
    (h : Mesh3.from_coordinate c = rok m) :
    m.length = 8 ∧ ∃ s w, Mesh3.south m = some s ∧ Mesh3.west m = some w ∧
      s ≤ c.lat ∧ c.lat < s + MESH3_LAT_DIFF ∧
      w ≤ c.lon ∧ c.lon < w + MESH3_LON_DIFF := by
  unfold Mesh3.from_coordinate at h
  rw [rbind_eq_rok] at h
  obtain ⟨mp, hmp, h⟩ := h
  obtain ⟨hmplen, s1, w1, hs1, hw1, hs1le, hs1lt, hw1le, hw1lt⟩ :=
    mesh2_fc_main h1 h2 h3 h4 hmp
  rw [hs1] at h
  simp only [ropt_some, rbind_rok] at h
  rw [hw1] at h
  simp only [ropt_some, rbind_rok] at h
  have hDla : (0 : ℚ) < MESH3_LAT_DIFF := by norm_num [MESH3_LAT_DIFF]
  have hDlo : (0 : ℚ) < MESH3_LON_DIFF := by norm_num [MESH3_LON_DIFF]
  have hEla : (10 : ℚ) * MESH3_LAT_DIFF = MESH2_LAT_DIFF := by
    norm_num [MESH3_LAT_DIFF, MESH2_LAT_DIFF]
  have hElo : (10 : ℚ) * MESH3_LON_DIFF = MESH2_LON_DIFF := by
    norm_num [MESH3_LON_DIFF, MESH2_LON_DIFF]
  have hqa0 : 0 ≤ (c.lat - s1) / MESH3_LAT_DIFF :=
    div_nonneg (by linarith) (le_of_lt hDla)
  have hqa8 : (c.lat - s1) / MESH3_LAT_DIFF < 10 := by
    rw [div_lt_iff hDla]
    linarith
  have hqo0 : 0 ≤ (c.lon - w1) / MESH3_LON_DIFF :=
    div_nonneg (by linarith) (le_of_lt hDlo)
  have hqo8 : (c.lon - w1) / MESH3_LON_DIFF < 10 := by
    rw [div_lt_iff hDlo]
    linarith
  have hlat7 : f64ToU8 ((c.lat - s1) / MESH3_LAT_DIFF) ≤ 9 :=
    f64ToU8_le (by push_cast; linarith) (by norm_num)
  have hlon7 : f64ToU8 ((c.lon - w1) / MESH3_LON_DIFF) ≤ 9 :=
    f64ToU8_le (by push_cast; linarith) (by norm_num)
  have hlatb := f64ToU8_bounds hqa0 (lt_trans hqa8 (by norm_num))
  have hlonb := f64ToU8_bounds hqo0 (lt_trans hqo8 (by norm_num))
  rw [fmtU8_lt10 (by omega), fmtU8_lt10 (by omega), List.append_assoc] at h
  simp only [List.cons_append, List.nil_append] at h
  obtain ⟨hvalid, rfl⟩ := new3_rok.mp h
  obtain ⟨p', a', b', he, hp', -, -, -, -⟩ := valid3_iff.mp hvalid
  obtain ⟨hpe, -⟩ := List.append_inj he (by rw [hmplen, (valid2_shape hp').2])
  subst hpe
  obtain ⟨hbA, hbA2⟩ := hlatb
  rw [le_div_iff hDla] at hbA
  rw [div_lt_iff hDla] at hbA2
  obtain ⟨hbO, hbO2⟩ := hlonb
  rw [le_div_iff hDlo] at hbO
  rw [div_lt_iff hDlo] at hbO2
  refine ⟨?_, _, _,
    (by rw [mesh3_south_val hp' hs1 (isDigitC_dChar (by omega)),
        digitVal_dChar (by omega)]),
    (by rw [mesh3_west_val hp' hw1 (isDigitC_dChar (by omega)),
        digitVal_dChar (by omega)]),
    ?_, ?_, ?_, ?_⟩
  · rw [List.length_append, hmplen]
    rfl
  · linarith
  · linarith
  · linarith
  · linarith

theorem mesh4_south_val {p : Code} {num : Nat}
    (hp : validate_mesh3_code p = rok ()) {s3 : ℚ}
    (hs3 : Mesh3.south p = some s3) (h1 : 1 ≤ num) (h4 : num ≤ 4) :
    Mesh4.south (p ++ [dChar num]) =
      some (s3 + MESH4_LAT_DIFF * (((num - 1) / 2 : ℕ) : ℚ)) := by
  unfold Mesh4.south Mesh4.mesh3
  obtain ⟨hbl8, hlen8⟩ := valid3_shape hp
  have hbt : btake (p ++ [dChar num]) 8 = some p := by
    rw [← hbl8]
    exact btake_append p [dChar num]
  rw [bslice_zero, hbt]
  simp only [Option.some_bind]
  rw [new3_rok.mpr ⟨hp, rfl⟩, runwrap_rok]
  simp only [Option.some_bind]
  rw [hs3]
  simp only [Option.some_bind]
  rw [get_append_k hlen8]
  simp only [List.get?_cons_zero, Option.some_bind]
  by_cases h12 : num = 1 ∨ num = 2
  · rw [if_pos (by rcases h12 with rfl | rfl <;> decide),
        show (num - 1) / 2 = 0 from by omega]
    norm_num
  · have h34 : num = 3 ∨ num = 4 := by omega
    rw [if_neg (by rcases h34 with rfl | rfl <;> decide),
        if_pos (by rcases h34 with rfl | rfl <;> decide),
        show (num - 1) / 2 = 1 from by omega]
    norm_num

theorem mesh4_west_val {p : Code} {num : Nat}
    (hp : validate_mesh3_code p = rok ()) {w3 : ℚ}
    (hw3 : Mesh3.west p = some w3) (h1 : 1 ≤ num) (h4 : num ≤ 4) :
    Mesh4.west (p ++ [dChar num]) =
      some (w3 + MESH4_LON_DIFF * (((num - 1) % 2 : ℕ) : ℚ)) := by
  unfold Mesh4.west Mesh4.mesh3
  obtain ⟨hbl8, hlen8⟩ := valid3_shape hp
  have hbt : btake (p ++ [dChar num]) 8 = some p := by
    rw [← hbl8]
    exact btake_append p [dChar num]
  rw [bslice_zero, hbt]
  simp only [Option.some_bind]
  rw [new3_rok.mpr ⟨hp, rfl⟩, runwrap_rok]
  simp only [Option.some_bind]
  rw [hw3]
  simp only [Option.some_bind]
  rw [get_append_k hlen8]
  simp only [List.get?_cons_zero, Option.some_bind]
  by_cases h13 : num = 1 ∨ num = 3
  · rw [if_pos (by rcases h13 with rfl | rfl <;> decide),
        show (num - 1) % 2 = 0 from by omega]
    norm_num
  · have h24 : num = 2 ∨ num = 4 := by omega
    rw [if_neg (by rcases h24 with rfl | rfl <;> decide),
        if_pos (by rcases h24 with rfl | rfl <;> decide),
        show (num - 1) % 2 = 1 from by omega]
    norm_num

theorem mesh4_fc_main {c : Coordinate} {m : Code}
    (h1 : 20 ≤ c.lat) (h2 : c.lat ≤ 46) (h3 : 122 ≤ c.lon) (h4 : c.lon ≤ 154)
    (h : Mesh4.from_coordinate c = rok m) :
    m.length = 9 ∧ ∃ s w, Mesh4.south m = some s ∧ Mesh4.west m = some w ∧
      s ≤ c.lat ∧ c.lat < s + MESH4_LAT_DIFF ∧
      w ≤ c.lon ∧ c.lon < w + MESH4_LON_DIFF := by
  unfold Mesh4.from_coordinate at h
  rw [rbind_eq_rok] at h
  obtain ⟨mp, hmp, h⟩ := h
  obtain ⟨hmplen, s3, w3, hs3, hw3, hs3le, hs3lt, hw3le, hw3lt⟩ :=
    mesh3_fc_main h1 h2 h3 h4 hmp
  rw [hs3] at h
  simp only [ropt_some, rbind_rok] at h
  rw [hw3] at h
  simp only [ropt_some, rbind_rok] at h
  have hDla : (0 : ℚ) < MESH4_LAT_DIFF := by norm_num [MESH4_LAT_DIFF]
  have hDlo : (0 : ℚ) < MESH4_LON_DIFF := by norm_num [MESH4_LON_DIFF]
  have hEla : (2 : ℚ) * MESH4_LAT_DIFF = MESH3_LAT_DIFF := by
    norm_num [MESH4_LAT_DIFF, MESH3_LAT_DIFF]
  have hElo : (2 : ℚ) * MESH4_LON_DIFF = MESH3_LON_DIFF := by
    norm_num [MESH4_LON_DIFF, MESH3_LON_DIFF]
  have hqa0 : 0 ≤ (c.lat - s3) / MESH4_LAT_DIFF :=
    div_nonneg (by linarith) (le_of_lt hDla)
  have hqa2 : (c.lat - s3) / MESH4_LAT_DIFF < 2 := by
    rw [div_lt_iff hDla]
    linarith
  have hqo0 : 0 ≤ (c.lon - w3) / MESH4_LON_DIFF :=
    div_nonneg (by linarith) (le_of_lt hDlo)
  have hqo2 : (c.lon - w3) / MESH4_LON_DIFF < 2 := by
    rw [div_lt_iff hDlo]
    linarith
  have hlat1 : f64ToU8 ((c.lat - s3) / MESH4_LAT_DIFF) ≤ 1 :=
    f64ToU8_le (by push_cast; linarith) (by norm_num)
  have hlon1 : f64ToU8 ((c.lon - w3) / MESH4_LON_DIFF) ≤ 1 :=
    f64ToU8_le (by push_cast; linarith) (by norm_num)
  have hlatb := f64ToU8_bounds hqa0 (lt_trans hqa2 (by norm_num))
  have hlonb := f64ToU8_bounds hqo0 (lt_trans hqo2 (by norm_num))
  rw [fmtU8_lt10 (by omega)] at h
  obtain ⟨hvalid, rfl⟩ := new4_rok.mp h
  obtain ⟨p', c', he, hp', -, -⟩ := valid4_iff.mp hvalid
  obtain ⟨hpe, -⟩ := List.append_inj he (by rw [hmplen, (valid3_shape hp').2])
  subst hpe
  obtain ⟨hbA, hbA2⟩ := hlatb
  rw [le_div_iff hDla] at hbA
  rw [div_lt_iff hDla] at hbA2
  obtain ⟨hbO, hbO2⟩ := hlonb
  rw [le_div_iff hDlo] at hbO
  rw [div_lt_iff hDlo] at hbO2
  refine ⟨?_, _, _,
    (by rw [mesh4_south_val hp' hs3 (by omega) (by omega),
        show (2 * f64ToU8 ((c.lat - s3) / MESH4_LAT_DIFF) + 1 +
            f64ToU8 ((c.lon - w3) / MESH4_LON_DIFF) - 1) / 2 =
          f64ToU8 ((c.lat - s3) / MESH4_LAT_DIFF) from by omega]),
    (by rw [mesh4_west_val hp' hw3 (by omega) (by omega),
        show (2 * f64ToU8 ((c.lat - s3) / MESH4_LAT_DIFF) + 1 +
            f64ToU8 ((c.lon - w3) / MESH4_LON_DIFF) - 1) % 2 =
          f64ToU8 ((c.lon - w3) / MESH4_LON_DIFF) from by omega]),
    ?_, ?_, ?_, ?_⟩
  · rw [List.length_append, hmplen]
    rfl
  · linarith
  · linarith
  · linarith
  · linarith

theorem mesh5_south_val {p : Code} {num : Nat}
    (hp : validate_mesh4_code p = rok ()) {s3 : ℚ}
    (hs3 : Mesh4.south p = some s3) (h1 : 1 ≤ num) (h4 : num ≤ 4) :
    Mesh5.south (p ++ [dChar num]) =
      some (s3 + MESH5_LAT_DIFF * (((num - 1) / 2 : ℕ) : ℚ)) := by
  unfold Mesh5.south Mesh5.mesh4
  obtain ⟨hbl8, hlen8⟩ := valid4_shape hp
  have hbt : btake (p ++ [dChar num]) 9 = some p := by
    rw [← hbl8]
    exact btake_append p [dChar num]
  rw [bslice_zero, hbt]
  simp only [Option.some_bind]
  rw [new4_rok.mpr ⟨hp, rfl⟩, runwrap_rok]
  simp only [Option.some_bind]
  rw [hs3]
  simp only [Option.some_bind]
  rw [get_append_k hlen8]
  simp only [List.get?_cons_zero, Option.some_bind]
  by_cases h12 : num = 1 ∨ num = 2
  · rw [if_pos (by rcases h12 with rfl | rfl <;> decide),
        show (num - 1) / 2 = 0 from by omega]
    norm_num
  · have h34 : num = 3 ∨ num = 4 := by omega
    rw [if_neg (by rcases h34 with rfl | rfl <;> decide),
        if_pos (by rcases h34 with rfl | rfl <;> decide),
        show (num - 1) / 2 = 1 from by omega]
    norm_num

theorem mesh5_west_val {p : Code} {num : Nat}
    (hp : validate_mesh4_code p = rok ()) {w3 : ℚ}
    (hw3 : Mesh4.west p = some w3) (h1 : 1 ≤ num) (h4 : num ≤ 4) :
    Mesh5.west (p ++ [dChar num]) =
      some (w3 + MESH5_LON_DIFF * (((num - 1) % 2 : ℕ) : ℚ)) := by
  unfold Mesh5.west Mesh5.mesh4
  obtain ⟨hbl8, hlen8⟩ := valid4_shape hp
  have hbt : btake (p ++ [dChar num]) 9 = some p := by
    rw [← hbl8]
    exact btake_append p [dChar num]
  rw [bslice_zero, hbt]
  simp only [Option.some_bind]
  rw [new4_rok.mpr ⟨hp, rfl⟩, runwrap_rok]
  simp only [Option.some_bind]
  rw [hw3]
  simp only [Option.some_bind]
  rw [get_append_k hlen8]
  simp only [List.get?_cons_zero, Option.some_bind]
  by_cases h13 : num = 1 ∨ num = 3
  · rw [if_pos (by rcases h13 with rfl | rfl <;> decide),
        show (num - 1) % 2 = 0 from by omega]
    norm_num
  · have h24 : num = 2 ∨ num = 4 := by omega
    rw [if_neg (by rcases h24 with rfl | rfl <;> decide),
        if_pos (by rcases h24 with rfl | rfl <;> decide),
        show (num - 1) % 2 = 1 from by omega]
    norm_num

theorem mesh5_fc_main {c : Coordinate} {m : Code}
    (h1 : 20 ≤ c.lat) (h2 : c.lat ≤ 46) (h3 : 122 ≤ c.lon) (h4 : c.lon ≤ 154)
    (h : Mesh5.from_coordinate c = rok m) :
    m.length = 10 ∧ ∃ s w, Mesh5.south m = some s ∧ Mesh5.west m = some w ∧
      s ≤ c.lat ∧ c.lat < s + MESH5_LAT_DIFF ∧
      w ≤ c.lon ∧ c.lon < w + MESH5_LON_DIFF := by
  unfold Mesh5.from_coordinate at h
  rw [rbind_eq_rok] at h
  obtain ⟨mp, hmp, h⟩ := h
  obtain ⟨hmplen, s3, w3, hs3, hw3, hs3le, hs3lt, hw3le, hw3lt⟩ :=
    mesh4_fc_main h1 h2 h3 h4 hmp
  rw [hs3] at h
  simp only [ropt_some, rbind_rok] at h
  rw [hw3] at h
  simp only [ropt_some, rbind_rok] at h
  have hDla : (0 : ℚ) < MESH5_LAT_DIFF := by norm_num [MESH5_LAT_DIFF]
  have hDlo : (0 : ℚ) < MESH5_LON_DIFF := by norm_num [MESH5_LON_DIFF]
  have hEla : (2 : ℚ) * MESH5_LAT_DIFF = MESH4_LAT_DIFF := by
    norm_num [MESH5_LAT_DIFF, MESH4_LAT_DIFF]
  have hElo : (2 : ℚ) * MESH5_LON_DIFF = MESH4_LON_DIFF := by
    norm_num [MESH5_LON_DIFF, MESH4_LON_DIFF]
  have hqa0 : 0 ≤ (c.lat - s3) / MESH5_LAT_DIFF :=
    div_nonneg (by linarith) (le_of_lt hDla)
  have hqa2 : (c.lat - s3) / MESH5_LAT_DIFF < 2 := by
    rw [div_lt_iff hDla]
    linarith
  have hqo0 : 0 ≤ (c.lon - w3) / MESH5_LON_DIFF :=
    div_nonneg (by linarith) (le_of_lt hDlo)
  have hqo2 : (c.lon - w3) / MESH5_LON_DIFF < 2 := by
    rw [div_lt_iff hDlo]
    linarith
  have hlat1 : f64ToU8 ((c.lat - s3) / MESH5_LAT_DIFF) ≤ 1 :=
    f64ToU8_le (by push_cast; linarith) (by norm_num)
  have hlon1 : f64ToU8 ((c.lon - w3) / MESH5_LON_DIFF) ≤ 1 :=
    f64ToU8_le (by push_cast; linarith) (by norm_num)
  have hlatb := f64ToU8_bounds hqa0 (lt_trans hqa2 (by norm_num))
  have hlonb := f64ToU8_bounds hqo0 (lt_trans hqo2 (by norm_num))
  rw [fmtU8_lt10 (by omega)] at h
  obtain ⟨hvalid, rfl⟩ := new5_rok.mp h
  obtain ⟨p', c', he, hp', -, -⟩ := valid5_iff.mp hvalid
  obtain ⟨hpe, -⟩ := List.append_inj he (by rw [hmplen, (valid4_shape hp').2])
  subst hpe
  obtain ⟨hbA, hbA2⟩ := hlatb
  rw [le_div_iff hDla] at hbA
  rw [div_lt_iff hDla] at hbA2
  obtain ⟨hbO, hbO2⟩ := hlonb
  rw [le_div_iff hDlo] at hbO
  rw [div_lt_iff hDlo] at hbO2
  refine ⟨?_, _, _,
    (by rw [mesh5_south_val hp' hs3 (by omega) (by omega),
        show (2 * f64ToU8 ((c.lat - s3) / MESH5_LAT_DIFF) + 1 +
            f64ToU8 ((c.lon - w3) / MESH5_LON_DIFF) - 1) / 2 =
          f64ToU8 ((c.lat - s3) / MESH5_LAT_DIFF) from by omega]),
    (by rw [mesh5_west_val hp' hw3 (by omega) (by omega),
        show (2 * f64ToU8 ((c.lat - s3) / MESH5_LAT_DIFF) + 1 +
            f64ToU8 ((c.lon - w3) / MESH5_LON_DIFF) - 1) % 2 =
          f64ToU8 ((c.lon - w3) / MESH5_LON_DIFF) from by omega]),
    ?_, ?_, ?_, ?_⟩
  · rw [List.length_append, hmplen]
    rfl
  · linarith
  · linarith
  · linarith
  · linarith

theorem mesh6_south_val {p : Code} {num : Nat}
    (hp : validate_mesh5_code p = rok ()) {s3 : ℚ}
    (hs3 : Mesh5.south p = some s3) (h1 : 1 ≤ num) (h4 : num ≤ 4) :
    Mesh6.south (p ++ [dChar num]) =
      some (s3 + MESH6_LAT_DIFF * (((num - 1) / 2 : ℕ) : ℚ)) := by
  unfold Mesh6.south Mesh6.mesh5
  obtain ⟨hbl8, hlen8⟩ := valid5_shape hp
  have hbt : btake (p ++ [dChar num]) 10 = some p := by
    rw [← hbl8]
    exact btake_append p [dChar num]
  rw [bslice_zero, hbt]
  simp only [Option.some_bind]
  rw [new5_rok.mpr ⟨hp, rfl⟩, runwrap_rok]
  simp only [Option.some_bind]
  rw [hs3]
  simp only [Option.some_bind]
  rw [get_append_k hlen8]
  simp only [List.get?_cons_zero, Option.some_bind]
  by_cases h12 : num = 1 ∨ num = 2
  · rw [if_pos (by rcases h12 with rfl | rfl <;> decide),
        show (num - 1) / 2 = 0 from by omega]
    norm_num
  · have h34 : num = 3 ∨ num = 4 := by omega
    rw [if_neg (by rcases h34 with rfl | rfl <;> decide),
        if_pos (by rcases h34 with rfl | rfl <;> decide),
        show (num - 1) / 2 = 1 from by omega]
    norm_num

theorem mesh6_west_val {p : Code} {num : Nat}
    (hp : validate_mesh5_code p = rok ()) {w3 : ℚ}
    (hw3 : Mesh5.west p = some w3) (h1 : 1 ≤ num) (h4 : num ≤ 4) :
    Mesh6.west (p ++ [dChar num]) =
      some (w3 + MESH6_LON_DIFF * (((num - 1) % 2 : ℕ) : ℚ)) := by
  unfold Mesh6.west Mesh6.mesh5
  obtain ⟨hbl8, hlen8⟩ := valid5_shape hp
  have hbt : btake (p ++ [dChar num]) 10 = some p := by
    rw [← hbl8]
    exact btake_append p [dChar num]
  rw [bslice_zero, hbt]
  simp only [Option.some_bind]
  rw [new5_rok.mpr ⟨hp, rfl⟩, runwrap_rok]
  simp only [Option.some_bind]
  rw [hw3]
  simp only [Option.some_bind]
  rw [get_append_k hlen8]
  simp only [List.get?_cons_zero, Option.some_bind]
  by_cases h13 : num = 1 ∨ num = 3
  · rw [if_pos (by rcases h13 with rfl | rfl <;> decide),
        show (num - 1) % 2 = 0 from by omega]
    norm_num
  · have h24 : num = 2 ∨ num = 4 := by omega
    rw [if_neg (by rcases h24 with rfl | rfl <;> decide),
        if_pos (by rcases h24 with rfl | rfl <;> decide),
        show (num - 1) % 2 = 1 from by omega]
    norm_num

theorem mesh6_fc_main {c : Coordinate} {m : Code}
    (h1 : 20 ≤ c.lat) (h2 : c.lat ≤ 46) (h3 : 122 ≤ c.lon) (h4 : c.lon ≤ 154)
    (h : Mesh6.from_coordinate c = rok m) :
    m.length = 11 ∧ ∃ s w, Mesh6.south m = some s ∧ Mesh6.west m = some w ∧
      s ≤ c.lat ∧ c.lat < s + MESH6_LAT_DIFF ∧
      w ≤ c.lon ∧ c.lon < w + MESH6_LON_DIFF := by
  unfold Mesh6.from_coordinate at h
  rw [rbind_eq_rok] at h
  obtain ⟨mp, hmp, h⟩ := h
  obtain ⟨hmplen, s3, w3, hs3, hw3, hs3le, hs3lt, hw3le, hw3lt⟩ :=
    mesh5_fc_main h1 h2 h3 h4 hmp
  rw [hs3] at h
  simp only [ropt_some, rbind_rok] at h
  rw [hw3] at h
  simp only [ropt_some, rbind_rok] at h
  have hDla : (0 : ℚ) < MESH6_LAT_DIFF := by norm_num [MESH6_LAT_DIFF]
  have hDlo : (0 : ℚ) < MESH6_LON_DIFF := by norm_num [MESH6_LON_DIFF]
  have hEla : (2 : ℚ) * MESH6_LAT_DIFF = MESH5_LAT_DIFF := by
    norm_num [MESH6_LAT_DIFF, MESH5_LAT_DIFF]
  have hElo : (2 : ℚ) * MESH6_LON_DIFF = MESH5_LON_DIFF := by
    norm_num [MESH6_LON_DIFF, MESH5_LON_DIFF]
  have hqa0 : 0 ≤ (c.lat - s3) / MESH6_LAT_DIFF :=
    div_nonneg (by linarith) (le_of_lt hDla)
  have hqa2 : (c.lat - s3) / MESH6_LAT_DIFF < 2 := by
    rw [div_lt_iff hDla]
    linarith
  have hqo0 : 0 ≤ (c.lon - w3) / MESH6_LON_DIFF :=
    div_nonneg (by linarith) (le_of_lt hDlo)
  have hqo2 : (c.lon - w3) / MESH6_LON_DIFF < 2 := by
    rw [div_lt_iff hDlo]
    linarith
  have hlat1 : f64ToU8 ((c.lat - s3) / MESH6_LAT_DIFF) ≤ 1 :=
    f64ToU8_le (by push_cast; linarith) (by norm_num)
  have hlon1 : f64ToU8 ((c.lon - w3) / MESH6_LON_DIFF) ≤ 1 :=
    f64ToU8_le (by push_cast; linarith) (by norm_num)
  have hlatb := f64ToU8_bounds hqa0 (lt_trans hqa2 (by norm_num))
  have hlonb := f64ToU8_bounds hqo0 (lt_trans hqo2 (by norm_num))
  rw [fmtU8_lt10 (by omega)] at h
  obtain ⟨hvalid, rfl⟩ := new6_rok.mp h
  obtain ⟨p', c', he, hp', -, -⟩ := valid6_iff.mp hvalid
  obtain ⟨hpe, -⟩ := List.append_inj he (by rw [hmplen, (valid5_shape hp').2])
  subst hpe
  obtain ⟨hbA, hbA2⟩ := hlatb
  rw [le_div_iff hDla] at hbA
  rw [div_lt_iff hDla] at hbA2
  obtain ⟨hbO, hbO2⟩ := hlonb
  rw [le_div_iff hDlo] at hbO
  rw [div_lt_iff hDlo] at hbO2
  refine ⟨?_, _, _,
    (by rw [mesh6_south_val hp' hs3 (by omega) (by omega),
        show (2 * f64ToU8 ((c.lat - s3) / MESH6_LAT_DIFF) + 1 +
            f64ToU8 ((c.lon - w3) / MESH6_LON_DIFF) - 1) / 2 =
          f64ToU8 ((c.lat - s3) / MESH6_LAT_DIFF) from by omega]),
    (by rw [mesh6_west_val hp' hw3 (by omega) (by omega),
        show (2 * f64ToU8 ((c.lat - s3) / MESH6_LAT_DIFF) + 1 +
            f64ToU8 ((c.lon - w3) / MESH6_LON_DIFF) - 1) % 2 =
          f64ToU8 ((c.lon - w3) / MESH6_LON_DIFF) from by omega]),
    ?_, ?_, ?_, ?_⟩
  · rw [List.length_append, hmplen]
    rfl
  · linarith
  · linarith
  · linarith
  · linarith

/-! ## Claims -/

/-- C1: for every level 1 through 6 and every valid mesh `m` of that level,
if `north_mesh m` returns `Ok n` then `south_mesh n` returns `Ok` with the
original code `m`, including the carry cases. -/
theorem c1_north_south_roundtrip :
    (∀ m n : Code, validate_mesh1_code m = rok () →
      Mesh1.north_mesh m = rok n → Mesh1.south_mesh n = rok m) ∧
    (∀ m n : Code, validate_mesh2_code m = rok () →
      Mesh2.north_mesh m = rok n → Mesh2.south_mesh n = rok m) ∧
    (∀ m n : Code, validate_mesh3_code m = rok () →
      Mesh3.north_mesh m = rok n → Mesh3.south_mesh n = rok m) ∧
    (∀ m n : Code, validate_mesh4_code m = rok () →
      Mesh4.north_mesh m = rok n → Mesh4.south_mesh n = rok m) ∧
    (∀ m n : Code, validate_mesh5_code m = rok () →
      Mesh5.north_mesh m = rok n → Mesh5.south_mesh n = rok m) ∧
    (∀ m n : Code, validate_mesh6_code m = rok () →
      Mesh6.north_mesh m = rok n → Mesh6.south_mesh n = rok m) :=
  ⟨fun _ _ hm h => mesh1_inv_ns hm h, fun _ _ hm h => mesh2_inv_ns hm h,
    fun _ _ hm h => mesh3_inv_ns hm h, fun _ _ hm h => mesh4_inv_ns hm h,
    fun _ _ hm h => mesh5_inv_ns hm h, fun _ _ hm h => mesh6_inv_ns hm h⟩

/-- Witness for C1 at the concrete level-1 mesh "3022" (north then south is
the identity) and at the level-6 mesh "53393599111" (quadrant carry). -/
theorem c1_north_south_roundtrip_witness :
    Mesh1.south_mesh ['3', '1', '2', '2'] = rok ['3', '0', '2', '2'] ∧
    Mesh6.south_mesh ['5', '3', '3', '9', '3', '5', '9', '9', '1', '1', '3'] =
      rok ['5', '3', '3', '9', '3', '5', '9', '9', '1', '1', '1'] :=
  ⟨c1_north_south_roundtrip.1 ['3', '0', '2', '2'] ['3', '1', '2', '2']
      (by with_unfolding_all decide) (by with_unfolding_all decide),
    c1_north_south_roundtrip.2.2.2.2.2
      ['5', '3', '3', '9', '3', '5', '9', '9', '1', '1', '1']
      ['5', '3', '3', '9', '3', '5', '9', '9', '1', '1', '3']
      (by with_unfolding_all decide) (by with_unfolding_all decide)⟩

/-- C2: for every coordinate accepted by `Coordinate::new` and every level,
a mesh produced by `from_coordinate` contains the coordinate in the half-open
cell `[south, north) × [west, east)`. -/
theorem c2_from_coordinate_bounds (lat lon : ℚ) (c : Coordinate)
    (hc : Coordinate.new lat lon = rok c) :
    (∀ m, Mesh1.from_coordinate c = rok m → ∃ s w,
      Mesh1.south m = some s ∧ Mesh1.west m = some w ∧
      Mesh1.north m = some (s + MESH1_LAT_DIFF) ∧
      Mesh1.east m = some (w + MESH1_LON_DIFF) ∧
      s ≤ c.lat ∧ c.lat < s + MESH1_LAT_DIFF ∧
      w ≤ c.lon ∧ c.lon < w + MESH1_LON_DIFF) ∧
    (∀ m, Mesh2.from_coordinate c = rok m → ∃ s w,
      Mesh2.south m = some s ∧ Mesh2.west m = some w ∧
      Mesh2.north m = some (s + MESH2_LAT_DIFF) ∧
      Mesh2.east m = some (w + MESH2_LON_DIFF) ∧
      s ≤ c.lat ∧ c.lat < s + MESH2_LAT_DIFF ∧
      w ≤ c.lon ∧ c.lon < w + MESH2_LON_DIFF) ∧
    (∀ m, Mesh3.from_coordinate c = rok m → ∃ s w,
      Mesh3.south m = some s ∧ Mesh3.west m = some w ∧
      Mesh3.north m = some (s + MESH3_LAT_DIFF) ∧
      Mesh3.east m = some (w + MESH3_LON_DIFF) ∧
      s ≤ c.lat ∧ c.lat < s + MESH3_LAT_DIFF ∧
      w ≤ c.lon ∧ c.lon < w + MESH3_LON_DIFF) ∧
    (∀ m, Mesh4.from_coordinate c = rok m → ∃ s w,
      Mesh4.south m = some s ∧ Mesh4.west m = some w ∧
      Mesh4.north m = some (s + MESH4_LAT_DIFF) ∧
      Mesh4.east m = some (w + MESH4_LON_DIFF) ∧
      s ≤ c.lat ∧ c.lat < s + MESH4_LAT_DIFF ∧
      w ≤ c.lon ∧ c.lon < w + MESH4_LON_DIFF) ∧
    (∀ m, Mesh5.from_coordinate c = rok m → ∃ s w,
      Mesh5.south m = some s ∧ Mesh5.west m = some w ∧
      Mesh5.north m = some (s + MESH5_LAT_DIFF) ∧
      Mesh5.east m = some (w + MESH5_LON_DIFF) ∧
      s ≤ c.lat ∧ c.lat < s + MESH5_LAT_DIFF ∧
      w ≤ c.lon ∧ c.lon < w + MESH5_LON_DIFF) ∧
    (∀ m, Mesh6.from_coordinate c = rok m → ∃ s w,
      Mesh6.south m = some s ∧ Mesh6.west m = some w ∧
      Mesh6.north m = some (s + MESH6_LAT_DIFF) ∧
      Mesh6.east m = some (w + MESH6_LON_DIFF) ∧
      s ≤ c.lat ∧ c.lat < s + MESH6_LAT_DIFF ∧
      w ≤ c.lon ∧ c.lon < w + MESH6_LON_DIFF) := by
  obtain ⟨h1, h2, h3, h4, rfl⟩ := coordinate_new_rok.mp hc
  refine ⟨fun m hm => ?_, fun m hm => ?_, fun m hm => ?_, fun m hm => ?_,
    fun m hm => ?_, fun m hm => ?_⟩
  · obtain ⟨-, s, w, hs, hw, hb1, hb2, hb3, hb4⟩ := mesh1_fc_main h1 h2 h3 h4 hm
    exact ⟨s, w, hs, hw, by unfold Mesh1.north; rw [hs]; rfl,
      by unfold Mesh1.east; rw [hw]; rfl, hb1, hb2, hb3, hb4⟩
  · obtain ⟨-, s, w, hs, hw, hb1, hb2, hb3, hb4⟩ := mesh2_fc_main h1 h2 h3 h4 hm
    exact ⟨s, w, hs, hw, by unfold Mesh2.north; rw [hs]; rfl,
      by unfold Mesh2.east; rw [hw]; rfl, hb1, hb2, hb3, hb4⟩
  · obtain ⟨-, s, w, hs, hw, hb1, hb2, hb3, hb4⟩ := mesh3_fc_main h1 h2 h3 h4 hm
    exact ⟨s, w, hs, hw, by unfold Mesh3.north; rw [hs]; rfl,
      by unfold Mesh3.east; rw [hw]; rfl, hb1, hb2, hb3, hb4⟩
  · obtain ⟨-, s, w, hs, hw, hb1, hb2, hb3, hb4⟩ := mesh4_fc_main h1 h2 h3 h4 hm
    exact ⟨s, w, hs, hw, by unfold Mesh4.north; rw [hs]; rfl,
      by unfold Mesh4.east; rw [hw]; rfl, hb1, hb2, hb3, hb4⟩
  · obtain ⟨-, s, w, hs, hw, hb1, hb2, hb3, hb4⟩ := mesh5_fc_main h1 h2 h3 h4 hm
    exact ⟨s, w, hs, hw, by unfold Mesh5.north; rw [hs]; rfl,
      by unfold Mesh5.east; rw [hw]; rfl, hb1, hb2, hb3, hb4⟩
  · obtain ⟨-, s, w, hs, hw, hb1, hb2, hb3, hb4⟩ := mesh6_fc_main h1 h2 h3 h4 hm
    exact ⟨s, w, hs, hw, by unfold Mesh6.north; rw [hs]; rfl,
      by unfold Mesh6.east; rw [hw]; rfl, hb1, hb2, hb3, hb4⟩

/-- Witness for C2 at the coordinate (36, 140), binned at level 1 into the
mesh "5440". -/
theorem c2_from_coordinate_bounds_witness :
    ∃ s w, Mesh1.south ['5', '4', '4', '0'] = some s ∧
      Mesh1.west ['5', '4', '4', '0'] = some w ∧
      Mesh1.north ['5', '4', '4', '0'] = some (s + MESH1_LAT_DIFF) ∧
      Mesh1.east ['5', '4', '4', '0'] = some (w + MESH1_LON_DIFF) ∧
      s ≤ (Coordinate.mk 36 140).lat ∧
      (Coordinate.mk 36 140).lat < s + MESH1_LAT_DIFF ∧
      w ≤ (Coordinate.mk 36 140).lon ∧
      (Coordinate.mk 36 140).lon < w + MESH1_LON_DIFF :=
  (c2_from_coordinate_bounds 36 140 (Coordinate.mk 36 140)
      (by with_unfolding_all decide)).1
    ['5', '4', '4', '0'] (by with_unfolding_all decide)

/-- C3: the level-4 mesh "533935991" has north neighbor "533935993" inside
the same parent, and "533935993" has north neighbor "533945091" inside the
parent's northern neighbor. -/
theorem c3_mesh4_north_chain :
    Mesh4.north_mesh ['5', '3', '3', '9', '3', '5', '9', '9', '1'] =
      rok ['5', '3', '3', '9', '3', '5', '9', '9', '3'] ∧
    Mesh4.north_mesh ['5', '3', '3', '9', '3', '5', '9', '9', '3'] =
      rok ['5', '3', '3', '9', '4', '5', '0', '9', '1'] := by
  constructor <;> with_unfolding_all decide

/-- C4 (amended): for every level, when all four orthogonal moves of a valid
mesh `m` succeed, `is_neighboring` reports `None` for every diagonal
neighbor and every cell two orthogonal steps away.  (The original claim,
with no interiority hypothesis, is refuted by `c4_edge_counterexample`:
at the domain edge `is_neighboring` propagates the failing move's error
instead of returning `Ok(None)`.) -/
theorem c4_far_cells_not_neighboring :
    (∀ m d a e s w : Code, validate_mesh1_code m = rok () →
      Mesh1.north_mesh m = rok a → Mesh1.east_mesh m = rok e →
      Mesh1.south_mesh m = rok s → Mesh1.west_mesh m = rok w →
      (Mesh1.north_east_mesh m = rok d ∨ Mesh1.south_east_mesh m = rok d ∨
        Mesh1.south_west_mesh m = rok d ∨ Mesh1.north_west_mesh m = rok d ∨
        Mesh1.north_mesh a = rok d ∨ Mesh1.east_mesh e = rok d ∨
        Mesh1.south_mesh s = rok d ∨ Mesh1.west_mesh w = rok d) →
      Mesh1.is_neighboring m d = rok NeighborDirection.none) ∧
    (∀ m d a e s w : Code, validate_mesh2_code m = rok () →
      Mesh2.north_mesh m = rok a → Mesh2.east_mesh m = rok e →
      Mesh2.south_mesh m = rok s → Mesh2.west_mesh m = rok w →
      (Mesh2.north_east_mesh m = rok d ∨ Mesh2.south_east_mesh m = rok d ∨
        Mesh2.south_west_mesh m = rok d ∨ Mesh2.north_west_mesh m = rok d ∨
        Mesh2.north_mesh a = rok d ∨ Mesh2.east_mesh e = rok d ∨
        Mesh2.south_mesh s = rok d ∨ Mesh2.west_mesh w = rok d) →
      Mesh2.is_neighboring m d = rok NeighborDirection.none) ∧
    (∀ m d a e s w : Code, validate_mesh3_code m = rok () →
      Mesh3.north_mesh m = rok a → Mesh3.east_mesh m = rok e →
      Mesh3.south_mesh m = rok s → Mesh3.west_mesh m = rok w →
      (Mesh3.north_east_mesh m = rok d ∨ Mesh3.south_east_mesh m = rok d ∨
        Mesh3.south_west_mesh m = rok d ∨ Mesh3.north_west_mesh m = rok d ∨
        Mesh3.north_mesh a = rok d ∨ Mesh3.east_mesh e = rok d ∨
        Mesh3.south_mesh s = rok d ∨ Mesh3.west_mesh w = rok d) →
      Mesh3.is_neighboring m d = rok NeighborDirection.none) ∧
    (∀ m d a e s w : Code, validate_mesh4_code m = rok () →
      Mesh4.north_mesh m = rok a → Mesh4.east_mesh m = rok e →
      Mesh4.south_mesh m = rok s → Mesh4.west_mesh m = rok w →
      (Mesh4.north_east_mesh m = rok d ∨ Mesh4.south_east_mesh m = rok d ∨
        Mesh4.south_west_mesh m = rok d ∨ Mesh4.north_west_mesh m = rok d ∨
        Mesh4.north_mesh a = rok d ∨ Mesh4.east_mesh e = rok d ∨
        Mesh4.south_mesh s = rok d ∨ Mesh4.west_mesh w = rok d) →
      Mesh4.is_neighboring m d = rok NeighborDirection.none) ∧
    (∀ m d a e s w : Code, validate_mesh5_code m = rok () →
      Mesh5.north_mesh m = rok a → Mesh5.east_mesh m = rok e →
      Mesh5.south_mesh m = rok s → Mesh5.west_mesh m = rok w →
      (Mesh5.north_east_mesh m = rok d ∨ Mesh5.south_east_mesh m = rok d ∨
        Mesh5.south_west_mesh m = rok d ∨ Mesh5.north_west_mesh m = rok d ∨
        Mesh5.north_mesh a = rok d ∨ Mesh5.east_mesh e = rok d ∨
        Mesh5.south_mesh s = rok d ∨ Mesh5.west_mesh w = rok d) →
      Mesh5.is_neighboring m d = rok NeighborDirection.none) ∧
    (∀ m d a e s w : Code, validate_mesh6_code m = rok () →
      Mesh6.north_mesh m = rok a → Mesh6.east_mesh m = rok e →
      Mesh6.south_mesh m = rok s → Mesh6.west_mesh m = rok w →
      (Mesh6.north_east_mesh m = rok d ∨ Mesh6.south_east_mesh m = rok d ∨
        Mesh6.south_west_mesh m = rok d ∨ Mesh6.north_west_mesh m = rok d ∨
        Mesh6.north_mesh a = rok d ∨ Mesh6.east_mesh e = rok d ∨
        Mesh6.south_mesh s = rok d ∨ Mesh6.west_mesh w = rok d) →
      Mesh6.is_neighboring m d = rok NeighborDirection.none) :=
  ⟨fun _ _ _ _ _ _ hm ha he hs hw hd => mesh1_far_none hm ha he hs hw hd,
    fun _ _ _ _ _ _ hm ha he hs hw hd => mesh2_far_none hm ha he hs hw hd,
    fun _ _ _ _ _ _ hm ha he hs hw hd => mesh3_far_none hm ha he hs hw hd,
    fun _ _ _ _ _ _ hm ha he hs hw hd => mesh4_far_none hm ha he hs hw hd,
    fun _ _ _ _ _ _ hm ha he hs hw hd => mesh5_far_none hm ha he hs hw hd,
    fun _ _ _ _ _ _ hm ha he hs hw hd => mesh6_far_none hm ha he hs hw hd⟩

/-- Witness for C4 at the interior level-1 mesh "3123" and its north-east
diagonal "3224". -/
theorem c4_far_cells_not_neighboring_witness :
    Mesh1.is_neighboring ['3', '1', '2', '3'] ['3', '2', '2', '4'] =
      rok NeighborDirection.none :=
  c4_far_cells_not_neighboring.1 ['3', '1', '2', '3'] ['3', '2', '2', '4']
    ['3', '2', '2', '3'] ['3', '1', '2', '4'] ['3', '0', '2', '3']
    ['3', '1', '2', '2']
    (by with_unfolding_all decide) (by with_unfolding_all decide)
    (by with_unfolding_all decide) (by with_unfolding_all decide)
    (by with_unfolding_all decide) (Or.inl (by with_unfolding_all decide))

/-- C4 counterexample: the level-1 mesh "3022" sits on the southern domain
edge; its north-east diagonal "3123" exists, yet `is_neighboring` returns
an error (the failing `south_mesh` is propagated with `?`) instead of
`Ok(None)`. -/
theorem c4_edge_counterexample :
    Mesh1.north_east_mesh ['3', '0', '2', '2'] = rok ['3', '1', '2', '3'] ∧
    Mesh1.is_neighboring ['3', '0', '2', '2'] ['3', '1', '2', '3'] =
      rerr GSJPError.invalidMeshCode := by
  constructor <;> with_unfolding_all decide

/-- C5: "3022" is a valid level-1 code whose `south_mesh` fails (southern
edge of the domain), and "3122" is a valid level-1 code whose `south_mesh`
is "3022". -/
theorem c5_south_edge_behavior :
    validate_mesh1_code ['3', '0', '2', '2'] = rok () ∧
    Mesh1.south_mesh ['3', '0', '2', '2'] = rerr GSJPError.invalidMeshCode ∧
    validate_mesh1_code ['3', '1', '2', '2'] = rok () ∧
    Mesh1.south_mesh ['3', '1', '2', '2'] = rok ['3', '0', '2', '2'] := by
  refine ⟨?_, ?_, ?_, ?_⟩ <;> with_unfolding_all decide

/-- C6: at every level, `new` hands back exactly the code it was given:
construction neither normalizes nor alters the code string. -/
theorem c6_new_preserves_code :
    (∀ c m : Code, Mesh1.new c = rok m → m = c) ∧
    (∀ c m : Code, Mesh2.new c = rok m → m = c) ∧
    (∀ c m : Code, Mesh3.new c = rok m → m = c) ∧
    (∀ c m : Code, Mesh4.new c = rok m → m = c) ∧
    (∀ c m : Code, Mesh5.new c = rok m → m = c) ∧
    (∀ c m : Code, Mesh6.new c = rok m → m = c) :=
  ⟨fun _ _ h => (new1_rok.mp h).2, fun _ _ h => (new2_rok.mp h).2,
    fun _ _ h => (new3_rok.mp h).2, fun _ _ h => (new4_rok.mp h).2,
    fun _ _ h => (new5_rok.mp h).2, fun _ _ h => (new6_rok.mp h).2⟩

/-- Witness for C6 at the level-1 code "5339". -/
theorem c6_new_preserves_code_witness :
    Mesh1.new ['5', '3', '3', '9'] = rok ['5', '3', '3', '9'] ∧
    (['5', '3', '3', '9'] : Code) = ['5', '3', '3', '9'] :=
  ⟨by with_unfolding_all decide,
    c6_new_preserves_code.1 ['5', '3', '3', '9'] ['5', '3', '3', '9']
      (by with_unfolding_all decide)⟩

/-- C7: at every level the four diagonal moves are exactly the composition
of the two orthogonal moves (vertical first), and on an interior mesh (all
four orthogonal moves succeed) north-then-east reaches the same cell as
east-then-north. -/
theorem c7_diagonal_composition :
    (∀ m : Code,
      Mesh1.north_east_mesh m = rbind (Mesh1.north_mesh m) Mesh1.east_mesh ∧
      Mesh1.south_east_mesh m = rbind (Mesh1.south_mesh m) Mesh1.east_mesh ∧
      Mesh1.south_west_mesh m = rbind (Mesh1.south_mesh m) Mesh1.west_mesh ∧
      Mesh1.north_west_mesh m = rbind (Mesh1.north_mesh m) Mesh1.west_mesh) ∧
    (∀ m : Code,
      Mesh2.north_east_mesh m = rbind (Mesh2.north_mesh m) Mesh2.east_mesh ∧
      Mesh2.south_east_mesh m = rbind (Mesh2.south_mesh m) Mesh2.east_mesh ∧
      Mesh2.south_west_mesh m = rbind (Mesh2.south_mesh m) Mesh2.west_mesh ∧
      Mesh2.north_west_mesh m = rbind (Mesh2.north_mesh m) Mesh2.west_mesh) ∧
    (∀ m : Code,
      Mesh3.north_east_mesh m = rbind (Mesh3.north_mesh m) Mesh3.east_mesh ∧
      Mesh3.south_east_mesh m = rbind (Mesh3.south_mesh m) Mesh3.east_mesh ∧
      Mesh3.south_west_mesh m = rbind (Mesh3.south_mesh m) Mesh3.west_mesh ∧
      Mesh3.north_west_mesh m = rbind (Mesh3.north_mesh m) Mesh3.west_mesh) ∧
    (∀ m : Code,
      Mesh4.north_east_mesh m = rbind (Mesh4.north_mesh m) Mesh4.east_mesh ∧
      Mesh4.south_east_mesh m = rbind (Mesh4.south_mesh m) Mesh4.east_mesh ∧
      Mesh4.south_west_mesh m = rbind (Mesh4.south_mesh m) Mesh4.west_mesh ∧
      Mesh4.north_west_mesh m = rbind (Mesh4.north_mesh m) Mesh4.west_mesh) ∧
    (∀ m : Code,
      Mesh5.north_east_mesh m = rbind (Mesh5.north_mesh m) Mesh5.east_mesh ∧
      Mesh5.south_east_mesh m = rbind (Mesh5.south_mesh m) Mesh5.east_mesh ∧
      Mesh5.south_west_mesh m = rbind (Mesh5.south_mesh m) Mesh5.west_mesh ∧
      Mesh5.north_west_mesh m = rbind (Mesh5.north_mesh m) Mesh5.west_mesh) ∧
    (∀ m : Code,
      Mesh6.north_east_mesh m = rbind (Mesh6.north_mesh m) Mesh6.east_mesh ∧
      Mesh6.south_east_mesh m = rbind (Mesh6.south_mesh m) Mesh6.east_mesh ∧
      Mesh6.south_west_mesh m = rbind (Mesh6.south_mesh m) Mesh6.west_mesh ∧
      Mesh6.north_west_mesh m = rbind (Mesh6.north_mesh m) Mesh6.west_mesh) ∧
    (∀ m a e s w : Code, validate_mesh1_code m = rok () →
      Mesh1.north_mesh m = rok a → Mesh1.east_mesh m = rok e →
      Mesh1.south_mesh m = rok s → Mesh1.west_mesh m = rok w →
      ∃ dd, Mesh1.north_east_mesh m = rok dd ∧
        rbind (Mesh1.east_mesh m) Mesh1.north_mesh = rok dd) ∧
    (∀ m a e s w : Code, validate_mesh2_code m = rok () →
      Mesh2.north_mesh m = rok a → Mesh2.east_mesh m = rok e →
      Mesh2.south_mesh m = rok s → Mesh2.west_mesh m = rok w →
      ∃ dd, Mesh2.north_east_mesh m = rok dd ∧
        rbind (Mesh2.east_mesh m) Mesh2.north_mesh = rok dd) ∧
    (∀ m a e s w : Code, validate_mesh3_code m = rok () →
      Mesh3.north_mesh m = rok a → Mesh3.east_mesh m = rok e →
      Mesh3.south_mesh m = rok s → Mesh3.west_mesh m = rok w →
      ∃ dd, Mesh3.north_east_mesh m = rok dd ∧
        rbind (Mesh3.east_mesh m) Mesh3.north_mesh = rok dd) ∧
    (∀ m a e s w : Code, validate_mesh4_code m = rok () →
      Mesh4.north_mesh m = rok a → Mesh4.east_mesh m = rok e →
      Mesh4.south_mesh m = rok s → Mesh4.west_mesh m = rok w →
      ∃ dd, Mesh4.north_east_mesh m = rok dd ∧
        rbind (Mesh4.east_mesh m) Mesh4.north_mesh = rok dd) ∧
    (∀ m a e s w : Code, validate_mesh5_code m = rok () →
      Mesh5.north_mesh m = rok a → Mesh5.east_mesh m = rok e →
      Mesh5.south_mesh m = rok s → Mesh5.west_mesh m = rok w →
      ∃ dd, Mesh5.north_east_mesh m = rok dd ∧
        rbind (Mesh5.east_mesh m) Mesh5.north_mesh = rok dd) ∧
    (∀ m a e s w : Code, validate_mesh6_code m = rok () →
      Mesh6.north_mesh m = rok a → Mesh6.east_mesh m = rok e →
      Mesh6.south_mesh m = rok s → Mesh6.west_mesh m = rok w →
      ∃ dd, Mesh6.north_east_mesh m = rok dd ∧
        rbind (Mesh6.east_mesh m) Mesh6.north_mesh = rok dd) := by
  refine ⟨fun m => ⟨rfl, rfl, rfl, rfl⟩, fun m => ⟨rfl, rfl, rfl, rfl⟩,
    fun m => ⟨rfl, rfl, rfl, rfl⟩, fun m => ⟨rfl, rfl, rfl, rfl⟩,
    fun m => ⟨rfl, rfl, rfl, rfl⟩, fun m => ⟨rfl, rfl, rfl, rfl⟩,
    ?_, ?_, ?_, ?_, ?_, ?_⟩
  · intro m a e s w hm ha he hs hw
    obtain ⟨dd, h1, h2⟩ := mesh1_commute_ne hm ha he
    refine ⟨dd, ?_, ?_⟩
    · unfold Mesh1.north_east_mesh diagMesh
      rw [ha, rbind_rok]
      exact h1
    · rw [he, rbind_rok]
      exact h2
  · intro m a e s w hm ha he hs hw
    obtain ⟨dd, h1, h2⟩ := mesh2_commute_ne hm ha he
    refine ⟨dd, ?_, ?_⟩
    · unfold Mesh2.north_east_mesh diagMesh
      rw [ha, rbind_rok]
      exact h1
    · rw [he, rbind_rok]
      exact h2
  · intro m a e s w hm ha he hs hw
    obtain ⟨dd, h1, h2⟩ := mesh3_commute_ne hm ha he
    refine ⟨dd, ?_, ?_⟩
    · unfold Mesh3.north_east_mesh diagMesh
      rw [ha, rbind_rok]
      exact h1
    · rw [he, rbind_rok]
      exact h2
  · intro m a e s w hm ha he hs hw
    obtain ⟨dd, h1, h2⟩ := mesh4_commute_ne hm ha he
    refine ⟨dd, ?_, ?_⟩
    · unfold Mesh4.north_east_mesh diagMesh
      rw [ha, rbind_rok]
      exact h1
    · rw [he, rbind_rok]
      exact h2
  · intro m a e s w hm ha he hs hw
    obtain ⟨dd, h1, h2⟩ := mesh5_commute_ne hm ha he
    refine ⟨dd, ?_, ?_⟩
    · unfold Mesh5.north_east_mesh diagMesh
      rw [ha, rbind_rok]
      exact h1
    · rw [he, rbind_rok]
      exact h2
  · intro m a e s w hm ha he hs hw
    obtain ⟨dd, h1, h2⟩ := mesh6_commute_ne hm ha he
    refine ⟨dd, ?_, ?_⟩
    · unfold Mesh6.north_east_mesh diagMesh
      rw [ha, rbind_rok]
      exact h1
    · rw [he, rbind_rok]
      exact h2

/-- Witness for C7 at the interior level-1 mesh "3123": both composition
orders reach the same diagonal cell. -/
theorem c7_diagonal_composition_witness :
    ∃ dd, Mesh1.north_east_mesh ['3', '1', '2', '3'] = rok dd ∧
      rbind (Mesh1.east_mesh ['3', '1', '2', '3']) Mesh1.north_mesh = rok dd :=
  c7_diagonal_composition.2.2.2.2.2.2.1 ['3', '1', '2', '3']
    ['3', '2', '2', '3'] ['3', '1', '2', '4'] ['3', '0', '2', '3']
    ['3', '1', '2', '2']
    (by with_unfolding_all decide) (by with_unfolding_all decide)
    (by with_unfolding_all decide) (by with_unfolding_all decide)
    (by with_unfolding_all decide)

/-- C8: `Coordinate::new` succeeds exactly on the closed box
`20 ≤ lat ≤ 46`, `122 ≤ lon ≤ 154`; a latitude out of range yields the
latitude-labelled `OutOfRange` error, and with the latitude in range a
longitude out of range yields the longitude-labelled one. -/
theorem c8_coordinate_new_ranges (lat lon : ℚ) :
    (Coordinate.new lat lon = rok (Coordinate.mk lat lon) ↔
      (20 ≤ lat ∧ lat ≤ 46 ∧ 122 ≤ lon ∧ lon ≤ 154)) ∧
    (¬(20 ≤ lat ∧ lat ≤ 46) →
      Coordinate.new lat lon = rerr (GSJPError.outOfRange "緯度が範囲外です。")) ∧
    ((20 ≤ lat ∧ lat ≤ 46) → ¬(122 ≤ lon ∧ lon ≤ 154) →
      Coordinate.new lat lon = rerr (GSJPError.outOfRange "経度が範囲外です。")) := by
  refine ⟨?_, ?_, ?_⟩
  · constructor
    · intro h
      obtain ⟨h1, h2, h3, h4, -⟩ := coordinate_new_rok.mp h
      exact ⟨h1, h2, h3, h4⟩
    · rintro ⟨h1, h2, h3, h4⟩
      exact coordinate_new_rok.mpr ⟨h1, h2, h3, h4, rfl⟩
  · intro hA
    unfold Coordinate.new validate_lat
    unfold SOUTHERNMOST NORTHERNMOST
    rw [if_pos hA, rbind_rerr2]
  · intro hA hB
    unfold Coordinate.new validate_lat validate_lon
    unfold SOUTHERNMOST NORTHERNMOST WESTERNMOST EASTERNMOST
    rw [if_neg (not_not_intro hA), rbind_rok, if_pos hB, rbind_rerr2]

/-- Witness for C8 at the out-of-range latitude 50 and the in-range pair
(36, 140). -/
theorem c8_coordinate_new_ranges_witness :
    Coordinate.new 50 130 = rerr (GSJPError.outOfRange "緯度が範囲外です。") ∧
    Coordinate.new 36 140 = rok (Coordinate.mk 36 140) :=
  ⟨(c8_coordinate_new_ranges 50 130).2.1 (by norm_num),
    (c8_coordinate_new_ranges 36 140).1.mpr (by norm_num)⟩

/-- C9 (amended): for every coordinate accepted by `Coordinate::new` whose
latitude is strictly below the northern limit 46 and whose longitude is
strictly below the eastern limit 154, `Mesh1::from_coordinate` produces a
code accepted by `validate_mesh1_code`.  (On the northern or eastern
boundary itself the claim fails: see `c9_boundary_counterexample`.) -/
theorem c9_from_coordinate_validity (lat lon : ℚ) (c : Coordinate)
    (hc : Coordinate.new lat lon = rok c) (hlat : lat < 46) (hlon : lon < 154) :
    ∀ m, Mesh1.from_coordinate c = rok m →
      validate_mesh1_code m = rok () := by
  obtain ⟨h1, h2, h3, h4, rfl⟩ := coordinate_new_rok.mp hc
  intro m hm
  rw [mesh1_fc_eval h1 h2 h3 h4, rok_inj] at hm
  subst hm
  show validate_mesh1_code
    (fmt2 (f64ToU8 (lat * 1.5)) ++ fmt2 (f64ToU8 (lon - 100))) = rok ()
  have hvb := f64ToU8_bounds (q := lat * 1.5) (by linarith) (by linarith)
  have hwb := f64ToU8_bounds (q := lon - 100) (by linarith) (by linarith)
  have hv68 : f64ToU8 (lat * 1.5) ≤ 68 :=
    f64ToU8_le (by push_cast; linarith) (by norm_num)
  have hv30 : 30 ≤ f64ToU8 (lat * 1.5) := by
    have h29 : (29 : ℚ) < (f64ToU8 (lat * 1.5) : ℚ) := by linarith [hvb.2]
    have h29n : (29 : ℕ) < f64ToU8 (lat * 1.5) := by exact_mod_cast h29
    omega
  have hw53 : f64ToU8 (lon - 100) ≤ 53 :=
    f64ToU8_le (by push_cast; linarith) (by norm_num)
  have hw22 : 22 ≤ f64ToU8 (lon - 100) := by
    have h21 : (21 : ℚ) < (f64ToU8 (lon - 100) : ℚ) := by linarith [hwb.2]
    have h21n : (21 : ℕ) < f64ToU8 (lon - 100) := by exact_mod_cast h21
    omega
  obtain ⟨x, y, hxy, hx, hy, hv⟩ :=
    fmt2_shape (u := f64ToU8 (lon - 100)) (by omega)
  rw [hxy]
  exact valid1_parts hv30 hv68 ((lonok_digits_iff hx hy).mpr (by omega))

/-- Witness for C9 at the interior coordinate (36, 140). -/
theorem c9_from_coordinate_validity_witness :
    validate_mesh1_code ['5', '4', '4', '0'] = rok () :=
  c9_from_coordinate_validity 36 140 (Coordinate.mk 36 140)
    (by with_unfolding_all decide) (by norm_num) (by norm_num)
    ['5', '4', '4', '0'] (by with_unfolding_all decide)

/-- C9 counterexample: the coordinate (46, 122) is accepted by
`Coordinate::new` (northern boundary), but `Mesh1::from_coordinate` builds
the code "6922", which `validate_mesh1_code` rejects — `from_coordinate`
constructs a mesh that `Mesh1::new` would refuse. -/
theorem c9_boundary_counterexample :
    Coordinate.new 46 122 = rok (Coordinate.mk 46 122) ∧
    Mesh1.from_coordinate (Coordinate.mk 46 122) =
      rok ['6', '9', '2', '2'] ∧
    validate_mesh1_code ['6', '9', '2', '2'] =
      rerr GSJPError.invalidMeshCode := by
  refine ⟨?_, ?_, ?_⟩ <;> with_unfolding_all decide

/-- C10 refutation: the code "4a22" passes `validate_mesh1_code` (the
lexicographic range check accepts the non-digit field "4a"), yet the
accessors panic: `Mesh1::south` unwraps a failing `parse::<f64>` and
`Mesh1::center` therefore panics too (`none` models the panic). -/
theorem c10_validator_accepts_panicking_code :
    validate_mesh1_code ['4', 'a', '2', '2'] = rok () ∧
    Mesh1.south ['4', 'a', '2', '2'] = none ∧
    Mesh1.center ['4', 'a', '2', '2'] = none := by
  refine ⟨?_, ?_, ?_⟩ <;> with_unfolding_all decide

